import Mathlib

/-!
# BA2 archive reader and extractor (ba2tk): a shallow embedding

The development follows `src/ba2archive.cpp`, `src/ba2archive.h` and
`src/ba2types.h` of ba2tk.

Modelling conventions.

* Bytes are natural numbers below 256; `char` buffers, `std::string` values and
  file contents are lists of bytes.  Multi-byte integers are decoded
  little-endian, the byte order of the Windows targets the sources are written
  for (`readType` copies the raw bytes into the value through a union).
* `std::fstream` is an explicit record: the contents of the file, the get
  position and the failure state.  Once `failbit` is set only a successful
  `open` clears it, and the only other bit the sources can observe, `eofbit`,
  is only ever set together with `failbit`, so one flag is kept.  `badbit` (a failure of
  the device itself) never arises from the modelled operations; it is the
  only bit enabled by `m_File.exceptions(std::ios_base::badbit)`, so no
  `std::ios_base::failure` is ever thrown and the handler for it in
  `Archive::read` is never entered.
* `size_t` is 64 bits wide and `std::streamoff` is a signed 64-bit integer.
* `int` is 32 bits wide.  Where a signed operation overflows, which C++ leaves
  undefined, the two's complement wrap-around of the targets is taken.
* Storage that the sources leave uninitialised (stack buffers, `new T[n]`) has
  arbitrary contents, supplied by the environment.
* zlib's `uncompress` is an external library function and is a parameter.
* Allocation failure is not modelled.
-/

namespace BA2

/-! ## Environment -/

/-- The parts of the execution environment the sources depend on but do not
define. -/
structure Env where
  /-- zlib `uncompress(dest, &destLen, source, sourceLen)`: given the source
  buffer and the capacity of the destination buffer, the return code and the
  bytes stored at the start of the destination buffer (their number is the
  value left in `destLen`). -/
  uncompress : List Nat → Nat → Int × List Nat
  /-- Contents of uninitialised storage: `junk n i` is byte `i` of an
  uninitialised buffer of `n` bytes. -/
  junk : Nat → Nat → Nat
  /-- The value of `sizeof(FileEntry)`.  The declaration of `FileEntry` fixes the
  order and the offsets of its fields, 36 bytes in all.  Where 64-bit integers
  are aligned to 8 bytes the member `offset` gives the structure an alignment
  of 8 and, no packing being requested, a size of 40; the size is 36 only
  where the structure is packed or 64-bit integers are aligned to 4 bytes. -/
  sizeofFileEntry : Nat

/-- An uninitialised buffer of `n` bytes. -/
def Env.uninit (env : Env) (n : Nat) : List Nat :=
  (List.range n).map (fun i => env.junk n i % 256)

/-- The return code `Z_OK` of zlib. -/
def Z_OK : Int := 0

/-! ## Bytes and C library functions -/

/-- Value of a little-endian byte sequence. -/
def fromLE : List Nat → Nat
  | [] => 0
  | b :: bs => b + 256 * fromLE bs

/-- Little-endian representation of `v` on `n` bytes. -/
def toLE : Nat → Nat → List Nat
  | 0, _ => []
  | n + 1, v => v % 256 :: toLE n (v / 256)

/-- The bytes `[off, off + n)` of a buffer (fewer when the buffer is shorter). -/
def slice (buf : List Nat) (off n : Nat) : List Nat :=
  (buf.drop off).take n

/-- Storing the bytes `got` at the start of the buffer `old`. -/
def overlay (got old : List Nat) : List Nat :=
  got ++ old.drop got.length

/-- C `memcmp` on the first `n` bytes; bytes missing from a list read as 0. -/
def memcmp : List Nat → List Nat → Nat → Int
  | _, _, 0 => 0
  | a, b, n + 1 =>
    if a.headD 0 ≠ b.headD 0 then (a.headD 0 : Int) - (b.headD 0 : Int)
    else memcmp a.tail b.tail n

/-- C `strncmp`: compares at most `n` bytes and stops at a NUL byte. -/
def strncmp : List Nat → List Nat → Nat → Int
  | _, _, 0 => 0
  | a, b, n + 1 =>
    if a.headD 0 ≠ b.headD 0 then (a.headD 0 : Int) - (b.headD 0 : Int)
    else if a.headD 0 = 0 then 0
    else strncmp a.tail b.tail n

/-- The `std::string` built from a NUL-terminated buffer: the bytes before the
first NUL. -/
def cstr : List Nat → List Nat
  | [] => []
  | b :: bs => if b = 0 then [] else b :: cstr bs

/-- Storing the bytes `got` at the start of a buffer given by its byte at each
index. -/
def bufStore (got : List Nat) (buf : Nat → Nat) : Nat → Nat :=
  fun i => if i < got.length then got.getD i 0 else buf i

/-- The assignment `buf[k] = v`. -/
def bufSet (buf : Nat → Nat) (k v : Nat) : Nat → Nat :=
  fun i => if i = k then v else buf i

/-- The `std::string` built from a buffer that holds a NUL among its first `n`
bytes. -/
def cstrBuf (buf : Nat → Nat) (n : Nat) : List Nat :=
  cstr ((List.range n).map buf)

/-- The string literal "BTDX" with its terminator. -/
def lit_BTDX : List Nat := [66, 84, 68, 88, 0]

/-- The string literal "GNRL" with its terminator. -/
def lit_GNRL : List Nat := [71, 78, 82, 76, 0]

/-- The string literal "DX10" with its terminator. -/
def lit_DX10 : List Nat := [68, 88, 49, 48, 0]

/-! ## `std::fstream` opened for input -/

/-- An input file stream. -/
structure IStream where
  /-- Value of `is_open()`. -/
  isOpen : Bool
  /-- Contents of the associated file (empty when no file is associated). -/
  data : List Nat
  /-- The get position. -/
  pos : Nat
  /-- Whether `failbit` is set. -/
  failed : Bool
deriving DecidableEq, Repr

/-- A default-constructed `std::fstream`. -/
def IStream.closed : IStream :=
  { isOpen := false, data := [], pos := 0, failed := false }

/-- The call `open(fileName, in | binary)`; `file` is the contents of the named
file, `none` when it cannot be opened.  Opening a stream that is already open
fails. -/
def IStream.open (s : IStream) (file : Option (List Nat)) : IStream :=
  if s.isOpen then { s with failed := true }
  else
    match file with
    | none => { s with failed := true }
    | some d => { isOpen := true, data := d, pos := 0, failed := false }

/-- The call `close()`. -/
def IStream.close (s : IStream) : IStream :=
  if s.isOpen then { s with isOpen := false, data := [], pos := 0 }
  else { s with failed := true }

/-- The call `read(buf, n)`: the bytes extracted and the stream afterwards.
When the stream is not good nothing is extracted; when fewer than `n` bytes
are left they are all extracted and `failbit` is set. -/
def IStream.read (s : IStream) (n : Nat) : List Nat × IStream :=
  if s.failed then ([], s)
  else
    let got := slice s.data s.pos n
    (got, { s with pos := s.pos + got.length, failed := decide (got.length ≠ n) })

/-- The call `seekg(off)` with an unsigned 64-bit `off`.  The offset is
converted to the signed `streamoff`; seeking to a negative offset fails. -/
def IStream.seekg (s : IStream) (off : Nat) : IStream :=
  if s.failed then s
  else if 2 ^ 63 ≤ off % 2 ^ 64 then { s with failed := true }
  else { s with pos := off % 2 ^ 64 }

/-- The call `seekg(0, std::ios_base::end)`. -/
def IStream.seekEnd (s : IStream) : IStream :=
  if s.failed then s else { s with pos := s.data.length }

/-- The call `tellg()`: the position, or -1 when the stream has failed. -/
def IStream.tellg (s : IStream) : Int :=
  if s.failed then -1 else (s.pos : Int)

/-- Conversion of a `streamoff` to `size_t`. -/
def toSizeT (x : Int) : Nat := (x % (2 ^ 64 : Int)).toNat

/-! ## Exceptions and results -/

/-- The `data_invalid_exception` values thrown by the sources, by message. -/
inductive Exn where
  /-- The message "not a ba2 file". -/
  | notBa2
  /-- The message "invalid type ...". -/
  | invalidType
  /-- The message "can't read from ba2". -/
  | cantRead
deriving DecidableEq, Repr

/-- Outcome of a call: a returned value or a thrown `data_invalid_exception`. -/
inductive Res (α : Type) where
  | ok : α → Res α
  | throw : Exn → Res α
deriving DecidableEq, Repr

/-- The archive types (`ba2type.h` is not part of the sources at hand: the two
enumerators are the ones the sources use; `TYPE_OTHER` stands for any
other value an `EType` object may hold, which the `default` branches of the
sources handle). -/
inductive EType where
  | TYPE_GENERAL
  | TYPE_DX10
  | TYPE_OTHER
deriving DecidableEq, Repr

/-- The error codes (`errorcodes.h` is not part of the sources at hand: the
enumerators are the ones named in `index.cpp`). -/
inductive EErrorCode where
  | ERROR_NONE
  | ERROR_FILENOTFOUND
  | ERROR_INVALIDDATA
  | ERROR_ACCESSFAILED
  | ERROR_CANCELED
  | ERROR_INVALIDHASHES
  | ERROR_SOURCEFILEMISSING
  | ERROR_ZLIBINITFAILED
deriving DecidableEq, Repr

open EType EErrorCode

/-- The function template `readType<T>` for an unsigned integer type of `n`
bytes. -/
def readType (n : Nat) (file : IStream) : Res Nat × IStream :=
  let r := file.read n
  if r.2.failed then (Res.throw Exn.cantRead, r.2)
  else (Res.ok (fromLE r.1), r.2)

/-! ## Header -/

/-- The structure `Archive::Header`.  Its member `fileIdentifier` is never
written nor read by the sources and is left out. -/
structure Header where
  version : Nat
  type : EType
  fileCount : Nat
  offsetNameTable : Nat
deriving DecidableEq, Repr

/-- The function `Archive::typeFromID`. -/
def typeFromID (typeID : List Nat) : Res EType :=
  if strncmp typeID lit_GNRL 4 = 0 then Res.ok TYPE_GENERAL
  else if strncmp typeID lit_DX10 4 = 0 then Res.ok TYPE_DX10
  else Res.throw Exn.invalidType

/-- The function `Archive::readHeader`: the header or the exception, and the
stream afterwards. -/
def readHeader (env : Env) (infile : IStream) : Res Header × IStream :=
  let r1 := infile.read 4
  let fileID := overlay r1.1 (env.uninit 4)
  if memcmp fileID lit_BTDX 4 ≠ 0 then (Res.throw Exn.notBa2, r1.2)
  else
    match readType 4 r1.2 with
    | (Res.throw e, s2) => (Res.throw e, s2)
    | (Res.ok version, s2) =>
      let r3 := s2.read 4
      let typeBuffer := (overlay r3.1 (env.uninit 5)).take 4 ++ [0]
      match typeFromID typeBuffer with
      | Res.throw e => (Res.throw e, r3.2)
      | Res.ok type =>
        match readType 4 r3.2 with
        | (Res.throw e, s4) => (Res.throw e, s4)
        | (Res.ok fileCount, s4) =>
          match readType 8 s4 with
          | (Res.throw e, s5) => (Res.throw e, s5)
          | (Res.ok offsetNameTable, s5) =>
            (Res.ok { version := version, type := type, fileCount := fileCount,
                      offsetNameTable := offsetNameTable }, s5)

/-! ## Record tables -/

/-- The structure `Archive::FileEntry`. -/
structure FileEntry where
  /-- Offset 0x00, name hash. -/
  unk00 : Nat
  /-- Offset 0x04, extension. -/
  ext : List Nat
  /-- Offset 0x08, directory hash. -/
  unk08 : Nat
  /-- Offset 0x0C, flags. -/
  unk0C : Nat
  /-- Offset 0x10, relative to the start of the file. -/
  offset : Nat
  /-- Offset 0x18, packed length. -/
  packedLen : Nat
  /-- Offset 0x1C, unpacked length. -/
  unpackedLen : Nat
  /-- Offset 0x20. -/
  unk20 : Nat
deriving DecidableEq, Repr

/-- The structure `Archive::FileEntry_DX10`. -/
structure FileEntry_DX10 where
  nameHash : Nat
  ext : List Nat
  dirHash : Nat
  unk0C : Nat
  numChunks : Nat
  chunkHdrLen : Nat
  height : Nat
  width : Nat
  numMips : Nat
  format : Nat
  unk16 : Nat
deriving DecidableEq, Repr

/-- The structure `Archive::DX10Chunk`. -/
structure DX10Chunk where
  offset : Nat
  packedLen : Nat
  unpackedLen : Nat
  startMip : Nat
  endMip : Nat
  unk14 : Nat
deriving DecidableEq, Repr

/-- The structure `Archive::Texture`. -/
structure Texture where
  texhdr : FileEntry_DX10
  texchunks : List DX10Chunk
deriving DecidableEq, Repr

/-- The object held by the bytes `b` read as a `FileEntry`. -/
def FileEntry.ofBytes (b : List Nat) : FileEntry :=
  { unk00 := fromLE (slice b 0x00 4)
    ext := slice b 0x04 4
    unk08 := fromLE (slice b 0x08 4)
    unk0C := fromLE (slice b 0x0C 4)
    offset := fromLE (slice b 0x10 8)
    packedLen := fromLE (slice b 0x18 4)
    unpackedLen := fromLE (slice b 0x1C 4)
    unk20 := fromLE (slice b 0x20 4) }

/-- The bytes of a `FileEntry` object (padding bytes are shown as 0). -/
def FileEntry.toBytes (env : Env) (e : FileEntry) : List Nat :=
  toLE 4 e.unk00 ++ (e.ext ++ List.replicate 4 0).take 4 ++ toLE 4 e.unk08 ++ toLE 4 e.unk0C
    ++ toLE 8 e.offset ++ toLE 4 e.packedLen ++ toLE 4 e.unpackedLen ++ toLE 4 e.unk20
    ++ List.replicate (env.sizeofFileEntry - 36) 0

/-- A value-initialised `FileEntry`. -/
def FileEntry.zero : FileEntry :=
  { unk00 := 0, ext := [0, 0, 0, 0], unk08 := 0, unk0C := 0, offset := 0, packedLen := 0,
    unpackedLen := 0, unk20 := 0 }

/-- The object held by the 24 bytes `b` read as a `FileEntry_DX10`. -/
def FileEntry_DX10.ofBytes (b : List Nat) : FileEntry_DX10 :=
  { nameHash := fromLE (slice b 0x00 4)
    ext := slice b 0x04 4
    dirHash := fromLE (slice b 0x08 4)
    unk0C := fromLE (slice b 0x0C 1)
    numChunks := fromLE (slice b 0x0D 1)
    chunkHdrLen := fromLE (slice b 0x0E 2)
    height := fromLE (slice b 0x10 2)
    width := fromLE (slice b 0x12 2)
    numMips := fromLE (slice b 0x14 1)
    format := fromLE (slice b 0x15 1)
    unk16 := fromLE (slice b 0x16 2) }

/-- The 24 bytes of a `FileEntry_DX10` object. -/
def FileEntry_DX10.toBytes (e : FileEntry_DX10) : List Nat :=
  toLE 4 e.nameHash ++ (e.ext ++ List.replicate 4 0).take 4 ++ toLE 4 e.dirHash ++ toLE 1 e.unk0C
    ++ toLE 1 e.numChunks ++ toLE 2 e.chunkHdrLen ++ toLE 2 e.height ++ toLE 2 e.width
    ++ toLE 1 e.numMips ++ toLE 1 e.format ++ toLE 2 e.unk16

/-- A value-initialised `FileEntry_DX10`. -/
def FileEntry_DX10.zero : FileEntry_DX10 :=
  { nameHash := 0, ext := [0, 0, 0, 0], dirHash := 0, unk0C := 0, numChunks := 0,
    chunkHdrLen := 0, height := 0, width := 0, numMips := 0, format := 0, unk16 := 0 }

/-- The object held by the 24 bytes `b` read as a `DX10Chunk`. -/
def DX10Chunk.ofBytes (b : List Nat) : DX10Chunk :=
  { offset := fromLE (slice b 0x00 8)
    packedLen := fromLE (slice b 0x08 4)
    unpackedLen := fromLE (slice b 0x0C 4)
    startMip := fromLE (slice b 0x10 2)
    endMip := fromLE (slice b 0x12 2)
    unk14 := fromLE (slice b 0x14 4) }

/-- The 24 bytes of a `DX10Chunk` object. -/
def DX10Chunk.toBytes (c : DX10Chunk) : List Nat :=
  toLE 8 c.offset ++ toLE 4 c.packedLen ++ toLE 4 c.unpackedLen ++ toLE 2 c.startMip
    ++ toLE 2 c.endMip ++ toLE 4 c.unk14

/-- A value-initialised `DX10Chunk`. -/
def DX10Chunk.zero : DX10Chunk :=
  { offset := 0, packedLen := 0, unpackedLen := 0, startMip := 0, endMip := 0, unk14 := 0 }

/-- A value-initialised `Texture`. -/
def Texture.zero : Texture :=
  { texhdr := FileEntry_DX10.zero, texchunks := [] }

/-- The call `v.resize(n)` on a `std::vector`: the first `n` elements are kept
and value-initialised elements are appended up to length `n`. -/
def resize {α : Type} (v : List α) (n : Nat) (zero : α) : List α :=
  v.take n ++ List.replicate (n - v.length) zero

/-- The `n` `FileEntry` objects held by the storage `mem` of a vector. -/
def decodeFiles (env : Env) (n : Nat) (mem : List Nat) : List FileEntry :=
  (List.range n).map
    (fun i => FileEntry.ofBytes (slice mem (env.sizeofFileEntry * i) env.sizeofFileEntry))

/-- The `n` `DX10Chunk` objects held by the storage `mem` of a vector. -/
def decodeChunks (n : Nat) (mem : List Nat) : List DX10Chunk :=
  (List.range n).map (fun j => DX10Chunk.ofBytes (slice mem (24 * j) 24))

/-- The storage of a vector of `FileEntry` objects. -/
def filesMem (env : Env) (v : List FileEntry) : List Nat :=
  (v.map (FileEntry.toBytes env)).flatten

/-- The storage of a vector of `DX10Chunk` objects. -/
def chunksMem (v : List DX10Chunk) : List Nat :=
  (v.map DX10Chunk.toBytes).flatten

/-! ## The archive object -/

/-- The data members of `Archive` (the two mutexes, never locked, are left
out). -/
structure Archive where
  m_File : IStream
  m_Files : List FileEntry
  m_Textures : List Texture
  m_TableNames : List (List Nat)
  m_Type : EType
  m_Header : Header
  m_UseATIFourCC : Bool
deriving DecidableEq, Repr

/-- The constructor `Archive::Archive`.  It initialises `m_Type` only; the
values of `m_Header` and `m_UseATIFourCC` are whatever the storage holds. -/
def Archive.new (uninitHeader : Header) (uninitUseATIFourCC : Bool) : Archive :=
  { m_File := IStream.closed, m_Files := [], m_Textures := [], m_TableNames := [],
    m_Type := TYPE_GENERAL, m_Header := uninitHeader, m_UseATIFourCC := uninitUseATIFourCC }

/-- The function `Archive::readGeneral`. -/
def readGeneral (env : Env) (a : Archive) : Bool × Archive :=
  let files := resize a.m_Files a.m_Header.fileCount FileEntry.zero
  if a.m_Header.fileCount ≠ 0 then
    let r := a.m_File.read (env.sizeofFileEntry * a.m_Header.fileCount)
    let mem := overlay r.1 (filesMem env files)
    (true, { a with m_File := r.2, m_Files := decodeFiles env a.m_Header.fileCount mem })
  else (true, { a with m_Files := files })

/-- The loop of `Archive::readDX10` over the elements of `m_Textures`. -/
def readDX10Loop : List Texture → IStream → List Texture × IStream
  | [], s => ([], s)
  | t :: ts, s =>
    let r1 := s.read 24
    let texhdr := FileEntry_DX10.ofBytes (overlay r1.1 t.texhdr.toBytes)
    let chunks := resize t.texchunks texhdr.numChunks DX10Chunk.zero
    let r2 := r1.2.read (24 * texhdr.numChunks)
    let rest :=
      readDX10Loop ts (if texhdr.numChunks ≠ 0 then r2.2 else r1.2)
    ({ texhdr := texhdr
       texchunks :=
         if texhdr.numChunks ≠ 0 then
           decodeChunks texhdr.numChunks (overlay r2.1 (chunksMem chunks))
         else chunks } :: rest.1, rest.2)

/-- The function `Archive::readDX10`. -/
def readDX10 (a : Archive) : Bool × Archive :=
  let r := readDX10Loop (resize a.m_Textures a.m_Header.fileCount Texture.zero) a.m_File
  (true, { a with m_File := r.2, m_Textures := r.1 })

/-- The loop of `Archive::readNametable`, run for at most `fuel` iterations
(`none` when they do not suffice): the outcome, the stream and the names.
The buffer of 0x10000 bytes is given by its byte at each index. -/
def readNametableLoop (fileSize : Nat) :
    Nat → IStream → (Nat → Nat) → List (List Nat) →
      Option (Res Bool × IStream × List (List Nat))
  | 0, _, _, _ => none
  | fuel + 1, s, buffer, names =>
    if 2 ≤ (fileSize + 2 ^ 64 - toSizeT s.tellg) % 2 ^ 64 then
      match readType 2 s with
      | (Res.throw e, s1) => some (Res.throw e, s1, names)
      | (Res.ok length, s1) =>
        let r := s1.read length
        let buffer1 := bufSet (bufStore r.1 buffer) length 0
        readNametableLoop fileSize fuel r.2 buffer1 (names ++ [cstrBuf buffer1 (length + 1)])
    else some (Res.ok true, s, names)

/-- The function `Archive::readNametable`.  Every iteration of its loop but the
last two consumes at least two bytes of the file, so the number of
iterations allowed here is never reached. -/
def readNametable (env : Env) (a : Archive) : Option (Res Bool × Archive) :=
  let s1 := a.m_File.seekEnd
  let fileSize := toSizeT s1.tellg
  let s2 := s1.seekg a.m_Header.offsetNameTable
  (readNametableLoop fileSize (a.m_File.data.length + 2) s2
      (fun i => env.junk 0x10000 i % 256) a.m_TableNames).map
    (fun r => (r.1, { a with m_File := r.2.1, m_TableNames := r.2.2 }))

/-- The function `Archive::read()`, entered once the file has been opened: the
returned code, or the exception that leaves the function, and the archive
object afterwards. -/
def Archive.read (env : Env) (a : Archive) : Option (Res EErrorCode × Archive) :=
  if !a.m_File.isOpen then some (Res.ok ERROR_FILENOTFOUND, a)
  else
    match readHeader env a.m_File with
    | (Res.throw _, s) => some (Res.ok ERROR_INVALIDDATA, { a with m_File := s })
    | (Res.ok h, s) =>
      let a1 := { a with m_File := s, m_Header := h, m_Type := h.type }
      let a2 :=
        if a1.m_Type = TYPE_GENERAL then readGeneral env a1
        else if a1.m_Type = TYPE_DX10 then readDX10 a1
        else (true, a1)
      if !a2.1 then some (Res.ok ERROR_INVALIDDATA, a2.2)
      else
        match readNametable env a2.2 with
        | none => none
        | some (Res.throw e, a3) => some (Res.throw e, a3)
        | some (Res.ok ok, a3) =>
          if !ok then some (Res.ok ERROR_INVALIDDATA, a3) else some (Res.ok ERROR_NONE, a3)

/-- The function `Archive::read(const char *fileName)`; `file` is the contents
of the named file, `none` when it cannot be opened. -/
def Archive.readFile (env : Env) (a : Archive) (file : Option (List Nat)) :
    Option (Res EErrorCode × Archive) :=
  Archive.read env { a with m_File := a.m_File.open file }

/-- The function `Archive::close`. -/
def Archive.close (a : Archive) : Archive :=
  { a with m_File := a.m_File.close }

/-- The function `Archive::getFileList`. -/
def Archive.getFileList (a : Archive) : List (List Nat) :=
  a.m_TableNames

/-! ## Output files, and what an extraction does -/

/-- The files an extraction can create or replace.  Paths are compared byte
for byte. -/
structure FileSys where
  /-- Contents of the file at a path, `none` when there is no such file. -/
  files : List Nat → Option (List Nat)
  /-- Whether `open(path, out | binary)` succeeds for a path. -/
  creatable : List Nat → Bool

/-- The local `std::fstream outFile` of one loop iteration: the path it was
opened on and whether the opening succeeded. -/
structure OStream where
  path : List Nat
  good : Bool
deriving DecidableEq, Repr

/-- The call `outFile.open(path, out | binary)`: on success the file exists and
is empty afterwards. -/
def FileSys.openOut (fs : FileSys) (path : List Nat) : OStream × FileSys :=
  if fs.creatable path then
    ({ path := path, good := true },
     { fs with files := fun q => if q = path then some [] else fs.files q })
  else ({ path := path, good := false }, fs)

/-- The call `outFile.write(buf, n)` with the `n` bytes `bytes`: they are
appended to the file, and nothing happens when the opening had failed. -/
def FileSys.write (fs : FileSys) (out : OStream) (bytes : List Nat) : FileSys :=
  if out.good then
    { fs with
      files := fun q => if q = out.path then some ((fs.files q).getD [] ++ bytes) else fs.files q }
  else fs

/-- What an extraction acts on: the stream `m_File` (a `mutable` member), the
output files, and the calls made so far to zlib's `uncompress` (source buffer
and destination capacity) and to the progress callback. -/
structure Extraction where
  stream : IStream
  fs : FileSys
  calls : List (List Nat × Nat)
  progress : List (Int × List Nat)

/-- How a call of an extraction function ends: it returns a code, or it has
indexed `m_TableNames` out of range. -/
inductive Outcome where
  | returned (code : EErrorCode)
  | undefined
deriving DecidableEq, Repr

/-- The path `std::string(destination) + "\\" + name` as passed to `open`
through `c_str()`. -/
def outputPath (destination name : List Nat) : List Nat :=
  cstr (destination ++ [92] ++ name)

/-- The body of the loop of `Archive::extractAllGeneral` for one record: the
code returned from inside the loop, if any, and the state afterwards. -/
def extractGeneralEntry (env : Env) (destination : List Nat) (file : FileEntry)
    (name : List Nat) (x : Extraction) : Option EErrorCode × Extraction :=
  let o := x.fs.openOut (outputPath destination name)
  let x1 := { x with fs := o.2 }
  if x1.stream.isOpen then
    let s1 := x1.stream.seekg file.offset
    if file.packedLen ≠ 0 ∧ file.unpackedLen ≠ file.packedLen then
      let unpackedLen := if file.unpackedLen = 0 then file.unk20 else file.unpackedLen
      let r := s1.read file.packedLen
      let sourceBuffer := overlay r.1 (env.uninit file.packedLen)
      let u := env.uncompress sourceBuffer unpackedLen
      let destinationBuffer := overlay u.2 (env.uninit unpackedLen)
      let bytesWritten := u.2.length
      let x2 := { x1 with stream := r.2, calls := x1.calls ++ [(sourceBuffer, unpackedLen)] }
      if u.1 ≠ Z_OK ∨ bytesWritten ≠ unpackedLen then (some ERROR_INVALIDDATA, x2)
      else (none, { x2 with fs := x2.fs.write o.1 (destinationBuffer.take unpackedLen) })
    else
      let r := s1.read file.unpackedLen
      let destinationBuffer := overlay r.1 (env.uninit file.unpackedLen)
      (none, { x1 with stream := r.2
                       fs := x1.fs.write o.1 (destinationBuffer.take file.unpackedLen) })
  else (none, x1)

/-- The loop of `Archive::extractAllGeneral` over the records `m_Files[i]` and
the names `m_TableNames[i]`. -/
def extractAllGeneralLoop (env : Env) (destination : List Nat) :
    List FileEntry → List (List Nat) → Extraction → Outcome × Extraction
  | [], _, x => (Outcome.returned ERROR_NONE, x)
  | _ :: _, [], x => (Outcome.undefined, x)
  | file :: files, name :: names, x =>
    match extractGeneralEntry env destination file name x with
    | (some e, x1) => (Outcome.returned e, x1)
    | (none, x1) => extractAllGeneralLoop env destination files names x1

/-- The function `Archive::extractAllGeneral`. -/
def extractAllGeneral (env : Env) (a : Archive) (destination : List Nat) (x : Extraction) :
    Outcome × Extraction :=
  if a.m_Files.length ≠ a.m_TableNames.length then (Outcome.returned ERROR_INVALIDDATA, x)
  else extractAllGeneralLoop env destination a.m_Files a.m_TableNames x

/-! ## DDS header synthesis and DX10 extraction

The header `dds.h` is not among the sources at hand.  The structures and the
constants below are the ones the sources name; their layout and values are
those of the DirectX headers (`DDS.h`, `dxgiformat.h`), in agreement with
the 4-byte magic "DDS " and the 124-byte header of the specification. -/

/-- Modelled from the spec: the structure `DDS_PIXELFORMAT` (eight 32-bit
fields, 32 bytes); its declaration is in the missing `dds.h`. -/
structure DDS_PIXELFORMAT where
  dwSize : Nat
  dwFlags : Nat
  dwFourCC : Nat
  dwRGBBitCount : Nat
  dwRBitMask : Nat
  dwGBitMask : Nat
  dwBBitMask : Nat
  dwABitMask : Nat
deriving DecidableEq, Repr

/-- Modelled from the spec: the structure `DDS_HEADER` (the classic 124-byte DDS
header); its declaration is in the missing `dds.h`. -/
structure DDS_HEADER where
  dwSize : Nat
  dwHeaderFlags : Nat
  dwHeight : Nat
  dwWidth : Nat
  dwPitchOrLinearSize : Nat
  dwDepth : Nat
  dwMipMapCount : Nat
  dwReserved1 : List Nat
  ddspf : DDS_PIXELFORMAT
  dwSurfaceFlags : Nat
  dwCubemapFlags : Nat
  dwReserved2 : List Nat
deriving DecidableEq, Repr

/-- Modelled from the spec: the constant `DDS_MAGIC` of the missing `dds.h`, the
bytes "DDS " read as a little-endian 32-bit integer. -/
def DDS_MAGIC : Nat := 0x20534444

/-- Modelled from the spec: the constant `DDS_FOURCC` of the missing `dds.h`. -/
def DDS_FOURCC : Nat := 0x00000004

/-- Modelled from the spec: the constant `DDS_RGB` of the missing `dds.h`. -/
def DDS_RGB : Nat := 0x00000040

/-- Modelled from the spec: the constant `DDS_RGBA` of the missing `dds.h`. -/
def DDS_RGBA : Nat := 0x00000041

/-- Modelled from the spec: the constant `DDS_HEADER_FLAGS_TEXTURE` of the
missing `dds.h`. -/
def DDS_HEADER_FLAGS_TEXTURE : Nat := 0x00001007

/-- Modelled from the spec: the constant `DDS_HEADER_FLAGS_MIPMAP` of the
missing `dds.h`. -/
def DDS_HEADER_FLAGS_MIPMAP : Nat := 0x00020000

/-- Modelled from the spec: the constant `DDS_HEADER_FLAGS_LINEARSIZE` of the
missing `dds.h`. -/
def DDS_HEADER_FLAGS_LINEARSIZE : Nat := 0x00080000

/-- Modelled from the spec: the constant `DDS_SURFACE_FLAGS_TEXTURE` of the
missing `dds.h`. -/
def DDS_SURFACE_FLAGS_TEXTURE : Nat := 0x00001000

/-- Modelled from the spec: the constant `DDS_SURFACE_FLAGS_MIPMAP` of the
missing `dds.h`. -/
def DDS_SURFACE_FLAGS_MIPMAP : Nat := 0x00400008

/-- Modelled from the spec: the format code BC1, `DXGI_FORMAT_BC1_UNORM` of the
missing `dds.h`. -/
def DXGI_FORMAT_BC1_UNORM : Nat := 71

/-- Modelled from the spec: the format code BC2, `DXGI_FORMAT_BC2_UNORM` of the
missing `dds.h`. -/
def DXGI_FORMAT_BC2_UNORM : Nat := 74

/-- Modelled from the spec: the format code BC3, `DXGI_FORMAT_BC3_UNORM` of the
missing `dds.h`. -/
def DXGI_FORMAT_BC3_UNORM : Nat := 77

/-- Modelled from the spec: the format code BC5, `DXGI_FORMAT_BC5_UNORM` of the
missing `dds.h`. -/
def DXGI_FORMAT_BC5_UNORM : Nat := 83

/-- Modelled from the spec: the format code BC7, `DXGI_FORMAT_BC7_UNORM` of the
missing `dds.h`. -/
def DXGI_FORMAT_BC7_UNORM : Nat := 98

/-- Modelled from the spec: the format code B8G8R8A8,
`DXGI_FORMAT_B8G8R8A8_UNORM` of the missing `dds.h`. -/
def DXGI_FORMAT_B8G8R8A8_UNORM : Nat := 87

/-- Modelled from the spec: the format code R8, `DXGI_FORMAT_R8_UNORM` of the
missing `dds.h`. -/
def DXGI_FORMAT_R8_UNORM : Nat := 61

/-- Modelled from the spec: the function-like `MAKEFOURCC` of the missing
`dds.h`, the four characters as a little-endian 32-bit integer. -/
def MAKEFOURCC (ch0 ch1 ch2 ch3 : Nat) : Nat :=
  ch0 ||| (ch1 <<< 8) ||| (ch2 <<< 16) ||| (ch3 <<< 24)

/-- Modelled from the spec: the value of `sizeof(DDS_HEADER)`, 124. -/
def sizeof_DDS_HEADER : Nat := 124

/-- Modelled from the spec: the value of `sizeof(DDS_PIXELFORMAT)`, 32. -/
def sizeof_DDS_PIXELFORMAT : Nat := 32

/-- The value of a 32-bit `int` expression whose mathematical value is `x`
(two's complement wrap-around). -/
def toInt32 (x : Int) : Int := (x + 2 ^ 31) % 2 ^ 32 - 2 ^ 31

/-- Conversion of an `int` to the 32-bit unsigned type of the header fields. -/
def toUInt32 (x : Int) : Nat := (x % 2 ^ 32).toNat

/-- The product `texhdr.width * texhdr.height` of two `BSAUShort` values, which
is computed in `int`.  Where the product does not fit 32 bits the behaviour is
undefined in C++; the model takes the two's complement wrap-around of the
targets. -/
def widthTimesHeight (texhdr : FileEntry_DX10) : Int :=
  toInt32 ((texhdr.width : Int) * (texhdr.height : Int))

/-- The object `DDS_HEADER ddsHeader = { 0 }`. -/
def DDS_HEADER.zero : DDS_HEADER :=
  { dwSize := 0, dwHeaderFlags := 0, dwHeight := 0, dwWidth := 0, dwPitchOrLinearSize := 0,
    dwDepth := 0, dwMipMapCount := 0, dwReserved1 := List.replicate 11 0,
    ddspf := { dwSize := 0, dwFlags := 0, dwFourCC := 0, dwRGBBitCount := 0, dwRBitMask := 0,
               dwGBitMask := 0, dwBBitMask := 0, dwABitMask := 0 },
    dwSurfaceFlags := 0, dwCubemapFlags := 0, dwReserved2 := List.replicate 3 0 }

/-- The 32 bytes of a `DDS_PIXELFORMAT` object. -/
def DDS_PIXELFORMAT.toBytes (p : DDS_PIXELFORMAT) : List Nat :=
  toLE 4 p.dwSize ++ toLE 4 p.dwFlags ++ toLE 4 p.dwFourCC ++ toLE 4 p.dwRGBBitCount
    ++ toLE 4 p.dwRBitMask ++ toLE 4 p.dwGBitMask ++ toLE 4 p.dwBBitMask ++ toLE 4 p.dwABitMask

/-- The 124 bytes of a `DDS_HEADER` object. -/
def DDS_HEADER.toBytes (h : DDS_HEADER) : List Nat :=
  toLE 4 h.dwSize ++ toLE 4 h.dwHeaderFlags ++ toLE 4 h.dwHeight ++ toLE 4 h.dwWidth
    ++ toLE 4 h.dwPitchOrLinearSize ++ toLE 4 h.dwDepth ++ toLE 4 h.dwMipMapCount
    ++ (h.dwReserved1.map (toLE 4)).flatten ++ h.ddspf.toBytes ++ toLE 4 h.dwSurfaceFlags
    ++ toLE 4 h.dwCubemapFlags ++ (h.dwReserved2.map (toLE 4)).flatten

/-- The header built in the loop of `Archive::extractAllDX10` up to the
`switch`. -/
def ddsHeaderBase (texhdr : FileEntry_DX10) : DDS_HEADER :=
  { DDS_HEADER.zero with
    dwSize := sizeof_DDS_HEADER
    dwHeaderFlags :=
      DDS_HEADER_FLAGS_TEXTURE ||| DDS_HEADER_FLAGS_LINEARSIZE ||| DDS_HEADER_FLAGS_MIPMAP
    dwHeight := texhdr.height
    dwWidth := texhdr.width
    dwMipMapCount := texhdr.numMips
    ddspf := { DDS_HEADER.zero.ddspf with dwSize := sizeof_DDS_PIXELFORMAT }
    dwSurfaceFlags := DDS_SURFACE_FLAGS_TEXTURE ||| DDS_SURFACE_FLAGS_MIPMAP }

/-- The header after the `switch` on the format of
`Archive::extractAllDX10`, with the value of `ok`. -/
def ddsHeaderFor (m_UseATIFourCC : Bool) (texhdr : FileEntry_DX10) : Bool × DDS_HEADER :=
  let h := ddsHeaderBase texhdr
  if texhdr.format = DXGI_FORMAT_BC1_UNORM then
    (true, { h with
      ddspf := { h.ddspf with dwFlags := DDS_FOURCC, dwFourCC := MAKEFOURCC 68 88 84 49 }
      dwPitchOrLinearSize := toUInt32 (toInt32 (Int.tdiv (widthTimesHeight texhdr) 2)) })
  else if texhdr.format = DXGI_FORMAT_BC2_UNORM then
    (true, { h with
      ddspf := { h.ddspf with dwFlags := DDS_FOURCC, dwFourCC := MAKEFOURCC 68 88 84 51 }
      dwPitchOrLinearSize := toUInt32 (widthTimesHeight texhdr) })
  else if texhdr.format = DXGI_FORMAT_BC3_UNORM then
    (true, { h with
      ddspf := { h.ddspf with dwFlags := DDS_FOURCC, dwFourCC := MAKEFOURCC 68 88 84 53 }
      dwPitchOrLinearSize := toUInt32 (widthTimesHeight texhdr) })
  else if texhdr.format = DXGI_FORMAT_BC5_UNORM then
    (true, { h with
      ddspf := { h.ddspf with
        dwFlags := DDS_FOURCC
        dwFourCC := if m_UseATIFourCC then MAKEFOURCC 65 84 73 50 else MAKEFOURCC 68 88 84 53 }
      dwPitchOrLinearSize := toUInt32 (widthTimesHeight texhdr) })
  else if texhdr.format = DXGI_FORMAT_BC7_UNORM then
    (true, { h with
      ddspf := { h.ddspf with dwFlags := DDS_FOURCC, dwFourCC := MAKEFOURCC 66 67 55 0 }
      dwPitchOrLinearSize := toUInt32 (widthTimesHeight texhdr) })
  else if texhdr.format = DXGI_FORMAT_B8G8R8A8_UNORM then
    (true, { h with
      ddspf := { h.ddspf with
        dwFlags := DDS_RGBA, dwRGBBitCount := 32, dwRBitMask := 0x00FF0000,
        dwGBitMask := 0x0000FF00, dwBBitMask := 0x000000FF, dwABitMask := 0xFF000000 }
      dwPitchOrLinearSize := toUInt32 (toInt32 (widthTimesHeight texhdr * 4)) })
  else if texhdr.format = DXGI_FORMAT_R8_UNORM then
    (true, { h with
      ddspf := { h.ddspf with dwFlags := DDS_RGB, dwRGBBitCount := 8, dwRBitMask := 0xFF }
      dwPitchOrLinearSize := toUInt32 (widthTimesHeight texhdr) })
  else (false, h)

/-- The loop of `Archive::extractAllDX10` over the chunks of one texture. -/
def extractChunks (env : Env) (out : OStream) :
    List DX10Chunk → Extraction → Option EErrorCode × Extraction
  | [], x => (none, x)
  | chunk :: chunks, x =>
    let s1 := x.stream.seekg chunk.offset
    let r := s1.read chunk.packedLen
    let sourceBuffer := overlay r.1 (env.uninit chunk.packedLen)
    let u := env.uncompress sourceBuffer chunk.unpackedLen
    let destinationBuffer := overlay u.2 (env.uninit chunk.unpackedLen)
    let bytesWritten := u.2.length
    let x1 := { x with stream := r.2, calls := x.calls ++ [(sourceBuffer, chunk.unpackedLen)] }
    if u.1 ≠ Z_OK ∨ bytesWritten ≠ chunk.unpackedLen then (some ERROR_INVALIDDATA, x1)
    else
      extractChunks env out chunks
        { x1 with fs := x1.fs.write out (destinationBuffer.take chunk.unpackedLen) }

/-- The body of the loop of `Archive::extractAllDX10` for one texture. -/
def extractTexture (env : Env) (m_UseATIFourCC : Bool) (destination : List Nat)
    (texture : Texture) (name : List Nat) (x : Extraction) : Option EErrorCode × Extraction :=
  let o := x.fs.openOut (outputPath destination name)
  let x1 := { x with fs := o.2 }
  if x1.stream.isOpen then
    let d := ddsHeaderFor m_UseATIFourCC texture.texhdr
    if d.1 then
      let x2 := { x1 with fs := x1.fs.write o.1 (toLE 4 DDS_MAGIC) }
      let x3 := { x2 with fs := x2.fs.write o.1 d.2.toBytes }
      extractChunks env o.1 texture.texchunks x3
    else (none, x1)
  else (none, x1)

/-- The loop of `Archive::extractAllDX10` over the textures `m_Textures[i]` and
the names `m_TableNames[i]`. -/
def extractAllDX10Loop (env : Env) (m_UseATIFourCC : Bool) (destination : List Nat) :
    List Texture → List (List Nat) → Extraction → Outcome × Extraction
  | [], _, x => (Outcome.returned ERROR_NONE, x)
  | _ :: _, [], x => (Outcome.undefined, x)
  | texture :: textures, name :: names, x =>
    match extractTexture env m_UseATIFourCC destination texture name x with
    | (some e, x1) => (Outcome.returned e, x1)
    | (none, x1) => extractAllDX10Loop env m_UseATIFourCC destination textures names x1

/-- The function `Archive::extractAllDX10`. -/
def extractAllDX10 (env : Env) (a : Archive) (destination : List Nat) (x : Extraction) :
    Outcome × Extraction :=
  extractAllDX10Loop env a.m_UseATIFourCC destination a.m_Textures a.m_TableNames x

/-- The function `Archive::extractAll`, called when the output files are `fs`;
`progress` and `overwrite` are its second and third arguments. -/
def Archive.extractAll (env : Env) (a : Archive) (destination : List Nat)
    (_progress : Int → List Nat → Bool) (_overwrite : Bool) (fs : FileSys) :
    Outcome × Extraction :=
  let x : Extraction := { stream := a.m_File, fs := fs, calls := [], progress := [] }
  match a.m_Header.type with
  | TYPE_GENERAL => extractAllGeneral env a destination x
  | TYPE_DX10 => extractAllDX10 env a destination x
  | TYPE_OTHER => (Outcome.returned ERROR_INVALIDDATA, x)

/-! ## The FourCC option, and writing a header -/

/-- The number of chunks announced by the texture header at position `p`. -/
def numChunksAt (data : List Nat) (p : Nat) : Nat :=
  (FileEntry_DX10.ofBytes (slice data p 24)).numChunks

/-- The position of texture `i` of a DX10 record table that starts at `start`:
each texture takes 24 bytes and 24 bytes for each of its chunks. -/
def textureStart (data : List Nat) (start : Nat) : Nat → Nat
  | 0 => start
  | i + 1 => textureStart data start i + 24 + 24 * numChunksAt data (textureStart data start i)

/-- The texture held by the bytes at position `p`. -/
def textureAt (data : List Nat) (p : Nat) : Texture :=
  { texhdr := FileEntry_DX10.ofBytes (slice data p 24)
    texchunks := decodeChunks (numChunksAt data p) (slice data (p + 24) (24 * numChunksAt data p)) }

/-- The name table that holds the given names: for each name its length on 16
bits, little-endian, and its bytes. -/
def encodeNames (names : List (List Nat)) : List Nat :=
  (names.map (fun nm => toLE 2 nm.length ++ nm)).flatten

/-- The size the sources expect a compressed General record to inflate to:
`unpackedLen`, or the last field of the record when `unpackedLen` is 0. -/
def expectedLen (file : FileEntry) : Nat :=
  if file.unpackedLen = 0 then file.unk20 else file.unpackedLen

/-- The source buffer of `packedLen` bytes of a compressed General record after
the stream has been positioned at the offset of the record and read into it. -/
def sourceOf (env : Env) (file : FileEntry) (x : Extraction) : List Nat :=
  overlay ((x.stream.seekg file.offset).read file.packedLen).1 (env.uninit file.packedLen)

/-- The contents an extraction gives to the output file of a General record:
the inflated bytes when the record is compressed, else the `unpackedLen` bytes
at its offset. -/
def payloadOf (env : Env) (data : List Nat) (file : FileEntry) : List Nat :=
  if file.packedLen ≠ 0 ∧ file.unpackedLen ≠ file.packedLen then
    (env.uncompress (slice data file.offset file.packedLen) (expectedLen file)).2
  else slice data file.offset file.unpackedLen

/-- A General record whose payload lies within the stream and, when it is
compressed, inflates with `Z_OK` to exactly the expected number of bytes. -/
def extractable (env : Env) (data : List Nat) (file : FileEntry) : Prop :=
  if file.packedLen ≠ 0 ∧ file.unpackedLen ≠ file.packedLen then
    file.offset + file.packedLen ≤ data.length ∧
    (env.uncompress (slice data file.offset file.packedLen) (expectedLen file)).1 = Z_OK ∧
    (env.uncompress (slice data file.offset file.packedLen) (expectedLen file)).2.length =
      expectedLen file
  else file.offset + file.unpackedLen ≤ data.length

instance (env : Env) (data : List Nat) (file : FileEntry) :
    Decidable (extractable env data file) := by
  unfold extractable
  infer_instance

/-- A call of `uncompress`, given by its source buffer and the capacity of its
destination buffer, that the sources take as failed: the code returned is not
`Z_OK`, or the number of bytes produced is not the capacity. -/
def callFails (env : Env) (c : List Nat × Nat) : Prop :=
  (env.uncompress c.1 c.2).1 ≠ Z_OK ∨ (env.uncompress c.1 c.2).2.length ≠ c.2

instance (env : Env) (c : List Nat × Nat) : Decidable (callFails env c) := by
  unfold callFails
  infer_instance

/-- The source buffer of `packedLen` bytes of a chunk after the stream has been
positioned at the offset of the chunk and read into it. -/
def chunkSourceOf (env : Env) (chunk : DX10Chunk) (x : Extraction) : List Nat :=
  overlay ((x.stream.seekg chunk.offset).read chunk.packedLen).1 (env.uninit chunk.packedLen)

/-- The format codes the specification lists as supported: BC1, BC2, BC3, BC5,
BC7, B8G8R8A8 and R8. -/
def supportedFormat (format : Nat) : Prop :=
  format = DXGI_FORMAT_BC1_UNORM ∨ format = DXGI_FORMAT_BC2_UNORM ∨
  format = DXGI_FORMAT_BC3_UNORM ∨ format = DXGI_FORMAT_BC5_UNORM ∨
  format = DXGI_FORMAT_BC7_UNORM ∨ format = DXGI_FORMAT_B8G8R8A8_UNORM ∨
  format = DXGI_FORMAT_R8_UNORM

instance (format : Nat) : Decidable (supportedFormat format) := by
  unfold supportedFormat
  infer_instance

/-- A chunk whose packed bytes lie within the stream and inflate with `Z_OK` to
exactly `unpackedLen` bytes. -/
def chunkInflates (env : Env) (data : List Nat) (chunk : DX10Chunk) : Prop :=
  chunk.offset + chunk.packedLen ≤ data.length ∧
  (env.uncompress (slice data chunk.offset chunk.packedLen) chunk.unpackedLen).1 = Z_OK ∧
  (env.uncompress (slice data chunk.offset chunk.packedLen) chunk.unpackedLen).2.length =
    chunk.unpackedLen

instance (env : Env) (data : List Nat) (chunk : DX10Chunk) :
    Decidable (chunkInflates env data chunk) := by
  unfold chunkInflates
  infer_instance

/-- The bytes a chunk inflates to. -/
def chunkPayload (env : Env) (data : List Nat) (chunk : DX10Chunk) : List Nat :=
  (env.uncompress (slice data chunk.offset chunk.packedLen) chunk.unpackedLen).2

/-- The DDS file of the specification for a texture: the 4-byte magic "DDS ",
the 124-byte header, and the inflated chunks in the order of the chunk
records. -/
def ddsFileOf (env : Env) (useAlternateFourCC : Bool) (data : List Nat) (texture : Texture) :
    List Nat :=
  [68, 68, 83, 32] ++ (ddsHeaderFor useAlternateFourCC texture.texhdr).2.toBytes
    ++ (texture.texchunks.map (chunkPayload env data)).flatten

/-- The contents an extraction gives to the output file of a texture: the DDS
file for a supported format, no byte otherwise. -/
def textureOutput (env : Env) (useAlternateFourCC : Bool) (data : List Nat) (texture : Texture) :
    List Nat :=
  if supportedFormat texture.texhdr.format then ddsFileOf env useAlternateFourCC data texture
  else []

/-! ## Sample data for the examples -/

/-- The zlib stream of the five bytes "hello" (13 bytes). -/
def helloDeflated : List Nat :=
  [0x78, 0x9c, 0xcb, 0x48, 0xcd, 0xc9, 0xc9, 0x07, 0x00, 0x06, 0x2c, 0x02, 0x15]

/-- The five bytes "hello". -/
def hello : List Nat := [104, 101, 108, 108, 111]

/-- An environment for the examples: `uncompress` inflates `helloDeflated` (with
`Z_BUF_ERROR`, -5, when the destination is too small) and reports
`Z_DATA_ERROR`, -3, on any other input; uninitialised bytes are 0xCD; a
`FileEntry` is packed, 36 bytes (see `sampleEnv40` for the padded layout). -/
def sampleEnv : Env :=
  { uncompress := fun src cap =>
      if src = helloDeflated then (if 5 ≤ cap then (0, hello) else (-5, hello.take cap))
      else (-3, [])
    junk := fun _ _ => 0xCD
    sizeofFileEntry := 36 }

/-- The environment `sampleEnv` where the uninitialised 4-byte buffer happens to
end with the byte 'X'. -/
def sampleEnvX : Env :=
  { sampleEnv with junk := fun n i => if n = 4 ∧ i = 3 then 88 else 0xCD }

/-- The environment `sampleEnv` where a `FileEntry` is padded to a multiple of
the alignment of its 64-bit member, 40 bytes. -/
def sampleEnv40 : Env :=
  { sampleEnv with sizeofFileEntry := 40 }

/-- A freshly constructed archive object. -/
def sampleArchive : Archive :=
  Archive.new { version := 0xCDCDCDCD, type := TYPE_OTHER, fileCount := 0xCDCDCDCD,
                offsetNameTable := 0xCDCDCDCDCDCDCDCD } true

/-- A 24-byte header: "BTDX", version 1, the given tag, file count and offset
of the name table. -/
def sampleHeader (tag : List Nat) (fileCount offsetNameTable : Nat) : List Nat :=
  [66, 84, 68, 88] ++ toLE 4 1 ++ tag ++ toLE 4 fileCount ++ toLE 8 offsetNameTable

/-- An input stream just opened on a file with the contents `data`. -/
def IStream.ofData (data : List Nat) : IStream :=
  { isOpen := true, data := data, pos := 0, failed := false }

/-- A 36-byte General record with the given name hash, offset and lengths. -/
def sampleRecord (hash offset packedLen unpackedLen : Nat) : List Nat :=
  toLE 4 hash ++ [116, 120, 116, 0] ++ toLE 4 9 ++ toLE 4 0x00100100 ++ toLE 8 offset
    ++ toLE 4 packedLen ++ toLE 4 unpackedLen ++ toLE 4 0xBAADF00D

/-- The five bytes "world". -/
def world : List Nat := [119, 111, 114, 108, 100]

/-- A General archive with two records, each followed by `pad` bytes of
padding, and the payloads "hello" and "world"; the second record is stored
uncompressed (`packedLen` 0, `unpackedLen` 5) and the first one has the
given `packedLen` and `unpackedLen` 5. -/
def sampleTwoPadded (pad packedLen1 : Nat) (names : List (List Nat)) : List Nat :=
  sampleHeader [71, 78, 82, 76] 2 (106 + 2 * pad)
    ++ sampleRecord 1 (96 + 2 * pad) packedLen1 5 ++ List.replicate pad 0
    ++ sampleRecord 2 (101 + 2 * pad) 0 5 ++ List.replicate pad 0
    ++ hello ++ world ++ encodeNames names

/-- A General archive of 112 bytes in the layout of the format (36-byte
records) with two records stored uncompressed, "hello" at offset 96 and
"world" at offset 101, named "a" and "b". -/
def sampleTwoFiles : List Nat :=
  sampleTwoPadded 0 0 [[97], [98]]

/-- The archive object after `readHeader` on `sampleTwoFiles`. -/
def sampleTwoFilesAtTable : Archive :=
  { sampleArchive with
    m_File := { IStream.ofData sampleTwoFiles with pos := 24 }
    m_Header := { version := 1, type := TYPE_GENERAL, fileCount := 2, offsetNameTable := 106 } }

/-- A 24-byte texture header with the given chunk count, height, width, mip
count and format. -/
def sampleTexHeader (numChunks height width numMips format : Nat) : List Nat :=
  toLE 4 3 ++ [100, 100, 115, 0] ++ toLE 4 9 ++ [0, numChunks] ++ toLE 2 24 ++ toLE 2 height
    ++ toLE 2 width ++ [numMips, format] ++ toLE 2 0x0800

/-- A 24-byte chunk record. -/
def sampleChunk (offset packedLen unpackedLen startMip endMip : Nat) : List Nat :=
  toLE 8 offset ++ toLE 4 packedLen ++ toLE 4 unpackedLen ++ toLE 2 startMip ++ toLE 2 endMip
    ++ toLE 4 0xBAADF00D

/-- A DX10 archive of 123 bytes with two textures: a BC1 texture with one chunk
(the zlib stream of "hello" at offset 96) and a B8G8R8A8 texture without
chunks, named "a.dds" and "b.dds". -/
def sampleDX10File : List Nat :=
  sampleHeader [68, 88, 49, 48] 2 109 ++ sampleTexHeader 1 4 4 1 71 ++ sampleChunk 96 13 5 0 0
    ++ sampleTexHeader 0 1 1 1 87 ++ helloDeflated
    ++ encodeNames [[97, 46, 100, 100, 115], [98, 46, 100, 100, 115]]

/-- The archive object after `readHeader` on `sampleDX10File`. -/
def sampleDX10AtTable : Archive :=
  { sampleArchive with
    m_File := { IStream.ofData sampleDX10File with pos := 24 }
    m_Header := { version := 1, type := TYPE_DX10, fileCount := 2, offsetNameTable := 109 } }

/-- An archive object about to read the name table of a file whose name table
is at offset 3. -/
def sampleAtNames (data : List Nat) : Archive :=
  { sampleArchive with
    m_File := IStream.ofData data
    m_Header := { version := 1, type := TYPE_GENERAL, fileCount := 2, offsetNameTable := 3 } }

/-- No output file exists yet and every path can be created. -/
def sampleFs : FileSys :=
  { files := fun _ => none, creatable := fun _ => true }

/-- No output file exists and none can be created. -/
def sampleFsReadOnly : FileSys :=
  { files := fun _ => none, creatable := fun _ => false }

/-- The General archive of the specification's scenario, 72 bytes: version 1,
one record stored uncompressed (`packedLen` 0, `unpackedLen` 5) with the
payload "hello" at offset 60, named "a.txt". -/
def sampleGeneralFile : List Nat :=
  sampleHeader [71, 78, 82, 76] 1 65 ++ sampleRecord 7 60 0 5 ++ hello
    ++ encodeNames [[97, 46, 116, 120, 116]]

/-- The record of `sampleGeneralFile`. -/
def sampleStoredRecord : FileEntry :=
  { unk00 := 7, ext := [116, 120, 116, 0], unk08 := 9, unk0C := 0x00100100, offset := 60,
    packedLen := 0, unpackedLen := 5, unk20 := 0xBAADF00D }

/-- The archive object after reading `sampleGeneralFile`. -/
def sampleParsed : Archive :=
  { m_File := { isOpen := true, data := sampleGeneralFile, pos := 72, failed := false }
    m_Files := [sampleStoredRecord]
    m_Textures := []
    m_TableNames := [[97, 46, 116, 120, 116]]
    m_Type := TYPE_GENERAL
    m_Header := { version := 1, type := TYPE_GENERAL, fileCount := 1, offsetNameTable := 65 }
    m_UseATIFourCC := true }

/-- The archive `sampleTwoFiles` with the second name missing from the name
table. -/
def sampleMissingName : List Nat :=
  sampleTwoPadded 0 0 [[97]]

/-- Reading the file `data` into a fresh archive object, closing it when
`closeFirst` is set, and extracting everything to the directory "d": the
outcome of `extractAll` and the files at "d\a" and "d\b" afterwards. -/
def sampleExtractAll (env : Env) (data : List Nat) (closeFirst : Bool) (fs : FileSys) :
    Option (Outcome × Option (List Nat) × Option (List Nat)) :=
  match Archive.readFile env sampleArchive (some data) with
  | some (Res.ok ERROR_NONE, a) =>
    let e := Archive.extractAll env (if closeFirst then a.close else a) [100]
      (fun _ _ => true) true fs
    some (e.1, e.2.fs.files [100, 92, 97], e.2.fs.files [100, 92, 98])
  | _ => none

/-- A compressed General record: 13 packed bytes at offset 2 that inflate to 5
bytes. -/
def sampleCompressedRecord : FileEntry :=
  { unk00 := 7, ext := [116, 120, 116, 0], unk08 := 9, unk0C := 0x00100100, offset := 2,
    packedLen := 13, unpackedLen := 5, unk20 := 0xBAADF00D }

/-- An extraction about to process a record, the archive stream being open on
two bytes followed by the zlib stream of "hello". -/
def sampleExtraction : Extraction :=
  { stream := IStream.ofData ([0, 0] ++ helloDeflated), fs := sampleFs, calls := [],
    progress := [] }

/-- The archive `sampleMissingName` followed by a name-table entry that
announces 5 bytes where only the 2 bytes "bc" are left. -/
def sampleTruncatedName : List Nat :=
  sampleTwoPadded 0 0 [[97]] ++ [5, 0, 98, 99]

/-- The archive `sampleTruncatedName` in the layout with 40-byte records. -/
def sampleTruncatedName40 : List Nat :=
  sampleTwoPadded 4 0 [[97]] ++ [5, 0, 98, 99]

/-- The zlib stream of the five bytes "world" (13 bytes). -/
def worldDeflated : List Nat :=
  [0x78, 0x9c, 0x2b, 0xcf, 0x2f, 0xca, 0x49, 0x01, 0x00, 0x06, 0xa6, 0x02, 0x29]

/-- The environment `sampleEnv` with an `uncompress` that also inflates
`worldDeflated`. -/
def sampleEnvTwo : Env :=
  { sampleEnv with
    uncompress := fun src cap =>
      if src = helloDeflated then (if 5 ≤ cap then (0, hello) else (-5, hello.take cap))
      else if src = worldDeflated then (if 5 ≤ cap then (0, world) else (-5, world.take cap))
      else (-3, []) }

/-- A DX10 archive of 160 bytes with two textures of the given formats, 4 by 4
pixels with one mip level, each with one chunk: the zlib stream of "hello" at
offset 120 for the first, named "a.dds", and the zlib stream of "world" at
offset 133 for the second, named "b.dds"; `unpackedLen0` is the unpacked length
recorded for the first chunk. -/
def sampleDX10Pair (format0 format1 unpackedLen0 : Nat) : List Nat :=
  sampleHeader [68, 88, 49, 48] 2 146
    ++ sampleTexHeader 1 4 4 1 format0 ++ sampleChunk 120 13 unpackedLen0 0 0
    ++ sampleTexHeader 1 4 4 1 format1 ++ sampleChunk 133 13 5 0 0
    ++ helloDeflated ++ worldDeflated
    ++ encodeNames [[97, 46, 100, 100, 115], [98, 46, 100, 100, 115]]

/-- A DX10 archive of 129 bytes with one BC1 texture of 4 by 4 pixels and two
mip levels, named "a.dds", whose two chunk records have the given values of
`startMip` (and `endMip`): the first record is for the zlib stream of "hello"
at offset 96 and the second one for the zlib stream of "world" at offset
109. -/
def sampleDX10Mips (mip0 mip1 : Nat) : List Nat :=
  sampleHeader [68, 88, 49, 48] 1 122
    ++ sampleTexHeader 2 4 4 2 71 ++ sampleChunk 96 13 5 mip0 mip0 ++ sampleChunk 109 13 5 mip1 mip1
    ++ helloDeflated ++ worldDeflated ++ encodeNames [[97, 46, 100, 100, 115]]

/-- The files "d\a.dds" and "d\b.dds" hold the bytes 1, 2, 3 and 4, 5, 6, and
every path can be created. -/
def sampleFsExisting : FileSys :=
  { files := fun q =>
      if q = [100, 92, 97, 46, 100, 100, 115] then some [1, 2, 3]
      else if q = [100, 92, 98, 46, 100, 100, 115] then some [4, 5, 6]
      else none
    creatable := fun _ => true }

/-- Reading the file `data` into an archive object constructed where the
storage of `m_UseATIFourCC` holds `storedFlag`, and extracting everything to
the directory "d": the outcome of `extractAll` and the files at "d\a.dds" and
"d\b.dds" afterwards. -/
def sampleExtractDX10 (env : Env) (storedFlag : Bool) (data : List Nat) (fs : FileSys) :
    Option (Outcome × Option (List Nat) × Option (List Nat)) :=
  match Archive.readFile env
      (Archive.new { version := 0xCDCDCDCD, type := TYPE_OTHER, fileCount := 0xCDCDCDCD,
                     offsetNameTable := 0xCDCDCDCDCDCDCDCD } storedFlag) (some data) with
  | some (Res.ok ERROR_NONE, a) =>
    let e := Archive.extractAll env a [100] (fun _ _ => true) true fs
    some (e.1, e.2.fs.files [100, 92, 97, 46, 100, 100, 115],
      e.2.fs.files [100, 92, 98, 46, 100, 100, 115])
  | _ => none

/-- The 124-byte header of a texture of 4 by 4 pixels with one mip level whose
pixel format has the given flags and FourCC, and the given linear size. -/
def sampleDdsHeader (pitch pfFlags : Nat) (fourCC : List Nat) : List Nat :=
  toLE 4 124 ++ toLE 4 0x000A1007 ++ toLE 4 4 ++ toLE 4 4 ++ toLE 4 pitch ++ toLE 4 0
    ++ toLE 4 1 ++ List.replicate 44 0 ++ toLE 4 32 ++ toLE 4 pfFlags ++ fourCC
    ++ List.replicate 20 0 ++ toLE 4 0x00401008 ++ List.replicate 16 0

/-- The record `sampleCompressedRecord` with an unpacked length one byte short
of the five bytes its payload inflates to. -/
def sampleShortRecord : FileEntry :=
  { sampleCompressedRecord with unpackedLen := 4 }

/-- A texture record with the given height, width and format code, one mip
level and no chunk. -/
def sampleTexRecord (height width format : Nat) : FileEntry_DX10 :=
  { nameHash := 3, ext := [100, 100, 115, 0], dirHash := 9, unk0C := 0, numChunks := 0,
    chunkHdrLen := 24, height := height, width := width, numMips := 1, format := format,
    unk16 := 0x0800 }

/-- The files "d\a" and "d\b" hold the bytes 1, 2, 3 and 4, 5, 6, and every
path can be created. -/
def sampleFsAB : FileSys :=
  { files := fun q =>
      if q = [100, 92, 97] then some [1, 2, 3]
      else if q = [100, 92, 98] then some [4, 5, 6]
      else none
    creatable := fun _ => true }

/-- What a sample extraction is observed to do: the outcome of `extractAll`, the
files at "d\a" and "d\b" afterwards, and the calls made to the progress
callback. -/
structure SampleRun where
  outcome : Outcome
  fileA : Option (List Nat)
  fileB : Option (List Nat)
  progress : List (Int × List Nat)
deriving DecidableEq

/-- Reading the file `data` into a fresh archive object and extracting
everything to the directory "d" with the given callback and value of
`overwrite`. -/
def sampleExtractWith (env : Env) (data : List Nat) (progress : Int → List Nat → Bool)
    (overwrite : Bool) (fs : FileSys) : Option SampleRun :=
  match Archive.readFile env sampleArchive (some data) with
  | some (Res.ok ERROR_NONE, a) =>
    let e := Archive.extractAll env a [100] progress overwrite fs
    some { outcome := e.1, fileA := e.2.fs.files [100, 92, 97],
           fileB := e.2.fs.files [100, 92, 98], progress := e.2.progress }
  | _ => none

/-- The file "d\a.txt" holds the bytes 1, 2, 3, and every path can be
created. -/
def sampleFsTxt : FileSys :=
  { files := fun q => if q = [100, 92, 97, 46, 116, 120, 116] then some [1, 2, 3] else none
    creatable := fun _ => true }

/-- A General archive with two records, each followed by `pad` bytes of
padding, named "a" and "b": the first one is stored uncompressed, the payload
"hello"; the second one announces 5 packed bytes, the bytes "world", which are
no zlib stream, and 9 unpacked bytes. -/
def sampleSecondBad (pad : Nat) : List Nat :=
  sampleHeader [71, 78, 82, 76] 2 (106 + 2 * pad)
    ++ sampleRecord 1 (96 + 2 * pad) 0 5 ++ List.replicate pad 0
    ++ sampleRecord 2 (101 + 2 * pad) 5 9 ++ List.replicate pad 0
    ++ hello ++ world ++ encodeNames [[97], [98]]

/-- The archive object after reading the file `data` into a fresh object (the
fresh object itself when the reading does not return). -/
def sampleRead (env : Env) (data : List Nat) : Archive :=
  match Archive.readFile env sampleArchive (some data) with
  | some (_, a) => a
  | none => sampleArchive

/-- The first record of `sampleSecondBad 0`. -/
def sampleFirstRecord : FileEntry :=
  { unk00 := 1, ext := [116, 120, 116, 0], unk08 := 9, unk0C := 0x00100100, offset := 96,
    packedLen := 0, unpackedLen := 5, unk20 := 0xBAADF00D }

/-- The second record of `sampleSecondBad 0`. -/
def sampleBadRecord : FileEntry :=
  { unk00 := 2, ext := [116, 120, 116, 0], unk08 := 9, unk0C := 0x00100100, offset := 101,
    packedLen := 5, unpackedLen := 9, unk20 := 0xBAADF00D }

/-- The DX10 archive `sampleDX10Pair 71 83 5`, two textures, with the given
names in its name table. -/
def sampleDX10Named (names : List (List Nat)) : List Nat :=
  sampleHeader [68, 88, 49, 48] 2 146
    ++ sampleTexHeader 1 4 4 1 71 ++ sampleChunk 120 13 5 0 0
    ++ sampleTexHeader 1 4 4 1 83 ++ sampleChunk 133 13 5 0 0
    ++ helloDeflated ++ worldDeflated ++ encodeNames names

/-- The archive `sampleSecondBad 0` with both records named "a". -/
def sampleSecondBadSameName : List Nat :=
  sampleHeader [71, 78, 82, 76] 2 106
    ++ sampleRecord 1 96 0 5 ++ sampleRecord 2 101 5 9
    ++ hello ++ world ++ encodeNames [[97], [97]]

/-! ## Basic facts -/

theorem toLE_length (n v : Nat) : (toLE n v).length = n := by
  induction n generalizing v with
  | zero => rfl
  | succ k ih => simp [toLE, ih]

theorem fromLE_toLE (n v : Nat) (h : v < 256 ^ n) : fromLE (toLE n v) = v := by
  induction n generalizing v with
  | zero => simp at h; simp [toLE, fromLE, h]
  | succ k ih =>
    have h2 : v / 256 < 256 ^ k := by
      rw [Nat.div_lt_iff_lt_mul (by norm_num)]
      rw [pow_succ] at h; exact h
    simp only [toLE, fromLE, ih _ h2]
    omega

/-- Reading `n` bytes that are all there. -/
theorem IStream.read_of_drop (s : IStream) (n : Nat) (xs rest : List Nat)
    (hf : s.failed = false) (hd : s.data.drop s.pos = xs ++ rest) (hl : xs.length = n) :
    s.read n = (xs, { s with pos := s.pos + n, failed := false }) := by
  simp [IStream.read, hf, slice, hd, ← hl]

/-- Reading from a stream that has failed. -/
theorem IStream.read_of_failed (s : IStream) (n : Nat) (hf : s.failed = true) :
    s.read n = ([], s) := by
  simp [IStream.read, hf]

theorem readType_of_drop (s : IStream) (n : Nat) (xs rest : List Nat)
    (hf : s.failed = false) (hd : s.data.drop s.pos = xs ++ rest) (hl : xs.length = n) :
    readType n s = (Res.ok (fromLE xs), { s with pos := s.pos + n, failed := false }) := by
  simp [readType, IStream.read_of_drop s n xs rest hf hd hl]

theorem readType_of_failed (s : IStream) (n : Nat) (hf : s.failed = true) :
    readType n s = (Res.throw Exn.cantRead, s) := by
  simp [readType, IStream.read_of_failed s n hf, hf]

/-! ## The header -/

/-- Decoding of a well-formed header. -/
theorem readHeader_of_bytes (env : Env) (s : IStream) (v n t : Nat) (tag rest : List Nat)
    (hf : s.failed = false) (hp : s.pos = 0)
    (hd : s.data = [66, 84, 68, 88] ++ toLE 4 v ++ tag ++ toLE 4 n ++ toLE 8 t ++ rest)
    (hv : v < 2 ^ 32) (hn : n < 2 ^ 32) (ht : t < 2 ^ 64)
    (htag : tag = [71, 78, 82, 76] ∨ tag = [68, 88, 49, 48]) :
    readHeader env s =
      (Res.ok { version := v, type := if tag = [71, 78, 82, 76] then TYPE_GENERAL else TYPE_DX10,
                fileCount := n, offsetNameTable := t },
       { s with pos := 24, failed := false }) := by
  obtain ⟨o, d, p, f⟩ := s
  simp only at hf hp hd
  subst hf hp hd
  have h4 : (toLE 4 v).length = 4 := toLE_length 4 v
  have h4n : (toLE 4 n).length = 4 := toLE_length 4 n
  have h8 : (toLE 8 t).length = 8 := toLE_length 8 t
  have htl : tag.length = 4 := by rcases htag with h | h <;> simp [h]
  have e1 := fromLE_toLE 4 v (by norm_num; exact hv)
  have e2 := fromLE_toLE 4 n (by norm_num; exact hn)
  have e3 := fromLE_toLE 8 t (by norm_num; exact ht)
  have r1 := IStream.read_of_drop
    ⟨o, [66, 84, 68, 88] ++ toLE 4 v ++ tag ++ toLE 4 n ++ toLE 8 t ++ rest, 0, false⟩ 4
    [66, 84, 68, 88] (toLE 4 v ++ tag ++ toLE 4 n ++ toLE 8 t ++ rest) rfl (by simp) rfl
  have r2 := readType_of_drop
    ⟨o, [66, 84, 68, 88] ++ toLE 4 v ++ tag ++ toLE 4 n ++ toLE 8 t ++ rest, 4, false⟩ 4
    (toLE 4 v) (tag ++ toLE 4 n ++ toLE 8 t ++ rest) rfl (by simp) h4
  have r3 := IStream.read_of_drop
    ⟨o, [66, 84, 68, 88] ++ toLE 4 v ++ tag ++ toLE 4 n ++ toLE 8 t ++ rest, 8, false⟩ 4
    tag (toLE 4 n ++ toLE 8 t ++ rest) rfl
    (by
      have : ([66, 84, 68, 88] ++ toLE 4 v ++ tag ++ toLE 4 n ++ toLE 8 t ++ rest)
          = ([66, 84, 68, 88] ++ toLE 4 v) ++ (tag ++ (toLE 4 n ++ toLE 8 t ++ rest)) := by
        simp
      rw [this, List.drop_left' (by simp [h4])]) htl
  have r4 := readType_of_drop
    ⟨o, [66, 84, 68, 88] ++ toLE 4 v ++ tag ++ toLE 4 n ++ toLE 8 t ++ rest, 12, false⟩ 4
    (toLE 4 n) (toLE 8 t ++ rest) rfl
    (by
      have : ([66, 84, 68, 88] ++ toLE 4 v ++ tag ++ toLE 4 n ++ toLE 8 t ++ rest)
          = ([66, 84, 68, 88] ++ toLE 4 v ++ tag) ++ (toLE 4 n ++ (toLE 8 t ++ rest)) := by
        simp
      rw [this, List.drop_left' (by simp [h4, htl])]) h4n
  have r5 := readType_of_drop
    ⟨o, [66, 84, 68, 88] ++ toLE 4 v ++ tag ++ toLE 4 n ++ toLE 8 t ++ rest, 16, false⟩ 8
    (toLE 8 t) rest rfl
    (by
      have : ([66, 84, 68, 88] ++ toLE 4 v ++ tag ++ toLE 4 n ++ toLE 8 t ++ rest)
          = ([66, 84, 68, 88] ++ toLE 4 v ++ tag ++ toLE 4 n) ++ (toLE 8 t ++ rest) := by
        simp
      rw [this, List.drop_left' (by simp [h4, htl, h4n])]) h8
  simp only [Nat.zero_add, Nat.reduceAdd] at r1 r2 r3 r4 r5
  have hm : ∀ l, memcmp (overlay [66, 84, 68, 88] l) lit_BTDX 4 = 0 := by
    intro l; simp [overlay, memcmp, lit_BTDX]
  have ht1 : ∀ l,
      typeFromID ((overlay [71, 78, 82, 76] l).take 4 ++ [0]) = Res.ok TYPE_GENERAL := by
    intro l; simp [overlay, typeFromID, strncmp, lit_GNRL]
  have ht2 : ∀ l,
      typeFromID ((overlay [68, 88, 49, 48] l).take 4 ++ [0]) = Res.ok TYPE_DX10 := by
    intro l; simp [overlay, typeFromID, strncmp, lit_GNRL, lit_DX10]
  unfold readHeader
  rw [r1]
  dsimp only
  rw [hm, if_neg (by simp), r2]
  dsimp only
  rw [r3]
  dsimp only
  rcases htag with h | h <;> subst h
  · rw [ht1]
    dsimp only
    rw [r4]
    dsimp only
    rw [r5, e1, e2, e3]
    simp
  · rw [ht2]
    dsimp only
    rw [r4]
    dsimp only
    rw [r5, e1, e2, e3]
    simp

/-- C3. For every stream that starts with "BTDX", a little-endian 32-bit `v`,
the tag "GNRL" or "DX10", a little-endian 32-bit `n` and a little-endian
64-bit `t`, `readHeader` returns the header with version `v`, the type of
the tag, file count `n` and name table offset `t` (and leaves the stream
good, 24 bytes further). -/
theorem readHeader_valid (env : Env) (s : IStream) (v n t : Nat) (tag rest : List Nat)
    (hf : s.failed = false) (hp : s.pos = 0)
    (hd : s.data = [66, 84, 68, 88] ++ toLE 4 v ++ tag ++ toLE 4 n ++ toLE 8 t ++ rest)
    (hv : v < 2 ^ 32) (hn : n < 2 ^ 32) (ht : t < 2 ^ 64)
    (htag : tag = [71, 78, 82, 76] ∨ tag = [68, 88, 49, 48]) :
    readHeader env s =
      (Res.ok { version := v, type := if tag = [71, 78, 82, 76] then TYPE_GENERAL else TYPE_DX10,
                fileCount := n, offsetNameTable := t },
       { s with pos := 24, failed := false }) :=
  readHeader_of_bytes env s v n t tag rest hf hp hd hv hn ht htag

/-- Witness for C3: the header of a DX10 archive with version 1, 3 files and
the name table at offset 4096. -/
theorem readHeader_valid_witness :
    readHeader sampleEnv (IStream.ofData (sampleHeader [68, 88, 49, 48] 3 4096 ++ [1, 2, 3])) =
      (Res.ok { version := 1, type := TYPE_DX10, fileCount := 3, offsetNameTable := 4096 },
       { isOpen := true, data := sampleHeader [68, 88, 49, 48] 3 4096 ++ [1, 2, 3], pos := 24,
         failed := false }) :=
  readHeader_valid sampleEnv
    (IStream.ofData (sampleHeader [68, 88, 49, 48] 3 4096 ++ [1, 2, 3])) 1 3 4096
    [68, 88, 49, 48] [1, 2, 3] rfl rfl rfl (by decide) (by decide) (by decide) (Or.inr rfl)

theorem strncmp4_eq_zero (b0 b1 b2 b3 c0 c1 c2 c3 : Nat) (h0 : c0 ≠ 0) (h1 : c1 ≠ 0)
    (h2 : c2 ≠ 0) :
    strncmp [b0, b1, b2, b3, 0] [c0, c1, c2, c3, 0] 4 = 0 ↔
      b0 = c0 ∧ b1 = c1 ∧ b2 = c2 ∧ b3 = c3 := by
  simp only [strncmp, List.headD_cons, List.tail_cons]
  by_cases e0 : b0 = c0
  · by_cases e1 : b1 = c1
    · by_cases e2 : b2 = c2
      · by_cases e3 : b3 = c3
        · subst e0 e1 e2 e3; simp
        · simp [e0, e1, e2, e3, h0, h1, h2]; omega
      · simp [e0, e1, e2, h0, h1]; omega
    · simp [e0, e1, h0]; omega
  · simp [e0]; omega

theorem memcmp4_eq_zero (b0 b1 b2 b3 c0 c1 c2 c3 : Nat) (t u : List Nat) :
    memcmp (b0 :: b1 :: b2 :: b3 :: t) (c0 :: c1 :: c2 :: c3 :: u) 4 = 0 ↔
      b0 = c0 ∧ b1 = c1 ∧ b2 = c2 ∧ b3 = c3 := by
  simp only [memcmp, List.headD_cons, List.tail_cons]
  by_cases e0 : b0 = c0
  · by_cases e1 : b1 = c1
    · by_cases e2 : b2 = c2
      · by_cases e3 : b3 = c3
        · subst e0 e1 e2 e3; simp
        · simp [e0, e1, e2, e3]; omega
      · simp [e0, e1, e2]; omega
    · simp [e0, e1]; omega
  · simp [e0]; omega

theorem typeFromID_cases (b0 b1 b2 b3 : Nat) :
    typeFromID [b0, b1, b2, b3, 0] =
      if [b0, b1, b2, b3] = [71, 78, 82, 76] then Res.ok TYPE_GENERAL
      else if [b0, b1, b2, b3] = [68, 88, 49, 48] then Res.ok TYPE_DX10
      else Res.throw Exn.invalidType := by
  unfold typeFromID lit_GNRL lit_DX10
  have hG := strncmp4_eq_zero b0 b1 b2 b3 71 78 82 76 (by decide) (by decide) (by decide)
  have hD := strncmp4_eq_zero b0 b1 b2 b3 68 88 49 48 (by decide) (by decide) (by decide)
  simp only [hG, hD, List.cons.injEq, and_true]

/-- What `Archive::read` does when `readHeader` throws. -/
theorem Archive.read_of_header_throw (env : Env) (a : Archive) (e : Exn)
    (ho : a.m_File.isOpen = true) (h : (readHeader env a.m_File).1 = Res.throw e) :
    Archive.read env a =
      some (Res.ok ERROR_INVALIDDATA, { a with m_File := (readHeader env a.m_File).2 }) := by
  unfold Archive.read
  rw [ho]
  rcases hr : readHeader env a.m_File with ⟨r, s⟩
  rw [hr] at h
  simp only at h
  subst h
  simp

/-- On a stream of four bytes or more, the magic check of `readHeader` decides. -/
theorem readHeader_magic_mismatch (env : Env) (s : IStream) (hf : s.failed = false)
    (hp : s.pos = 0) (hl : 4 ≤ s.data.length) (hm : s.data.take 4 ≠ [66, 84, 68, 88]) :
    (readHeader env s).1 = Res.throw Exn.notBa2 := by
  obtain ⟨o, d, p, f⟩ := s
  simp only at hf hp hl hm
  subst hf hp
  match d, hl, hm with
  | b0 :: b1 :: b2 :: b3 :: t, _, hm =>
    have r1 := IStream.read_of_drop ⟨o, b0 :: b1 :: b2 :: b3 :: t, 0, false⟩ 4
      [b0, b1, b2, b3] t rfl (by simp) rfl
    unfold readHeader
    rw [r1]
    dsimp only
    have hne : memcmp (overlay [b0, b1, b2, b3] (env.uninit 4)) lit_BTDX 4 ≠ 0 := by
      have := memcmp4_eq_zero b0 b1 b2 b3 66 84 68 88 (List.drop 4 (env.uninit 4)) [0]
      simp only [overlay, lit_BTDX, List.length_cons, List.length_nil, List.cons_append,
        List.nil_append]
      rw [Ne, this]
      intro h
      apply hm
      simp [h]
    rw [if_pos hne]

/-- On a stream shorter than four bytes `readHeader` throws. -/
theorem readHeader_short (env : Env) (s : IStream) (hf : s.failed = false)
    (hp : s.pos = 0) (hl : s.data.length < 4) :
    (readHeader env s).1 = Res.throw Exn.notBa2 ∨
      (readHeader env s).1 = Res.throw Exn.cantRead := by
  have r1 : s.read 4 = (s.data, { s with pos := s.data.length, failed := true }) := by
    have : s.data.length ≠ 4 := by omega
    simp [IStream.read, hf, hp, slice, List.take_of_length_le (Nat.le_of_lt hl), this]
  unfold readHeader
  rw [r1]
  dsimp only
  by_cases hm : memcmp (overlay s.data (env.uninit 4)) lit_BTDX 4 ≠ 0
  · rw [if_pos hm]; exact Or.inl rfl
  · rw [if_neg hm, readType_of_failed _ _ rfl]; exact Or.inr rfl

/-- Decoding of a header whose tag is neither "GNRL" nor "DX10". -/
theorem readHeader_tag_throw (env : Env) (s : IStream) (vb rest : List Nat)
    (b0 b1 b2 b3 : Nat) (hf : s.failed = false) (hp : s.pos = 0) (hvb : vb.length = 4)
    (hd : s.data = [66, 84, 68, 88] ++ vb ++ [b0, b1, b2, b3] ++ rest)
    (hG : [b0, b1, b2, b3] ≠ [71, 78, 82, 76]) (hD : [b0, b1, b2, b3] ≠ [68, 88, 49, 48]) :
    (readHeader env s).1 = Res.throw Exn.invalidType := by
  obtain ⟨o, d, p, f⟩ := s
  simp only at hf hp hd
  subst hf hp hd
  have r1 := IStream.read_of_drop
    ⟨o, [66, 84, 68, 88] ++ vb ++ [b0, b1, b2, b3] ++ rest, 0, false⟩ 4
    [66, 84, 68, 88] (vb ++ [b0, b1, b2, b3] ++ rest) rfl (by simp) rfl
  have r2 := readType_of_drop
    ⟨o, [66, 84, 68, 88] ++ vb ++ [b0, b1, b2, b3] ++ rest, 4, false⟩ 4
    vb ([b0, b1, b2, b3] ++ rest) rfl (by simp) hvb
  have r3 := IStream.read_of_drop
    ⟨o, [66, 84, 68, 88] ++ vb ++ [b0, b1, b2, b3] ++ rest, 8, false⟩ 4
    [b0, b1, b2, b3] rest rfl
    (by
      have : ([66, 84, 68, 88] ++ vb ++ [b0, b1, b2, b3] ++ rest)
          = ([66, 84, 68, 88] ++ vb) ++ ([b0, b1, b2, b3] ++ rest) := by
        simp
      rw [this, List.drop_left' (by simp [hvb])]) rfl
  simp only [Nat.zero_add, Nat.reduceAdd] at r1 r2 r3
  have hm : ∀ l, memcmp (overlay [66, 84, 68, 88] l) lit_BTDX 4 = 0 := by
    intro l; simp [overlay, memcmp, lit_BTDX]
  have ht : ∀ l,
      typeFromID ((overlay [b0, b1, b2, b3] l).take 4 ++ [0]) = Res.throw Exn.invalidType := by
    intro l
    have : (overlay [b0, b1, b2, b3] l).take 4 ++ [0] = [b0, b1, b2, b3, 0] := by
      simp [overlay]
    rw [this, typeFromID_cases, if_neg hG, if_neg hD]
  unfold readHeader
  rw [r1]
  dsimp only
  rw [hm, if_neg (by simp), r2]
  dsimp only
  rw [r3]
  dsimp only
  rw [ht]

/-- C4 (amended). For every stream whose first four bytes are not exactly
"BTDX", shorter streams included: `readHeader` throws a
`data_invalid_exception`, which is the bad-magic one ("not a ba2 file")
whenever the stream holds four bytes or more, and otherwise either that one
or "can't read from ba2"; `Archive::read` then returns `ERROR_INVALIDDATA`
and leaves the records, the textures, the names and the header of the
archive object as they were. -/
theorem readHeader_bad_magic (env : Env) (a : Archive) (ho : a.m_File.isOpen = true)
    (hf : a.m_File.failed = false) (hp : a.m_File.pos = 0)
    (hm : a.m_File.data.take 4 ≠ [66, 84, 68, 88]) :
    (4 ≤ a.m_File.data.length → (readHeader env a.m_File).1 = Res.throw Exn.notBa2) ∧
    ((readHeader env a.m_File).1 = Res.throw Exn.notBa2 ∨
      (readHeader env a.m_File).1 = Res.throw Exn.cantRead) ∧
    ∃ a', Archive.read env a = some (Res.ok ERROR_INVALIDDATA, a') ∧
      a'.m_Files = a.m_Files ∧ a'.m_Textures = a.m_Textures ∧
      a'.m_TableNames = a.m_TableNames ∧ a'.m_Header = a.m_Header ∧ a'.m_Type = a.m_Type := by
  have h2 : (readHeader env a.m_File).1 = Res.throw Exn.notBa2 ∨
      (readHeader env a.m_File).1 = Res.throw Exn.cantRead := by
    by_cases hl : 4 ≤ a.m_File.data.length
    · exact Or.inl (readHeader_magic_mismatch env _ hf hp hl hm)
    · exact readHeader_short env _ hf hp (by omega)
  refine ⟨fun hl => readHeader_magic_mismatch env _ hf hp hl hm, h2, ?_⟩
  rcases h2 with h | h
  · exact ⟨_, Archive.read_of_header_throw env a _ ho h, rfl, rfl, rfl, rfl, rfl⟩
  · exact ⟨_, Archive.read_of_header_throw env a _ ho h, rfl, rfl, rfl, rfl, rfl⟩

/-- Witness for C4: the stream "BTDY" followed by one byte. -/
theorem readHeader_bad_magic_witness :
    (readHeader sampleEnv (IStream.ofData [66, 84, 68, 89, 7])).1 = Res.throw Exn.notBa2 ∧
    ∃ a', Archive.read sampleEnv
        { sampleArchive with m_File := IStream.ofData [66, 84, 68, 89, 7] } =
          some (Res.ok ERROR_INVALIDDATA, a') ∧ a'.m_Files = [] ∧ a'.m_TableNames = [] :=
  have h := readHeader_bad_magic sampleEnv
    { sampleArchive with m_File := IStream.ofData [66, 84, 68, 89, 7] } rfl rfl rfl (by decide)
  ⟨h.1 (by decide), h.2.2.imp fun _ h' => ⟨h'.1, h'.2.1, h'.2.2.2.1⟩⟩

/-- Counterexample for C4 as stated: on the three-byte stream "BTD", when the
byte left in the uninitialised fourth position of the magic buffer is 'X',
the magic check passes and `readHeader` fails with "can't read from ba2",
not with the bad-magic error. -/
theorem readHeader_bad_magic_counterexample :
    (IStream.ofData [66, 84, 68]).data.take 4 ≠ [66, 84, 68, 88] ∧
    (readHeader sampleEnvX (IStream.ofData [66, 84, 68])).1 = Res.throw Exn.cantRead ∧
    (readHeader sampleEnvX (IStream.ofData [66, 84, 68])).1 ≠ Res.throw Exn.notBa2 := by
  decide

/-- C5. `typeFromID` returns `TYPE_GENERAL` exactly for the four tag bytes
"GNRL", `TYPE_DX10` exactly for "DX10", and throws for every other four
bytes; a header with any other tag (after the magic and any version) makes
`readHeader` throw. -/
theorem typeFromID_exact (b0 b1 b2 b3 : Nat) :
    (typeFromID [b0, b1, b2, b3, 0] = Res.ok TYPE_GENERAL ↔
      [b0, b1, b2, b3] = [71, 78, 82, 76]) ∧
    (typeFromID [b0, b1, b2, b3, 0] = Res.ok TYPE_DX10 ↔
      [b0, b1, b2, b3] = [68, 88, 49, 48]) ∧
    ([b0, b1, b2, b3] ≠ [71, 78, 82, 76] → [b0, b1, b2, b3] ≠ [68, 88, 49, 48] →
      typeFromID [b0, b1, b2, b3, 0] = Res.throw Exn.invalidType ∧
      ∀ (env : Env) (s : IStream) (vb rest : List Nat), s.failed = false → s.pos = 0 →
        vb.length = 4 → s.data = [66, 84, 68, 88] ++ vb ++ [b0, b1, b2, b3] ++ rest →
        (readHeader env s).1 = Res.throw Exn.invalidType) := by
  rw [typeFromID_cases]
  refine ⟨?_, ?_, ?_⟩
  · by_cases hG : [b0, b1, b2, b3] = [71, 78, 82, 76]
    · simp [hG]
    · by_cases hD : [b0, b1, b2, b3] = [68, 88, 49, 48]
      · rw [if_neg hG, if_pos hD]; simp [hG]
      · rw [if_neg hG, if_neg hD]; simp [hG]
  · by_cases hG : [b0, b1, b2, b3] = [71, 78, 82, 76]
    · rw [if_pos hG]
      simp only [List.cons.injEq, and_true] at hG
      simp [hG]
    · by_cases hD : [b0, b1, b2, b3] = [68, 88, 49, 48]
      · rw [if_neg hG, if_pos hD]; simp [hD]
      · rw [if_neg hG, if_neg hD]; simp [hD]
  · intro hG hD
    refine ⟨by rw [if_neg hG, if_neg hD], ?_⟩
    intro env s vb rest hf hp hvb hd
    exact readHeader_tag_throw env s vb rest b0 b1 b2 b3 hf hp hvb hd hG hD

/-- Witness for C5: the tag "gnrl", which differs from "GNRL" in letter case
only, and the tag 'G', 'N', NUL, NUL. -/
theorem typeFromID_exact_witness :
    (typeFromID [103, 110, 114, 108, 0] = Res.throw Exn.invalidType ∧
      (readHeader sampleEnv (IStream.ofData (sampleHeader [103, 110, 114, 108] 1 60))).1 =
        Res.throw Exn.invalidType) ∧
    typeFromID [71, 78, 0, 0, 0] = Res.throw Exn.invalidType :=
  ⟨⟨((typeFromID_exact 103 110 114 108).2.2 (by decide) (by decide)).1,
    ((typeFromID_exact 103 110 114 108).2.2 (by decide) (by decide)).2 sampleEnv
      (IStream.ofData (sampleHeader [103, 110, 114, 108] 1 60)) (toLE 4 1)
      (toLE 4 1 ++ toLE 8 60) rfl rfl rfl (by simp [IStream.ofData, sampleHeader])⟩,
   ((typeFromID_exact 71 78 0 0).2.2 (by decide) (by decide)).1⟩

/-! ## The record tables -/

theorem slice_length (buf : List Nat) (off n : Nat) (h : off + n ≤ buf.length) :
    (slice buf off n).length = n := by
  simp [slice]; omega

theorem slice_slice (buf : List Nat) (off n k m : Nat) (h : k + m ≤ n) :
    slice (slice buf off n) k m = slice buf (off + k) m := by
  simp only [slice, List.drop_take, List.take_take, List.drop_drop]
  rw [Nat.min_eq_left (by omega), Nat.add_comm]

theorem overlay_of_length (got old : List Nat) (h : old.length ≤ got.length) :
    overlay got old = got := by
  simp [overlay, List.drop_eq_nil_of_le h]

/-- A read that stays within the file. -/
theorem IStream.read_of_fits (s : IStream) (n : Nat) (hf : s.failed = false)
    (h : s.pos + n ≤ s.data.length) :
    s.read n = (slice s.data s.pos n, { s with pos := s.pos + n, failed := false }) := by
  have hl := slice_length s.data s.pos n h
  simp [IStream.read, hf, hl]

theorem fileEntry_toBytes_length (env : Env) (e : FileEntry) (hS : 36 ≤ env.sizeofFileEntry) :
    (FileEntry.toBytes env e).length = env.sizeofFileEntry := by
  simp [FileEntry.toBytes, toLE_length]; omega

theorem filesMem_length (env : Env) (v : List FileEntry) (hS : 36 ≤ env.sizeofFileEntry) :
    (filesMem env v).length = env.sizeofFileEntry * v.length := by
  induction v with
  | nil => simp [filesMem]
  | cons e es ih =>
    simp only [filesMem, List.map_cons, List.flatten_cons, List.length_append,
      List.length_cons] at ih ⊢
    rw [ih, fileEntry_toBytes_length env e hS, Nat.mul_succ]; omega

theorem resize_length {α : Type} (v : List α) (n : Nat) (z : α) : (resize v n z).length = n := by
  simp [resize]; omega

theorem readGeneral_of_fits (env : Env) (a : Archive) (hS : 36 ≤ env.sizeofFileEntry)
    (hf : a.m_File.failed = false)
    (hfit : a.m_File.pos + env.sizeofFileEntry * a.m_Header.fileCount ≤ a.m_File.data.length) :
    readGeneral env a =
      (true, { a with
        m_File := { a.m_File with
          pos := a.m_File.pos + env.sizeofFileEntry * a.m_Header.fileCount }
        m_Files := decodeFiles env a.m_Header.fileCount
          (slice a.m_File.data a.m_File.pos (env.sizeofFileEntry * a.m_Header.fileCount)) }) := by
  unfold readGeneral
  by_cases hn : a.m_Header.fileCount = 0
  · simp [hn, resize, decodeFiles]
  · rw [if_pos hn, IStream.read_of_fits _ _ hf hfit]
    dsimp only
    rw [overlay_of_length]
    · simp [← hf]
    · rw [filesMem_length env _ hS, resize_length, slice_length _ _ _ hfit]

theorem decodeFiles_getElem? (env : Env) (n : Nat) (mem : List Nat) (i : Nat) (hi : i < n) :
    (decodeFiles env n mem)[i]? =
      some (FileEntry.ofBytes (slice mem (env.sizeofFileEntry * i) env.sizeofFileEntry)) := by
  simp [decodeFiles, List.getElem?_map, List.getElem?_range hi]

theorem textureStart_succ_left (data : List Nat) (start i : Nat) :
    textureStart data start (i + 1) =
      textureStart data (start + 24 + 24 * numChunksAt data start) i := by
  induction i with
  | zero => rfl
  | succ k ih =>
    rw [textureStart, ih]
    rfl

theorem textureStart_mono (data : List Nat) (start : Nat) {i j : Nat} (h : i ≤ j) :
    textureStart data start i ≤ textureStart data start j := by
  induction j with
  | zero => simp at h; subst h; exact Nat.le_refl _
  | succ k ih =>
    rcases Nat.lt_or_ge i (k + 1) with h1 | h1
    · have := ih (by omega)
      simp only [textureStart]; omega
    · have : i = k + 1 := by omega
      subst this; exact Nat.le_refl _

theorem fileEntryDX10_toBytes_length (e : FileEntry_DX10) : e.toBytes.length = 24 := by
  simp [FileEntry_DX10.toBytes, toLE_length]

theorem dx10Chunk_toBytes_length (c : DX10Chunk) : c.toBytes.length = 24 := by
  simp [DX10Chunk.toBytes, toLE_length]

theorem chunksMem_length (v : List DX10Chunk) : (chunksMem v).length = 24 * v.length := by
  induction v with
  | nil => simp [chunksMem]
  | cons e es ih =>
    simp only [chunksMem, List.map_cons, List.flatten_cons, List.length_append,
      List.length_cons] at ih ⊢
    rw [ih, dx10Chunk_toBytes_length]; omega

/-- The loop of `readDX10` on a stream that holds the whole table. -/
theorem readDX10Loop_of_fits (ts : List Texture) (s : IStream) (hf : s.failed = false)
    (hfit : textureStart s.data s.pos ts.length ≤ s.data.length) :
    readDX10Loop ts s =
      ((List.range ts.length).map (fun i => textureAt s.data (textureStart s.data s.pos i)),
       { s with pos := textureStart s.data s.pos ts.length }) := by
  induction ts generalizing s with
  | nil => simp [readDX10Loop, textureStart]
  | cons t ts ih =>
    obtain ⟨o, d, p, f⟩ := s
    simp only at hf hfit ⊢
    subst hf
    have h1 : textureStart d p 1 ≤ d.length :=
      Nat.le_trans (textureStart_mono d p (by simp)) hfit
    simp only [textureStart] at h1
    have r1 := IStream.read_of_fits ⟨o, d, p, false⟩ 24 rfl (by simp only; omega)
    have hov : overlay (slice d p 24) t.texhdr.toBytes = slice d p 24 :=
      overlay_of_length _ _ (by
        rw [fileEntryDX10_toBytes_length, slice_length _ _ _ (by omega)])
    have r2 := IStream.read_of_fits ⟨o, d, p + 24, false⟩
      (24 * numChunksAt d p) rfl (by simp only; omega)
    have hov2 : overlay (slice d (p + 24) (24 * numChunksAt d p))
        (chunksMem (resize t.texchunks (numChunksAt d p) DX10Chunk.zero))
        = slice d (p + 24) (24 * numChunksAt d p) :=
      overlay_of_length _ _ (by
        rw [chunksMem_length, resize_length, slice_length _ _ _ (by omega)])
    simp only at r1 r2
    have ih' := ih ⟨o, d, p + 24 + 24 * numChunksAt d p, false⟩ rfl (by
      simp only
      rw [← textureStart_succ_left]
      exact hfit)
    simp only at ih'
    have hnc : (FileEntry_DX10.ofBytes (slice d p 24)).numChunks = numChunksAt d p := rfl
    unfold readDX10Loop
    rw [r1]
    dsimp only
    rw [hov, hnc, r2]
    dsimp only
    rw [hov2]
    simp only [List.length_cons, List.range_succ_eq_map, List.map_cons, List.map_map]
    by_cases h0 : numChunksAt d p = 0
    · simp only [h0, ne_eq, not_true_eq_false, if_false]
      rw [h0] at ih'
      simp only [Nat.mul_zero, Nat.add_zero] at ih'
      rw [ih']
      refine Prod.ext ?_ ?_
      · simp only [textureStart, textureAt, h0, resize, decodeChunks]
        simp [textureStart_succ_left, h0, Function.comp_def]
      · simp [textureStart_succ_left, h0]
    · simp only [ne_eq, h0, not_false_eq_true, if_true]
      rw [ih']
      refine Prod.ext ?_ ?_
      · simp only [textureStart, textureAt]
        simp [textureStart_succ_left, Function.comp_def]
      · simp [textureStart_succ_left]

theorem textureStart_eq_sum (data : List Nat) (start n : Nat) :
    textureStart data start n =
      start + ((List.range n).map
        ((fun t : Texture => 24 + 24 * t.texhdr.numChunks) ∘
          (fun i => textureAt data (textureStart data start i)))).sum := by
  induction n with
  | zero => simp [textureStart]
  | succ k ih =>
    rw [List.range_succ, List.map_append, List.sum_append, textureStart, ih]
    simp only [List.map_cons, List.map_nil, List.sum_cons, List.sum_nil, Function.comp_apply,
      Nat.add_zero]
    have : (textureAt data (textureStart data start k)).texhdr.numChunks
        = numChunksAt data (textureStart data start k) := rfl
    rw [this, ← ih]
    omega

/-- The General record table, whatever the size of a `FileEntry` object. For
every count `n` (`n = 0` included, where the stream is left as it was and the
result is empty) and every good stream holding at least
`sizeof(FileEntry) * n` bytes from the cursor on, `readGeneral` consumes
exactly `sizeof(FileEntry) * n` bytes and yields `n` records in file order,
record `i` being the object laid over the bytes at `sizeof(FileEntry) * i`:
name hash at +0x00, extension at +0x04, directory hash at +0x08, flags at
+0x0C, 64-bit offset at +0x10, packed length at +0x18, unpacked length at
+0x1C and the last field at +0x20. -/
theorem readGeneral_table (env : Env) (a : Archive) (hS : 36 ≤ env.sizeofFileEntry)
    (hf : a.m_File.failed = false)
    (hfit : a.m_File.pos + env.sizeofFileEntry * a.m_Header.fileCount ≤ a.m_File.data.length) :
    (readGeneral env a).1 = true ∧
    (readGeneral env a).2.m_File =
      { a.m_File with pos := a.m_File.pos + env.sizeofFileEntry * a.m_Header.fileCount } ∧
    (a.m_Header.fileCount = 0 →
      (readGeneral env a).2.m_File = a.m_File ∧ (readGeneral env a).2.m_Files = []) ∧
    (readGeneral env a).2.m_Files.length = a.m_Header.fileCount ∧
    ∀ i, i < a.m_Header.fileCount →
      ∃ e, (readGeneral env a).2.m_Files[i]? = some e ∧
        e.unk00 = fromLE (slice a.m_File.data (a.m_File.pos + env.sizeofFileEntry * i + 0x00) 4) ∧
        e.ext = slice a.m_File.data (a.m_File.pos + env.sizeofFileEntry * i + 0x04) 4 ∧
        e.unk08 = fromLE (slice a.m_File.data (a.m_File.pos + env.sizeofFileEntry * i + 0x08) 4) ∧
        e.unk0C = fromLE (slice a.m_File.data (a.m_File.pos + env.sizeofFileEntry * i + 0x0C) 4) ∧
        e.offset = fromLE (slice a.m_File.data (a.m_File.pos + env.sizeofFileEntry * i + 0x10) 8) ∧
        e.packedLen =
          fromLE (slice a.m_File.data (a.m_File.pos + env.sizeofFileEntry * i + 0x18) 4) ∧
        e.unpackedLen =
          fromLE (slice a.m_File.data (a.m_File.pos + env.sizeofFileEntry * i + 0x1C) 4) ∧
        e.unk20 = fromLE (slice a.m_File.data (a.m_File.pos + env.sizeofFileEntry * i + 0x20) 4) := by
  rw [readGeneral_of_fits env a hS hf hfit]
  refine ⟨rfl, rfl, ?_, ?_, ?_⟩
  · intro h0
    simp [h0, decodeFiles]
  · simp [decodeFiles]
  · intro i hi
    refine ⟨_, decodeFiles_getElem? env _ _ i hi, ?_⟩
    have hin : env.sizeofFileEntry * i + env.sizeofFileEntry
        ≤ env.sizeofFileEntry * a.m_Header.fileCount := by
      calc env.sizeofFileEntry * i + env.sizeofFileEntry
          = env.sizeofFileEntry * (i + 1) := by rw [Nat.mul_succ]
        _ ≤ env.sizeofFileEntry * a.m_Header.fileCount := Nat.mul_le_mul_left _ hi
    rw [slice_slice _ _ _ _ _ hin]
    simp only [FileEntry.ofBytes]
    rw [slice_slice _ _ _ _ _ (by omega), slice_slice _ _ _ _ _ (by omega),
      slice_slice _ _ _ _ _ (by omega), slice_slice _ _ _ _ _ (by omega),
      slice_slice _ _ _ _ _ (by omega), slice_slice _ _ _ _ _ (by omega),
      slice_slice _ _ _ _ _ (by omega), slice_slice _ _ _ _ _ (by omega)]
    exact ⟨rfl, rfl, rfl, rfl, rfl, rfl, rfl, rfl⟩

/-- The two records of `sampleTwoFiles`, read where a `FileEntry` has no tail
padding: 36 * 2 bytes are consumed. -/
theorem readGeneral_table_witness :
    (readGeneral sampleEnv sampleTwoFilesAtTable).2.m_File =
      { sampleTwoFilesAtTable.m_File with pos := 24 + 36 * 2 } ∧
    (readGeneral sampleEnv sampleTwoFilesAtTable).2.m_Files.length = 2 :=
  have h := readGeneral_table sampleEnv sampleTwoFilesAtTable (by decide) rfl (by decide)
  ⟨h.2.1, h.2.2.2.1⟩

/-- C6 (what the sources do). The 64-bit member `offset` gives `FileEntry` an
alignment of 8 bytes, so that, no packing being requested, an object takes 40
bytes, the 36 bytes of its fields and 4 bytes of padding.  Reading the two
records of `sampleTwoFiles` then consumes 80 bytes, not 36 * 2, and the
second record is not decoded from the 36 bytes at 36 * 1 of the table: its
name hash is the number held by the four bytes at 40 of the table, the
extension of the second record in the file, not the name hash 2 held at 36. -/
theorem readGeneral_padded_stride :
    (readGeneral sampleEnv40 sampleTwoFilesAtTable).2.m_File.pos = 24 + 80 ∧
    (readGeneral sampleEnv40 sampleTwoFilesAtTable).2.m_File.pos ≠ 24 + 36 * 2 ∧
    (readGeneral sampleEnv40 sampleTwoFilesAtTable).2.m_Files.map (fun e => e.unk00) =
      [1, 7633012] ∧
    fromLE (slice sampleTwoFiles (24 + 36 * 1 + 0x00) 4) = 2 ∧
    fromLE (slice sampleTwoFiles (24 + 40 * 1 + 0x00) 4) = 7633012 := by
  decide

/-- C7. For every count `n` and every good stream that holds the whole table,
`readDX10` yields exactly `n` textures in file order; texture `i` is the
24-byte header at its position followed by exactly `numChunks` chunk records
of 24 bytes (none when `numChunks` is 0), texture `i + 1` starts right after
the last chunk of texture `i`, and the number of bytes consumed is the sum of
`24 + 24 * numChunks` over the textures. -/
theorem readDX10_table (a : Archive) (hf : a.m_File.failed = false)
    (hfit : textureStart a.m_File.data a.m_File.pos a.m_Header.fileCount
      ≤ a.m_File.data.length) :
    (readDX10 a).1 = true ∧
    (readDX10 a).2.m_File =
      { a.m_File with pos := textureStart a.m_File.data a.m_File.pos a.m_Header.fileCount } ∧
    (readDX10 a).2.m_Textures.length = a.m_Header.fileCount ∧
    (readDX10 a).2.m_File.pos =
      a.m_File.pos + ((readDX10 a).2.m_Textures.map
        (fun t => 24 + 24 * t.texhdr.numChunks)).sum ∧
    ∀ i, i < a.m_Header.fileCount →
      ∃ t, (readDX10 a).2.m_Textures[i]? = some t ∧
        t.texhdr = FileEntry_DX10.ofBytes
          (slice a.m_File.data (textureStart a.m_File.data a.m_File.pos i) 24) ∧
        t.texchunks.length = t.texhdr.numChunks ∧
        (∀ j, j < t.texhdr.numChunks →
          t.texchunks[j]? = some (DX10Chunk.ofBytes
            (slice a.m_File.data (textureStart a.m_File.data a.m_File.pos i + 24 + 24 * j) 24))) ∧
        textureStart a.m_File.data a.m_File.pos (i + 1) =
          textureStart a.m_File.data a.m_File.pos i + 24 + 24 * t.texhdr.numChunks := by
  have hl := resize_length a.m_Textures a.m_Header.fileCount Texture.zero
  have h := readDX10Loop_of_fits (resize a.m_Textures a.m_Header.fileCount Texture.zero)
    a.m_File hf (by rw [hl]; exact hfit)
  rw [hl] at h
  unfold readDX10
  rw [h]
  refine ⟨rfl, rfl, by simp, ?_, ?_⟩
  · simp only [List.map_map]
    exact textureStart_eq_sum a.m_File.data a.m_File.pos a.m_Header.fileCount
  · intro i hi
    refine ⟨textureAt a.m_File.data (textureStart a.m_File.data a.m_File.pos i), ?_, rfl, ?_,
      ?_, rfl⟩
    · simp [List.getElem?_map, List.getElem?_range hi]
    · simp [textureAt, decodeChunks, numChunksAt]
    · intro j hj
      have hj' : j < numChunksAt a.m_File.data (textureStart a.m_File.data a.m_File.pos i) := hj
      simp only [textureAt, decodeChunks, List.getElem?_map, List.getElem?_range hj',
        Option.map_some', Option.some.injEq]
      rw [slice_slice _ _ _ _ _ (by
        calc 24 * j + 24 = 24 * (j + 1) := by rw [Nat.mul_succ]
          _ ≤ _ := Nat.mul_le_mul_left _ hj')]

set_option maxRecDepth 100000 in
/-- Witness for C7: the two textures of `sampleDX10File`, with one chunk and
with none. -/
theorem readDX10_table_witness :
    (readDX10 sampleDX10AtTable).2.m_File.pos = 24 + ((24 + 24 * 1) + (24 + 24 * 0)) ∧
    (readDX10 sampleDX10AtTable).2.m_Textures.length = 2 :=
  have h := readDX10_table sampleDX10AtTable rfl (by decide)
  ⟨by rw [h.2.1]; rfl, h.2.2.1⟩

/-! ## The name table -/

theorem cstr_append_zero (nm rest : List Nat) (h : 0 ∉ nm) : cstr (nm ++ 0 :: rest) = nm := by
  induction nm with
  | nil => simp [cstr]
  | cons b bs ih =>
    simp only [List.mem_cons, not_or] at h
    have hb : b ≠ 0 := fun e => h.1 e.symm
    simp [cstr, hb, ih h.2]

theorem buffer_after_name (nm : List Nat) (buffer : Nat → Nat) :
    (List.range (nm.length + 1)).map (bufSet (bufStore nm buffer) nm.length 0) = nm ++ [0] := by
  apply List.ext_getElem
  · simp
  · intro i h1 h2
    simp only [List.getElem_map, List.getElem_range, bufSet, bufStore]
    simp only [List.length_map, List.length_range] at h1
    by_cases hi : i = nm.length
    · subst hi; simp
    · have hlt : i < nm.length := by omega
      simp [hi, hlt, List.getElem_append_left, List.getD_eq_getElem?_getD, List.getElem?_eq_getElem hlt]

theorem cstrBuf_after_name (nm : List Nat) (buffer : Nat → Nat) (h : 0 ∉ nm) :
    cstrBuf (bufSet (bufStore nm buffer) nm.length 0) (nm.length + 1) = nm := by
  rw [cstrBuf, buffer_after_name, cstr_append_zero nm [] h]

theorem toSizeT_natCast (n : Nat) (h : n < 2 ^ 64) : toSizeT (n : Int) = n := by
  unfold toSizeT
  have : ((n : Int) % (2 ^ 64 : Int)) = (n : Int) := Int.emod_eq_of_lt (by omega) (by exact_mod_cast h)
  rw [this]; simp

theorem toSizeT_neg_one : toSizeT (-1) = 2 ^ 64 - 1 := by decide

theorem encodeNames_cons (nm : List Nat) (names : List (List Nat)) :
    encodeNames (nm :: names) = toLE 2 nm.length ++ nm ++ encodeNames names := by
  simp [encodeNames]

theorem encodeNames_length_ge (names : List (List Nat)) :
    2 * names.length ≤ (encodeNames names).length := by
  induction names with
  | nil => simp [encodeNames]
  | cons nm names ih =>
    rw [encodeNames_cons]
    simp only [List.length_append, toLE_length, List.length_cons]
    omega

theorem drop_add_of_drop_eq (d : List Nat) (p : Nat) (xs rest : List Nat)
    (h : d.drop p = xs ++ rest) : d.drop (p + xs.length) = rest := by
  have := congrArg (List.drop xs.length) h
  rw [List.drop_drop, List.drop_left] at this
  exact this

/-- The loop of `readNametable` on the encoding of a list of names. -/
theorem readNametableLoop_of_encoded (names : List (List Nat)) (fuel : Nat) (s : IStream)
    (buffer : Nat → Nat) (acc : List (List Nat)) (stray : List Nat)
    (hf : s.failed = false) (hsz : s.data.length < 2 ^ 63) (hpos : s.pos ≤ s.data.length)
    (hd : s.data.drop s.pos = encodeNames names ++ stray) (hstray : stray.length < 2)
    (hn : ∀ nm ∈ names, nm.length < 65536 ∧ 0 ∉ nm) (hfuel : names.length < fuel) :
    readNametableLoop s.data.length fuel s buffer acc =
      some (Res.ok true, { s with pos := s.data.length - stray.length }, acc ++ names) := by
  induction names generalizing fuel s buffer acc with
  | nil =>
    obtain ⟨o, d, p, f⟩ := s
    simp only at hf hsz hpos hd ⊢
    subst hf
    match fuel, hfuel with
    | fuel + 1, _ =>
      have hlen : d.length - p = stray.length := by
        have := congrArg List.length hd
        simpa [encodeNames] using this
      have ht : toSizeT (IStream.tellg ⟨o, d, p, false⟩) = p := by
        simp only [IStream.tellg]
        exact toSizeT_natCast p (by omega)
      unfold readNametableLoop
      rw [ht]
      have hc : ¬ 2 ≤ (d.length + 2 ^ 64 - p) % 2 ^ 64 := by omega
      rw [if_neg hc]
      have : d.length - stray.length = p := by omega
      simp [this]
  | cons nm names ih =>
    obtain ⟨o, d, p, f⟩ := s
    simp only at hf hsz hpos hd ⊢
    subst hf
    match fuel, hfuel with
    | fuel + 1, hfuel =>
      have hnm := hn nm (List.mem_cons_self _ _)
      rw [encodeNames_cons] at hd
      have hlen : d.length - p = 2 + nm.length + (encodeNames names).length + stray.length := by
        have := congrArg List.length hd
        simp only [List.length_drop, List.length_append, toLE_length] at this
        omega
      have ht : toSizeT (IStream.tellg ⟨o, d, p, false⟩) = p := by
        simp only [IStream.tellg]
        exact toSizeT_natCast p (by omega)
      have hc : 2 ≤ (d.length + 2 ^ 64 - p) % 2 ^ 64 := by omega
      have r1 := readType_of_drop ⟨o, d, p, false⟩ 2 (toLE 2 nm.length)
        (nm ++ encodeNames names ++ stray) rfl (by simp only [hd]; simp) (toLE_length 2 _)
      have e1 := fromLE_toLE 2 nm.length (by norm_num; exact hnm.1)
      have hd2 : d.drop (p + 2) = nm ++ (encodeNames names ++ stray) := by
        have h2 : (toLE 2 nm.length ++ nm ++ encodeNames names ++ stray)
            = toLE 2 nm.length ++ (nm ++ (encodeNames names ++ stray)) := by simp
        have := drop_add_of_drop_eq d p _ _ (hd.trans h2)
        rwa [toLE_length] at this
      have r2 := IStream.read_of_drop ⟨o, d, p + 2, false⟩ nm.length nm
        (encodeNames names ++ stray) rfl hd2 rfl
      have hd3 : d.drop (p + 2 + nm.length) = encodeNames names ++ stray :=
        drop_add_of_drop_eq d (p + 2) _ _ hd2
      have ih' := ih fuel ⟨o, d, p + 2 + nm.length, false⟩
        (bufSet (bufStore nm buffer) nm.length 0) (acc ++ [nm]) rfl hsz
        (by simp only; omega) hd3 (fun x hx => hn x (List.mem_cons_of_mem _ hx))
        (by simp only [List.length_cons] at hfuel; omega)
      simp only at r1 r2 ih'
      unfold readNametableLoop
      rw [ht, if_pos hc, r1, e1]
      dsimp only
      rw [r2]
      dsimp only
      rw [cstrBuf_after_name nm buffer hnm.2, ih']
      simp

/-- Reading of a name table that is the encoding of a list of names. -/
theorem readNametable_of_encoded (env : Env) (a : Archive) (names : List (List Nat))
    (pre stray : List Nat) (hf : a.m_File.failed = false)
    (hd : a.m_File.data = pre ++ encodeNames names ++ stray)
    (hoff : a.m_Header.offsetNameTable = pre.length) (hstray : stray.length ≤ 1)
    (hsz : a.m_File.data.length < 2 ^ 63)
    (hn : ∀ nm ∈ names, nm.length < 65536 ∧ 0 ∉ nm) :
    readNametable env a =
      some (Res.ok true,
        { a with
          m_File := { a.m_File with pos := a.m_File.data.length - stray.length }
          m_TableNames := a.m_TableNames ++ names }) := by
  obtain ⟨⟨o, d, p, f⟩, fs, ts, tn, ty, h, u⟩ := a
  simp only at hf hd hoff hsz ⊢
  subst hf
  have hlen : d.length = pre.length + (encodeNames names).length + stray.length := by
    rw [hd]; simp [Nat.add_assoc]
  have hge := encodeNames_length_ge names
  have hloop := readNametableLoop_of_encoded names (d.length + 2) ⟨o, d, pre.length, false⟩
    (fun i => env.junk 0x10000 i % 256) tn stray rfl hsz (by simp only; omega)
    (by
      simp only
      rw [hd, List.append_assoc, List.drop_left]) (by omega) hn (by omega)
  simp only at hloop
  unfold readNametable
  have h1 : IStream.seekEnd ⟨o, d, p, false⟩ = ⟨o, d, d.length, false⟩ := by
    simp [IStream.seekEnd]
  have h2 : toSizeT (IStream.tellg ⟨o, d, d.length, false⟩) = d.length := by
    simp only [IStream.tellg]
    exact toSizeT_natCast _ (by omega)
  have h3 : IStream.seekg ⟨o, d, d.length, false⟩ h.offsetNameTable
      = ⟨o, d, pre.length, false⟩ := by
    have hm : pre.length % 2 ^ 64 = pre.length := Nat.mod_eq_of_lt (by omega)
    have hlt : ¬ 2 ^ 63 ≤ pre.length := by omega
    simp only [IStream.seekg, hoff, hm, hlt]
    simp
  dsimp only
  rw [h1, h2, h3, hloop]
  simp

/-- C8 (amended). Round trip of the name table: for every list of names, each
shorter than 65536 bytes and without a NUL byte, `readNametable` applied
to a good stream (shorter than 2^63 bytes) whose tail from the name table
offset is the concatenation of length and bytes of each name, optionally
followed by one stray byte, returns `true` and appends exactly that list, in
the same order, to the names of the archive object (an object that holds no
names yet ends with exactly that list). -/
theorem readNametable_roundtrip (env : Env) (a : Archive) (names : List (List Nat))
    (pre stray : List Nat) (hf : a.m_File.failed = false)
    (hd : a.m_File.data = pre ++ encodeNames names ++ stray)
    (hoff : a.m_Header.offsetNameTable = pre.length) (hstray : stray.length ≤ 1)
    (hsz : a.m_File.data.length < 2 ^ 63)
    (hn : ∀ nm ∈ names, nm.length < 65536 ∧ 0 ∉ nm) :
    readNametable env a =
      some (Res.ok true,
        { a with
          m_File := { a.m_File with pos := a.m_File.data.length - stray.length }
          m_TableNames := a.m_TableNames ++ names }) :=
  readNametable_of_encoded env a names pre stray hf hd hoff hstray hsz hn

/-- Witness for C8 (amended): the names "a" and "bc" after three other bytes,
followed by a stray byte. -/
theorem readNametable_roundtrip_witness :
    readNametable sampleEnv (sampleAtNames ([1, 2, 3] ++ encodeNames [[97], [98, 99]] ++ [7])) =
      some (Res.ok true,
        { sampleAtNames ([1, 2, 3] ++ encodeNames [[97], [98, 99]] ++ [7]) with
          m_File :=
            { IStream.ofData ([1, 2, 3] ++ encodeNames [[97], [98, 99]] ++ [7]) with pos := 10 }
          m_TableNames := [[97], [98, 99]] }) :=
  readNametable_roundtrip sampleEnv
    (sampleAtNames ([1, 2, 3] ++ encodeNames [[97], [98, 99]] ++ [7])) [[97], [98, 99]]
    [1, 2, 3] [7] rfl rfl rfl (by decide) (by decide) (by decide)

/-- Counterexample for C8 as stated: the name 'a', NUL, 'b' is shorter than
65536 bytes, and the table that holds it is read back as the name "a". -/
theorem readNametable_roundtrip_counterexample :
    (readNametable sampleEnv (sampleAtNames ([1, 2, 3] ++ encodeNames [[97, 0, 98]]))).map
        (fun r => (r.1, r.2.m_TableNames)) = some (Res.ok true, [[97]]) ∧
    [[97]] ≠ [[97, 0, 98]] := by
  decide

/-! ## Reading a whole archive -/

/-- On a stream that has failed `readNametable` reads nothing and returns
`true`. -/
theorem readNametable_of_failed (env : Env) (a : Archive) (hf : a.m_File.failed = true) :
    readNametable env a = some (Res.ok true, a) := by
  obtain ⟨⟨o, d, p, f⟩, fs, ts, tn, ty, h, u⟩ := a
  simp only at hf
  subst hf
  have h1 : IStream.seekEnd ⟨o, d, p, true⟩ = ⟨o, d, p, true⟩ := by simp [IStream.seekEnd]
  have h2 : IStream.seekg ⟨o, d, p, true⟩ h.offsetNameTable = ⟨o, d, p, true⟩ := by
    simp [IStream.seekg]
  have h3 : IStream.tellg ⟨o, d, p, true⟩ = -1 := by simp [IStream.tellg]
  unfold readNametable
  dsimp only
  rw [h1, h2, h3, toSizeT_neg_one]
  unfold readNametableLoop
  rw [h3, toSizeT_neg_one]
  have hc : ¬ 2 ≤ (2 ^ 64 - 1 + 2 ^ 64 - (2 ^ 64 - 1)) % 2 ^ 64 := by decide
  rw [if_neg hc]
  simp

/-- What `Archive::read` does after `readHeader` has returned a header. -/
theorem Archive.read_of_header (env : Env) (a : Archive) (h : Header) (s : IStream)
    (ho : a.m_File.isOpen = true) (hr : readHeader env a.m_File = (Res.ok h, s)) :
    Archive.read env a =
      match readNametable env
        (if h.type = TYPE_GENERAL then
          readGeneral env { a with m_File := s, m_Header := h, m_Type := h.type }
        else if h.type = TYPE_DX10 then
          readDX10 { a with m_File := s, m_Header := h, m_Type := h.type }
        else (true, { a with m_File := s, m_Header := h, m_Type := h.type })).2 with
      | none => none
      | some (Res.throw e, a3) => some (Res.throw e, a3)
      | some (Res.ok ok, a3) =>
        if !ok then some (Res.ok ERROR_INVALIDDATA, a3) else some (Res.ok ERROR_NONE, a3) := by
  unfold Archive.read
  rw [ho, hr]
  dsimp only
  have h1 : ∀ b, (readGeneral env b).1 = true := by intro b; unfold readGeneral; split <;> rfl
  have h2 : ∀ b, (readDX10 b).1 = true := by intro b; rfl
  by_cases hG : h.type = TYPE_GENERAL
  · simp [hG, h1]
  · by_cases hD : h.type = TYPE_DX10
    · simp [hD, h2]
    · simp [hG, hD]

theorem IStream.read_of_short (s : IStream) (n : Nat) (hf : s.failed = false)
    (hpos : s.pos ≤ s.data.length)
    (h : s.data.length < s.pos + n) : (s.read n).2.failed = true := by
  simp [IStream.read, hf, slice]
  omega

theorem readGeneral_of_short (env : Env) (a : Archive) (hf : a.m_File.failed = false)
    (hpos : a.m_File.pos ≤ a.m_File.data.length)
    (h : a.m_File.data.length < a.m_File.pos + env.sizeofFileEntry * a.m_Header.fileCount) :
    (readGeneral env a).2.m_File.failed = true ∧
    (readGeneral env a).2.m_TableNames = a.m_TableNames ∧
    (readGeneral env a).2.m_Files.length = a.m_Header.fileCount := by
  have hn : a.m_Header.fileCount ≠ 0 := by
    intro h0; rw [h0] at h; simp at h; omega
  unfold readGeneral
  rw [if_pos hn]
  exact ⟨IStream.read_of_short _ _ hf hpos h, rfl, by simp [decodeFiles]⟩

theorem readDX10Loop_of_failed (ts : List Texture) (s : IStream) (hf : s.failed = true) :
    (readDX10Loop ts s).2 = s ∧ (readDX10Loop ts s).1.length = ts.length := by
  induction ts with
  | nil => simp [readDX10Loop]
  | cons t ts ih =>
    unfold readDX10Loop
    rw [IStream.read_of_failed s 24 hf]
    dsimp only
    rw [IStream.read_of_failed s _ hf]
    dsimp only
    simp only [ite_self]
    exact ⟨ih.1, by simp [ih.2]⟩

theorem readDX10Loop_length (ts : List Texture) (s : IStream) :
    (readDX10Loop ts s).1.length = ts.length := by
  induction ts generalizing s with
  | nil => simp [readDX10Loop]
  | cons t ts ih =>
    unfold readDX10Loop
    simp [ih]

theorem readDX10Loop_of_short (ts : List Texture) (s : IStream) (hf : s.failed = false)
    (hpos : s.pos ≤ s.data.length)
    (h : s.data.length < textureStart s.data s.pos ts.length) :
    (readDX10Loop ts s).2.failed = true := by
  induction ts generalizing s with
  | nil => simp [textureStart] at h; omega
  | cons t ts ih =>
    obtain ⟨o, d, p, f⟩ := s
    simp only at hf hpos h
    subst hf
    simp only [List.length_cons] at h
    rw [textureStart_succ_left] at h
    unfold readDX10Loop
    by_cases h24 : d.length < p + 24
    · have r1 := IStream.read_of_short ⟨o, d, p, false⟩ 24 rfl hpos h24
      have r2 := IStream.read_of_failed _
        (24 * (FileEntry_DX10.ofBytes
          (overlay (IStream.read ⟨o, d, p, false⟩ 24).1 t.texhdr.toBytes)).numChunks) r1
      dsimp only
      rw [r2]
      simp only [ite_self]
      rw [(readDX10Loop_of_failed ts _ r1).1]
      exact r1
    · have r1 := IStream.read_of_fits ⟨o, d, p, false⟩ 24 rfl (by simp only; omega)
      have hov : overlay (slice d p 24) t.texhdr.toBytes = slice d p 24 :=
        overlay_of_length _ _ (by
          rw [fileEntryDX10_toBytes_length, slice_length _ _ _ (by omega)])
      have hnc : (FileEntry_DX10.ofBytes (slice d p 24)).numChunks = numChunksAt d p := rfl
      simp only at r1
      rw [r1]
      dsimp only
      rw [hov, hnc]
      by_cases h0 : numChunksAt d p = 0
      · simp only [h0, ne_eq, not_true_eq_false, if_false]
        rw [h0] at h
        exact ih ⟨o, d, p + 24, false⟩ rfl (by simp only; omega) (by simpa using h)
      · simp only [ne_eq, h0, not_false_eq_true, if_true]
        by_cases hc : d.length < p + 24 + 24 * numChunksAt d p
        · have r2 := IStream.read_of_short ⟨o, d, p + 24, false⟩ (24 * numChunksAt d p) rfl
            (by simp only; omega) hc
          rw [(readDX10Loop_of_failed ts _ r2).1]
          exact r2
        · have r2 := IStream.read_of_fits ⟨o, d, p + 24, false⟩ (24 * numChunksAt d p) rfl
            (by simp only; omega)
          simp only at r2
          rw [r2]
          exact ih ⟨o, d, p + 24 + 24 * numChunksAt d p, false⟩ rfl (by simp only; omega) h

theorem header_length (v n t : Nat) (tag : List Nat) (htl : tag.length = 4) :
    ([66, 84, 68, 88] ++ toLE 4 v ++ tag ++ toLE 4 n ++ toLE 8 t).length = 24 := by
  simp [toLE_length, htl]

/-- The function `Archive::read` on a stream cut short within the record table. -/
theorem Archive.read_of_truncated (env : Env) (a : Archive) (v n t : Nat)
    (tag rest : List Nat) (ho : a.m_File.isOpen = true) (hf : a.m_File.failed = false)
    (hp : a.m_File.pos = 0)
    (hd : a.m_File.data = [66, 84, 68, 88] ++ toLE 4 v ++ tag ++ toLE 4 n ++ toLE 8 t ++ rest)
    (hv : v < 2 ^ 32) (hn : n < 2 ^ 32) (ht : t < 2 ^ 64)
    (htrunc : (tag = [71, 78, 82, 76] ∧ a.m_File.data.length < 24 + env.sizeofFileEntry * n) ∨
      (tag = [68, 88, 49, 48] ∧ a.m_File.data.length < textureStart a.m_File.data 24 n)) :
    ∃ a', Archive.read env a = some (Res.ok ERROR_NONE, a') ∧
      a'.m_TableNames = a.m_TableNames ∧ a'.m_File.failed = true ∧
      (tag = [71, 78, 82, 76] → a'.m_Files.length = n) ∧
      (tag = [68, 88, 49, 48] → a'.m_Textures.length = n) := by
  have htag : tag = [71, 78, 82, 76] ∨ tag = [68, 88, 49, 48] := by
    rcases htrunc with h | h
    · exact Or.inl h.1
    · exact Or.inr h.1
  have htl : tag.length = 4 := by rcases htag with h | h <;> simp [h]
  have hr := readHeader_of_bytes env a.m_File v n t tag rest hf hp hd hv hn ht htag
  have hlen : 24 ≤ a.m_File.data.length := by
    rw [hd, List.length_append, header_length v n t tag htl]; omega
  rw [Archive.read_of_header env a _ _ ho hr]
  rcases htrunc with ⟨hG, hs⟩ | ⟨hD, hs⟩
  · subst hG
    simp only [if_true]
    have hsh := readGeneral_of_short env
      { a with
        m_File := { a.m_File with pos := 24, failed := false }
        m_Header := { version := v, type := TYPE_GENERAL, fileCount := n, offsetNameTable := t }
        m_Type := TYPE_GENERAL } rfl hlen hs
    rw [readNametable_of_failed env _ hsh.1]
    exact ⟨_, rfl, hsh.2.1, hsh.1, fun _ => hsh.2.2, fun h => by simp at h⟩
  · subst hD
    have hne : ([68, 88, 49, 48] : List Nat) ≠ [71, 78, 82, 76] := by decide
    simp only [if_neg hne, if_true, reduceCtorEq, if_false]
    have hl := resize_length a.m_Textures n Texture.zero
    have hsh := readDX10Loop_of_short (resize a.m_Textures n Texture.zero)
      { a.m_File with pos := 24, failed := false } rfl hlen (by rw [hl]; exact hs)
    have hfl : (readDX10 { a with
        m_File := { a.m_File with pos := 24, failed := false }
        m_Header := { version := v, type := TYPE_DX10, fileCount := n, offsetNameTable := t }
        m_Type := TYPE_DX10 }).2.m_File.failed = true := hsh
    rw [readNametable_of_failed env _ hfl]
    refine ⟨_, rfl, rfl, hfl, fun h => by simp at h, fun _ => ?_⟩
    simp only [readDX10, readDX10Loop_length, hl]

/-- The function `Archive::read` on a well-formed archive. -/
theorem Archive.read_of_encoded (env : Env) (a : Archive) (v n t : Nat)
    (tag body stray : List Nat) (names : List (List Nat))
    (ho : a.m_File.isOpen = true) (hf : a.m_File.failed = false) (hp : a.m_File.pos = 0)
    (hd : a.m_File.data = [66, 84, 68, 88] ++ toLE 4 v ++ tag ++ toLE 4 n ++ toLE 8 t
      ++ (body ++ encodeNames names ++ stray))
    (ht : t = 24 + body.length) (hv : v < 2 ^ 32) (hn : n < 2 ^ 32)
    (hsz : a.m_File.data.length < 2 ^ 63) (hstray : stray.length ≤ 1)
    (hnames : ∀ nm ∈ names, nm.length < 65536 ∧ 0 ∉ nm) (hS : 36 ≤ env.sizeofFileEntry)
    (hfit : (tag = [71, 78, 82, 76] ∧ 24 + env.sizeofFileEntry * n ≤ a.m_File.data.length) ∨
      (tag = [68, 88, 49, 48] ∧ textureStart a.m_File.data 24 n ≤ a.m_File.data.length)) :
    ∃ a', Archive.read env a = some (Res.ok ERROR_NONE, a') ∧
      a'.m_TableNames = a.m_TableNames ++ names ∧
      a'.m_Header = { version := v,
                      type := if tag = [71, 78, 82, 76] then TYPE_GENERAL else TYPE_DX10,
                      fileCount := n, offsetNameTable := t } ∧
      (tag = [71, 78, 82, 76] → a'.m_Files.length = n) ∧
      (tag = [68, 88, 49, 48] → a'.m_Textures.length = n) ∧
      a'.m_File.isOpen = true ∧ a'.m_File.failed = false ∧ a'.m_File.data = a.m_File.data := by
  have htag : tag = [71, 78, 82, 76] ∨ tag = [68, 88, 49, 48] := by
    rcases hfit with h | h
    · exact Or.inl h.1
    · exact Or.inr h.1
  have htl : tag.length = 4 := by rcases htag with h | h <;> simp [h]
  have hdl : a.m_File.data.length
      = 24 + (body.length + (encodeNames names).length + stray.length) := by
    rw [hd, List.length_append, header_length v n t tag htl]
    simp only [List.length_append]
  have ht64 : t < 2 ^ 64 := by omega
  have hr := readHeader_of_bytes env a.m_File v n t tag _ hf hp hd hv hn ht64 htag
  rw [Archive.read_of_header env a _ _ ho hr]
  have hd' : a.m_File.data =
      ([66, 84, 68, 88] ++ toLE 4 v ++ tag ++ toLE 4 n ++ toLE 8 t ++ body)
        ++ encodeNames names ++ stray := by
    rw [hd]; simp
  have hoff : t = ([66, 84, 68, 88] ++ toLE 4 v ++ tag ++ toLE 4 n ++ toLE 8 t ++ body).length := by
    rw [List.length_append, header_length v n t tag htl, ht]
  rcases hfit with ⟨hG, hs⟩ | ⟨hD, hs⟩
  · subst hG
    simp only [if_true]
    rw [readGeneral_of_fits env _ hS rfl (by simp only; omega)]
    dsimp only
    have hnt := readNametable_of_encoded env
      { a with
        m_File := { a.m_File with pos := 24 + env.sizeofFileEntry * n, failed := false }
        m_Files := decodeFiles env n (slice a.m_File.data 24 (env.sizeofFileEntry * n))
        m_Header := { version := v, type := TYPE_GENERAL, fileCount := n, offsetNameTable := t }
        m_Type := TYPE_GENERAL }
      names _ stray rfl hd' hoff hstray hsz hnames
    rw [hnt]
    refine ⟨_, rfl, rfl, rfl, ?_, ?_, ho, rfl, rfl⟩
    · intro _; simp [decodeFiles]
    · intro h; simp at h
  · subst hD
    have hne : ([68, 88, 49, 48] : List Nat) ≠ [71, 78, 82, 76] := by decide
    simp only [if_neg hne, if_true, reduceCtorEq, if_false]
    have hl := resize_length a.m_Textures n Texture.zero
    have hloop := readDX10Loop_of_fits (resize a.m_Textures n Texture.zero)
      { a.m_File with pos := 24, failed := false } rfl (by rw [hl]; exact hs)
    rw [hl] at hloop
    simp only at hloop
    unfold readDX10
    dsimp only
    rw [hloop]
    dsimp only
    have hnt := readNametable_of_encoded env
      { a with
        m_File := { a.m_File with pos := textureStart a.m_File.data 24 n, failed := false }
        m_Textures := (List.range n).map
          (fun i => textureAt a.m_File.data (textureStart a.m_File.data 24 i))
        m_Header := { version := v, type := TYPE_DX10, fileCount := n, offsetNameTable := t }
        m_Type := TYPE_DX10 }
      names _ stray rfl hd' hoff hstray hsz hnames
    dsimp only at hnt
    rw [hnt]
    refine ⟨_, rfl, rfl, rfl, ?_, ?_, ho, rfl, rfl⟩
    · intro h; simp at h
    · intro _; simp [hl]

/-! ## Extraction of General archives -/

theorem cstr_of_no_zero (l : List Nat) (h : 0 ∉ l) : cstr l = l := by
  have := cstr_append_zero l [] h
  induction l with
  | nil => rfl
  | cons b bs ih =>
    simp only [List.mem_cons, not_or] at h
    have hb : b ≠ 0 := fun e => h.1 e.symm
    simp only [cstr, hb, if_false]
    rw [ih h.2 (cstr_append_zero bs [] h.2)]

theorem outputPath_of_no_zero (destination name : List Nat) (hd : 0 ∉ destination)
    (hn : 0 ∉ name) : outputPath destination name = destination ++ [92] ++ name := by
  apply cstr_of_no_zero
  simp [hd, hn]

/-- The file at `q` after opening `p` for output and writing `bytes`. -/
theorem FileSys.files_open_write (fs : FileSys) (p q bytes : List Nat) :
    ((fs.openOut p).2.write (fs.openOut p).1 bytes).files q =
      if q = p ∧ fs.creatable p = true then some bytes else fs.files q := by
  unfold FileSys.openOut FileSys.write
  by_cases hc : fs.creatable p = true
  · by_cases hq : q = p
    · simp [hc, hq]
    · simp [hc, hq]
  · simp [hc]

theorem FileSys.creatable_open_write (fs : FileSys) (p bytes : List Nat) :
    ((fs.openOut p).2.write (fs.openOut p).1 bytes).creatable = fs.creatable := by
  unfold FileSys.openOut FileSys.write
  by_cases hc : fs.creatable p = true <;> simp [hc]

theorem IStream.seekg_of_good (s : IStream) (off : Nat) (hf : s.failed = false)
    (h : off < 2 ^ 63) : s.seekg off = { s with pos := off } := by
  have hm : off % 2 ^ 64 = off := Nat.mod_eq_of_lt (by omega)
  have hlt : ¬ 2 ^ 63 ≤ off := by omega
  unfold IStream.seekg
  rw [if_neg (by simp [hf]), hm, if_neg hlt]

/-- The body of the loop of `extractAllGeneral` on a record that can be
extracted. -/
theorem extractGeneralEntry_of_extractable (env : Env) (destination : List Nat)
    (file : FileEntry) (name : List Nat) (x : Extraction) (ho : x.stream.isOpen = true)
    (hf : x.stream.failed = false) (hsz : x.stream.data.length < 2 ^ 63)
    (hx : extractable env x.stream.data file) :
    ∃ x', extractGeneralEntry env destination file name x = (none, x') ∧
      x'.stream.isOpen = true ∧ x'.stream.failed = false ∧ x'.stream.data = x.stream.data ∧
      x'.progress = x.progress ∧
      x'.fs = (x.fs.openOut (outputPath destination name)).2.write
        (x.fs.openOut (outputPath destination name)).1 (payloadOf env x.stream.data file) := by
  obtain ⟨⟨o, d, p, f⟩, fs, calls, progress⟩ := x
  simp only at ho hf hsz hx
  subst ho hf
  unfold extractable expectedLen at hx
  unfold extractGeneralEntry payloadOf expectedLen
  by_cases hc : file.packedLen ≠ 0 ∧ file.unpackedLen ≠ file.packedLen
  · rw [if_pos hc] at hx
    obtain ⟨hr, hok, hl⟩ := hx
    have hs := IStream.seekg_of_good ⟨true, d, p, false⟩ file.offset rfl (by omega)
    have hrd := IStream.read_of_fits ⟨true, d, file.offset, false⟩ file.packedLen rfl hr
    have hov : overlay (slice d file.offset file.packedLen) (env.uninit file.packedLen)
        = slice d file.offset file.packedLen :=
      overlay_of_length _ _ (by simp [Env.uninit, slice_length _ _ _ hr])
    simp only at hs hrd
    simp only [if_true, if_pos hc, hs, hrd, hov]
    have hnot : ¬ ((env.uncompress (slice d file.offset file.packedLen)
        (if file.unpackedLen = 0 then file.unk20 else file.unpackedLen)).1 ≠ Z_OK ∨
        (env.uncompress (slice d file.offset file.packedLen)
          (if file.unpackedLen = 0 then file.unk20 else file.unpackedLen)).2.length ≠
          (if file.unpackedLen = 0 then file.unk20 else file.unpackedLen)) := by
      simp [hok, hl]
    rw [if_neg hnot]
    refine ⟨_, rfl, rfl, rfl, rfl, rfl, ?_⟩
    simp only
    rw [overlay_of_length _ _ (by simp [Env.uninit, hl])]
    rw [List.take_of_length_le (by omega)]
  · rw [if_neg hc] at hx
    have hs := IStream.seekg_of_good ⟨true, d, p, false⟩ file.offset rfl (by omega)
    have hrd := IStream.read_of_fits ⟨true, d, file.offset, false⟩ file.unpackedLen rfl hx
    have hov : overlay (slice d file.offset file.unpackedLen) (env.uninit file.unpackedLen)
        = slice d file.offset file.unpackedLen :=
      overlay_of_length _ _ (by simp [Env.uninit, slice_length _ _ _ hx])
    simp only at hs hrd
    simp only [if_true, if_neg hc, hs, hrd, hov]
    refine ⟨_, rfl, rfl, rfl, rfl, rfl, ?_⟩
    simp only
    rw [List.take_of_length_le (by rw [slice_length _ _ _ hx])]

/-- The loop of `extractAllGeneral` when every record can be extracted: it
returns `ERROR_NONE`; a path that is not an output path keeps its file, and
the output path of a record that is not reused by a later record holds the
payload of that record when it can be created. -/
theorem extractAllGeneralLoop_of_extractable (env : Env) (destination : List Nat)
    (files : List FileEntry) (names : List (List Nat)) (x : Extraction)
    (hlen : files.length = names.length) (ho : x.stream.isOpen = true)
    (hf : x.stream.failed = false) (hsz : x.stream.data.length < 2 ^ 63)
    (hall : ∀ f ∈ files, extractable env x.stream.data f) :
    ∃ x', extractAllGeneralLoop env destination files names x =
        (Outcome.returned ERROR_NONE, x') ∧
      x'.fs.creatable = x.fs.creatable ∧ x'.progress = x.progress ∧
      (∀ q, (∀ nm ∈ names, outputPath destination nm ≠ q) → x'.fs.files q = x.fs.files q) ∧
      (∀ (i : Nat) (file : FileEntry) (name : List Nat), files[i]? = some file →
        names[i]? = some name →
        x.fs.creatable (outputPath destination name) = true →
        (∀ (j : Nat) (name' : List Nat), i < j → names[j]? = some name' →
          outputPath destination name' ≠ outputPath destination name) →
        x'.fs.files (outputPath destination name) =
          some (payloadOf env x.stream.data file)) := by
  induction files generalizing names x with
  | nil =>
    refine ⟨x, by simp [extractAllGeneralLoop], rfl, rfl, fun _ _ => rfl, ?_⟩
    intro i file name h; simp at h
  | cons f fs ih =>
    match names, hlen with
    | n :: ns, hlen =>
      obtain ⟨x1, he, ho1, hf1, hd1, hp1, hfs1⟩ :=
        extractGeneralEntry_of_extractable env destination f n x ho hf hsz
          (hall f (List.mem_cons_self _ _))
      obtain ⟨x', hl, hc', hp', hframe, hmain⟩ := ih ns x1 (by simpa using hlen) ho1 hf1
        (by rw [hd1]; exact hsz)
        (by rw [hd1]; exact fun g hg => hall g (List.mem_cons_of_mem _ hg))
      have hc1 : x1.fs.creatable = x.fs.creatable := by
        rw [hfs1]; exact FileSys.creatable_open_write _ _ _
      have hfiles1 : ∀ q, x1.fs.files q =
          if q = outputPath destination n ∧ x.fs.creatable (outputPath destination n) = true
          then some (payloadOf env x.stream.data f) else x.fs.files q := by
        intro q; rw [hfs1]; exact FileSys.files_open_write _ _ _ _
      refine ⟨x', ?_, by rw [hc', hc1], by rw [hp', hp1], ?_, ?_⟩
      · simp only [extractAllGeneralLoop, he, hl]
      · intro q hq
        rw [hframe q (fun nm hnm => hq nm (List.mem_cons_of_mem _ hnm)), hfiles1 q]
        have : q ≠ outputPath destination n := fun e => hq n (List.mem_cons_self _ _) e.symm
        simp [this]
      · intro i file name hfi hni hcr hlater
        match i with
        | 0 =>
          simp only [List.getElem?_cons_zero, Option.some.injEq] at hfi hni
          subst hfi hni
          rw [hframe _ (fun nm hnm => by
            obtain ⟨j, hj⟩ := List.getElem?_of_mem hnm
            exact hlater (j + 1) nm (by omega) (by simpa using hj))]
          rw [hfiles1]
          simp [hcr]
        | k + 1 =>
          simp only [List.getElem?_cons_succ] at hfi hni
          have := hmain k file name hfi hni (by rw [hc1]; exact hcr)
            (fun j name' hj hnj => hlater (j + 1) name' (by omega) (by simpa using hnj))
          rw [this, hd1]

/-! ## Termination and the state after reading -/

theorem IStream.read_data (s : IStream) (n : Nat) :
    (s.read n).2.data = s.data ∧ (s.read n).2.isOpen = s.isOpen := by
  unfold IStream.read
  split <;> exact ⟨rfl, rfl⟩

theorem IStream.read_failed_iff (s : IStream) (n : Nat) (hf : s.failed = false) :
    (s.read n).2.failed = false →
      (s.read n).2.pos = s.pos + n ∧ (s.pos + n ≤ s.data.length ∨ n = 0) := by
  simp only [IStream.read, hf, slice]
  simp only [Bool.false_eq_true, if_false, List.length_take, List.length_drop, ne_eq,
    decide_not, Bool.not_eq_false', decide_eq_true_eq]
  intro h
  omega

theorem readType_ok (n : Nat) (s : IStream) (v : Nat) (s1 : IStream)
    (h : readType n s = (Res.ok v, s1)) :
    s.failed = false ∧ s1 = (s.read n).2 ∧ s1.failed = false := by
  unfold readType at h
  by_cases hf : (s.read n).2.failed = true
  · simp [hf] at h
  · simp only [hf, Bool.false_eq_true, if_false, Prod.mk.injEq, Res.ok.injEq] at h
    have hs : s.failed = false := by
      by_contra hc
      simp only [Bool.not_eq_false] at hc
      rw [IStream.read_of_failed s n hc] at hf
      exact hf hc
    exact ⟨hs, h.2.symm, by rw [← h.2]; simpa using hf⟩

/-- The loop of `readNametable` ends within the iterations it is given. -/
theorem readNametableLoop_total (fileSize fuel : Nat) (s : IStream) (buffer : Nat → Nat)
    (names : List (List Nat))
    (h : (s.failed = true ∧ 1 ≤ fuel) ∨
      (s.failed = false ∧ (s.data.length - s.pos) / 2 + 2 ≤ fuel)) :
    ∃ r, readNametableLoop fileSize fuel s buffer names = some r := by
  induction fuel generalizing s buffer names with
  | zero => rcases h with h | h <;> omega
  | succ k ih =>
    unfold readNametableLoop
    split
    · rcases hr : readType 2 s with ⟨r, s1⟩
      cases r with
      | throw e => exact ⟨_, rfl⟩
      | ok v =>
        dsimp only
        obtain ⟨hs, hs1, hs1f⟩ := readType_ok 2 s v s1 hr
        have hgood : s.failed = false ∧ (s.data.length - s.pos) / 2 + 2 ≤ k + 1 := by
          rcases h with h | h
          · rw [hs] at h; simp at h
          · exact h
        have hp := IStream.read_failed_iff s 2 hs (by rw [← hs1]; exact hs1f)
        have hd := IStream.read_data s 2
        rw [← hs1] at hp hd
        apply ih
        by_cases hf2 : (s1.read v).2.failed = true
        · left; exact ⟨hf2, by omega⟩
        · right
          simp only [Bool.not_eq_true] at hf2
          have hp2 := IStream.read_failed_iff s1 v hs1f hf2
          have hd2 := IStream.read_data s1 v
          refine ⟨hf2, ?_⟩
          rw [hd2.1, hp2.1, hd.1, hp.1]
          omega
    · exact ⟨_, rfl⟩

/-- The function `readNametable` always ends: it returns or throws. -/
theorem readNametable_total (env : Env) (a : Archive) : ∃ r, readNametable env a = some r := by
  unfold readNametable
  dsimp only
  have hd : (a.m_File.seekEnd.seekg a.m_Header.offsetNameTable).data = a.m_File.data := by
    unfold IStream.seekg IStream.seekEnd
    by_cases h1 : a.m_File.failed = true
    · simp [h1]
    · simp only [h1, Bool.false_eq_true, if_false]
      split <;> rfl
  obtain ⟨r, hr⟩ := readNametableLoop_total (toSizeT a.m_File.seekEnd.tellg)
    (a.m_File.data.length + 2) (a.m_File.seekEnd.seekg a.m_Header.offsetNameTable)
    (fun i => env.junk 0x10000 i % 256) a.m_TableNames (by
      by_cases hf : (a.m_File.seekEnd.seekg a.m_Header.offsetNameTable).failed = true
      · left; exact ⟨hf, by omega⟩
      · right
        simp only [Bool.not_eq_true] at hf
        refine ⟨hf, ?_⟩
        rw [hd]
        have : (a.m_File.data.length
          - (a.m_File.seekEnd.seekg a.m_Header.offsetNameTable).pos) / 2
            ≤ a.m_File.data.length := by
          exact Nat.le_trans (Nat.div_le_self _ _) (Nat.sub_le _ _)
        omega)
  rw [hr]
  exact ⟨_, rfl⟩

/-- The function `Archive::read` always ends: it returns or throws. -/
theorem Archive.read_total (env : Env) (a : Archive) : ∃ r, Archive.read env a = some r := by
  by_cases ho : a.m_File.isOpen = true
  · rcases hr : readHeader env a.m_File with ⟨r, s⟩
    cases r with
    | throw e =>
      exact ⟨_, Archive.read_of_header_throw env a e ho (by rw [hr])⟩
    | ok h =>
      rw [Archive.read_of_header env a h s ho hr]
      obtain ⟨r, hn⟩ := readNametable_total env
        (if h.type = TYPE_GENERAL then
          readGeneral env { a with m_File := s, m_Header := h, m_Type := h.type }
        else if h.type = TYPE_DX10 then
          readDX10 { a with m_File := s, m_Header := h, m_Type := h.type }
        else (true, { a with m_File := s, m_Header := h, m_Type := h.type })).2
      rw [hn]
      obtain ⟨o, a3⟩ := r
      cases o with
      | throw e => exact ⟨_, rfl⟩
      | ok b => cases b <;> exact ⟨_, rfl⟩
  · unfold Archive.read
    simp only [Bool.not_eq_true] at ho
    simp [ho]

theorem readType_stream (n : Nat) (s : IStream) : (readType n s).2 = (s.read n).2 := by
  unfold readType
  dsimp only
  split <;> rfl

theorem readHeader_data (env : Env) (s : IStream) :
    (readHeader env s).2.data = s.data ∧ (readHeader env s).2.isOpen = s.isOpen := by
  have h1 := IStream.read_data s 4
  have h2 := IStream.read_data (s.read 4).2 4
  have h3 := IStream.read_data ((s.read 4).2.read 4).2 4
  have h4 := IStream.read_data (((s.read 4).2.read 4).2.read 4).2 4
  have h5 := IStream.read_data ((((s.read 4).2.read 4).2.read 4).2.read 4).2 8
  unfold readHeader
  dsimp only
  split
  · exact h1
  · rcases hr2 : readType 4 (s.read 4).2 with ⟨r2, s2⟩
    have e2 : s2 = ((s.read 4).2.read 4).2 := by
      have := readType_stream 4 (s.read 4).2; rw [hr2] at this; exact this
    subst e2
    cases r2 with
    | throw e => exact ⟨h2.1.trans h1.1, h2.2.trans h1.2⟩
    | ok v =>
      dsimp only
      split
      · exact ⟨h3.1.trans (h2.1.trans h1.1), h3.2.trans (h2.2.trans h1.2)⟩
      · rcases hr4 : readType 4 (((s.read 4).2.read 4).2.read 4).2 with ⟨r4, s4⟩
        have e4 : s4 = ((((s.read 4).2.read 4).2.read 4).2.read 4).2 := by
          have := readType_stream 4 (((s.read 4).2.read 4).2.read 4).2
          rw [hr4] at this; exact this
        subst e4
        cases r4 with
        | throw e =>
          exact ⟨h4.1.trans (h3.1.trans (h2.1.trans h1.1)),
            h4.2.trans (h3.2.trans (h2.2.trans h1.2))⟩
        | ok n =>
          dsimp only
          rcases hr5 : readType 8 ((((s.read 4).2.read 4).2.read 4).2.read 4).2 with ⟨r5, s5⟩
          have e5 : s5 = (((((s.read 4).2.read 4).2.read 4).2.read 4).2.read 8).2 := by
            have := readType_stream 8 ((((s.read 4).2.read 4).2.read 4).2.read 4).2
            rw [hr5] at this; exact this
          subst e5
          cases r5 with
          | throw e =>
            exact ⟨h5.1.trans (h4.1.trans (h3.1.trans (h2.1.trans h1.1))),
              h5.2.trans (h4.2.trans (h3.2.trans (h2.2.trans h1.2)))⟩
          | ok t =>
            exact ⟨h5.1.trans (h4.1.trans (h3.1.trans (h2.1.trans h1.1))),
              h5.2.trans (h4.2.trans (h3.2.trans (h2.2.trans h1.2)))⟩

theorem readGeneral_frame (env : Env) (a : Archive) :
    (readGeneral env a).2.m_File.data = a.m_File.data ∧
    (readGeneral env a).2.m_File.isOpen = a.m_File.isOpen ∧
    (readGeneral env a).2.m_TableNames = a.m_TableNames ∧
    (readGeneral env a).2.m_Header = a.m_Header ∧
    (readGeneral env a).2.m_Files.length = a.m_Header.fileCount := by
  unfold readGeneral
  split
  · have := IStream.read_data a.m_File (env.sizeofFileEntry * a.m_Header.fileCount)
    exact ⟨this.1, this.2, rfl, rfl, by simp [decodeFiles]⟩
  · exact ⟨rfl, rfl, rfl, rfl, resize_length _ _ _⟩

theorem readDX10Loop_data (ts : List Texture) (s : IStream) :
    (readDX10Loop ts s).2.data = s.data ∧ (readDX10Loop ts s).2.isOpen = s.isOpen := by
  induction ts generalizing s with
  | nil => exact ⟨rfl, rfl⟩
  | cons t ts ih =>
    unfold readDX10Loop
    dsimp only
    have h1 := IStream.read_data s 24
    split
    · rename_i hn
      have h2 := IStream.read_data (s.read 24).2
        (24 * (FileEntry_DX10.ofBytes (overlay (s.read 24).1 t.texhdr.toBytes)).numChunks)
      have h3 := ih ((s.read 24).2.read
        (24 * (FileEntry_DX10.ofBytes (overlay (s.read 24).1 t.texhdr.toBytes)).numChunks)).2
      exact ⟨h3.1.trans (h2.1.trans h1.1), h3.2.trans (h2.2.trans h1.2)⟩
    · have h3 := ih (s.read 24).2
      exact ⟨h3.1.trans h1.1, h3.2.trans h1.2⟩

theorem readDX10_frame (a : Archive) :
    (readDX10 a).2.m_File.data = a.m_File.data ∧
    (readDX10 a).2.m_File.isOpen = a.m_File.isOpen ∧
    (readDX10 a).2.m_TableNames = a.m_TableNames ∧
    (readDX10 a).2.m_Header = a.m_Header ∧
    (readDX10 a).2.m_Textures.length = a.m_Header.fileCount := by
  have h := readDX10Loop_data (resize a.m_Textures a.m_Header.fileCount Texture.zero) a.m_File
  exact ⟨h.1, h.2, rfl, rfl, by
    simp only [readDX10, readDX10Loop_length, resize_length]⟩

/-- When the loop of `readNametable`, entered on a good stream, returns, the
stream is good. -/
theorem readNametableLoop_ok_of_good (fuel : Nat) (s : IStream) (buffer : Nat → Nat)
    (names : List (List Nat)) (b : Bool) (s' : IStream) (names' : List (List Nat))
    (hf : s.failed = false) (hsz : s.data.length < 2 ^ 63)
    (h : readNametableLoop s.data.length fuel s buffer names = some (Res.ok b, s', names')) :
    s'.failed = false ∧ s'.isOpen = s.isOpen ∧ s'.data = s.data := by
  induction fuel generalizing s buffer names with
  | zero => simp [readNametableLoop] at h
  | succ k ih =>
    unfold readNametableLoop at h
    split at h
    · rcases hr : readType 2 s with ⟨r, s1⟩
      rw [hr] at h
      cases r with
      | throw e => simp at h
      | ok v =>
        dsimp only at h
        obtain ⟨-, hs1, hs1f⟩ := readType_ok 2 s v s1 hr
        have hp := IStream.read_failed_iff s 2 hf (by rw [← hs1]; exact hs1f)
        have hd := IStream.read_data s 2
        rw [← hs1] at hp hd
        have hd2 := IStream.read_data s1 v
        by_cases hf2 : (s1.read v).2.failed = true
        · exfalso
          match k, h with
          | 0, h => simp [readNametableLoop] at h
          | k' + 1, h =>
            unfold readNametableLoop at h
            have ht : toSizeT (s1.read v).2.tellg = 2 ^ 64 - 1 := by
              simp only [IStream.tellg, hf2, if_true]
              exact toSizeT_neg_one
            rw [ht] at h
            have hc : 2 ≤ (s.data.length + 2 ^ 64 - (2 ^ 64 - 1)) % 2 ^ 64 := by omega
            rw [if_pos hc, readType_of_failed _ _ hf2] at h
            simp at h
        · simp only [Bool.not_eq_true] at hf2
          have hlen : (s1.read v).2.data.length = s.data.length := by rw [hd2.1, hd.1]
          rw [← hlen] at h
          have := ih (s1.read v).2 _ _ hf2 (by rw [hlen]; exact hsz) h
          exact ⟨this.1, by rw [this.2.1, hd2.2, hd.2], by rw [this.2.2, hd2.1, hd.1]⟩
    · simp only [Option.some.injEq, Prod.mk.injEq, Res.ok.injEq] at h
      obtain ⟨-, hs, -⟩ := h
      subst hs
      exact ⟨hf, rfl, rfl⟩

/-- When the loop of `readNametable`, entered on a failed stream, returns, it
has read nothing. -/
theorem readNametableLoop_ok_of_failed (fileSize fuel : Nat) (s : IStream)
    (buffer : Nat → Nat) (names : List (List Nat)) (b : Bool) (s' : IStream)
    (names' : List (List Nat)) (hf : s.failed = true)
    (h : readNametableLoop fileSize fuel s buffer names = some (Res.ok b, s', names')) :
    s' = s ∧ names' = names := by
  match fuel, h with
  | 0, h => simp [readNametableLoop] at h
  | k + 1, h =>
    unfold readNametableLoop at h
    split at h
    · rw [readType_of_failed _ _ hf] at h
      simp at h
    · simp only [Option.some.injEq, Prod.mk.injEq, Res.ok.injEq] at h
      exact ⟨h.2.1.symm, h.2.2.symm⟩

/-- What a returning `readNametable` leaves: the same file, and either no new
name or a good stream. -/
theorem readNametable_ok (env : Env) (a a' : Archive) (b : Bool)
    (hsz : a.m_File.data.length < 2 ^ 63)
    (h : readNametable env a = some (Res.ok b, a')) :
    a'.m_File.isOpen = a.m_File.isOpen ∧ a'.m_File.data = a.m_File.data ∧
    (a'.m_TableNames = a.m_TableNames ∨ a'.m_File.failed = false) ∧
    a'.m_Files = a.m_Files ∧ a'.m_Textures = a.m_Textures ∧ a'.m_Header = a.m_Header := by
  unfold readNametable at h
  dsimp only at h
  have hseek : (a.m_File.seekEnd.seekg a.m_Header.offsetNameTable).data = a.m_File.data ∧
      (a.m_File.seekEnd.seekg a.m_Header.offsetNameTable).isOpen = a.m_File.isOpen := by
    unfold IStream.seekg IStream.seekEnd
    by_cases h1 : a.m_File.failed = true
    · simp [h1]
    · simp only [h1, Bool.false_eq_true, if_false]
      split <;> exact ⟨rfl, rfl⟩
  rcases hl : readNametableLoop (toSizeT a.m_File.seekEnd.tellg) (a.m_File.data.length + 2)
    (a.m_File.seekEnd.seekg a.m_Header.offsetNameTable) (fun i => env.junk 0x10000 i % 256)
    a.m_TableNames with _ | ⟨r, s', names'⟩
  · rw [hl] at h; simp at h
  · rw [hl] at h
    simp only [Option.map_some', Option.some.injEq, Prod.mk.injEq] at h
    obtain ⟨hr, ha⟩ := h
    subst hr ha
    dsimp only
    by_cases hf : (a.m_File.seekEnd.seekg a.m_Header.offsetNameTable).failed = true
    · obtain ⟨e1, e2⟩ := readNametableLoop_ok_of_failed _ _ _ _ _ _ _ _ hf hl
      subst e1 e2
      exact ⟨hseek.2, hseek.1, Or.inl rfl, rfl, rfl, rfl⟩
    · simp only [Bool.not_eq_true] at hf
      have hgood : a.m_File.failed = false := by
        by_contra hc
        simp only [Bool.not_eq_false] at hc
        have : (a.m_File.seekEnd.seekg a.m_Header.offsetNameTable).failed = true := by
          simp [IStream.seekg, IStream.seekEnd, hc]
        rw [this] at hf
        cases hf
      have hsize : toSizeT a.m_File.seekEnd.tellg
          = (a.m_File.seekEnd.seekg a.m_Header.offsetNameTable).data.length := by
        rw [hseek.1]
        simp only [IStream.seekEnd, hgood, Bool.false_eq_true, if_false, IStream.tellg]
        exact toSizeT_natCast _ (by omega)
      rw [hsize] at hl
      have := readNametableLoop_ok_of_good _ _ _ _ _ _ _ hf (by rw [hseek.1]; exact hsz) hl
      exact ⟨this.2.1.trans hseek.2, this.2.2.trans hseek.1, Or.inr this.1, rfl, rfl, rfl⟩

/-- What a successful `Archive::read` leaves: the stream is open on the same
file and, unless no name was read, good; the object holds as many records as
the header announces. -/
theorem Archive.read_ok_state (env : Env) (a a' : Archive) (ho : a.m_File.isOpen = true)
    (hsz : a.m_File.data.length < 2 ^ 63)
    (h : Archive.read env a = some (Res.ok ERROR_NONE, a')) :
    a'.m_File.isOpen = true ∧ a'.m_File.data = a.m_File.data ∧
    (a'.m_TableNames = a.m_TableNames ∨ a'.m_File.failed = false) ∧
    (a'.m_Header.type = TYPE_GENERAL → a'.m_Files.length = a'.m_Header.fileCount) ∧
    (a'.m_Header.type = TYPE_DX10 → a'.m_Textures.length = a'.m_Header.fileCount) := by
  rcases hr : readHeader env a.m_File with ⟨r, s⟩
  have hhd := readHeader_data env a.m_File
  rw [hr] at hhd
  simp only at hhd
  cases r with
  | throw e =>
    rw [Archive.read_of_header_throw env a e ho (by rw [hr])] at h
    simp at h
  | ok hd =>
    rw [Archive.read_of_header env a hd s ho hr] at h
    by_cases hG : hd.type = TYPE_GENERAL
    · simp only [hG, if_true] at h
      have hfr := readGeneral_frame env
        { a with m_File := s, m_Header := hd, m_Type := TYPE_GENERAL }
      simp only at hfr
      rcases hn : readNametable env (readGeneral env
        { a with m_File := s, m_Header := hd, m_Type := TYPE_GENERAL }).2 with _ | ⟨o, a3⟩
      · rw [hn] at h; simp at h
      · rw [hn] at h
        cases o with
        | throw e => simp at h
        | ok b =>
          cases b with
          | false => simp at h
          | true =>
            simp only [Bool.not_true, Bool.false_eq_true, if_false, Option.some.injEq,
              Prod.mk.injEq, true_and] at h
            subst h
            have hk := readNametable_ok env _ _ true (by rw [hfr.1, hhd.1]; exact hsz) hn
            refine ⟨by rw [hk.1, hfr.2.1, hhd.2, ho], by rw [hk.2.1, hfr.1, hhd.1], ?_, ?_, ?_⟩
            · rcases hk.2.2.1 with h1 | h1
              · exact Or.inl (by rw [h1, hfr.2.2.1])
              · exact Or.inr h1
            · intro _
              rw [hk.2.2.2.1, hk.2.2.2.2.2, hfr.2.2.2.1]
              exact hfr.2.2.2.2
            · intro h2
              rw [hk.2.2.2.2.2, hfr.2.2.2.1] at h2
              rw [hG] at h2
              cases h2
    · by_cases hD : hd.type = TYPE_DX10
      · simp only [hD, reduceCtorEq, if_false, if_true] at h
        have hfr := readDX10_frame { a with m_File := s, m_Header := hd, m_Type := TYPE_DX10 }
        simp only at hfr
        rcases hn : readNametable env (readDX10
          { a with m_File := s, m_Header := hd, m_Type := TYPE_DX10 }).2 with _ | ⟨o, a3⟩
        · rw [hn] at h; simp at h
        · rw [hn] at h
          cases o with
          | throw e => simp at h
          | ok b =>
            cases b with
            | false => simp at h
            | true =>
              simp only [Bool.not_true, Bool.false_eq_true, if_false, Option.some.injEq,
                Prod.mk.injEq, true_and] at h
              subst h
              have hk := readNametable_ok env _ _ true (by rw [hfr.1, hhd.1]; exact hsz) hn
              refine ⟨by rw [hk.1, hfr.2.1, hhd.2, ho], by rw [hk.2.1, hfr.1, hhd.1], ?_, ?_, ?_⟩
              · rcases hk.2.2.1 with h1 | h1
                · exact Or.inl (by rw [h1, hfr.2.2.1])
                · exact Or.inr h1
              · intro h2
                rw [hk.2.2.2.2.2, hfr.2.2.2.1] at h2
                rw [hD] at h2
                cases h2
              · intro _
                rw [hk.2.2.2.2.1, hk.2.2.2.2.2, hfr.2.2.2.1]
                exact hfr.2.2.2.2
      · simp only [hG, hD, if_false] at h
        rcases hn : readNametable env
          { a with m_File := s, m_Header := hd, m_Type := hd.type } with _ | ⟨o, a3⟩
        · rw [hn] at h; simp at h
        · rw [hn] at h
          cases o with
          | throw e => simp at h
          | ok b =>
            cases b with
            | false => simp at h
            | true =>
              simp only [Bool.not_true, Bool.false_eq_true, if_false, Option.some.injEq,
                Prod.mk.injEq, true_and] at h
              subst h
              have hk := readNametable_ok env _ _ true (by simp only; rw [hhd.1]; exact hsz) hn
              simp only at hk
              refine ⟨by rw [hk.1, hhd.2, ho], by rw [hk.2.1, hhd.1], hk.2.2.1, ?_, ?_⟩
              · intro h2; rw [hk.2.2.2.2.2] at h2; exact absurd h2 hG
              · intro h2; rw [hk.2.2.2.2.2] at h2; exact absurd h2 hD

/-- The state of an archive object read successfully from a file into a fresh
object. -/
theorem Archive.readFile_ok_state (env : Env) (h0 : Header) (u0 : Bool) (data : List Nat)
    (a : Archive) (hsz : data.length < 2 ^ 63)
    (h : Archive.readFile env (Archive.new h0 u0) (some data) = some (Res.ok ERROR_NONE, a)) :
    a.m_File.isOpen = true ∧ a.m_File.data = data ∧
    (a.m_TableNames = [] ∨ a.m_File.failed = false) ∧
    (a.m_Header.type = TYPE_GENERAL → a.m_Files.length = a.m_Header.fileCount) ∧
    (a.m_Header.type = TYPE_DX10 → a.m_Textures.length = a.m_Header.fileCount) :=
  Archive.read_ok_state env { Archive.new h0 u0 with m_File := IStream.ofData data } a rfl hsz h

/-! ## Claims on reading whole archives -/

/-- C9 (amended). Opening a well-formed archive succeeds whatever the number of
entries of its name table: for a fresh archive object, a header with file
count `n`, a record table that lies within the file and a name table that
holds any list of names (each shorter than 65536 bytes and without NUL),
`Archive::read` returns `ERROR_NONE`, the object holds `n` records and
`getFileList()` is exactly the list of the name-table entries in order (so
that with exactly `n` entries name `i` belongs to record `i`); a number of
names different from `n` is rejected later, by `extractAll` on a General
archive, which then returns `ERROR_INVALIDDATA`. -/
theorem read_accepts_any_name_count (env : Env) (h0 : Header) (u0 : Bool) (data : List Nat)
    (v n t : Nat) (tag body stray : List Nat) (names : List (List Nat))
    (destination : List Nat) (progress : Int → List Nat → Bool) (overwrite : Bool)
    (fs : FileSys)
    (hd : data = [66, 84, 68, 88] ++ toLE 4 v ++ tag ++ toLE 4 n ++ toLE 8 t
      ++ (body ++ encodeNames names ++ stray))
    (ht : t = 24 + body.length) (hv : v < 2 ^ 32) (hn : n < 2 ^ 32)
    (hsz : data.length < 2 ^ 63) (hstray : stray.length ≤ 1)
    (hnames : ∀ nm ∈ names, nm.length < 65536 ∧ 0 ∉ nm) (hS : 36 ≤ env.sizeofFileEntry)
    (hfit : (tag = [71, 78, 82, 76] ∧ 24 + env.sizeofFileEntry * n ≤ data.length) ∨
      (tag = [68, 88, 49, 48] ∧ textureStart data 24 n ≤ data.length)) :
    ∃ a', Archive.readFile env (Archive.new h0 u0) (some data) = some (Res.ok ERROR_NONE, a') ∧
      a'.getFileList = names ∧
      (tag = [71, 78, 82, 76] → a'.m_Files.length = n) ∧
      (tag = [68, 88, 49, 48] → a'.m_Textures.length = n) ∧
      (tag = [71, 78, 82, 76] → names.length ≠ n →
        (Archive.extractAll env a' destination progress overwrite fs).1 =
          Outcome.returned ERROR_INVALIDDATA) := by
  obtain ⟨a', hr, hnm, hh, hG, hD, -, -, -⟩ := Archive.read_of_encoded env
    { Archive.new h0 u0 with m_File := IStream.ofData data } v n t tag body stray names
    rfl rfl rfl hd ht hv hn hsz hstray hnames hS hfit
  refine ⟨a', hr, by simpa [Archive.new, Archive.getFileList] using hnm, hG, hD, ?_⟩
  intro hg hne
  have hty : a'.m_Header.type = TYPE_GENERAL := by rw [hh]; simp [hg]
  have hl : a'.m_Files.length ≠ a'.m_TableNames.length := by
    rw [hG hg, hnm]; simpa [Archive.new] using Ne.symm hne
  simp [Archive.extractAll, hty, extractAllGeneral, hl]

set_option maxRecDepth 100000 in
/-- Witness for C9 (amended): a General archive with two records and one
name. -/
theorem read_accepts_any_name_count_witness :
    ∃ a', Archive.readFile sampleEnv sampleArchive (some sampleMissingName) =
        some (Res.ok ERROR_NONE, a') ∧
      a'.getFileList = [[97]] ∧ a'.m_Files.length = 2 ∧
      (Archive.extractAll sampleEnv a' [100] (fun _ _ => true) true sampleFs).1 =
        Outcome.returned ERROR_INVALIDDATA :=
  (read_accepts_any_name_count sampleEnv sampleArchive.m_Header true sampleMissingName 1 2 106
    [71, 78, 82, 76] (sampleRecord 1 96 0 5 ++ sampleRecord 2 101 0 5 ++ hello ++ world) []
    [[97]] [100] (fun _ _ => true) true sampleFs (by decide) (by decide) (by decide) (by decide)
    (by decide) (by decide) (by decide) (by decide) (Or.inl ⟨rfl, by decide⟩)).imp
    fun _ h => ⟨h.1, h.2.1, h.2.2.1 rfl, h.2.2.2.2 rfl (by decide)⟩

set_option maxRecDepth 100000 in
/-- Counterexample for C9 as stated: the header of `sampleMissingName` announces
two files and its name table holds one entry, and `Archive::read` returns
`ERROR_NONE` (whether a `FileEntry` takes 36 or 40 bytes). -/
theorem read_accepts_any_name_count_counterexample :
    (Archive.readFile sampleEnv sampleArchive (some sampleMissingName)).map
      (fun r => (r.1, r.2.m_Header.fileCount, r.2.m_Files.length, r.2.m_TableNames)) =
        some (Res.ok ERROR_NONE, 2, 2, [[97]]) ∧
    (Archive.readFile sampleEnv40 sampleArchive (some sampleMissingName)).map
      (fun r => (r.1, r.2.m_Header.fileCount, r.2.m_Files.length, r.2.m_TableNames)) =
        some (Res.ok ERROR_NONE, 2, 2, [[97]]) :=
  ⟨by decide, by decide⟩

/-- C10 (what the sources do). When the stream of an archive with a valid header
ends before the record table has been read in full (a General table of
`sizeof(FileEntry) * fileCount` bytes, or a header or chunk record of a DX10
table), `Archive::read` on a fresh archive object returns `ERROR_NONE`: the
short read leaves the stream failed, no name is read, and the object holds
`fileCount` records. -/
theorem read_truncated_table (env : Env) (h0 : Header) (u0 : Bool) (data : List Nat)
    (v n t : Nat) (tag rest : List Nat)
    (hd : data = [66, 84, 68, 88] ++ toLE 4 v ++ tag ++ toLE 4 n ++ toLE 8 t ++ rest)
    (hv : v < 2 ^ 32) (hn : n < 2 ^ 32) (ht : t < 2 ^ 64)
    (htrunc : (tag = [71, 78, 82, 76] ∧ data.length < 24 + env.sizeofFileEntry * n) ∨
      (tag = [68, 88, 49, 48] ∧ data.length < textureStart data 24 n)) :
    ∃ a', Archive.readFile env (Archive.new h0 u0) (some data) = some (Res.ok ERROR_NONE, a') ∧
      a'.getFileList = [] ∧ a'.m_File.failed = true ∧
      (tag = [71, 78, 82, 76] → a'.m_Files.length = n) ∧
      (tag = [68, 88, 49, 48] → a'.m_Textures.length = n) := by
  obtain ⟨a', hr, hnm, hfl, hG, hD⟩ := Archive.read_of_truncated env
    { Archive.new h0 u0 with m_File := IStream.ofData data } v n t tag rest
    rfl rfl rfl hd hv hn ht htrunc
  exact ⟨a', hr, by simpa [Archive.new, Archive.getFileList] using hnm, hfl, hG, hD⟩

set_option maxRecDepth 100000 in
/-- Witness for C10: a General archive that announces two records and ends
after the first one (read with records of 36 and of 40 bytes), and a DX10
archive that ends in the middle of a chunk record. -/
theorem read_truncated_table_witness :
    (∃ a', Archive.readFile sampleEnv sampleArchive (some (sampleTwoFiles.take 60)) =
        some (Res.ok ERROR_NONE, a') ∧ a'.getFileList = [] ∧ a'.m_Files.length = 2) ∧
    (∃ a', Archive.readFile sampleEnv40 sampleArchive (some (sampleTwoFiles.take 60)) =
        some (Res.ok ERROR_NONE, a') ∧ a'.getFileList = [] ∧ a'.m_Files.length = 2) ∧
    (∃ a', Archive.readFile sampleEnv sampleArchive (some (sampleDX10File.take 50)) =
        some (Res.ok ERROR_NONE, a') ∧ a'.getFileList = [] ∧ a'.m_Textures.length = 2) :=
  ⟨(read_truncated_table sampleEnv sampleArchive.m_Header true (sampleTwoFiles.take 60) 1 2 106
      [71, 78, 82, 76] (sampleRecord 1 96 0 5) (by decide) (by decide) (by decide) (by decide)
      (Or.inl ⟨rfl, by decide⟩)).imp
      fun _ h => ⟨h.1, h.2.1, h.2.2.2.1 rfl⟩,
   (read_truncated_table sampleEnv40 sampleArchive.m_Header true (sampleTwoFiles.take 60) 1 2
      106 [71, 78, 82, 76] (sampleRecord 1 96 0 5) (by decide) (by decide) (by decide)
      (by decide) (Or.inl ⟨rfl, by decide⟩)).imp
      fun _ h => ⟨h.1, h.2.1, h.2.2.2.1 rfl⟩,
   (read_truncated_table sampleEnv sampleArchive.m_Header true (sampleDX10File.take 50) 1 2 109
      [68, 88, 49, 48] ((sampleTexHeader 1 4 4 1 71 ++ sampleChunk 96 13 5 0 0).take 26)
      (by decide) (by decide) (by decide) (by decide) (Or.inr ⟨rfl, by decide⟩)).imp
      fun _ h => ⟨h.1, h.2.1, h.2.2.2.2 rfl⟩⟩

/-! ## Claims on the extraction of General archives -/

/-- Extraction of a General archive whose stream is open and good and all of
whose records can be extracted. -/
theorem extractAll_general_of_good (env : Env) (a : Archive) (destination : List Nat)
    (progress : Int → List Nat → Bool) (overwrite : Bool) (fs : FileSys)
    (hty : a.m_Header.type = TYPE_GENERAL) (ho : a.m_File.isOpen = true)
    (hf : a.m_File.failed = false) (hsz : a.m_File.data.length < 2 ^ 63)
    (hlen : a.m_Files.length = a.m_TableNames.length)
    (hall : ∀ f ∈ a.m_Files, extractable env a.m_File.data f) :
    (Archive.extractAll env a destination progress overwrite fs).1 =
      Outcome.returned ERROR_NONE ∧
    ∀ (i : Nat) (file : FileEntry) (name : List Nat), a.m_Files[i]? = some file →
      a.m_TableNames[i]? = some name →
      fs.creatable (outputPath destination name) = true →
      (∀ (j : Nat) (name' : List Nat), i < j → a.m_TableNames[j]? = some name' →
        outputPath destination name' ≠ outputPath destination name) →
      (Archive.extractAll env a destination progress overwrite fs).2.fs.files
        (outputPath destination name) = some (payloadOf env a.m_File.data file) := by
  obtain ⟨x', hl, -, -, -, hmain⟩ := extractAllGeneralLoop_of_extractable env destination
    a.m_Files a.m_TableNames { stream := a.m_File, fs := fs, calls := [], progress := [] }
    hlen ho hf hsz hall
  have he : Archive.extractAll env a destination progress overwrite fs
      = (Outcome.returned ERROR_NONE, x') := by
    simp only [Archive.extractAll, hty, extractAllGeneral, hlen, ne_eq, not_true_eq_false,
      if_false]
    exact hl
  rw [he]
  exact ⟨rfl, fun i file name hfi hni hcr hlater => hmain i file name hfi hni hcr hlater⟩

/-- C1 (amended). For every General archive object that results from reading
its file into a fresh object, or whose stream is otherwise open and good,
whose name count equals its record count, and all of whose records can be
extracted (the payload lies within the stream and, where it is compressed,
inflates to the expected size): `extractAll` returns `ERROR_NONE`, and for
every record `i` stored uncompressed (`packedLen` 0 or equal to
`unpackedLen`) whose output path (destination, a backslash, name `i`) can
be created and is not the output path of a later record, the file at that
path holds exactly the `unpackedLen` stream bytes that start at the offset of
the record. -/
theorem extractAll_general_stored (env : Env) (a : Archive) (destination : List Nat)
    (progress : Int → List Nat → Bool) (overwrite : Bool) (fs : FileSys)
    (hparsed : (∃ h0 u0, Archive.readFile env (Archive.new h0 u0) (some a.m_File.data) =
        some (Res.ok ERROR_NONE, a)) ∨
      (a.m_File.isOpen = true ∧ a.m_File.failed = false))
    (hty : a.m_Header.type = TYPE_GENERAL) (hsz : a.m_File.data.length < 2 ^ 63)
    (hlen : a.m_Files.length = a.m_TableNames.length)
    (hall : ∀ f ∈ a.m_Files, extractable env a.m_File.data f) :
    (Archive.extractAll env a destination progress overwrite fs).1 =
      Outcome.returned ERROR_NONE ∧
    ∀ (i : Nat) (file : FileEntry) (name : List Nat), a.m_Files[i]? = some file →
      a.m_TableNames[i]? = some name →
      (file.packedLen = 0 ∨ file.packedLen = file.unpackedLen) →
      fs.creatable (outputPath destination name) = true →
      (∀ (j : Nat) (name' : List Nat), i < j → a.m_TableNames[j]? = some name' →
        outputPath destination name' ≠ outputPath destination name) →
      (Archive.extractAll env a destination progress overwrite fs).2.fs.files
        (outputPath destination name) = some (slice a.m_File.data file.offset file.unpackedLen) := by
  have hstate : (a.m_File.isOpen = true ∧ a.m_File.failed = false) ∨ a.m_Files = [] := by
    rcases hparsed with ⟨h0, u0, hr⟩ | h
    · obtain ⟨ho, -, hn, -, -⟩ := Archive.readFile_ok_state env h0 u0 _ a hsz hr
      rcases hn with hn | hn
      · right
        rw [hn] at hlen
        exact List.length_eq_zero.mp hlen
      · exact Or.inl ⟨ho, hn⟩
    · exact Or.inl h
  rcases hstate with ⟨ho, hf⟩ | hnil
  · obtain ⟨h1, h2⟩ := extractAll_general_of_good env a destination progress overwrite fs hty
      ho hf hsz hlen hall
    refine ⟨h1, ?_⟩
    intro i file name hfi hni hst hcr hlater
    rw [h2 i file name hfi hni hcr hlater]
    have hnc : ¬ (file.packedLen ≠ 0 ∧ file.unpackedLen ≠ file.packedLen) := by
      rcases hst with h | h
      · simp [h]
      · simp [h]
    simp only [payloadOf, if_neg hnc]
  · have hn : a.m_TableNames = [] := by
      rw [hnil] at hlen
      exact List.length_eq_zero.mp hlen.symm
    refine ⟨?_, ?_⟩
    · simp [Archive.extractAll, hty, extractAllGeneral, hnil, hn, extractAllGeneralLoop]
    · intro i file name hfi
      rw [hnil] at hfi
      simp at hfi

set_option maxRecDepth 100000 in
/-- Witness for C1 (amended): the scenario of the specification; the archive
`sampleGeneralFile` is read and extracted to "d", and "d\a.txt" holds the
five bytes "hello". -/
theorem extractAll_general_stored_witness :
    Archive.readFile sampleEnv sampleArchive (some sampleGeneralFile) =
      some (Res.ok ERROR_NONE, sampleParsed) ∧
    (Archive.extractAll sampleEnv sampleParsed [100] (fun _ _ => true) true sampleFs).1 =
      Outcome.returned ERROR_NONE ∧
    (Archive.extractAll sampleEnv sampleParsed [100] (fun _ _ => true) true sampleFs).2.fs.files
      [100, 92, 97, 46, 116, 120, 116] = some hello :=
  have h := extractAll_general_stored sampleEnv sampleParsed [100] (fun _ _ => true) true
    sampleFs (Or.inl ⟨sampleArchive.m_Header, true, by decide⟩) rfl (by decide) rfl (by decide)
  ⟨by decide, h.1,
    h.2 0 sampleStoredRecord [97, 46, 116, 120, 116] rfl rfl (Or.inl rfl) rfl
      (fun j name' hj hn => by
        have : j = 0 := by
          by_contra hne
          have : sampleParsed.m_TableNames[j]? = none := by
            match j, hj with
            | k + 1, _ => rfl
          rw [this] at hn
          cases hn
        omega)⟩

set_option maxRecDepth 100000 in
/-- Counterexample for C1 as stated, on parsed General archives with as many
names as records, in the packed layout (`sampleEnv`, records of 36 bytes) and
in the padded one (`sampleEnv40`, records of 40 bytes).  When both records
are named "a", both are stored uncompressed and lie within the stream, and
"d\a", the output path of record 0, ends up holding "world", not the bytes
"hello" at the offset of record 0.  When the first record claims 4 packed
bytes that are no zlib stream, record 1 is stored uncompressed and lies
within the stream, and `extractAll` returns `ERROR_INVALIDDATA` without
creating "d\b".  After `close()`, `extractAll` returns `ERROR_NONE` and
leaves both files empty.  Where no file can be created, `extractAll` returns
`ERROR_NONE` and there is no file. -/
theorem extractAll_general_stored_counterexample :
    (sampleExtractAll sampleEnv (sampleTwoPadded 0 0 [[97], [97]]) false sampleFs =
        some (Outcome.returned ERROR_NONE, some world, none) ∧
      sampleExtractAll sampleEnv40 (sampleTwoPadded 4 0 [[97], [97]]) false sampleFs =
        some (Outcome.returned ERROR_NONE, some world, none) ∧
      slice (sampleTwoPadded 0 0 [[97], [97]]) 96 5 = hello ∧
      slice (sampleTwoPadded 4 0 [[97], [97]]) 104 5 = hello ∧ hello ≠ world) ∧
    (sampleExtractAll sampleEnv (sampleTwoPadded 0 4 [[97], [98]]) false sampleFs =
        some (Outcome.returned ERROR_INVALIDDATA, some [], none) ∧
      sampleExtractAll sampleEnv40 (sampleTwoPadded 4 4 [[97], [98]]) false sampleFs =
        some (Outcome.returned ERROR_INVALIDDATA, some [], none)) ∧
    (sampleExtractAll sampleEnv (sampleTwoPadded 0 0 [[97], [98]]) true sampleFs =
        some (Outcome.returned ERROR_NONE, some [], some []) ∧
      sampleExtractAll sampleEnv40 (sampleTwoPadded 4 0 [[97], [98]]) true sampleFs =
        some (Outcome.returned ERROR_NONE, some [], some [])) ∧
    (sampleExtractAll sampleEnv (sampleTwoPadded 0 0 [[97], [98]]) false sampleFsReadOnly =
        some (Outcome.returned ERROR_NONE, none, none) ∧
      sampleExtractAll sampleEnv40 (sampleTwoPadded 4 0 [[97], [98]]) false sampleFsReadOnly =
        some (Outcome.returned ERROR_NONE, none, none)) :=
  ⟨⟨by decide, by decide, by decide, by decide, by decide⟩, ⟨by decide, by decide⟩,
    ⟨by decide, by decide⟩, ⟨by decide, by decide⟩⟩

/-- The body of the loop of `extractAllGeneral` on a compressed record, the
archive stream being open. -/
theorem extractGeneralEntry_compressed_eq (env : Env) (destination : List Nat)
    (file : FileEntry) (name : List Nat) (x : Extraction) (ho : x.stream.isOpen = true)
    (hc : file.packedLen ≠ 0 ∧ file.unpackedLen ≠ file.packedLen) :
    extractGeneralEntry env destination file name x =
      if (env.uncompress (sourceOf env file x) (expectedLen file)).1 ≠ Z_OK ∨
          (env.uncompress (sourceOf env file x) (expectedLen file)).2.length ≠ expectedLen file
      then
        (some ERROR_INVALIDDATA,
          { stream := ((x.stream.seekg file.offset).read file.packedLen).2
            fs := (x.fs.openOut (outputPath destination name)).2
            calls := x.calls ++ [(sourceOf env file x, expectedLen file)]
            progress := x.progress })
      else
        (none,
          { stream := ((x.stream.seekg file.offset).read file.packedLen).2
            fs := (x.fs.openOut (outputPath destination name)).2.write
              (x.fs.openOut (outputPath destination name)).1
              ((overlay (env.uncompress (sourceOf env file x) (expectedLen file)).2
                (env.uninit (expectedLen file))).take (expectedLen file))
            calls := x.calls ++ [(sourceOf env file x, expectedLen file)]
            progress := x.progress }) := by
  simp only [extractGeneralEntry, ho, if_true, if_pos hc]
  rfl

/-- The body of the loop of `extractAllGeneral` does not call `uncompress` on a
record stored uncompressed, nor when the archive stream is closed. -/
theorem extractGeneralEntry_calls_eq (env : Env) (destination : List Nat)
    (file : FileEntry) (name : List Nat) (x : Extraction)
    (h : x.stream.isOpen = false ∨ ¬ (file.packedLen ≠ 0 ∧ file.unpackedLen ≠ file.packedLen)) :
    (extractGeneralEntry env destination file name x).2.calls = x.calls := by
  rcases h with h | h
  · simp [extractGeneralEntry, h]
  · by_cases ho : x.stream.isOpen = true
    · simp only [extractGeneralEntry, ho, if_true, if_neg h]
    · simp [extractGeneralEntry, ho]

/-- Every call of `uncompress` made by the body of the loop of
`extractAllGeneral` is for a compressed record, with its expected size. -/
theorem extractGeneralEntry_calls_mem (env : Env) (destination : List Nat)
    (file : FileEntry) (name : List Nat) (x : Extraction) (c : List Nat × Nat)
    (hc : c ∈ (extractGeneralEntry env destination file name x).2.calls) :
    c ∈ x.calls ∨
      (file.packedLen ≠ 0 ∧ file.packedLen ≠ file.unpackedLen ∧ c.2 = expectedLen file) := by
  by_cases h : x.stream.isOpen = true ∧ (file.packedLen ≠ 0 ∧ file.unpackedLen ≠ file.packedLen)
  · have heq := extractGeneralEntry_compressed_eq env destination file name x h.1 h.2
    have hcalls : (extractGeneralEntry env destination file name x).2.calls
        = x.calls ++ [(sourceOf env file x, expectedLen file)] := by
      rw [heq]; split <;> rfl
    rw [hcalls, List.mem_append, List.mem_singleton] at hc
    rcases hc with hc | hc
    · exact Or.inl hc
    · exact Or.inr ⟨h.2.1, fun e => h.2.2 e.symm, by rw [hc]⟩
  · have hcalls := extractGeneralEntry_calls_eq env destination file name x (by
      by_cases ho : x.stream.isOpen = true
      · exact Or.inr (fun hcmp => h ⟨ho, hcmp⟩)
      · exact Or.inl (by simpa using ho))
    rw [hcalls] at hc
    exact Or.inl hc

/-- Every call of `uncompress` made by the loop of `extractAllGeneral` is for a
compressed record, with its expected size. -/
theorem extractAllGeneralLoop_calls_mem (env : Env) (destination : List Nat)
    (files : List FileEntry) (names : List (List Nat)) (x : Extraction) (c : List Nat × Nat)
    (hc : c ∈ (extractAllGeneralLoop env destination files names x).2.calls) :
    c ∈ x.calls ∨
      ∃ f ∈ files, f.packedLen ≠ 0 ∧ f.packedLen ≠ f.unpackedLen ∧ c.2 = expectedLen f := by
  induction files generalizing names x with
  | nil =>
    simp only [extractAllGeneralLoop] at hc
    exact Or.inl hc
  | cons f fs ih =>
    match names with
    | [] =>
      simp only [extractAllGeneralLoop] at hc
      exact Or.inl hc
    | n :: ns =>
      simp only [extractAllGeneralLoop] at hc
      rcases he : extractGeneralEntry env destination f n x with ⟨r, x1⟩
      rw [he] at hc
      have hentry : ∀ c', c' ∈ x1.calls → c' ∈ x.calls ∨
          (f.packedLen ≠ 0 ∧ f.packedLen ≠ f.unpackedLen ∧ c'.2 = expectedLen f) := by
        intro c' hc'
        have := extractGeneralEntry_calls_mem env destination f n x c' (by rw [he]; exact hc')
        exact this
      cases r with
      | some e =>
        simp only at hc
        rcases hentry c hc with h | h
        · exact Or.inl h
        · exact Or.inr ⟨f, List.mem_cons_self _ _, h⟩
      | none =>
        simp only at hc
        rcases ih ns x1 hc with h | ⟨g, hg, hgc⟩
        · rcases hentry c h with h' | h'
          · exact Or.inl h'
          · exact Or.inr ⟨f, List.mem_cons_self _ _, h'⟩
        · exact Or.inr ⟨g, List.mem_cons_of_mem _ hg, hgc⟩

/-- C2. In the loop of `extractAllGeneral`, for a record with `packedLen` not 0
and different from `unpackedLen` (the archive stream being open): `packedLen`
bytes are read at the offset of the record into the source buffer (on a
good stream that holds them, the buffer is exactly those bytes of the
stream), zlib's `uncompress` is called once, on that buffer, with the
expected size `unpackedLen`, or the last field `unk20` when `unpackedLen` is
0; when it reports `Z_OK` and exactly that many bytes, those bytes are
written to the output file of the record, and otherwise `ERROR_INVALIDDATA`
is returned.  In no other case is `uncompress` called: not by the body of
the loop on another record or a closed stream, and every call made by a
whole run of the loop is for a record of the table of this kind, with its
expected size. -/
theorem extractGeneralEntry_inflates (env : Env) (destination : List Nat) (file : FileEntry)
    (name : List Nat) (x : Extraction) :
    (x.stream.isOpen = true → file.packedLen ≠ 0 → file.packedLen ≠ file.unpackedLen →
      (extractGeneralEntry env destination file name x).2.calls =
        x.calls ++ [(sourceOf env file x, expectedLen file)] ∧
      (sourceOf env file x).length = file.packedLen ∧
      (x.stream.failed = false → x.stream.data.length < 2 ^ 63 →
        file.offset + file.packedLen ≤ x.stream.data.length →
        sourceOf env file x = slice x.stream.data file.offset file.packedLen) ∧
      ((env.uncompress (sourceOf env file x) (expectedLen file)).1 = Z_OK →
        (env.uncompress (sourceOf env file x) (expectedLen file)).2.length = expectedLen file →
        (extractGeneralEntry env destination file name x).1 = none ∧
        (extractGeneralEntry env destination file name x).2.fs =
          (x.fs.openOut (outputPath destination name)).2.write
            (x.fs.openOut (outputPath destination name)).1
            (env.uncompress (sourceOf env file x) (expectedLen file)).2 ∧
        (x.fs.creatable (outputPath destination name) = true →
          (extractGeneralEntry env destination file name x).2.fs.files
            (outputPath destination name) =
              some (env.uncompress (sourceOf env file x) (expectedLen file)).2)) ∧
      (¬ ((env.uncompress (sourceOf env file x) (expectedLen file)).1 = Z_OK ∧
          (env.uncompress (sourceOf env file x) (expectedLen file)).2.length =
            expectedLen file) →
        (extractGeneralEntry env destination file name x).1 = some ERROR_INVALIDDATA)) ∧
    ((x.stream.isOpen = false ∨ file.packedLen = 0 ∨ file.packedLen = file.unpackedLen) →
      (extractGeneralEntry env destination file name x).2.calls = x.calls) ∧
    (∀ (files : List FileEntry) (names : List (List Nat)) (c : List Nat × Nat),
      c ∈ (extractAllGeneralLoop env destination files names x).2.calls →
      c ∈ x.calls ∨
        ∃ f ∈ files, f.packedLen ≠ 0 ∧ f.packedLen ≠ f.unpackedLen ∧ c.2 = expectedLen f) := by
  refine ⟨?_, ?_, fun files names c hc =>
    extractAllGeneralLoop_calls_mem env destination files names x c hc⟩
  · intro ho h0 hne
    have hc : file.packedLen ≠ 0 ∧ file.unpackedLen ≠ file.packedLen := ⟨h0, fun e => hne e.symm⟩
    have hlen : (sourceOf env file x).length = file.packedLen := by
      have hr : ((x.stream.seekg file.offset).read file.packedLen).1.length ≤ file.packedLen := by
        unfold IStream.read
        split
        · simp
        · simp [slice]
      simp only [sourceOf, overlay, Env.uninit, List.length_append, List.length_drop,
        List.length_map, List.length_range]
      omega
    have heq := extractGeneralEntry_compressed_eq env destination file name x ho hc
    refine ⟨?_, hlen, ?_, ?_, ?_⟩
    · rw [heq]
      split <;> rfl
    · intro hf hsz hfit
      have hs := IStream.seekg_of_good x.stream file.offset hf (by omega)
      have hrd := IStream.read_of_fits { x.stream with pos := file.offset } file.packedLen hf hfit
      unfold sourceOf
      rw [hs, hrd]
      exact overlay_of_length _ _ (by simp [Env.uninit, slice_length _ _ _ hfit])
    · intro hok hl
      have hnot : ¬ ((env.uncompress (sourceOf env file x) (expectedLen file)).1 ≠ Z_OK ∨
          (env.uncompress (sourceOf env file x) (expectedLen file)).2.length ≠
            expectedLen file) := by
        simp [hok, hl]
      have ht : (overlay (env.uncompress (sourceOf env file x) (expectedLen file)).2
          (env.uninit (expectedLen file))).take (expectedLen file)
          = (env.uncompress (sourceOf env file x) (expectedLen file)).2 := by
        rw [overlay_of_length _ _ (by simp [Env.uninit, hl])]
        exact List.take_of_length_le (by omega)
      rw [heq, if_neg hnot, ht]
      refine ⟨rfl, rfl, ?_⟩
      intro hcr
      simp only
      rw [FileSys.files_open_write]
      simp [hcr]
    · intro hbad
      have hyes : (env.uncompress (sourceOf env file x) (expectedLen file)).1 ≠ Z_OK ∨
          (env.uncompress (sourceOf env file x) (expectedLen file)).2.length ≠
            expectedLen file := by
        by_contra hcon
        simp only [not_or, not_not] at hcon
        exact hbad hcon
      rw [heq, if_pos hyes]
  · intro h
    apply extractGeneralEntry_calls_eq
    rcases h with h | h | h
    · exact Or.inl h
    · exact Or.inr (by simp [h])
    · exact Or.inr (by simp [h])

set_option maxRecDepth 100000 in
/-- Witness for C2: the record `sampleCompressedRecord` (13 packed bytes, 5
unpacked bytes) is inflated from the zlib stream of "hello" and "d\a.txt"
holds "hello". -/
theorem extractGeneralEntry_inflates_witness :
    (extractGeneralEntry sampleEnv [100] sampleCompressedRecord [97, 46, 116, 120, 116]
      sampleExtraction).2.calls = [(helloDeflated, 5)] ∧
    (extractGeneralEntry sampleEnv [100] sampleCompressedRecord [97, 46, 116, 120, 116]
      sampleExtraction).2.fs.files [100, 92, 97, 46, 116, 120, 116] = some hello :=
  have h := (extractGeneralEntry_inflates sampleEnv [100] sampleCompressedRecord
    [97, 46, 116, 120, 116] sampleExtraction).1 rfl (by decide) (by decide)
  ⟨h.1, (h.2.2.2.1 (by decide) (by decide)).2.2 rfl⟩

/-! ## A name table that ends within an entry -/

/-- The string built from a buffer starts with the string built from any of
its prefixes. -/
theorem cstr_prefix (a b : List Nat) : cstr a <+: cstr (a ++ b) := by
  induction a with
  | nil => simp [cstr]
  | cons x xs ih =>
    by_cases hx : x = 0
    · simp [cstr, hx]
    · simp only [List.cons_append, cstr, hx, if_false]
      exact (List.prefix_cons_inj x).2 ih

/-- The first bytes of a buffer after a short read of `length` bytes that
extracted `got` and the assignment `buffer[length] = 0`. -/
theorem buffer_after_short (got : List Nat) (length : Nat) (buffer : Nat → Nat)
    (h : got.length < length) :
    ∃ more, (List.range (length + 1)).map (bufSet (bufStore got buffer) length 0) = got ++ more := by
  refine ⟨((List.range (length + 1)).map (bufSet (bufStore got buffer) length 0)).drop got.length, ?_⟩
  have ht : ((List.range (length + 1)).map (bufSet (bufStore got buffer) length 0)).take got.length
      = got := by
    apply List.ext_getElem
    · simp; omega
    · intro i h1 h2
      have hne : i ≠ length := by omega
      simp [bufSet, bufStore, hne, h2, List.getD_eq_getElem?_getD, List.getElem?_eq_getElem h2]
  conv_lhs => rw [← List.take_append_drop got.length
    ((List.range (length + 1)).map (bufSet (bufStore got buffer) length 0))]
  rw [ht]

/-- The loop of `readNametable` through the encoding of a list of names that is
followed by further bytes. -/
theorem readNametableLoop_through_encoded (names : List (List Nat)) (fuel : Nat) (s : IStream)
    (buffer : Nat → Nat) (acc : List (List Nat)) (rest : List Nat)
    (hf : s.failed = false) (hsz : s.data.length < 2 ^ 63) (hpos : s.pos ≤ s.data.length)
    (hd : s.data.drop s.pos = encodeNames names ++ rest)
    (hn : ∀ nm ∈ names, nm.length < 65536 ∧ 0 ∉ nm) :
    ∃ buffer', readNametableLoop s.data.length (names.length + fuel) s buffer acc =
      readNametableLoop s.data.length fuel
        { s with pos := s.pos + (encodeNames names).length } buffer' (acc ++ names) := by
  induction names generalizing s buffer acc with
  | nil =>
    refine ⟨buffer, ?_⟩
    simp [encodeNames]
  | cons nm names ih =>
    obtain ⟨o, d, p, f⟩ := s
    simp only at hf hsz hpos hd ⊢
    subst hf
    have hnm := hn nm (List.mem_cons_self _ _)
    rw [encodeNames_cons] at hd
    have hlen : d.length - p = 2 + nm.length + (encodeNames names).length + rest.length := by
      have := congrArg List.length hd
      simp only [List.length_drop, List.length_append, toLE_length] at this
      omega
    have ht : toSizeT (IStream.tellg ⟨o, d, p, false⟩) = p := by
      simp only [IStream.tellg]
      exact toSizeT_natCast p (by omega)
    have hc : 2 ≤ (d.length + 2 ^ 64 - p) % 2 ^ 64 := by omega
    have r1 := readType_of_drop ⟨o, d, p, false⟩ 2 (toLE 2 nm.length)
      (nm ++ encodeNames names ++ rest) rfl (by simp only [hd]; simp) (toLE_length 2 _)
    have e1 := fromLE_toLE 2 nm.length (by norm_num; exact hnm.1)
    have hd2 : d.drop (p + 2) = nm ++ (encodeNames names ++ rest) := by
      have h2 : (toLE 2 nm.length ++ nm ++ encodeNames names ++ rest)
          = toLE 2 nm.length ++ (nm ++ (encodeNames names ++ rest)) := by simp
      have := drop_add_of_drop_eq d p _ _ (hd.trans h2)
      rwa [toLE_length] at this
    have r2 := IStream.read_of_drop ⟨o, d, p + 2, false⟩ nm.length nm
      (encodeNames names ++ rest) rfl hd2 rfl
    have hd3 : d.drop (p + 2 + nm.length) = encodeNames names ++ rest :=
      drop_add_of_drop_eq d (p + 2) _ _ hd2
    obtain ⟨buffer', ih'⟩ := ih ⟨o, d, p + 2 + nm.length, false⟩
      (bufSet (bufStore nm buffer) nm.length 0) (acc ++ [nm]) rfl hsz
      (by simp only; omega) hd3 (fun x hx => hn x (List.mem_cons_of_mem _ hx))
    simp only at r1 r2 ih'
    refine ⟨buffer', ?_⟩
    have hfuel : (nm :: names).length + fuel = (names.length + fuel) + 1 := by
      simp only [List.length_cons]; omega
    rw [hfuel]
    conv_lhs => unfold readNametableLoop
    rw [ht, if_pos hc, r1, e1]
    dsimp only
    rw [r2]
    dsimp only
    rw [cstrBuf_after_name nm buffer hnm.2, ih']
    have hp' : p + 2 + nm.length + (encodeNames names).length
        = p + (encodeNames (nm :: names)).length := by
      rw [encodeNames_cons]
      simp only [List.length_append, toLE_length]
      omega
    rw [hp']
    simp

/-- The loop of `readNametable` at an entry whose length prefix is larger than
the number of bytes that follow it: the bytes that are left are read, a name
is appended, and the next iteration throws. -/
theorem readNametableLoop_of_truncated_entry (fuel : Nat) (s : IStream) (buffer : Nat → Nat)
    (acc : List (List Nat)) (length : Nat) (rest : List Nat)
    (hf : s.failed = false) (hsz : s.data.length < 2 ^ 63) (hpos : s.pos ≤ s.data.length)
    (hd : s.data.drop s.pos = toLE 2 length ++ rest) (hL : length < 65536)
    (hshort : rest.length < length) :
    readNametableLoop s.data.length (fuel + 2) s buffer acc =
      some (Res.throw Exn.cantRead, { s with pos := s.data.length, failed := true },
        acc ++ [cstrBuf (bufSet (bufStore rest buffer) length 0) (length + 1)]) := by
  obtain ⟨o, d, p, f⟩ := s
  simp only at hf hsz hpos hd ⊢
  subst hf
  have hlen : d.length - p = 2 + rest.length := by
    have := congrArg List.length hd
    simp only [List.length_drop, List.length_append, toLE_length] at this
    omega
  have ht : toSizeT (IStream.tellg ⟨o, d, p, false⟩) = p := by
    simp only [IStream.tellg]
    exact toSizeT_natCast p (by omega)
  have hc : 2 ≤ (d.length + 2 ^ 64 - p) % 2 ^ 64 := by omega
  have r1 := readType_of_drop ⟨o, d, p, false⟩ 2 (toLE 2 length) rest rfl hd (toLE_length 2 _)
  have e1 := fromLE_toLE 2 length (by norm_num; exact hL)
  have hd2 : d.drop (p + 2) = rest := by
    have := drop_add_of_drop_eq d p _ _ hd
    rwa [toLE_length] at this
  have r2 : IStream.read ⟨o, d, p + 2, false⟩ length = (rest, ⟨o, d, d.length, true⟩) := by
    have hs : slice d (p + 2) length = rest := by
      unfold slice
      rw [hd2]
      exact List.take_of_length_le (by omega)
    unfold IStream.read
    simp only [hs]
    have : p + 2 + rest.length = d.length := by omega
    simp [this]
    omega
  have ht2 : toSizeT (IStream.tellg ⟨o, d, d.length, true⟩) = 2 ^ 64 - 1 := by
    simp only [IStream.tellg]
    exact toSizeT_neg_one
  have hc2 : 2 ≤ (d.length + 2 ^ 64 - (2 ^ 64 - 1)) % 2 ^ 64 := by omega
  have r3 := readType_of_failed ⟨o, d, d.length, true⟩ 2 rfl
  simp only at r1
  unfold readNametableLoop
  rw [ht, if_pos hc, r1, e1]
  dsimp only
  rw [r2]
  dsimp only
  unfold readNametableLoop
  rw [ht2, if_pos hc2, r3]

/-- Reading of a name table whose last entry announces more bytes than the
stream holds. -/
theorem readNametable_of_truncated_entry (env : Env) (a : Archive) (names : List (List Nat))
    (pre rest : List Nat) (length : Nat) (hf : a.m_File.failed = false)
    (hd : a.m_File.data = pre ++ encodeNames names ++ toLE 2 length ++ rest)
    (hoff : a.m_Header.offsetNameTable = pre.length) (hL : length < 65536)
    (hshort : rest.length < length) (hsz : a.m_File.data.length < 2 ^ 63)
    (hn : ∀ nm ∈ names, nm.length < 65536 ∧ 0 ∉ nm) :
    ∃ nm', cstr rest <+: nm' ∧
      readNametable env a =
        some (Res.throw Exn.cantRead,
          { a with
            m_File := { a.m_File with pos := a.m_File.data.length, failed := true }
            m_TableNames := a.m_TableNames ++ names ++ [nm'] }) := by
  obtain ⟨⟨o, d, p, f⟩, fs, ts, tn, ty, h, u⟩ := a
  simp only at hf hd hoff hsz ⊢
  subst hf
  have hlen : d.length = pre.length + (encodeNames names).length + 2 + rest.length := by
    rw [hd]; simp [Nat.add_assoc, toLE_length]
  have hge := encodeNames_length_ge names
  obtain ⟨buffer', hthrough⟩ := readNametableLoop_through_encoded names
    (d.length - names.length + 2) ⟨o, d, pre.length, false⟩
    (fun i => env.junk 0x10000 i % 256) tn (toLE 2 length ++ rest) rfl hsz (by simp only; omega)
    (by
      simp only
      rw [hd, List.append_assoc, List.append_assoc, List.drop_left]) hn
  have htrunc := readNametableLoop_of_truncated_entry (d.length - names.length)
    ⟨o, d, pre.length + (encodeNames names).length, false⟩ buffer' (tn ++ names) length rest
    rfl hsz (by simp only; omega)
    (by
      simp only
      have : d = (pre ++ encodeNames names) ++ (toLE 2 length ++ rest) := by
        rw [hd]; simp
      rw [this, ← List.length_append, List.drop_left]) hL hshort
  simp only at hthrough htrunc
  have hfuel : names.length + (d.length - names.length + 2) = d.length + 2 := by omega
  rw [hfuel] at hthrough
  obtain ⟨more, hmore⟩ := buffer_after_short rest length buffer' hshort
  refine ⟨cstrBuf (bufSet (bufStore rest buffer') length 0) (length + 1), ?_, ?_⟩
  · rw [cstrBuf, hmore]
    exact cstr_prefix rest more
  · unfold readNametable
    have h1 : IStream.seekEnd ⟨o, d, p, false⟩ = ⟨o, d, d.length, false⟩ := by
      simp [IStream.seekEnd]
    have h2 : toSizeT (IStream.tellg ⟨o, d, d.length, false⟩) = d.length := by
      simp only [IStream.tellg]
      exact toSizeT_natCast _ (by omega)
    have h3 : IStream.seekg ⟨o, d, d.length, false⟩ h.offsetNameTable
        = ⟨o, d, pre.length, false⟩ := by
      have hm : pre.length % 2 ^ 64 = pre.length := Nat.mod_eq_of_lt (by omega)
      have hlt : ¬ 2 ^ 63 ≤ pre.length := by omega
      simp only [IStream.seekg, hoff, hm, hlt]
      simp
    dsimp only
    rw [h1, h2, h3, hthrough, htrunc]
    simp

/-- The function `Archive::read` on an archive whose name table ends with an
entry that announces more bytes than the stream holds: the exception of
`readType` leaves `read`, the names read so far and one more being stored. -/
theorem Archive.read_of_truncated_entry (env : Env) (a : Archive) (v n t length : Nat)
    (tag body rest : List Nat) (names : List (List Nat))
    (ho : a.m_File.isOpen = true) (hf : a.m_File.failed = false) (hp : a.m_File.pos = 0)
    (hd : a.m_File.data = [66, 84, 68, 88] ++ toLE 4 v ++ tag ++ toLE 4 n ++ toLE 8 t
      ++ (body ++ encodeNames names ++ toLE 2 length ++ rest))
    (ht : t = 24 + body.length) (hv : v < 2 ^ 32) (hn : n < 2 ^ 32)
    (hsz : a.m_File.data.length < 2 ^ 63) (hL : length < 65536) (hshort : rest.length < length)
    (hnames : ∀ nm ∈ names, nm.length < 65536 ∧ 0 ∉ nm) (hS : 36 ≤ env.sizeofFileEntry)
    (hfit : (tag = [71, 78, 82, 76] ∧ 24 + env.sizeofFileEntry * n ≤ a.m_File.data.length) ∨
      (tag = [68, 88, 49, 48] ∧ textureStart a.m_File.data 24 n ≤ a.m_File.data.length)) :
    ∃ a' nm', Archive.read env a = some (Res.throw Exn.cantRead, a') ∧
      cstr rest <+: nm' ∧ a'.m_TableNames = a.m_TableNames ++ names ++ [nm'] := by
  have htag : tag = [71, 78, 82, 76] ∨ tag = [68, 88, 49, 48] := by
    rcases hfit with h | h
    · exact Or.inl h.1
    · exact Or.inr h.1
  have htl : tag.length = 4 := by rcases htag with h | h <;> simp [h]
  have hdl : a.m_File.data.length
      = 24 + (body.length + (encodeNames names).length + 2 + rest.length) := by
    rw [hd, List.length_append, header_length v n t tag htl]
    simp only [List.length_append, toLE_length]
  have ht64 : t < 2 ^ 64 := by omega
  have hr := readHeader_of_bytes env a.m_File v n t tag _ hf hp hd hv hn ht64 htag
  rw [Archive.read_of_header env a _ _ ho hr]
  have hd' : a.m_File.data =
      ([66, 84, 68, 88] ++ toLE 4 v ++ tag ++ toLE 4 n ++ toLE 8 t ++ body)
        ++ encodeNames names ++ toLE 2 length ++ rest := by
    rw [hd]; simp
  have hoff : t = ([66, 84, 68, 88] ++ toLE 4 v ++ tag ++ toLE 4 n ++ toLE 8 t ++ body).length := by
    rw [List.length_append, header_length v n t tag htl, ht]
  rcases hfit with ⟨hG, hs⟩ | ⟨hD, hs⟩
  · subst hG
    simp only [if_true]
    rw [readGeneral_of_fits env _ hS rfl (by simp only; omega)]
    dsimp only
    obtain ⟨nm', hpre, hnt⟩ := readNametable_of_truncated_entry env
      { a with
        m_File := { a.m_File with pos := 24 + env.sizeofFileEntry * n, failed := false }
        m_Files := decodeFiles env n (slice a.m_File.data 24 (env.sizeofFileEntry * n))
        m_Header := { version := v, type := TYPE_GENERAL, fileCount := n, offsetNameTable := t }
        m_Type := TYPE_GENERAL }
      names _ rest length rfl hd' hoff hL hshort hsz hnames
    rw [hnt]
    exact ⟨_, nm', rfl, hpre, rfl⟩
  · subst hD
    have hne : ([68, 88, 49, 48] : List Nat) ≠ [71, 78, 82, 76] := by decide
    simp only [if_neg hne, if_true, reduceCtorEq, if_false]
    have hl := resize_length a.m_Textures n Texture.zero
    have hloop := readDX10Loop_of_fits (resize a.m_Textures n Texture.zero)
      { a.m_File with pos := 24, failed := false } rfl (by rw [hl]; exact hs)
    rw [hl] at hloop
    simp only at hloop
    unfold readDX10
    dsimp only
    rw [hloop]
    dsimp only
    obtain ⟨nm', hpre, hnt⟩ := readNametable_of_truncated_entry env
      { a with
        m_File := { a.m_File with pos := textureStart a.m_File.data 24 n, failed := false }
        m_Textures := (List.range n).map
          (fun i => textureAt a.m_File.data (textureStart a.m_File.data 24 i))
        m_Header := { version := v, type := TYPE_DX10, fileCount := n, offsetNameTable := t }
        m_Type := TYPE_DX10 }
      names _ rest length rfl hd' hoff hL hshort hsz hnames
    dsimp only at hnt
    rw [hnt]
    exact ⟨_, nm', rfl, hpre, rfl⟩

set_option maxRecDepth 100000 in
/-- C11 (what the sources do). When the entry that follows the names `names`
of a name table has a length prefix `length` larger than the number of bytes
`rest` left after it, `readNametable` does not fail at that entry: the short
`read` is not checked, a name is appended for the entry (it starts with the
bytes that were left, up to their first NUL, and continues with what the
buffer held before), and only the next iteration fails, `readType` throwing
"can't read from ba2".  No handler of `Archive::read` covers `readNametable`
for that exception, so it leaves `read`, which returns no error code, with
the extra name stored in the archive object. -/
theorem readNametable_truncated_entry (env : Env) (names : List (List Nat)) (rest : List Nat)
    (length : Nat) (hL : length < 65536) (hshort : rest.length < length)
    (hnames : ∀ nm ∈ names, nm.length < 65536 ∧ 0 ∉ nm) :
    (∀ (a : Archive) (pre : List Nat), a.m_File.failed = false →
      a.m_File.data = pre ++ encodeNames names ++ toLE 2 length ++ rest →
      a.m_Header.offsetNameTable = pre.length → a.m_File.data.length < 2 ^ 63 →
      ∃ nm', cstr rest <+: nm' ∧
        readNametable env a =
          some (Res.throw Exn.cantRead,
            { a with
              m_File := { a.m_File with pos := a.m_File.data.length, failed := true }
              m_TableNames := a.m_TableNames ++ names ++ [nm'] })) ∧
    (∀ (a : Archive) (v n t : Nat) (tag body : List Nat), a.m_File.isOpen = true →
      a.m_File.failed = false → a.m_File.pos = 0 →
      a.m_File.data = [66, 84, 68, 88] ++ toLE 4 v ++ tag ++ toLE 4 n ++ toLE 8 t
        ++ (body ++ encodeNames names ++ toLE 2 length ++ rest) →
      t = 24 + body.length → v < 2 ^ 32 → n < 2 ^ 32 → a.m_File.data.length < 2 ^ 63 →
      36 ≤ env.sizeofFileEntry →
      ((tag = [71, 78, 82, 76] ∧ 24 + env.sizeofFileEntry * n ≤ a.m_File.data.length) ∨
        (tag = [68, 88, 49, 48] ∧ textureStart a.m_File.data 24 n ≤ a.m_File.data.length)) →
      ∃ a' nm', Archive.read env a = some (Res.throw Exn.cantRead, a') ∧
        cstr rest <+: nm' ∧ a'.m_TableNames = a.m_TableNames ++ names ++ [nm']) :=
  ⟨fun a pre hf hd hoff hsz =>
      readNametable_of_truncated_entry env a names pre rest length hf hd hoff hL hshort hsz hnames,
    fun a v n t tag body ho hf hp hd ht hv hn hsz hS hfit =>
      Archive.read_of_truncated_entry env a v n t length tag body rest names ho hf hp hd ht hv hn
        hsz hL hshort hnames hS hfit⟩

set_option maxRecDepth 100000 in
/-- Witness for C11: a name table that holds the name "a" and then an entry
that announces 5 bytes where 2 bytes, "bc", are left.  The names stored are
"a" and "bc" followed by three bytes of the uninitialised buffer, and reading
the archive `sampleTruncatedName` ends with the exception, not with an error
code. -/
theorem readNametable_truncated_entry_witness :
    (∃ nm', cstr [98, 99] <+: nm' ∧
      readNametable sampleEnv (sampleAtNames ([1, 2, 3] ++ encodeNames [[97]] ++ toLE 2 5 ++ [98, 99])) =
        some (Res.throw Exn.cantRead,
          { sampleAtNames ([1, 2, 3] ++ encodeNames [[97]] ++ toLE 2 5 ++ [98, 99]) with
            m_File :=
              { (sampleAtNames ([1, 2, 3] ++ encodeNames [[97]] ++ toLE 2 5 ++ [98, 99])).m_File with
                pos := (sampleAtNames
                  ([1, 2, 3] ++ encodeNames [[97]] ++ toLE 2 5 ++ [98, 99])).m_File.data.length
                failed := true }
            m_TableNames :=
              (sampleAtNames ([1, 2, 3] ++ encodeNames [[97]] ++ toLE 2 5 ++ [98, 99])).m_TableNames
                ++ [[97]] ++ [nm'] })) ∧
    (readNametable sampleEnv
        (sampleAtNames ([1, 2, 3] ++ encodeNames [[97]] ++ toLE 2 5 ++ [98, 99]))).map
      (fun r => (r.1, r.2.m_TableNames)) =
        some (Res.throw Exn.cantRead, [[97], [98, 99, 0xCD, 0xCD, 0xCD]]) ∧
    (Archive.readFile sampleEnv sampleArchive (some sampleTruncatedName)).map
      (fun r => (r.1, r.2.m_TableNames)) =
        some (Res.throw Exn.cantRead, [[97], [98, 99, 0xCD, 0xCD, 0xCD]]) ∧
    (Archive.readFile sampleEnv40 sampleArchive (some sampleTruncatedName40)).map
      (fun r => (r.1, r.2.m_TableNames)) =
        some (Res.throw Exn.cantRead, [[97], [98, 99, 0xCD, 0xCD, 0xCD]]) :=
  ⟨(readNametable_truncated_entry sampleEnv [[97]] [98, 99] 5 (by decide) (by decide)
      (by decide)).1 _ [1, 2, 3] rfl rfl rfl (by decide),
    by decide, by decide, by decide⟩

/-! ## Extraction of DX10 archives, and failures of the decompressor -/

/-- Two successive writes to an output file are one write of the two blocks. -/
theorem FileSys.write_write (fs : FileSys) (out : OStream) (a b : List Nat) :
    (fs.write out a).write out b = fs.write out (a ++ b) := by
  unfold FileSys.write
  by_cases hg : out.good = true
  · simp only [hg, if_true]
    congr 1
    funext q
    by_cases hq : q = out.path
    · simp [hq]
    · simp [hq]
  · simp [hg]

/-- Opening an output file leaves what opening it and writing no byte
leaves. -/
theorem FileSys.openOut_write_nil (fs : FileSys) (p : List Nat) :
    (fs.openOut p).2.write (fs.openOut p).1 [] = (fs.openOut p).2 := by
  unfold FileSys.openOut FileSys.write
  by_cases hc : fs.creatable p = true
  · simp only [hc, if_true]
    congr 1
    funext q
    by_cases hq : q = p
    · simp [hq]
    · simp [hq]
  · simp [hc]

/-- The `switch` of `extractAllDX10` sets `ok` exactly for the supported
formats. -/
theorem ddsHeaderFor_ok (u : Bool) (texhdr : FileEntry_DX10) :
    (ddsHeaderFor u texhdr).1 = true ↔ supportedFormat texhdr.format := by
  unfold ddsHeaderFor supportedFormat
  dsimp only
  split_ifs <;> simp_all

/-- The serialised `DDS_HEADER` takes 124 bytes when its two reserved arrays
have 11 and 3 elements. -/
theorem ddsHeader_toBytes_length (h : DDS_HEADER) (h1 : h.dwReserved1.length = 11)
    (h2 : h.dwReserved2.length = 3) : h.toBytes.length = 124 := by
  have hf : ∀ l : List Nat, ((l.map (toLE 4)).flatten).length = 4 * l.length := by
    intro l
    induction l with
    | nil => rfl
    | cons a l ih => simp [toLE_length, ih]; omega
  simp only [DDS_HEADER.toBytes, DDS_PIXELFORMAT.toBytes, List.length_append, toLE_length, hf, h1,
    h2]

theorem ddsHeaderFor_reserved (u : Bool) (texhdr : FileEntry_DX10) :
    (ddsHeaderFor u texhdr).2.dwReserved1 = List.replicate 11 0 ∧
    (ddsHeaderFor u texhdr).2.dwReserved2 = List.replicate 3 0 := by
  unfold ddsHeaderFor
  dsimp only
  split_ifs <;> exact ⟨rfl, rfl⟩

/-- The header written by `extractAllDX10` takes 124 bytes. -/
theorem ddsHeaderFor_toBytes_length (u : Bool) (texhdr : FileEntry_DX10) :
    (ddsHeaderFor u texhdr).2.toBytes.length = 124 := by
  have h := ddsHeaderFor_reserved u texhdr
  exact ddsHeader_toBytes_length _ (by rw [h.1]; rfl) (by rw [h.2]; rfl)

/-- One iteration of the loop over the chunks of a texture: when the call of
`uncompress` fails the function returns `ERROR_INVALIDDATA` and writes nothing;
otherwise the bytes produced are written and the loop goes on. -/
theorem extractChunks_cons (env : Env) (out : OStream) (chunk : DX10Chunk)
    (chunks : List DX10Chunk) (x : Extraction) :
    extractChunks env out (chunk :: chunks) x =
      if callFails env (chunkSourceOf env chunk x, chunk.unpackedLen) then
        (some ERROR_INVALIDDATA,
          { stream := ((x.stream.seekg chunk.offset).read chunk.packedLen).2
            fs := x.fs
            calls := x.calls ++ [(chunkSourceOf env chunk x, chunk.unpackedLen)]
            progress := x.progress })
      else
        extractChunks env out chunks
          { stream := ((x.stream.seekg chunk.offset).read chunk.packedLen).2
            fs := x.fs.write out (env.uncompress (chunkSourceOf env chunk x) chunk.unpackedLen).2
            calls := x.calls ++ [(chunkSourceOf env chunk x, chunk.unpackedLen)]
            progress := x.progress } := by
  conv_lhs => unfold extractChunks
  dsimp only
  by_cases hc : callFails env (chunkSourceOf env chunk x, chunk.unpackedLen)
  · rw [if_pos hc]
    have hc' := hc
    simp only [callFails, chunkSourceOf] at hc'
    rw [if_pos hc']
    rfl
  · rw [if_neg hc]
    have hc' := hc
    simp only [callFails, chunkSourceOf] at hc'
    rw [if_neg hc']
    simp only [not_or, not_not] at hc'
    have hu : (env.uninit chunk.unpackedLen).length = chunk.unpackedLen := by simp [Env.uninit]
    have ht : (overlay (env.uncompress (overlay
          ((x.stream.seekg chunk.offset).read chunk.packedLen).1 (env.uninit chunk.packedLen))
          chunk.unpackedLen).2 (env.uninit chunk.unpackedLen)).take chunk.unpackedLen
        = (env.uncompress (chunkSourceOf env chunk x) chunk.unpackedLen).2 := by
      unfold chunkSourceOf
      rw [overlay_of_length _ _ (by rw [hu, hc'.2])]
      exact List.take_of_length_le (by rw [hc'.2])
    rw [ht]
    rfl

/-- The source buffer of a chunk whose packed bytes lie within a good
stream. -/
theorem chunkSourceOf_of_fits (env : Env) (chunk : DX10Chunk) (x : Extraction)
    (hf : x.stream.failed = false) (hsz : x.stream.data.length < 2 ^ 63)
    (hfit : chunk.offset + chunk.packedLen ≤ x.stream.data.length) :
    chunkSourceOf env chunk x = slice x.stream.data chunk.offset chunk.packedLen ∧
    ((x.stream.seekg chunk.offset).read chunk.packedLen).2 =
      { x.stream with pos := chunk.offset + chunk.packedLen, failed := false } := by
  have hs := IStream.seekg_of_good x.stream chunk.offset hf (by omega)
  have hrd := IStream.read_of_fits { x.stream with pos := chunk.offset } chunk.packedLen hf hfit
  unfold chunkSourceOf
  rw [hs, hrd]
  exact ⟨overlay_of_length _ _ (by simp [Env.uninit, slice_length _ _ _ hfit]), rfl⟩

/-- The loop over the chunks of a texture when every chunk inflates: it
appends the inflated chunks, in the order of the list, to what has been
written to the output file. -/
theorem extractChunks_of_inflates (env : Env) (out : OStream) (chunks : List DX10Chunk)
    (x : Extraction) (fs0 : FileSys) (pre : List Nat)
    (hf : x.stream.failed = false) (hsz : x.stream.data.length < 2 ^ 63)
    (hfs : x.fs = fs0.write out pre)
    (hall : ∀ c ∈ chunks, chunkInflates env x.stream.data c) :
    ∃ x', extractChunks env out chunks x = (none, x') ∧
      x'.stream.isOpen = x.stream.isOpen ∧ x'.stream.failed = false ∧
      x'.stream.data = x.stream.data ∧ x'.progress = x.progress ∧
      x'.fs = fs0.write out (pre ++ (chunks.map (chunkPayload env x.stream.data)).flatten) := by
  induction chunks generalizing x pre with
  | nil =>
    refine ⟨x, by simp [extractChunks], rfl, hf, rfl, rfl, ?_⟩
    simp [hfs]
  | cons c cs ih =>
    obtain ⟨hfit, hok, hl⟩ := hall c (List.mem_cons_self _ _)
    obtain ⟨hsrc, hstream⟩ := chunkSourceOf_of_fits env c x hf hsz hfit
    have hnf : ¬ callFails env (chunkSourceOf env c x, c.unpackedLen) := by
      unfold callFails
      rw [hsrc]
      simp [hok, hl]
    rw [extractChunks_cons, if_neg hnf, hsrc, hstream]
    obtain ⟨x', he, ho', hf', hd', hp', hfs'⟩ := ih
      { stream := { x.stream with pos := c.offset + c.packedLen, failed := false }
        fs := x.fs.write out (env.uncompress (slice x.stream.data c.offset c.packedLen)
          c.unpackedLen).2
        calls := x.calls ++ [(slice x.stream.data c.offset c.packedLen, c.unpackedLen)]
        progress := x.progress }
      (pre ++ chunkPayload env x.stream.data c) rfl hsz
      (by simp only; rw [hfs, FileSys.write_write]; rfl)
      (fun c' hc' => hall c' (List.mem_cons_of_mem _ hc'))
    refine ⟨x', he, ho', hf', hd', hp', ?_⟩
    rw [hfs']
    simp

/-- The four bytes written for `DDS_MAGIC` are "DDS ". -/
theorem toLE_DDS_MAGIC : toLE 4 DDS_MAGIC = [68, 68, 83, 32] := by decide

/-- The body of the loop of `extractAllDX10` on a texture whose format is not
supported: the output file is opened, and nothing else is done. -/
theorem extractTexture_of_unsupported (env : Env) (u : Bool) (destination : List Nat)
    (texture : Texture) (name : List Nat) (x : Extraction)
    (h : ¬ supportedFormat texture.texhdr.format) :
    extractTexture env u destination texture name x =
      (none, { x with fs := (x.fs.openOut (outputPath destination name)).2 }) := by
  have hk : (ddsHeaderFor u texture.texhdr).1 = false := by
    have := (ddsHeaderFor_ok u texture.texhdr).not.2 h
    simpa using this
  unfold extractTexture
  dsimp only
  rw [hk]
  simp

/-- The body of the loop of `extractAllDX10` on a texture whose format is
supported, the archive stream being open: the magic and the header are
written, then the chunks are processed. -/
theorem extractTexture_of_supported (env : Env) (u : Bool) (destination : List Nat)
    (texture : Texture) (name : List Nat) (x : Extraction) (ho : x.stream.isOpen = true)
    (h : supportedFormat texture.texhdr.format) :
    extractTexture env u destination texture name x =
      extractChunks env (x.fs.openOut (outputPath destination name)).1 texture.texchunks
        { x with
          fs := (x.fs.openOut (outputPath destination name)).2.write
            (x.fs.openOut (outputPath destination name)).1
            ([68, 68, 83, 32] ++ (ddsHeaderFor u texture.texhdr).2.toBytes) } := by
  have hk := (ddsHeaderFor_ok u texture.texhdr).2 h
  unfold extractTexture
  dsimp only
  rw [if_pos ho, if_pos hk, toLE_DDS_MAGIC, FileSys.write_write]

/-- The body of the loop of `extractAllDX10` on a texture whose chunks all
inflate (or whose format is not supported), the stream being open and good. -/
theorem extractTexture_of_good (env : Env) (u : Bool) (destination : List Nat)
    (texture : Texture) (name : List Nat) (x : Extraction) (ho : x.stream.isOpen = true)
    (hf : x.stream.failed = false) (hsz : x.stream.data.length < 2 ^ 63)
    (hall : supportedFormat texture.texhdr.format →
      ∀ c ∈ texture.texchunks, chunkInflates env x.stream.data c) :
    ∃ x', extractTexture env u destination texture name x = (none, x') ∧
      x'.stream.isOpen = true ∧ x'.stream.failed = false ∧ x'.stream.data = x.stream.data ∧
      x'.progress = x.progress ∧
      x'.fs = (x.fs.openOut (outputPath destination name)).2.write
        (x.fs.openOut (outputPath destination name)).1
        (textureOutput env u x.stream.data texture) := by
  by_cases hs : supportedFormat texture.texhdr.format
  · rw [extractTexture_of_supported env u destination texture name x ho hs]
    obtain ⟨x', he, ho', hf', hd', hp', hfs'⟩ := extractChunks_of_inflates env
      (x.fs.openOut (outputPath destination name)).1 texture.texchunks
      { x with
        fs := (x.fs.openOut (outputPath destination name)).2.write
          (x.fs.openOut (outputPath destination name)).1
          ([68, 68, 83, 32] ++ (ddsHeaderFor u texture.texhdr).2.toBytes) }
      (x.fs.openOut (outputPath destination name)).2
      ([68, 68, 83, 32] ++ (ddsHeaderFor u texture.texhdr).2.toBytes) hf hsz rfl (hall hs)
    refine ⟨x', he, by rw [ho']; exact ho, hf', hd', hp', ?_⟩
    rw [hfs']
    simp only [textureOutput, if_pos hs, ddsFileOf]
  · rw [extractTexture_of_unsupported env u destination texture name x hs]
    refine ⟨_, rfl, ho, hf, rfl, rfl, ?_⟩
    simp only [textureOutput, if_neg hs]
    exact (FileSys.openOut_write_nil _ _).symm

/-- The loop of `extractAllDX10` when the chunks of every texture with a
supported format inflate: it returns `ERROR_NONE`; a path that is not an output
path keeps its file, and the output path of a texture that is not reused by a
later texture holds the DDS file of that texture (no byte when its format is
not supported) when it can be created. -/
theorem extractAllDX10Loop_of_good (env : Env) (u : Bool) (destination : List Nat)
    (textures : List Texture) (names : List (List Nat)) (x : Extraction)
    (hlen : textures.length ≤ names.length) (ho : x.stream.isOpen = true)
    (hf : x.stream.failed = false) (hsz : x.stream.data.length < 2 ^ 63)
    (hall : ∀ t ∈ textures, supportedFormat t.texhdr.format →
      ∀ c ∈ t.texchunks, chunkInflates env x.stream.data c) :
    ∃ x', extractAllDX10Loop env u destination textures names x =
        (Outcome.returned ERROR_NONE, x') ∧
      x'.fs.creatable = x.fs.creatable ∧ x'.progress = x.progress ∧
      (∀ q, (∀ nm ∈ names.take textures.length, outputPath destination nm ≠ q) →
        x'.fs.files q = x.fs.files q) ∧
      (∀ (i : Nat) (texture : Texture) (name : List Nat), textures[i]? = some texture →
        names[i]? = some name →
        x.fs.creatable (outputPath destination name) = true →
        (∀ (j : Nat) (name' : List Nat), i < j → j < textures.length → names[j]? = some name' →
          outputPath destination name' ≠ outputPath destination name) →
        x'.fs.files (outputPath destination name) =
          some (textureOutput env u x.stream.data texture)) := by
  induction textures generalizing names x with
  | nil =>
    refine ⟨x, by simp [extractAllDX10Loop], rfl, rfl, fun _ _ => rfl, ?_⟩
    intro i texture name h; simp at h
  | cons t ts ih =>
    match names, hlen with
    | n :: ns, hlen =>
      obtain ⟨x1, he, ho1, hf1, hd1, hp1, hfs1⟩ :=
        extractTexture_of_good env u destination t n x ho hf hsz
          (hall t (List.mem_cons_self _ _))
      obtain ⟨x', hl, hc', hp', hframe, hmain⟩ := ih ns x1 (by simpa using hlen) ho1 hf1
        (by rw [hd1]; exact hsz)
        (by rw [hd1]; exact fun g hg => hall g (List.mem_cons_of_mem _ hg))
      have hc1 : x1.fs.creatable = x.fs.creatable := by
        rw [hfs1]; exact FileSys.creatable_open_write _ _ _
      have hfiles1 : ∀ q, x1.fs.files q =
          if q = outputPath destination n ∧ x.fs.creatable (outputPath destination n) = true
          then some (textureOutput env u x.stream.data t) else x.fs.files q := by
        intro q; rw [hfs1]; exact FileSys.files_open_write _ _ _ _
      refine ⟨x', ?_, by rw [hc', hc1], by rw [hp', hp1], ?_, ?_⟩
      · simp only [extractAllDX10Loop, he, hl]
      · intro q hq
        simp only [List.length_cons, List.take_succ_cons, List.mem_cons, forall_eq_or_imp] at hq
        rw [hframe q hq.2, hfiles1 q]
        have : q ≠ outputPath destination n := fun e => hq.1 e.symm
        simp [this]
      · intro i texture name hti hni hcr hlater
        match i with
        | 0 =>
          simp only [List.getElem?_cons_zero, Option.some.injEq] at hti hni
          subst hti hni
          rw [hframe _ (fun nm hnm => by
            obtain ⟨j, hj⟩ := List.getElem?_of_mem hnm
            rw [List.getElem?_take] at hj
            split at hj
            · rename_i hjlt
              exact hlater (j + 1) nm (by omega) (by simpa using hjlt) (by simpa using hj)
            · simp at hj)]
          rw [hfiles1]
          simp [hcr]
        | k + 1 =>
          simp only [List.getElem?_cons_succ] at hti hni
          have := hmain k texture name hti hni (by rw [hc1]; exact hcr)
            (fun j name' hj hjl hnj => hlater (j + 1) name' (by omega)
              (by simpa using hjl) (by simpa using hnj))
          rw [this, hd1]

/-- The loop over the chunks of a texture returns `ERROR_INVALIDDATA` exactly
when one of the calls of `uncompress` it makes fails; it returns no other
code. -/
theorem extractChunks_calls (env : Env) (out : OStream) (chunks : List DX10Chunk)
    (x : Extraction) :
    ∃ new, (extractChunks env out chunks x).2.calls = x.calls ++ new ∧
      ((extractChunks env out chunks x).1 = none ∨
        (extractChunks env out chunks x).1 = some ERROR_INVALIDDATA) ∧
      ((extractChunks env out chunks x).1 = some ERROR_INVALIDDATA ↔
        ∃ c ∈ new, callFails env c) := by
  induction chunks generalizing x with
  | nil =>
    refine ⟨[], by simp [extractChunks], Or.inl (by simp [extractChunks]), ?_⟩
    simp [extractChunks]
  | cons c cs ih =>
    rw [extractChunks_cons]
    by_cases hc : callFails env (chunkSourceOf env c x, c.unpackedLen)
    · rw [if_pos hc]
      refine ⟨[(chunkSourceOf env c x, c.unpackedLen)], rfl, Or.inr rfl, ?_⟩
      simp [hc]
    · rw [if_neg hc]
      obtain ⟨new, hcalls, hor, hiff⟩ := ih
        { stream := ((x.stream.seekg c.offset).read c.packedLen).2
          fs := x.fs.write out (env.uncompress (chunkSourceOf env c x) c.unpackedLen).2
          calls := x.calls ++ [(chunkSourceOf env c x, c.unpackedLen)]
          progress := x.progress }
      refine ⟨(chunkSourceOf env c x, c.unpackedLen) :: new, ?_, hor, ?_⟩
      · rw [hcalls]; simp
      · rw [hiff]
        simp [hc]

/-- The body of the loop of `extractAllDX10` returns `ERROR_INVALIDDATA`
exactly when one of the calls of `uncompress` it makes fails. -/
theorem extractTexture_calls (env : Env) (u : Bool) (destination : List Nat)
    (texture : Texture) (name : List Nat) (x : Extraction) :
    ∃ new, (extractTexture env u destination texture name x).2.calls = x.calls ++ new ∧
      ((extractTexture env u destination texture name x).1 = none ∨
        (extractTexture env u destination texture name x).1 = some ERROR_INVALIDDATA) ∧
      ((extractTexture env u destination texture name x).1 = some ERROR_INVALIDDATA ↔
        ∃ c ∈ new, callFails env c) := by
  by_cases ho : x.stream.isOpen = true
  · by_cases hs : supportedFormat texture.texhdr.format
    · rw [extractTexture_of_supported env u destination texture name x ho hs]
      exact extractChunks_calls env _ texture.texchunks _
    · rw [extractTexture_of_unsupported env u destination texture name x hs]
      exact ⟨[], by simp, Or.inl rfl, by simp⟩
  · have hn : extractTexture env u destination texture name x
        = (none, { x with fs := (x.fs.openOut (outputPath destination name)).2 }) := by
      unfold extractTexture
      simp [ho]
    rw [hn]
    exact ⟨[], by simp, Or.inl rfl, by simp⟩

/-- The loop of `extractAllDX10` returns `ERROR_INVALIDDATA` exactly when one
of the calls of `uncompress` it makes fails. -/
theorem extractAllDX10Loop_calls (env : Env) (u : Bool) (destination : List Nat)
    (textures : List Texture) (names : List (List Nat)) (x : Extraction) :
    ∃ new, (extractAllDX10Loop env u destination textures names x).2.calls = x.calls ++ new ∧
      ((extractAllDX10Loop env u destination textures names x).1 =
          Outcome.returned ERROR_INVALIDDATA ↔ ∃ c ∈ new, callFails env c) := by
  induction textures generalizing names x with
  | nil => exact ⟨[], by simp [extractAllDX10Loop], by simp [extractAllDX10Loop]⟩
  | cons t ts ih =>
    match names with
    | [] => exact ⟨[], by simp [extractAllDX10Loop], by simp [extractAllDX10Loop]⟩
    | n :: ns =>
      obtain ⟨new1, hcalls1, hor1, hiff1⟩ := extractTexture_calls env u destination t n x
      rcases he : extractTexture env u destination t n x with ⟨r, x1⟩
      rw [he] at hcalls1 hor1 hiff1
      simp only at hcalls1 hor1 hiff1
      cases r with
      | some e =>
        have hE : e = ERROR_INVALIDDATA := by
          rcases hor1 with h | h
          · simp at h
          · simpa using h
        subst hE
        refine ⟨new1, by simp only [extractAllDX10Loop, he]; exact hcalls1, ?_⟩
        simp only [extractAllDX10Loop, he, true_iff]
        exact hiff1.1 rfl
      | none =>
        have hno : ¬ ∃ c ∈ new1, callFails env c := fun h => by
          have := hiff1.2 h
          simp at this
        obtain ⟨new2, hcalls2, hiff2⟩ := ih ns x1
        refine ⟨new1 ++ new2, ?_, ?_⟩
        · simp only [extractAllDX10Loop, he]
          rw [hcalls2, hcalls1, List.append_assoc]
        · simp only [extractAllDX10Loop, he]
          rw [hiff2]
          constructor
          · rintro ⟨c, hc, hcf⟩
            exact ⟨c, List.mem_append_right _ hc, hcf⟩
          · rintro ⟨c, hc, hcf⟩
            rcases List.mem_append.1 hc with h | h
            · exact absurd ⟨c, h, hcf⟩ hno
            · exact ⟨c, h, hcf⟩

/-- The body of the loop of `extractAllGeneral` returns `ERROR_INVALIDDATA`
exactly when the call of `uncompress` it makes, if any, fails. -/
theorem extractGeneralEntry_calls (env : Env) (destination : List Nat) (file : FileEntry)
    (name : List Nat) (x : Extraction) :
    ∃ new, (extractGeneralEntry env destination file name x).2.calls = x.calls ++ new ∧
      ((extractGeneralEntry env destination file name x).1 = none ∨
        (extractGeneralEntry env destination file name x).1 = some ERROR_INVALIDDATA) ∧
      ((extractGeneralEntry env destination file name x).1 = some ERROR_INVALIDDATA ↔
        ∃ c ∈ new, callFails env c) := by
  by_cases h : x.stream.isOpen = true ∧ (file.packedLen ≠ 0 ∧ file.unpackedLen ≠ file.packedLen)
  · have heq := extractGeneralEntry_compressed_eq env destination file name x h.1 h.2
    by_cases hc : callFails env (sourceOf env file x, expectedLen file)
    · have hc' := hc
      simp only [callFails] at hc'
      rw [heq, if_pos hc']
      exact ⟨[(sourceOf env file x, expectedLen file)], rfl, Or.inr rfl, by simp [hc]⟩
    · have hc' := hc
      simp only [callFails] at hc'
      rw [heq, if_neg hc']
      exact ⟨[(sourceOf env file x, expectedLen file)], rfl, Or.inl rfl, by simp [hc]⟩
  · have hcalls := extractGeneralEntry_calls_eq env destination file name x (by
      by_cases ho : x.stream.isOpen = true
      · exact Or.inr (fun hcmp => h ⟨ho, hcmp⟩)
      · exact Or.inl (by simpa using ho))
    have hnone : (extractGeneralEntry env destination file name x).1 = none := by
      unfold extractGeneralEntry
      by_cases ho : x.stream.isOpen = true
      · have hcmp : ¬ (file.packedLen ≠ 0 ∧ file.unpackedLen ≠ file.packedLen) :=
          fun hcmp => h ⟨ho, hcmp⟩
        simp only [ho, if_true, if_neg hcmp]
      · simp [ho]
    exact ⟨[], by rw [hcalls]; simp, Or.inl hnone, by simp [hnone]⟩

/-- The loop of `extractAllGeneral` returns `ERROR_INVALIDDATA` exactly when
one of the calls of `uncompress` it makes fails. -/
theorem extractAllGeneralLoop_calls (env : Env) (destination : List Nat)
    (files : List FileEntry) (names : List (List Nat)) (x : Extraction) :
    ∃ new, (extractAllGeneralLoop env destination files names x).2.calls = x.calls ++ new ∧
      ((extractAllGeneralLoop env destination files names x).1 =
          Outcome.returned ERROR_INVALIDDATA ↔ ∃ c ∈ new, callFails env c) := by
  induction files generalizing names x with
  | nil => exact ⟨[], by simp [extractAllGeneralLoop], by simp [extractAllGeneralLoop]⟩
  | cons t ts ih =>
    match names with
    | [] => exact ⟨[], by simp [extractAllGeneralLoop], by simp [extractAllGeneralLoop]⟩
    | n :: ns =>
      obtain ⟨new1, hcalls1, hor1, hiff1⟩ := extractGeneralEntry_calls env destination t n x
      rcases he : extractGeneralEntry env destination t n x with ⟨r, x1⟩
      rw [he] at hcalls1 hor1 hiff1
      simp only at hcalls1 hor1 hiff1
      cases r with
      | some e =>
        have hE : e = ERROR_INVALIDDATA := by
          rcases hor1 with h | h
          · simp at h
          · simpa using h
        subst hE
        refine ⟨new1, by simp only [extractAllGeneralLoop, he]; exact hcalls1, ?_⟩
        simp only [extractAllGeneralLoop, he, true_iff]
        exact hiff1.1 rfl
      | none =>
        have hno : ¬ ∃ c ∈ new1, callFails env c := fun h => by
          have := hiff1.2 h
          simp at this
        obtain ⟨new2, hcalls2, hiff2⟩ := ih ns x1
        refine ⟨new1 ++ new2, ?_, ?_⟩
        · simp only [extractAllGeneralLoop, he]
          rw [hcalls2, hcalls1, List.append_assoc]
        · simp only [extractAllGeneralLoop, he]
          rw [hiff2]
          constructor
          · rintro ⟨c, hc, hcf⟩
            exact ⟨c, List.mem_append_right _ hc, hcf⟩
          · rintro ⟨c, hc, hcf⟩
            rcases List.mem_append.1 hc with h | h
            · exact absurd ⟨c, h, hcf⟩ hno
            · exact ⟨c, h, hcf⟩

/-- The function `extractAll` on a DX10 archive, or on a General archive with
as many names as records, returns `ERROR_INVALIDDATA` exactly when one of the
calls of `uncompress` it makes fails. -/
theorem extractAll_invalid_iff_call (env : Env) (a : Archive) (destination : List Nat)
    (progress : Int → List Nat → Bool) (overwrite : Bool) (fs : FileSys)
    (hty : a.m_Header.type = TYPE_DX10 ∨
      (a.m_Header.type = TYPE_GENERAL ∧ a.m_Files.length = a.m_TableNames.length)) :
    (Archive.extractAll env a destination progress overwrite fs).1 =
        Outcome.returned ERROR_INVALIDDATA ↔
      ∃ c ∈ (Archive.extractAll env a destination progress overwrite fs).2.calls,
        callFails env c := by
  rcases hty with hty | ⟨hty, hlen⟩
  · obtain ⟨new, hcalls, hiff⟩ := extractAllDX10Loop_calls env a.m_UseATIFourCC destination
      a.m_Textures a.m_TableNames { stream := a.m_File, fs := fs, calls := [], progress := [] }
    simp only [Archive.extractAll, hty, extractAllDX10]
    rw [hiff, hcalls]
    simp
  · obtain ⟨new, hcalls, hiff⟩ := extractAllGeneralLoop_calls env destination
      a.m_Files a.m_TableNames { stream := a.m_File, fs := fs, calls := [], progress := [] }
    simp only [Archive.extractAll, hty, extractAllGeneral, hlen, ne_eq, not_true_eq_false,
      if_false]
    rw [hiff, hcalls]
    simp

/-! ## Claims on failures of the decompressor -/

/-- C12. While `extractAll` extracts a compressed payload, a General record
(the archive stream being open) or a chunk of a DX10 texture, it returns
`ERROR_INVALIDDATA` if and only if the call of `uncompress` fails, that is,
the code it returns is not `Z_OK` or the number of bytes it produced is not
the expected unpacked size; in that case nothing is written to the output
file (for a record the file stays as `open` left it, for a chunk it keeps
what was written before the chunk), and otherwise the bytes produced are
written and the extraction goes on.  For a whole DX10 archive, and for a
whole General archive with as many names as records, `extractAll` returns
`ERROR_INVALIDDATA` exactly when one of its calls of `uncompress` failed.  In
particular, when the codec, as zlib does, reports an error for a destination
smaller than the inflated data, an expected size one byte short is a failed
call. -/
theorem extractAll_invaliddata_iff (env : Env) :
    (∀ (destination : List Nat) (file : FileEntry) (name : List Nat) (x : Extraction),
      x.stream.isOpen = true → file.packedLen ≠ 0 → file.packedLen ≠ file.unpackedLen →
      ((extractGeneralEntry env destination file name x).1 = some ERROR_INVALIDDATA ↔
        ((env.uncompress (sourceOf env file x) (expectedLen file)).1 ≠ Z_OK ∨
          (env.uncompress (sourceOf env file x) (expectedLen file)).2.length ≠
            expectedLen file)) ∧
      ((extractGeneralEntry env destination file name x).1 = some ERROR_INVALIDDATA →
        (extractGeneralEntry env destination file name x).2.fs =
          (x.fs.openOut (outputPath destination name)).2) ∧
      ((extractGeneralEntry env destination file name x).1 ≠ some ERROR_INVALIDDATA →
        (extractGeneralEntry env destination file name x).1 = none ∧
        (extractGeneralEntry env destination file name x).2.fs =
          (x.fs.openOut (outputPath destination name)).2.write
            (x.fs.openOut (outputPath destination name)).1
            (env.uncompress (sourceOf env file x) (expectedLen file)).2)) ∧
    (∀ (out : OStream) (chunk : DX10Chunk) (chunks : List DX10Chunk) (x : Extraction),
      (((env.uncompress (chunkSourceOf env chunk x) chunk.unpackedLen).1 ≠ Z_OK ∨
          (env.uncompress (chunkSourceOf env chunk x) chunk.unpackedLen).2.length ≠
            chunk.unpackedLen) →
        (extractChunks env out (chunk :: chunks) x).1 = some ERROR_INVALIDDATA ∧
        (extractChunks env out (chunk :: chunks) x).2.fs = x.fs) ∧
      (¬ ((env.uncompress (chunkSourceOf env chunk x) chunk.unpackedLen).1 ≠ Z_OK ∨
          (env.uncompress (chunkSourceOf env chunk x) chunk.unpackedLen).2.length ≠
            chunk.unpackedLen) →
        extractChunks env out (chunk :: chunks) x =
          extractChunks env out chunks
            { stream := ((x.stream.seekg chunk.offset).read chunk.packedLen).2
              fs := x.fs.write out
                (env.uncompress (chunkSourceOf env chunk x) chunk.unpackedLen).2
              calls := x.calls ++ [(chunkSourceOf env chunk x, chunk.unpackedLen)]
              progress := x.progress }) ∧
      ((extractChunks env out chunks x).1 = some ERROR_INVALIDDATA ↔
        ∃ c ∈ (extractChunks env out chunks x).2.calls.drop x.calls.length,
          (env.uncompress c.1 c.2).1 ≠ Z_OK ∨ (env.uncompress c.1 c.2).2.length ≠ c.2)) ∧
    (∀ (a : Archive) (destination : List Nat) (progress : Int → List Nat → Bool)
      (overwrite : Bool) (fs : FileSys),
      (a.m_Header.type = TYPE_DX10 ∨
        (a.m_Header.type = TYPE_GENERAL ∧ a.m_Files.length = a.m_TableNames.length)) →
      ((Archive.extractAll env a destination progress overwrite fs).1 =
          Outcome.returned ERROR_INVALIDDATA ↔
        ∃ c ∈ (Archive.extractAll env a destination progress overwrite fs).2.calls,
          (env.uncompress c.1 c.2).1 ≠ Z_OK ∨ (env.uncompress c.1 c.2).2.length ≠ c.2)) ∧
    (∀ (src : List Nat) (inflatedSize expectedSize : Nat),
      (∀ cap, cap < inflatedSize → (env.uncompress src cap).1 ≠ Z_OK) →
      expectedSize + 1 = inflatedSize →
      (env.uncompress src expectedSize).1 ≠ Z_OK ∨
        (env.uncompress src expectedSize).2.length ≠ expectedSize) := by
  refine ⟨?_, ?_, ?_, ?_⟩
  · intro destination file name x ho h0 hne
    have hc : file.packedLen ≠ 0 ∧ file.unpackedLen ≠ file.packedLen := ⟨h0, fun e => hne e.symm⟩
    have heq := extractGeneralEntry_compressed_eq env destination file name x ho hc
    by_cases hf : (env.uncompress (sourceOf env file x) (expectedLen file)).1 ≠ Z_OK ∨
        (env.uncompress (sourceOf env file x) (expectedLen file)).2.length ≠ expectedLen file
    · rw [heq, if_pos hf]
      exact ⟨by simp [hf], fun _ => rfl, fun h => absurd rfl h⟩
    · rw [heq, if_neg hf]
      refine ⟨by simp [hf], fun h => by simp at h, fun _ => ⟨rfl, ?_⟩⟩
      simp only [not_or, not_not] at hf
      have hu : (env.uninit (expectedLen file)).length = expectedLen file := by
        simp [Env.uninit]
      simp only
      rw [overlay_of_length _ _ (by rw [hu, hf.2]), List.take_of_length_le (by rw [hf.2])]
  · intro out chunk chunks x
    refine ⟨fun hf => ?_, fun hf => ?_, ?_⟩
    · have hc : callFails env (chunkSourceOf env chunk x, chunk.unpackedLen) := hf
      rw [extractChunks_cons, if_pos hc]
      exact ⟨rfl, rfl⟩
    · have hc : ¬ callFails env (chunkSourceOf env chunk x, chunk.unpackedLen) := hf
      rw [extractChunks_cons, if_neg hc]
    · obtain ⟨new, hcalls, -, hiff⟩ := extractChunks_calls env out chunks x
      rw [hiff, hcalls, List.drop_left]
      rfl
  · intro a destination progress overwrite fs hty
    exact extractAll_invalid_iff_call env a destination progress overwrite fs hty
  · intro src inflatedSize expectedSize hz he
    exact Or.inl (hz expectedSize (by omega))

set_option maxRecDepth 100000 in
/-- Witness for C12: the 13 packed bytes of `sampleShortRecord` inflate to the
five bytes "hello" and the record announces four; the codec reports
`Z_BUF_ERROR`, `ERROR_INVALIDDATA` is returned and the output file "d\a.txt"
is left empty.  For the DX10 archive `sampleDX10Pair 71 83 4`, whose first
chunk is one byte short in the same way, `extractAll` returns
`ERROR_INVALIDDATA`, the file of the first texture holds the magic and the
header only, and the file of the second texture is not touched. -/
theorem extractAll_invaliddata_iff_witness :
    ((extractGeneralEntry sampleEnv [100] sampleShortRecord [97, 46, 116, 120, 116]
        sampleExtraction).1 = some ERROR_INVALIDDATA ∧
      (extractGeneralEntry sampleEnv [100] sampleShortRecord [97, 46, 116, 120, 116]
        sampleExtraction).2.fs.files [100, 92, 97, 46, 116, 120, 116] = some []) ∧
    (sampleEnv.uncompress helloDeflated 4).1 ≠ Z_OK ∧
    sampleExtractDX10 sampleEnvTwo false (sampleDX10Pair 71 83 4) sampleFsExisting =
      some (Outcome.returned ERROR_INVALIDDATA,
        some ([68, 68, 83, 32] ++ sampleDdsHeader 8 4 [68, 88, 84, 49]), some [4, 5, 6]) ∧
    sampleExtractDX10 sampleEnvTwo false (sampleDX10Pair 71 83 5) sampleFsExisting =
      some (Outcome.returned ERROR_NONE,
        some ([68, 68, 83, 32] ++ sampleDdsHeader 8 4 [68, 88, 84, 49] ++ hello),
        some ([68, 68, 83, 32] ++ sampleDdsHeader 16 4 [68, 88, 84, 53] ++ world)) :=
  have h := (extractAll_invaliddata_iff sampleEnv).1 [100] sampleShortRecord
    [97, 46, 116, 120, 116] sampleExtraction rfl (by decide) (by decide)
  have hfail := h.1.2 (Or.inl (by decide))
  ⟨⟨hfail, by rw [h.2.1 hfail]; rfl⟩, by decide, by decide, by decide⟩

/-! ## The synthesised DDS header -/

/-- The fields of the header that the `switch` of `extractAllDX10` does not
assign keep the values given before it. -/
theorem ddsHeaderFor_base (u : Bool) (texhdr : FileEntry_DX10) :
    (ddsHeaderFor u texhdr).2.dwSize = 124 ∧
    (ddsHeaderFor u texhdr).2.dwHeaderFlags = 0x000A1007 ∧
    (ddsHeaderFor u texhdr).2.dwHeight = texhdr.height ∧
    (ddsHeaderFor u texhdr).2.dwWidth = texhdr.width ∧
    (ddsHeaderFor u texhdr).2.dwDepth = 0 ∧
    (ddsHeaderFor u texhdr).2.dwMipMapCount = texhdr.numMips ∧
    (ddsHeaderFor u texhdr).2.ddspf.dwSize = 32 ∧
    (ddsHeaderFor u texhdr).2.dwSurfaceFlags = 0x00401008 ∧
    (ddsHeaderFor u texhdr).2.dwCubemapFlags = 0 := by
  unfold ddsHeaderFor
  dsimp only
  split_ifs <;> exact ⟨rfl, rfl, rfl, rfl, rfl, rfl, rfl, rfl, rfl⟩

/-- A wrapped 32-bit `int` converted to the unsigned 32-bit type is the value
modulo 2^32. -/
theorem toUInt32_toInt32 (x : Int) : toUInt32 (toInt32 x) = (x % 2 ^ 32).toNat := by
  unfold toUInt32 toInt32
  congr 1
  omega

/-- The product of two 16-bit values, computed in `int` and converted to the
unsigned 32-bit type, is the product. -/
theorem toUInt32_widthTimesHeight (texhdr : FileEntry_DX10) (hw : texhdr.width < 65536)
    (hh : texhdr.height < 65536) :
    toUInt32 (widthTimesHeight texhdr) = texhdr.width * texhdr.height := by
  unfold widthTimesHeight
  rw [toUInt32_toInt32]
  have hb : texhdr.width * texhdr.height < 2 ^ 32 := by
    calc texhdr.width * texhdr.height ≤ 65535 * 65535 :=
          Nat.mul_le_mul (by omega) (by omega)
      _ < 2 ^ 32 := by norm_num
  have hc : ((texhdr.width : Int) * (texhdr.height : Int)) = ((texhdr.width * texhdr.height : Nat) : Int) := by
    push_cast; rfl
  rw [hc]
  generalize texhdr.width * texhdr.height = p at hb
  omega

/-- The product of two 16-bit values computed in `int` when it fits. -/
theorem widthTimesHeight_of_lt (texhdr : FileEntry_DX10)
    (hp : texhdr.width * texhdr.height < 2 ^ 31) :
    widthTimesHeight texhdr = ((texhdr.width * texhdr.height : Nat) : Int) := by
  unfold widthTimesHeight toInt32
  have hc : ((texhdr.width : Int) * (texhdr.height : Int)) = ((texhdr.width * texhdr.height : Nat) : Int) := by
    push_cast; rfl
  rw [hc]
  generalize texhdr.width * texhdr.height = p at hp
  omega

/-- The product of two 16-bit values computed in `int` when it does not fit:
the value wraps around to a negative number. -/
theorem widthTimesHeight_of_ge (texhdr : FileEntry_DX10) (hw : texhdr.width < 65536)
    (hh : texhdr.height < 65536) (hp : 2 ^ 31 ≤ texhdr.width * texhdr.height) :
    widthTimesHeight texhdr = -((2 ^ 32 - texhdr.width * texhdr.height : Nat) : Int) := by
  unfold widthTimesHeight toInt32
  have hb : texhdr.width * texhdr.height < 2 ^ 32 := by
    calc texhdr.width * texhdr.height ≤ 65535 * 65535 :=
          Nat.mul_le_mul (by omega) (by omega)
      _ < 2 ^ 32 := by norm_num
  have hc : ((texhdr.width : Int) * (texhdr.height : Int)) = ((texhdr.width * texhdr.height : Nat) : Int) := by
    push_cast; rfl
  rw [hc]
  generalize texhdr.width * texhdr.height = p at hp hb
  omega

/-- The linear size written for a BC1 texture. -/
theorem ddsHeaderFor_bc1 (u : Bool) (texhdr : FileEntry_DX10)
    (hfmt : texhdr.format = DXGI_FORMAT_BC1_UNORM) :
    (ddsHeaderFor u texhdr).2.dwPitchOrLinearSize =
      toUInt32 (toInt32 (Int.tdiv (widthTimesHeight texhdr) 2)) ∧
    (ddsHeaderFor u texhdr).2.ddspf =
      { dwSize := 32, dwFlags := DDS_FOURCC, dwFourCC := MAKEFOURCC 68 88 84 49,
        dwRGBBitCount := 0, dwRBitMask := 0, dwGBitMask := 0, dwBBitMask := 0, dwABitMask := 0 } := by
  unfold ddsHeaderFor
  dsimp only
  rw [if_pos hfmt]
  constructor
  · dsimp only
  · simp [ddsHeaderBase, DDS_HEADER.zero, sizeof_DDS_PIXELFORMAT]

/-- The linear size of a BC1 texture whose pixel count is below 2^31. -/
theorem bc1_pitch_of_lt (texhdr : FileEntry_DX10) (hp : texhdr.width * texhdr.height < 2 ^ 31) :
    toUInt32 (toInt32 (Int.tdiv (widthTimesHeight texhdr) 2)) =
      texhdr.width * texhdr.height / 2 := by
  rw [widthTimesHeight_of_lt texhdr hp, toUInt32_toInt32]
  generalize texhdr.width * texhdr.height = p at hp
  rw [Int.tdiv_eq_ediv (by omega) (by omega)]
  omega

/-- The linear size of a BC1 texture whose pixel count is 2^31 or more. -/
theorem bc1_pitch_of_ge (texhdr : FileEntry_DX10) (hw : texhdr.width < 65536)
    (hh : texhdr.height < 65536) (hp : 2 ^ 31 ≤ texhdr.width * texhdr.height) :
    toUInt32 (toInt32 (Int.tdiv (widthTimesHeight texhdr) 2)) =
      2 ^ 32 - (2 ^ 32 - texhdr.width * texhdr.height) / 2 := by
  have hb : texhdr.width * texhdr.height ≤ 65535 * 65535 :=
    Nat.mul_le_mul (by omega) (by omega)
  rw [widthTimesHeight_of_ge texhdr hw hh hp, toUInt32_toInt32, Int.neg_tdiv]
  generalize texhdr.width * texhdr.height = p at hp hb
  rw [Int.tdiv_eq_ediv (by omega) (by omega)]
  omega

/-- The linear size and the pixel format written for a BC2 texture. -/
theorem ddsHeaderFor_bc2 (u : Bool) (texhdr : FileEntry_DX10)
    (hfmt : texhdr.format = DXGI_FORMAT_BC2_UNORM) :
    (ddsHeaderFor u texhdr).2.dwPitchOrLinearSize = toUInt32 (widthTimesHeight texhdr) ∧
    (ddsHeaderFor u texhdr).2.ddspf =
      { dwSize := 32, dwFlags := DDS_FOURCC, dwFourCC := MAKEFOURCC 68 88 84 51,
        dwRGBBitCount := 0, dwRBitMask := 0, dwGBitMask := 0, dwBBitMask := 0, dwABitMask := 0 } := by
  unfold ddsHeaderFor
  dsimp only
  rw [hfmt, if_neg (by decide), if_pos rfl]
  constructor
  · dsimp only
  · simp [ddsHeaderBase, DDS_HEADER.zero, sizeof_DDS_PIXELFORMAT]

/-- The linear size and the pixel format written for a BC3 texture. -/
theorem ddsHeaderFor_bc3 (u : Bool) (texhdr : FileEntry_DX10)
    (hfmt : texhdr.format = DXGI_FORMAT_BC3_UNORM) :
    (ddsHeaderFor u texhdr).2.dwPitchOrLinearSize = toUInt32 (widthTimesHeight texhdr) ∧
    (ddsHeaderFor u texhdr).2.ddspf =
      { dwSize := 32, dwFlags := DDS_FOURCC, dwFourCC := MAKEFOURCC 68 88 84 53,
        dwRGBBitCount := 0, dwRBitMask := 0, dwGBitMask := 0, dwBBitMask := 0, dwABitMask := 0 } := by
  unfold ddsHeaderFor
  dsimp only
  rw [hfmt, if_neg (by decide), if_neg (by decide), if_pos rfl]
  constructor
  · dsimp only
  · simp [ddsHeaderBase, DDS_HEADER.zero, sizeof_DDS_PIXELFORMAT]

/-- The linear size and the pixel format written for a BC5 texture. -/
theorem ddsHeaderFor_bc5 (u : Bool) (texhdr : FileEntry_DX10)
    (hfmt : texhdr.format = DXGI_FORMAT_BC5_UNORM) :
    (ddsHeaderFor u texhdr).2.dwPitchOrLinearSize = toUInt32 (widthTimesHeight texhdr) ∧
    (ddsHeaderFor u texhdr).2.ddspf =
      { dwSize := 32, dwFlags := DDS_FOURCC,
        dwFourCC := if u then MAKEFOURCC 65 84 73 50 else MAKEFOURCC 68 88 84 53,
        dwRGBBitCount := 0, dwRBitMask := 0, dwGBitMask := 0, dwBBitMask := 0, dwABitMask := 0 } := by
  unfold ddsHeaderFor
  dsimp only
  rw [hfmt, if_neg (by decide), if_neg (by decide), if_neg (by decide), if_pos rfl]
  constructor
  · dsimp only
  · simp [ddsHeaderBase, DDS_HEADER.zero, sizeof_DDS_PIXELFORMAT]

/-- The linear size and the pixel format written for a BC7 texture. -/
theorem ddsHeaderFor_bc7 (u : Bool) (texhdr : FileEntry_DX10)
    (hfmt : texhdr.format = DXGI_FORMAT_BC7_UNORM) :
    (ddsHeaderFor u texhdr).2.dwPitchOrLinearSize = toUInt32 (widthTimesHeight texhdr) ∧
    (ddsHeaderFor u texhdr).2.ddspf =
      { dwSize := 32, dwFlags := DDS_FOURCC, dwFourCC := MAKEFOURCC 66 67 55 0,
        dwRGBBitCount := 0, dwRBitMask := 0, dwGBitMask := 0, dwBBitMask := 0, dwABitMask := 0 } := by
  unfold ddsHeaderFor
  dsimp only
  rw [hfmt, if_neg (by decide), if_neg (by decide), if_neg (by decide), if_neg (by decide),
    if_pos rfl]
  constructor
  · dsimp only
  · simp [ddsHeaderBase, DDS_HEADER.zero, sizeof_DDS_PIXELFORMAT]

/-- The linear size and the pixel format written for a B8G8R8A8 texture. -/
theorem ddsHeaderFor_bgra (u : Bool) (texhdr : FileEntry_DX10)
    (hfmt : texhdr.format = DXGI_FORMAT_B8G8R8A8_UNORM) :
    (ddsHeaderFor u texhdr).2.dwPitchOrLinearSize =
      toUInt32 (toInt32 (widthTimesHeight texhdr * 4)) ∧
    (ddsHeaderFor u texhdr).2.ddspf =
      { dwSize := 32, dwFlags := DDS_RGBA, dwFourCC := 0, dwRGBBitCount := 32,
        dwRBitMask := 0x00FF0000, dwGBitMask := 0x0000FF00, dwBBitMask := 0x000000FF,
        dwABitMask := 0xFF000000 } := by
  unfold ddsHeaderFor
  dsimp only
  rw [hfmt, if_neg (by decide), if_neg (by decide), if_neg (by decide), if_neg (by decide),
    if_neg (by decide), if_pos rfl]
  constructor
  · dsimp only
  · simp [ddsHeaderBase, DDS_HEADER.zero, sizeof_DDS_PIXELFORMAT]

/-- The linear size and the pixel format written for an R8 texture. -/
theorem ddsHeaderFor_r8 (u : Bool) (texhdr : FileEntry_DX10)
    (hfmt : texhdr.format = DXGI_FORMAT_R8_UNORM) :
    (ddsHeaderFor u texhdr).2.dwPitchOrLinearSize = toUInt32 (widthTimesHeight texhdr) ∧
    (ddsHeaderFor u texhdr).2.ddspf =
      { dwSize := 32, dwFlags := DDS_RGB, dwFourCC := 0, dwRGBBitCount := 8,
        dwRBitMask := 0xFF, dwGBitMask := 0, dwBBitMask := 0, dwABitMask := 0 } := by
  unfold ddsHeaderFor
  dsimp only
  rw [hfmt, if_neg (by decide), if_neg (by decide), if_neg (by decide), if_neg (by decide),
    if_neg (by decide), if_neg (by decide), if_pos rfl]
  constructor
  · dsimp only
  · simp [ddsHeaderBase, DDS_HEADER.zero, sizeof_DDS_PIXELFORMAT]

/-- The linear size written for a B8G8R8A8 texture is four times the pixel
count modulo 2^32. -/
theorem bgra_pitch (texhdr : FileEntry_DX10) (hw : texhdr.width < 65536)
    (hh : texhdr.height < 65536) :
    toUInt32 (toInt32 (widthTimesHeight texhdr * 4)) =
      (texhdr.width * texhdr.height * 4) % 2 ^ 32 := by
  have hb : texhdr.width * texhdr.height ≤ 65535 * 65535 :=
    Nat.mul_le_mul (by omega) (by omega)
  rw [toUInt32_toInt32]
  by_cases hp : texhdr.width * texhdr.height < 2 ^ 31
  · rw [widthTimesHeight_of_lt texhdr hp]
    generalize texhdr.width * texhdr.height = p at hp hb
    omega
  · rw [widthTimesHeight_of_ge texhdr hw hh (by omega)]
    generalize texhdr.width * texhdr.height = p at hp hb
    omega

/-- The function `readNametable` does not assign `m_UseATIFourCC`. -/
theorem readNametable_keeps_option (env : Env) (a a' : Archive) (r : Res Bool)
    (h : readNametable env a = some (r, a')) : a'.m_UseATIFourCC = a.m_UseATIFourCC := by
  unfold readNametable at h
  dsimp only at h
  rw [Option.map_eq_some'] at h
  obtain ⟨v, -, hv⟩ := h
  injection hv with h1 h2
  rw [← h2]

/-- The function `Archive::read` does not assign `m_UseATIFourCC`. -/
theorem Archive.read_keeps_option (env : Env) (a a' : Archive) (r : Res EErrorCode)
    (h : Archive.read env a = some (r, a')) : a'.m_UseATIFourCC = a.m_UseATIFourCC := by
  unfold Archive.read at h
  split at h
  · injection h with h
    injection h with h1 h2
    rw [← h2]
  · split at h
    · injection h with h
      injection h with h1 h2
      rw [← h2]
    · rename_i hd s hr
      dsimp only at h
      have hk : ∀ b : Bool × Archive,
          b = (if hd.type = TYPE_GENERAL then
              readGeneral env { a with m_File := s, m_Header := hd, m_Type := hd.type }
            else if hd.type = TYPE_DX10 then
              readDX10 { a with m_File := s, m_Header := hd, m_Type := hd.type }
            else (true, { a with m_File := s, m_Header := hd, m_Type := hd.type })) →
          b.2.m_UseATIFourCC = a.m_UseATIFourCC := by
        intro b hb
        subst hb
        split
        · unfold readGeneral
          dsimp only
          split <;> rfl
        · split
          · rfl
          · rfl
      generalize (if hd.type = TYPE_GENERAL then
              readGeneral env { a with m_File := s, m_Header := hd, m_Type := hd.type }
            else if hd.type = TYPE_DX10 then
              readDX10 { a with m_File := s, m_Header := hd, m_Type := hd.type }
            else (true, { a with m_File := s, m_Header := hd, m_Type := hd.type })) = b at h hk
      have hb := hk b rfl
      split at h
      · injection h with h
        injection h with h1 h2
        rw [← h2, hb]
      · split at h
        · simp at h
        · rename_i e a3 hn
          injection h with h
          injection h with h1 h2
          rw [← h2, readNametable_keeps_option env _ _ _ hn, hb]
        · rename_i ok a3 hn
          have h3 := readNametable_keeps_option env _ _ _ hn
          split at h
          · injection h with h
            injection h with h1 h2
            rw [← h2, h3, hb]
          · injection h with h
            injection h with h1 h2
            rw [← h2, h3, hb]

/-- The functions `Archive::read(fileName)` and `Archive::close` do not assign
`m_UseATIFourCC`: after construction it is never written by a function that
can be called from outside the class. -/
theorem Archive.readFile_keeps_option (env : Env) (a a' : Archive) (file : Option (List Nat))
    (r : Res EErrorCode) (h : Archive.readFile env a file = some (r, a')) :
    a'.m_UseATIFourCC = a.m_UseATIFourCC ∧ (Archive.close a).m_UseATIFourCC = a.m_UseATIFourCC :=
  ⟨Archive.read_keeps_option env { a with m_File := a.m_File.open file } a' r h, rfl⟩

/-! ## Claims on the synthesised DDS header -/

/-- C13. For every DX10 texture record with a supported format code the
`switch` of `extractAllDX10` sets `ok`, and the header it builds has `dwWidth`,
`dwHeight` and `dwMipMapCount` equal to `width`, `height` and `numMips` of the
record, `dwSize` 124 and `ddspf.dwSize` 32; its header flags contain the
texture, linear-size and mipmap bits and its surface flags the texture and
mipmap bits.  The header is computed from the record alone (no chunk data
enters it), and these fields are the same for any other supported format code
and any value of the alternate-FourCC option. -/
theorem ddsHeaderFor_dimensions (u : Bool) (texhdr : FileEntry_DX10)
    (hs : supportedFormat texhdr.format) :
    (ddsHeaderFor u texhdr).1 = true ∧
    (ddsHeaderFor u texhdr).2.dwWidth = texhdr.width ∧
    (ddsHeaderFor u texhdr).2.dwHeight = texhdr.height ∧
    (ddsHeaderFor u texhdr).2.dwMipMapCount = texhdr.numMips ∧
    (ddsHeaderFor u texhdr).2.dwSize = 124 ∧
    (ddsHeaderFor u texhdr).2.ddspf.dwSize = 32 ∧
    (ddsHeaderFor u texhdr).2.dwHeaderFlags &&& DDS_HEADER_FLAGS_TEXTURE =
      DDS_HEADER_FLAGS_TEXTURE ∧
    (ddsHeaderFor u texhdr).2.dwHeaderFlags &&& DDS_HEADER_FLAGS_LINEARSIZE =
      DDS_HEADER_FLAGS_LINEARSIZE ∧
    (ddsHeaderFor u texhdr).2.dwHeaderFlags &&& DDS_HEADER_FLAGS_MIPMAP =
      DDS_HEADER_FLAGS_MIPMAP ∧
    (ddsHeaderFor u texhdr).2.dwSurfaceFlags &&& DDS_SURFACE_FLAGS_TEXTURE =
      DDS_SURFACE_FLAGS_TEXTURE ∧
    (ddsHeaderFor u texhdr).2.dwSurfaceFlags &&& DDS_SURFACE_FLAGS_MIPMAP =
      DDS_SURFACE_FLAGS_MIPMAP ∧
    (∀ (u' : Bool) (format' : Nat), supportedFormat format' →
      (ddsHeaderFor u' { texhdr with format := format' }).1 = true ∧
      (ddsHeaderFor u' { texhdr with format := format' }).2.dwWidth =
        (ddsHeaderFor u texhdr).2.dwWidth ∧
      (ddsHeaderFor u' { texhdr with format := format' }).2.dwHeight =
        (ddsHeaderFor u texhdr).2.dwHeight ∧
      (ddsHeaderFor u' { texhdr with format := format' }).2.dwMipMapCount =
        (ddsHeaderFor u texhdr).2.dwMipMapCount ∧
      (ddsHeaderFor u' { texhdr with format := format' }).2.dwSize =
        (ddsHeaderFor u texhdr).2.dwSize ∧
      (ddsHeaderFor u' { texhdr with format := format' }).2.ddspf.dwSize =
        (ddsHeaderFor u texhdr).2.ddspf.dwSize ∧
      (ddsHeaderFor u' { texhdr with format := format' }).2.dwHeaderFlags =
        (ddsHeaderFor u texhdr).2.dwHeaderFlags ∧
      (ddsHeaderFor u' { texhdr with format := format' }).2.dwSurfaceFlags =
        (ddsHeaderFor u texhdr).2.dwSurfaceFlags) := by
  obtain ⟨h1, h2, h3, h4, -, h6, h7, h8, -⟩ := ddsHeaderFor_base u texhdr
  refine ⟨(ddsHeaderFor_ok u texhdr).2 hs, h4, h3, h6, h1, h7, ?_, ?_, ?_, ?_, ?_, ?_⟩
  · rw [h2]; decide
  · rw [h2]; decide
  · rw [h2]; decide
  · rw [h8]; decide
  · rw [h8]; decide
  · intro u' format' hs'
    obtain ⟨g1, g2, g3, g4, -, g6, g7, g8, -⟩ :=
      ddsHeaderFor_base u' { texhdr with format := format' }
    exact ⟨(ddsHeaderFor_ok u' _).2 hs', by rw [g4, h4], by rw [g3, h3], by rw [g6, h6],
      by rw [g1, h1], by rw [g7, h7], by rw [g2, h2], by rw [g8, h8]⟩

/-- Witness for C13: a B8G8R8A8 record of 512 by 256 pixels. -/
theorem ddsHeaderFor_dimensions_witness :
    (ddsHeaderFor false (sampleTexRecord 256 512 87)).2.dwWidth = 512 ∧
    (ddsHeaderFor false (sampleTexRecord 256 512 87)).2.dwHeight = 256 ∧
    (ddsHeaderFor false (sampleTexRecord 256 512 87)).2.dwMipMapCount = 1 :=
  have h := ddsHeaderFor_dimensions false (sampleTexRecord 256 512 87) (by decide)
  ⟨h.2.1, h.2.2.1, h.2.2.2.1⟩

/-- C14 (what the sources do). The linear size of a BC1 texture is computed
as `width * height / 2` in the 32-bit type `int`, to which the two 16-bit
operands are promoted.  It is the floor of half the pixel count exactly when
the pixel count is below 2^31.  From 2^31 on the product does not fit (the
behaviour is undefined in C++; the targets wrap around): it is negative,
the division truncates towards zero, and the value stored in the unsigned
field is 2^32 minus half of what the pixel count lacks to 2^32, which is never
the floor of half the pixel count. -/
theorem ddsHeaderFor_bc1_pitch (u : Bool) (texhdr : FileEntry_DX10)
    (hfmt : texhdr.format = DXGI_FORMAT_BC1_UNORM) (hw : texhdr.width < 65536)
    (hh : texhdr.height < 65536) :
    (texhdr.width * texhdr.height < 2 ^ 31 →
      (ddsHeaderFor u texhdr).2.dwPitchOrLinearSize = texhdr.width * texhdr.height / 2) ∧
    (2 ^ 31 ≤ texhdr.width * texhdr.height →
      (ddsHeaderFor u texhdr).2.dwPitchOrLinearSize =
        2 ^ 32 - (2 ^ 32 - texhdr.width * texhdr.height) / 2 ∧
      (ddsHeaderFor u texhdr).2.dwPitchOrLinearSize ≠ texhdr.width * texhdr.height / 2) := by
  have hp := (ddsHeaderFor_bc1 u texhdr hfmt).1
  have hb : texhdr.width * texhdr.height ≤ 65535 * 65535 :=
    Nat.mul_le_mul (by omega) (by omega)
  constructor
  · intro hlt
    rw [hp, bc1_pitch_of_lt texhdr hlt]
  · intro hge
    rw [hp, bc1_pitch_of_ge texhdr hw hh hge]
    refine ⟨rfl, ?_⟩
    generalize texhdr.width * texhdr.height = p at hge hb
    omega

/-- Witness for C14: a BC1 texture of 256 by 256 pixels has the linear size
32768; one of 65535 by 65535 pixels, whose pixel count 4294836225 has the half
2147418112, has the linear size 4294901761. -/
theorem ddsHeaderFor_bc1_pitch_witness :
    (ddsHeaderFor false (sampleTexRecord 256 256 71)).2.dwPitchOrLinearSize = 32768 ∧
    (ddsHeaderFor false (sampleTexRecord 65535 65535 71)).2.dwPitchOrLinearSize = 4294901761 ∧
    (ddsHeaderFor false (sampleTexRecord 65535 65535 71)).2.dwPitchOrLinearSize ≠
      65535 * 65535 / 2 :=
  ⟨(ddsHeaderFor_bc1_pitch false (sampleTexRecord 256 256 71) rfl (by decide) (by decide)).1
      (by decide),
    ((ddsHeaderFor_bc1_pitch false (sampleTexRecord 65535 65535 71) rfl (by decide)
      (by decide)).2 (by decide)).1,
    ((ddsHeaderFor_bc1_pitch false (sampleTexRecord 65535 65535 71) rfl (by decide)
      (by decide)).2 (by decide)).2⟩

/-- C15 (amended). For every B8G8R8A8 texture record and every pair of 16-bit
width and height the 32-bit `dwPitchOrLinearSize` is `width * height * 4`
modulo 2^32, hence exactly `width * height * 4` whenever that number fits 32
bits; for every BC2, BC3, BC5, BC7 or R8 record it is exactly
`width * height`. -/
theorem ddsHeaderFor_pitch (u : Bool) (texhdr : FileEntry_DX10) (hw : texhdr.width < 65536)
    (hh : texhdr.height < 65536) :
    (texhdr.format = DXGI_FORMAT_B8G8R8A8_UNORM →
      (ddsHeaderFor u texhdr).2.dwPitchOrLinearSize =
        (texhdr.width * texhdr.height * 4) % 2 ^ 32 ∧
      (texhdr.width * texhdr.height * 4 < 2 ^ 32 →
        (ddsHeaderFor u texhdr).2.dwPitchOrLinearSize = texhdr.width * texhdr.height * 4)) ∧
    ((texhdr.format = DXGI_FORMAT_BC2_UNORM ∨ texhdr.format = DXGI_FORMAT_BC3_UNORM ∨
        texhdr.format = DXGI_FORMAT_BC5_UNORM ∨ texhdr.format = DXGI_FORMAT_BC7_UNORM ∨
        texhdr.format = DXGI_FORMAT_R8_UNORM) →
      (ddsHeaderFor u texhdr).2.dwPitchOrLinearSize = texhdr.width * texhdr.height) := by
  constructor
  · intro hfmt
    have h := (ddsHeaderFor_bgra u texhdr hfmt).1
    rw [h, bgra_pitch texhdr hw hh]
    exact ⟨rfl, fun hlt => Nat.mod_eq_of_lt hlt⟩
  · intro hfmt
    have hwh := toUInt32_widthTimesHeight texhdr hw hh
    rcases hfmt with h | h | h | h | h
    · rw [(ddsHeaderFor_bc2 u texhdr h).1, hwh]
    · rw [(ddsHeaderFor_bc3 u texhdr h).1, hwh]
    · rw [(ddsHeaderFor_bc5 u texhdr h).1, hwh]
    · rw [(ddsHeaderFor_bc7 u texhdr h).1, hwh]
    · rw [(ddsHeaderFor_r8 u texhdr h).1, hwh]

/-- Witness for C15 (amended): a B8G8R8A8 texture of 512 by 256 pixels has the
linear size 524288, and a BC7 texture of 65535 by 65535 pixels the linear size
4294836225. -/
theorem ddsHeaderFor_pitch_witness :
    (ddsHeaderFor false (sampleTexRecord 256 512 87)).2.dwPitchOrLinearSize = 512 * 256 * 4 ∧
    (ddsHeaderFor false (sampleTexRecord 65535 65535 98)).2.dwPitchOrLinearSize =
      65535 * 65535 :=
  ⟨((ddsHeaderFor_pitch false (sampleTexRecord 256 512 87) (by decide) (by decide)).1 rfl).2
      (by decide),
    (ddsHeaderFor_pitch false (sampleTexRecord 65535 65535 98) (by decide) (by decide)).2
      (Or.inr (Or.inr (Or.inr (Or.inl rfl))))⟩

/-- Counterexample for C15 as stated: for a B8G8R8A8 texture of 65535 by 65535
pixels the number `width * height * 4` is 17179344900, which no 32-bit field
holds; the field holds 4294443012. -/
theorem ddsHeaderFor_pitch_counterexample :
    (sampleTexRecord 65535 65535 87).width < 65536 ∧
    (sampleTexRecord 65535 65535 87).height < 65536 ∧
    (sampleTexRecord 65535 65535 87).format = DXGI_FORMAT_B8G8R8A8_UNORM ∧
    (ddsHeaderFor false (sampleTexRecord 65535 65535 87)).2.dwPitchOrLinearSize = 4294443012 ∧
    (ddsHeaderFor false (sampleTexRecord 65535 65535 87)).2.dwPitchOrLinearSize ≠
      (sampleTexRecord 65535 65535 87).width * (sampleTexRecord 65535 65535 87).height * 4 ∧
    2 ^ 32 ≤
      (sampleTexRecord 65535 65535 87).width * (sampleTexRecord 65535 65535 87).height * 4 := by
  decide

/-- C16 (amended). For the format codes BC1, BC2, BC3, BC7, B8G8R8A8 and R8
the synthesised pixel-format descriptor depends on the format code alone: BC1
gives the FourCC flag with the FourCC "DXT1", BC2 "DXT3", BC3 "DXT5", BC7 the
four bytes 'B', 'C', '7', NUL; B8G8R8A8 gives the RGBA flag with 32 bits per
pixel, the masks R = 0x00FF0000, G = 0x0000FF00, B = 0x000000FF,
A = 0xFF000000 and no FourCC; R8 gives the RGB flag with 8 bits per pixel and
the R mask 0xFF; `dwSize` is 32 in every case, and every other field of the
descriptor is zero. -/
theorem ddsHeaderFor_pixel_format (u : Bool) (texhdr : FileEntry_DX10) :
    (texhdr.format = DXGI_FORMAT_BC1_UNORM →
      (ddsHeaderFor u texhdr).2.ddspf =
        { dwSize := 32, dwFlags := DDS_FOURCC, dwFourCC := fromLE [68, 88, 84, 49],
          dwRGBBitCount := 0, dwRBitMask := 0, dwGBitMask := 0, dwBBitMask := 0,
          dwABitMask := 0 }) ∧
    (texhdr.format = DXGI_FORMAT_BC2_UNORM →
      (ddsHeaderFor u texhdr).2.ddspf =
        { dwSize := 32, dwFlags := DDS_FOURCC, dwFourCC := fromLE [68, 88, 84, 51],
          dwRGBBitCount := 0, dwRBitMask := 0, dwGBitMask := 0, dwBBitMask := 0,
          dwABitMask := 0 }) ∧
    (texhdr.format = DXGI_FORMAT_BC3_UNORM →
      (ddsHeaderFor u texhdr).2.ddspf =
        { dwSize := 32, dwFlags := DDS_FOURCC, dwFourCC := fromLE [68, 88, 84, 53],
          dwRGBBitCount := 0, dwRBitMask := 0, dwGBitMask := 0, dwBBitMask := 0,
          dwABitMask := 0 }) ∧
    (texhdr.format = DXGI_FORMAT_BC7_UNORM →
      (ddsHeaderFor u texhdr).2.ddspf =
        { dwSize := 32, dwFlags := DDS_FOURCC, dwFourCC := fromLE [66, 67, 55, 0],
          dwRGBBitCount := 0, dwRBitMask := 0, dwGBitMask := 0, dwBBitMask := 0,
          dwABitMask := 0 }) ∧
    (texhdr.format = DXGI_FORMAT_B8G8R8A8_UNORM →
      (ddsHeaderFor u texhdr).2.ddspf =
        { dwSize := 32, dwFlags := DDS_RGBA, dwFourCC := 0, dwRGBBitCount := 32,
          dwRBitMask := 0x00FF0000, dwGBitMask := 0x0000FF00, dwBBitMask := 0x000000FF,
          dwABitMask := 0xFF000000 }) ∧
    (texhdr.format = DXGI_FORMAT_R8_UNORM →
      (ddsHeaderFor u texhdr).2.ddspf =
        { dwSize := 32, dwFlags := DDS_RGB, dwFourCC := 0, dwRGBBitCount := 8,
          dwRBitMask := 0xFF, dwGBitMask := 0, dwBBitMask := 0, dwABitMask := 0 }) := by
  have e1 : MAKEFOURCC 68 88 84 49 = fromLE [68, 88, 84, 49] := by decide
  have e2 : MAKEFOURCC 68 88 84 51 = fromLE [68, 88, 84, 51] := by decide
  have e3 : MAKEFOURCC 68 88 84 53 = fromLE [68, 88, 84, 53] := by decide
  have e7 : MAKEFOURCC 66 67 55 0 = fromLE [66, 67, 55, 0] := by decide
  refine ⟨fun h => ?_, fun h => ?_, fun h => ?_, fun h => ?_, fun h => ?_, fun h => ?_⟩
  · rw [(ddsHeaderFor_bc1 u texhdr h).2, e1]
  · rw [(ddsHeaderFor_bc2 u texhdr h).2, e2]
  · rw [(ddsHeaderFor_bc3 u texhdr h).2, e3]
  · rw [(ddsHeaderFor_bc7 u texhdr h).2, e7]
  · exact (ddsHeaderFor_bgra u texhdr h).2
  · exact (ddsHeaderFor_r8 u texhdr h).2

/-- Witness for C16 (amended): the descriptor of a BC7 texture, and the 32
bytes written for it. -/
theorem ddsHeaderFor_pixel_format_witness :
    (ddsHeaderFor true (sampleTexRecord 4 4 98)).2.ddspf =
      { dwSize := 32, dwFlags := DDS_FOURCC, dwFourCC := fromLE [66, 67, 55, 0],
        dwRGBBitCount := 0, dwRBitMask := 0, dwGBitMask := 0, dwBBitMask := 0,
        dwABitMask := 0 } ∧
    (ddsHeaderFor true (sampleTexRecord 4 4 98)).2.ddspf.toBytes =
      [32, 0, 0, 0, 4, 0, 0, 0, 66, 67, 55, 0] ++ List.replicate 20 0 :=
  ⟨(ddsHeaderFor_pixel_format true (sampleTexRecord 4 4 98)).2.2.2.1 rfl, by decide⟩

/-- Counterexample for C16 as stated: the descriptor of a BC1 texture is not
the one whose fields other than the FourCC flag and the FourCC "DXT1" are all
zero, its field `dwSize` being 32; and for the format code BC5 the descriptor
is not a function of the format code, as it changes with the alternate-FourCC
option. -/
theorem ddsHeaderFor_pixel_format_counterexample :
    (sampleTexRecord 4 4 71).format = DXGI_FORMAT_BC1_UNORM ∧
    (ddsHeaderFor true (sampleTexRecord 4 4 71)).2.ddspf ≠
      { dwSize := 0, dwFlags := DDS_FOURCC, dwFourCC := fromLE [68, 88, 84, 49],
        dwRGBBitCount := 0, dwRBitMask := 0, dwGBitMask := 0, dwBBitMask := 0,
        dwABitMask := 0 } ∧
    (ddsHeaderFor true (sampleTexRecord 4 4 71)).2.ddspf.dwSize = 32 ∧
    (ddsHeaderFor true (sampleTexRecord 4 4 83)).2.ddspf ≠
      (ddsHeaderFor false (sampleTexRecord 4 4 83)).2.ddspf := by
  decide

/-- C17 (what the sources do). For every BC5 texture record the FourCC is
"ATI2" when `m_UseATIFourCC` is set and "DXT5" when it is not.  The
constructor `Archive::Archive` initialises `m_Type` only: the member
`m_UseATIFourCC` of a freshly constructed object has the value its storage
happens to hold, and neither `read` nor `close` assigns it, so the FourCC of a
BC5 texture extracted by a freshly constructed object that has read an
archive follows that stored value, not the archive bytes. -/
theorem ddsHeaderFor_bc5_fourcc (u : Bool) (texhdr : FileEntry_DX10)
    (hfmt : texhdr.format = DXGI_FORMAT_BC5_UNORM) :
    (ddsHeaderFor u texhdr).2.ddspf.dwFlags = DDS_FOURCC ∧
    toLE 4 (ddsHeaderFor u texhdr).2.ddspf.dwFourCC =
      (if u then [65, 84, 73, 50] else [68, 88, 84, 53]) ∧
    (∀ (storedHeader : Header) (storedFlag : Bool),
      (Archive.new storedHeader storedFlag).m_UseATIFourCC = storedFlag) ∧
    (∀ (env : Env) (storedHeader : Header) (storedFlag : Bool) (file : Option (List Nat))
      (r : Res EErrorCode) (a : Archive),
      Archive.readFile env (Archive.new storedHeader storedFlag) file = some (r, a) →
      a.m_UseATIFourCC = storedFlag ∧ (Archive.close a).m_UseATIFourCC = storedFlag) := by
  have h := (ddsHeaderFor_bc5 u texhdr hfmt).2
  refine ⟨by rw [h], ?_, fun _ _ => rfl, ?_⟩
  · rw [h]
    cases u <;> decide
  · intro env storedHeader storedFlag file r a hr
    have := (Archive.readFile_keeps_option env _ a file r hr).1
    exact ⟨this, this⟩

set_option maxRecDepth 100000 in
/-- Witness for C17: the FourCC of a BC5 record for both values of
`m_UseATIFourCC`, and the archive `sampleDX10Pair 71 83 5`, whose second
texture is BC5, read and extracted by two freshly constructed objects: where
the storage of `m_UseATIFourCC` holds `true` the file "d\b.dds" carries the
FourCC "ATI2", where it holds `false` the FourCC "DXT5". -/
theorem ddsHeaderFor_bc5_fourcc_witness :
    (toLE 4 (ddsHeaderFor true (sampleTexRecord 4 4 83)).2.ddspf.dwFourCC = [65, 84, 73, 50] ∧
      toLE 4 (ddsHeaderFor false (sampleTexRecord 4 4 83)).2.ddspf.dwFourCC =
        [68, 88, 84, 53]) ∧
    sampleExtractDX10 sampleEnvTwo true (sampleDX10Pair 71 83 5) sampleFs =
      some (Outcome.returned ERROR_NONE,
        some ([68, 68, 83, 32] ++ sampleDdsHeader 8 4 [68, 88, 84, 49] ++ hello),
        some ([68, 68, 83, 32] ++ sampleDdsHeader 16 4 [65, 84, 73, 50] ++ world)) ∧
    sampleExtractDX10 sampleEnvTwo false (sampleDX10Pair 71 83 5) sampleFs =
      some (Outcome.returned ERROR_NONE,
        some ([68, 68, 83, 32] ++ sampleDdsHeader 8 4 [68, 88, 84, 49] ++ hello),
        some ([68, 68, 83, 32] ++ sampleDdsHeader 16 4 [68, 88, 84, 53] ++ world)) ∧
    sampleExtractDX10 sampleEnvTwo true (sampleDX10Pair 71 83 5) sampleFs ≠
      sampleExtractDX10 sampleEnvTwo false (sampleDX10Pair 71 83 5) sampleFs :=
  ⟨⟨(ddsHeaderFor_bc5_fourcc true (sampleTexRecord 4 4 83) rfl).2.1,
      (ddsHeaderFor_bc5_fourcc false (sampleTexRecord 4 4 83) rfl).2.1⟩,
    by decide, by decide, by decide⟩

/-- Extraction of a DX10 archive whose stream is open and good, which has a
name for every texture, and in which the chunks of every texture with a
supported format inflate: `extractAll` returns `ERROR_NONE`, and the output
path of a texture, when it can be created and is not the output path of a
later texture, holds the DDS file of the texture, or no byte when the format
of the texture is not supported. -/
theorem extractAll_dx10_of_good (env : Env) (a : Archive) (destination : List Nat)
    (progress : Int → List Nat → Bool) (overwrite : Bool) (fs : FileSys)
    (hty : a.m_Header.type = TYPE_DX10) (ho : a.m_File.isOpen = true)
    (hf : a.m_File.failed = false) (hsz : a.m_File.data.length < 2 ^ 63)
    (hlen : a.m_Textures.length ≤ a.m_TableNames.length)
    (hall : ∀ t ∈ a.m_Textures, supportedFormat t.texhdr.format →
      ∀ c ∈ t.texchunks, chunkInflates env a.m_File.data c) :
    (Archive.extractAll env a destination progress overwrite fs).1 =
      Outcome.returned ERROR_NONE ∧
    ∀ (i : Nat) (texture : Texture) (name : List Nat), a.m_Textures[i]? = some texture →
      a.m_TableNames[i]? = some name →
      fs.creatable (outputPath destination name) = true →
      (∀ (j : Nat) (name' : List Nat), i < j → j < a.m_Textures.length →
        a.m_TableNames[j]? = some name' →
        outputPath destination name' ≠ outputPath destination name) →
      (Archive.extractAll env a destination progress overwrite fs).2.fs.files
        (outputPath destination name) =
          some (textureOutput env a.m_UseATIFourCC a.m_File.data texture) := by
  obtain ⟨x', hl, -, -, -, hmain⟩ := extractAllDX10Loop_of_good env a.m_UseATIFourCC destination
    a.m_Textures a.m_TableNames { stream := a.m_File, fs := fs, calls := [], progress := [] }
    hlen ho hf hsz hall
  have he : Archive.extractAll env a destination progress overwrite fs
      = (Outcome.returned ERROR_NONE, x') := by
    simp only [Archive.extractAll, hty, extractAllDX10]
    exact hl
  rw [he]
  exact ⟨rfl, fun i texture name hti hni hcr hlater => hmain i texture name hti hni hcr hlater⟩

/-! ## Claims on the extraction of DX10 archives -/

/-- C18 (what the sources do). The body of the loop of `extractAllDX10` opens
the output file of a texture before it looks at the format code.  For a
texture whose format code is none of BC1, BC2, BC3, BC5, BC7, B8G8R8A8, R8 it
then writes nothing and returns no error: the output file is created, and a
file that existed at that path is emptied, whenever the path can be opened
for writing; no other file is touched, `uncompress` is not called and the
archive stream is not read.  In a DX10 archive whose stream is open and good,
with a name for every texture, where the chunks of the textures with a
supported format inflate, `extractAll` returns `ERROR_NONE` and the file of
every texture is as `textureOutput` says: the DDS file for a supported
format, no byte for another one. -/
theorem extractTexture_unsupported_format (env : Env) (u : Bool) (destination : List Nat)
    (texture : Texture) (name : List Nat) (x : Extraction)
    (h : ¬ supportedFormat texture.texhdr.format) :
    (extractTexture env u destination texture name x).1 = none ∧
    (x.fs.creatable (outputPath destination name) = true →
      (extractTexture env u destination texture name x).2.fs.files
        (outputPath destination name) = some []) ∧
    (x.fs.creatable (outputPath destination name) = false →
      (extractTexture env u destination texture name x).2.fs.files
        (outputPath destination name) = x.fs.files (outputPath destination name)) ∧
    (∀ q, q ≠ outputPath destination name →
      (extractTexture env u destination texture name x).2.fs.files q = x.fs.files q) ∧
    (extractTexture env u destination texture name x).2.calls = x.calls ∧
    (extractTexture env u destination texture name x).2.stream = x.stream ∧
    (∀ (a : Archive) (progress : Int → List Nat → Bool) (overwrite : Bool) (fs : FileSys),
      a.m_Header.type = TYPE_DX10 → a.m_File.isOpen = true → a.m_File.failed = false →
      a.m_File.data.length < 2 ^ 63 → a.m_Textures.length ≤ a.m_TableNames.length →
      texture ∈ a.m_Textures →
      (∀ t ∈ a.m_Textures, supportedFormat t.texhdr.format →
        ∀ c ∈ t.texchunks, chunkInflates env a.m_File.data c) →
      (Archive.extractAll env a destination progress overwrite fs).1 =
        Outcome.returned ERROR_NONE ∧
      ∀ (i : Nat) (other : Texture) (name' : List Nat), a.m_Textures[i]? = some other →
        a.m_TableNames[i]? = some name' →
        fs.creatable (outputPath destination name') = true →
        (∀ (j : Nat) (later : List Nat), i < j → j < a.m_Textures.length →
          a.m_TableNames[j]? = some later →
          outputPath destination later ≠ outputPath destination name') →
        (Archive.extractAll env a destination progress overwrite fs).2.fs.files
          (outputPath destination name') =
            some (if supportedFormat other.texhdr.format then
              ddsFileOf env a.m_UseATIFourCC a.m_File.data other else [])) := by
  rw [extractTexture_of_unsupported env u destination texture name x h]
  refine ⟨rfl, ?_, ?_, ?_, rfl, rfl, ?_⟩
  · intro hcr
    simp [FileSys.openOut, hcr]
  · intro hcr
    simp [FileSys.openOut, hcr]
  · intro q hq
    unfold FileSys.openOut
    by_cases hcr : x.fs.creatable (outputPath destination name) = true
    · simp [hcr, hq]
    · simp [hcr]
  · intro a progress overwrite fs hty ho hf hsz hlen _ hall
    obtain ⟨h1, h2⟩ := extractAll_dx10_of_good env a destination progress overwrite fs hty ho hf
      hsz hlen hall
    refine ⟨h1, fun i other name' hti hni hcr hlater => ?_⟩
    rw [h2 i other name' hti hni hcr hlater]
    rfl

set_option maxRecDepth 100000 in
/-- Witness for C18: the archive `sampleDX10Pair 28 83 5`, whose first texture
has the format code 28 (R8G8B8A8), extracted where "d\a.dds" holds the bytes
1, 2, 3 and "d\b.dds" the bytes 4, 5, 6: `extractAll` returns `ERROR_NONE`,
the second texture is extracted, and "d\a.dds" is left empty. -/
theorem extractTexture_unsupported_format_witness :
    (extractTexture sampleEnvTwo false [100]
        { texhdr := sampleTexRecord 4 4 28, texchunks := [] } [97, 46, 100, 100, 115]
        { stream := IStream.ofData [], fs := sampleFsExisting, calls := [],
          progress := [] }).2.fs.files (outputPath [100] [97, 46, 100, 100, 115]) = some [] ∧
    sampleFsExisting.files [100, 92, 97, 46, 100, 100, 115] = some [1, 2, 3] ∧
    sampleExtractDX10 sampleEnvTwo false (sampleDX10Pair 28 83 5) sampleFsExisting =
      some (Outcome.returned ERROR_NONE, some [],
        some ([68, 68, 83, 32] ++ sampleDdsHeader 16 4 [68, 88, 84, 53] ++ world)) :=
  ⟨(extractTexture_unsupported_format sampleEnvTwo false [100]
      { texhdr := sampleTexRecord 4 4 28, texchunks := [] } [97, 46, 100, 100, 115]
      { stream := IStream.ofData [], fs := sampleFsExisting, calls := [], progress := [] }
      (by decide)).2.1 rfl,
    by decide, by decide⟩

/-- When the loop over the chunks of a texture returns no error, it has called
`uncompress` once for each chunk, in the order of the list, with the unpacked
length of the chunk as capacity, every call has produced that many bytes, and
the bytes produced have been appended, in that order, to the output file. -/
theorem extractChunks_written (env : Env) (out : OStream) (chunks : List DX10Chunk)
    (x : Extraction) (fs0 : FileSys) (pre : List Nat) (hfs : x.fs = fs0.write out pre)
    (hok : (extractChunks env out chunks x).1 = none) :
    ∃ new, (extractChunks env out chunks x).2.calls = x.calls ++ new ∧
      new.map Prod.snd = chunks.map DX10Chunk.unpackedLen ∧
      (∀ c ∈ new, (env.uncompress c.1 c.2).1 = Z_OK ∧ (env.uncompress c.1 c.2).2.length = c.2) ∧
      (extractChunks env out chunks x).2.fs =
        fs0.write out (pre ++ (new.map (fun c => (env.uncompress c.1 c.2).2)).flatten) := by
  induction chunks generalizing x pre with
  | nil =>
    refine ⟨[], by simp [extractChunks], rfl, by simp, ?_⟩
    simp [extractChunks, hfs]
  | cons c cs ih =>
    rw [extractChunks_cons] at hok ⊢
    by_cases hc : callFails env (chunkSourceOf env c x, c.unpackedLen)
    · rw [if_pos hc] at hok
      simp at hok
    · rw [if_neg hc] at hok ⊢
      obtain ⟨new, hcalls, hcap, hgood, hfs'⟩ := ih
        { stream := ((x.stream.seekg c.offset).read c.packedLen).2
          fs := x.fs.write out (env.uncompress (chunkSourceOf env c x) c.unpackedLen).2
          calls := x.calls ++ [(chunkSourceOf env c x, c.unpackedLen)]
          progress := x.progress }
        (pre ++ (env.uncompress (chunkSourceOf env c x) c.unpackedLen).2)
        (by simp only; rw [hfs, FileSys.write_write]) hok
      refine ⟨(chunkSourceOf env c x, c.unpackedLen) :: new, ?_, ?_, ?_, ?_⟩
      · rw [hcalls]; simp
      · simp [hcap]
      · intro c' hc'
        rcases List.mem_cons.1 hc' with h | h
        · subst h
          simp only [callFails, not_or, not_not] at hc
          exact hc
        · exact hgood c' h
      · rw [hfs']
        simp

/-- The length of a concatenation of blocks of given lengths. -/
theorem flatten_length_of_lengths (blocks : List (List Nat)) (lens : List Nat)
    (h : blocks.map List.length = lens) : blocks.flatten.length = lens.sum := by
  subst h
  induction blocks with
  | nil => rfl
  | cons b bs ih => simp [ih]

/-- The header built by `extractAllDX10` never carries the FourCC "DX10", the
mark of an extended header. -/
theorem ddsHeaderFor_fourcc_ne_dx10 (u : Bool) (texhdr : FileEntry_DX10) :
    toLE 4 (ddsHeaderFor u texhdr).2.ddspf.dwFourCC ≠ [68, 88, 49, 48] := by
  unfold ddsHeaderFor
  dsimp only
  split_ifs <;> simp only [ddsHeaderBase, DDS_HEADER.zero] <;> decide

/-- The length of the DDS file of a texture whose chunks inflate. -/
theorem ddsFileOf_length (env : Env) (u : Bool) (data : List Nat) (texture : Texture)
    (hall : ∀ c ∈ texture.texchunks, chunkInflates env data c) :
    (ddsFileOf env u data texture).length =
      128 + (texture.texchunks.map DX10Chunk.unpackedLen).sum := by
  have hl : (texture.texchunks.map (chunkPayload env data)).map List.length
      = texture.texchunks.map DX10Chunk.unpackedLen := by
    rw [List.map_map]
    apply List.map_congr_left
    intro c hc
    exact (hall c hc).2.2
  simp only [ddsFileOf, List.length_append, ddsHeaderFor_toBytes_length,
    flatten_length_of_lengths _ _ hl, List.length_cons, List.length_nil]

/-- C19. For a DX10 texture with a supported format, the archive stream being
open and the output path one that can be opened for writing: when the body of
the loop of `extractAllDX10` returns no error, that is, when every chunk has
inflated, the output file is exactly the 4 bytes "DDS ", the 124 bytes of the
synthesised header and the bytes produced by the calls of `uncompress`, one
per chunk and as many as `unpackedLen` says for each, so that its length is
128 plus the sum of the `unpackedLen` of the chunks.  On a good stream that
holds the packed bytes of the chunks these are the inflated chunks, and after
`extractAll` on such an archive the file of the texture is that DDS file
(unless a later texture has the same output path).  The header never carries
the FourCC "DX10", and nothing stands between it and the chunk data: no
extended header is emitted. -/
theorem extractTexture_dds_file (env : Env) (u : Bool) (destination : List Nat)
    (texture : Texture) (name : List Nat) (x : Extraction) (ho : x.stream.isOpen = true)
    (hs : supportedFormat texture.texhdr.format)
    (hcr : x.fs.creatable (outputPath destination name) = true) :
    ((ddsHeaderFor u texture.texhdr).2.toBytes.length = 124 ∧
      toLE 4 (ddsHeaderFor u texture.texhdr).2.ddspf.dwFourCC ≠ [68, 88, 49, 48]) ∧
    ((extractTexture env u destination texture name x).1 = none →
      ∃ payloads : List (List Nat),
        payloads = ((extractTexture env u destination texture name x).2.calls.drop
          x.calls.length).map (fun c => (env.uncompress c.1 c.2).2) ∧
        payloads.map List.length = texture.texchunks.map DX10Chunk.unpackedLen ∧
        (extractTexture env u destination texture name x).2.fs.files
          (outputPath destination name) =
            some ([68, 68, 83, 32] ++ (ddsHeaderFor u texture.texhdr).2.toBytes
              ++ payloads.flatten) ∧
        ([68, 68, 83, 32] ++ (ddsHeaderFor u texture.texhdr).2.toBytes
            ++ payloads.flatten).length =
          128 + (texture.texchunks.map DX10Chunk.unpackedLen).sum) ∧
    (x.stream.failed = false → x.stream.data.length < 2 ^ 63 →
      (∀ c ∈ texture.texchunks, chunkInflates env x.stream.data c) →
      (extractTexture env u destination texture name x).1 = none ∧
      (extractTexture env u destination texture name x).2.fs.files
        (outputPath destination name) = some (ddsFileOf env u x.stream.data texture) ∧
      (ddsFileOf env u x.stream.data texture).length =
        128 + (texture.texchunks.map DX10Chunk.unpackedLen).sum) ∧
    (∀ (a : Archive) (progress : Int → List Nat → Bool) (overwrite : Bool) (fs : FileSys)
      (i : Nat),
      a.m_Header.type = TYPE_DX10 → a.m_File.isOpen = true → a.m_File.failed = false →
      a.m_File.data.length < 2 ^ 63 → a.m_Textures.length ≤ a.m_TableNames.length →
      (∀ t ∈ a.m_Textures, supportedFormat t.texhdr.format →
        ∀ c ∈ t.texchunks, chunkInflates env a.m_File.data c) →
      a.m_Textures[i]? = some texture → a.m_TableNames[i]? = some name →
      fs.creatable (outputPath destination name) = true →
      (∀ (j : Nat) (later : List Nat), i < j → j < a.m_Textures.length →
        a.m_TableNames[j]? = some later →
        outputPath destination later ≠ outputPath destination name) →
      (Archive.extractAll env a destination progress overwrite fs).1 =
        Outcome.returned ERROR_NONE ∧
      (Archive.extractAll env a destination progress overwrite fs).2.fs.files
        (outputPath destination name) =
          some (ddsFileOf env a.m_UseATIFourCC a.m_File.data texture)) := by
  refine ⟨⟨ddsHeaderFor_toBytes_length u texture.texhdr,
    ddsHeaderFor_fourcc_ne_dx10 u texture.texhdr⟩, ?_, ?_, ?_⟩
  · intro hok
    rw [extractTexture_of_supported env u destination texture name x ho hs] at hok ⊢
    obtain ⟨new, hcalls, hcap, hgood, hfs⟩ := extractChunks_written env
      (x.fs.openOut (outputPath destination name)).1 texture.texchunks
      { x with
        fs := (x.fs.openOut (outputPath destination name)).2.write
          (x.fs.openOut (outputPath destination name)).1
          ([68, 68, 83, 32] ++ (ddsHeaderFor u texture.texhdr).2.toBytes) }
      (x.fs.openOut (outputPath destination name)).2
      ([68, 68, 83, 32] ++ (ddsHeaderFor u texture.texhdr).2.toBytes) rfl hok
    have hl : (new.map (fun c => (env.uncompress c.1 c.2).2)).map List.length
        = texture.texchunks.map DX10Chunk.unpackedLen := by
      rw [← hcap, List.map_map]
      apply List.map_congr_left
      intro c hc
      exact (hgood c hc).2
    refine ⟨new.map (fun c => (env.uncompress c.1 c.2).2), ?_, hl, ?_, ?_⟩
    · rw [hcalls]
      simp only
      rw [List.drop_left]
    · rw [hfs, FileSys.files_open_write]
      simp [hcr]
    · simp only [List.length_append, ddsHeaderFor_toBytes_length,
        flatten_length_of_lengths _ _ hl, List.length_cons, List.length_nil]
  · intro hf hsz hall
    obtain ⟨x', he, -, -, -, -, hfs⟩ := extractTexture_of_good env u destination texture name x
      ho hf hsz (fun _ => hall)
    rw [he]
    refine ⟨rfl, ?_, ddsFileOf_length env u x.stream.data texture hall⟩
    simp only
    rw [hfs, FileSys.files_open_write]
    simp [hcr, textureOutput, hs]
  · intro a progress overwrite fs i hty hao hf hsz hlen hall hti hni hfcr hlater
    obtain ⟨h1, h2⟩ := extractAll_dx10_of_good env a destination progress overwrite fs hty hao
      hf hsz hlen hall
    refine ⟨h1, ?_⟩
    rw [h2 i texture name hti hni hfcr hlater]
    simp [textureOutput, hs]

set_option maxRecDepth 100000 in
/-- Witness for C19: a BC1 texture of 4 by 4 pixels with one chunk, the zlib
stream of "hello"; the file "d\a.dds" holds "DDS ", the header and "hello",
133 bytes.  The same file results from reading and extracting the archive
`sampleDX10Pair 71 83 5`. -/
theorem extractTexture_dds_file_witness :
    (extractTexture sampleEnvTwo false [100]
        { texhdr := sampleTexRecord 4 4 71,
          texchunks := [{ offset := 2, packedLen := 13, unpackedLen := 5, startMip := 0,
                          endMip := 0, unk14 := 0 }] }
        [97, 46, 100, 100, 115] sampleExtraction).2.fs.files
        (outputPath [100] [97, 46, 100, 100, 115]) =
      some ([68, 68, 83, 32] ++ sampleDdsHeader 8 4 [68, 88, 84, 49] ++ hello) ∧
    ([68, 68, 83, 32] ++ sampleDdsHeader 8 4 [68, 88, 84, 49] ++ hello).length = 128 + 5 ∧
    sampleExtractDX10 sampleEnvTwo false (sampleDX10Pair 71 83 5) sampleFs =
      some (Outcome.returned ERROR_NONE,
        some ([68, 68, 83, 32] ++ sampleDdsHeader 8 4 [68, 88, 84, 49] ++ hello),
        some ([68, 68, 83, 32] ++ sampleDdsHeader 16 4 [68, 88, 84, 53] ++ world)) :=
  ⟨((extractTexture_dds_file sampleEnvTwo false [100]
      { texhdr := sampleTexRecord 4 4 71,
        texchunks := [{ offset := 2, packedLen := 13, unpackedLen := 5, startMip := 0,
                        endMip := 0, unk14 := 0 }] }
      [97, 46, 100, 100, 115] sampleExtraction rfl (by decide) rfl).2.2.1 rfl (by decide)
      (by decide)).2.1.trans (by decide),
    by decide, by decide⟩

/-- The chunks of the texture read at position `p`, in the order of the chunk
records that follow its header. -/
theorem textureAt_texchunks (data : List Nat) (p : Nat) :
    (textureAt data p).texchunks =
      (List.range (numChunksAt data p)).map
        (fun j => DX10Chunk.ofBytes (slice data (p + 24 + 24 * j) 24)) := by
  simp only [textureAt, decodeChunks]
  apply List.map_congr_left
  intro j hj
  rw [List.mem_range] at hj
  rw [slice_slice _ _ _ _ _ (by
    calc 24 * j + 24 = 24 * (j + 1) := by rw [Nat.mul_succ]
      _ ≤ _ := Nat.mul_le_mul_left _ hj)]

/-- C20 (amended). For every DX10 texture, the inflated chunk payloads appear
in the output file in the order of the chunk records in the record table of
the archive: the texture read at position `p` of the table keeps its chunk
records in table order, record `j` being the 24 bytes at `p + 24 + 24 * j`,
and the output file of the texture (supported format, stream open and good,
chunks that inflate, output path that can be opened) is the 128 bytes of magic
and header followed by the payload of record 0, of record 1, and so on. -/
theorem extractTexture_chunk_order (env : Env) (u : Bool) (destination name : List Nat)
    (x : Extraction) (p : Nat) (ho : x.stream.isOpen = true) (hf : x.stream.failed = false)
    (hsz : x.stream.data.length < 2 ^ 63)
    (hs : supportedFormat (textureAt x.stream.data p).texhdr.format)
    (hcr : x.fs.creatable (outputPath destination name) = true)
    (hall : ∀ c ∈ (textureAt x.stream.data p).texchunks, chunkInflates env x.stream.data c) :
    (textureAt x.stream.data p).texchunks =
      (List.range (numChunksAt x.stream.data p)).map
        (fun j => DX10Chunk.ofBytes (slice x.stream.data (p + 24 + 24 * j) 24)) ∧
    ∃ file,
      (extractTexture env u destination (textureAt x.stream.data p) name x).2.fs.files
        (outputPath destination name) = some file ∧
      file.take 128 =
        [68, 68, 83, 32] ++ (ddsHeaderFor u (textureAt x.stream.data p).texhdr).2.toBytes ∧
      file.drop 128 =
        ((List.range (numChunksAt x.stream.data p)).map
          (fun j => chunkPayload env x.stream.data
            (DX10Chunk.ofBytes (slice x.stream.data (p + 24 + 24 * j) 24)))).flatten := by
  refine ⟨textureAt_texchunks x.stream.data p, ?_⟩
  obtain ⟨x', he, -, -, -, -, hfs⟩ := extractTexture_of_good env u destination
    (textureAt x.stream.data p) name x ho hf hsz (fun _ => hall)
  have hlen : ([68, 68, 83, 32]
      ++ (ddsHeaderFor u (textureAt x.stream.data p).texhdr).2.toBytes).length = 128 := by
    simp only [List.length_append, ddsHeaderFor_toBytes_length, List.length_cons,
      List.length_nil]
  refine ⟨ddsFileOf env u x.stream.data (textureAt x.stream.data p), ?_, ?_, ?_⟩
  · rw [he]
    simp only
    rw [hfs, FileSys.files_open_write]
    simp [hcr, textureOutput, hs]
  · unfold ddsFileOf
    rw [← hlen, List.take_left]
  · unfold ddsFileOf
    rw [← hlen, List.drop_left, textureAt_texchunks, List.map_map]
    rfl

set_option maxRecDepth 100000 in
/-- Witness for C20 (amended): the texture at position 24 of
`sampleDX10Mips 0 1`, whose chunk records are the ones for "hello" and for
"world" in that order; the output file ends with "hello" followed by
"world". -/
theorem extractTexture_chunk_order_witness :
    ∃ file,
      (extractTexture sampleEnvTwo false [100] (textureAt (sampleDX10Mips 0 1) 24)
        [97, 46, 100, 100, 115]
        { stream := IStream.ofData (sampleDX10Mips 0 1), fs := sampleFs, calls := [],
          progress := [] }).2.fs.files (outputPath [100] [97, 46, 100, 100, 115]) = some file ∧
      file.drop 128 = hello ++ world :=
  have h := (extractTexture_chunk_order sampleEnvTwo false [100] [97, 46, 100, 100, 115]
    { stream := IStream.ofData (sampleDX10Mips 0 1), fs := sampleFs, calls := [],
      progress := [] } 24 rfl rfl (by decide) (by decide) rfl (by decide)).2
  h.elim fun file hfile => ⟨file, hfile.1, hfile.2.2.trans (by decide)⟩

set_option maxRecDepth 100000 in
/-- Counterexample for C20 as stated: in the archive `sampleDX10Mips 1 0` the
first chunk record of the texture, the one for "hello", has `startMip` 1 and
the second one, for "world", has `startMip` 0.  The archive is read without
error and keeps the two chunks in that order; in the file extracted,
"d\a.dds", the payload "hello" of the chunk with `startMip` 1 comes before
the payload "world" of the chunk with `startMip` 0. -/
theorem extractTexture_chunk_order_counterexample :
    (Archive.readFile sampleEnvTwo sampleArchive (some (sampleDX10Mips 1 0))).map
        (fun r => (r.1, r.2.m_Textures.map
          (fun t => t.texchunks.map (fun c => (c.startMip, c.offset, c.packedLen))))) =
      some (Res.ok ERROR_NONE, [[(1, 96, 13), (0, 109, 13)]]) ∧
    slice (sampleDX10Mips 1 0) 96 13 = helloDeflated ∧
    slice (sampleDX10Mips 1 0) 109 13 = worldDeflated ∧
    sampleExtractDX10 sampleEnvTwo false (sampleDX10Mips 1 0) sampleFs =
      some (Outcome.returned ERROR_NONE,
        some ([68, 68, 83, 32]
          ++ (ddsHeaderFor false (textureAt (sampleDX10Mips 1 0) 24).texhdr).2.toBytes
          ++ hello ++ world), none) ∧
    hello ++ world ≠ world ++ hello := by
  refine ⟨by decide, by decide, by decide, by decide, by decide⟩

/-! ## The cursor after the header -/

/-- A read that leaves the stream good has extracted all the bytes asked
for. -/
theorem IStream.read_good (s : IStream) (n : Nat) (h : (s.read n).2.failed = false) :
    s.failed = false ∧ (s.read n).2 = { s with pos := s.pos + n } := by
  have hs : s.failed = false := by
    by_contra hc
    simp only [Bool.not_eq_false] at hc
    rw [IStream.read_of_failed s n hc] at h
    simp [hc] at h
  refine ⟨hs, ?_⟩
  obtain ⟨o, d, p, f⟩ := s
  simp only at hs
  subst hs
  simp only [IStream.read, Bool.false_eq_true, if_false, ne_eq, decide_not, Bool.not_eq_false',
    decide_eq_true_eq] at h ⊢
  simp [h]

/-- A successful `readHeader` has found the stream good and leaves it 24 bytes
further, with nothing else changed. -/
theorem readHeader_ok_stream (env : Env) (s s' : IStream) (h : Header)
    (hr : readHeader env s = (Res.ok h, s')) :
    s.failed = false ∧ s' = { s with pos := s.pos + 24 } := by
  unfold readHeader at hr
  dsimp only at hr
  split at hr
  · simp at hr
  · split at hr
    · simp at hr
    · rename_i version s2 h2
      have k2 := readType_ok 4 _ version s2 h2
      split at hr
      · simp at hr
      · split at hr
        · simp at hr
        · rename_i fileCount s4 h4
          have k4 := readType_ok 4 _ fileCount s4 h4
          split at hr
          · simp at hr
          · rename_i offsetNameTable s5 h5
            have k5 := readType_ok 8 _ offsetNameTable s5 h5
            injection hr with _ hs
            subst hs
            have g1 := IStream.read_good s 4 k2.1
            have e2 : s2 = { s with pos := s.pos + 4 + 4 } := by
              have := IStream.read_good (s.read 4).2 4 (by rw [← k2.2.1]; exact k2.2.2)
              rw [k2.2.1, this.2, g1.2]
            have g3 := IStream.read_good s2 4 k4.1
            have e4 : s4 = { s with pos := s.pos + 4 + 4 + 4 + 4 } := by
              have := IStream.read_good (s2.read 4).2 4 (by rw [← k4.2.1]; exact k4.2.2)
              rw [k4.2.1, this.2, g3.2, e2]
            have e5 : s5 = { s with pos := s.pos + 4 + 4 + 4 + 4 + 8 } := by
              have := IStream.read_good s4 8 (by rw [← k5.2.1]; exact k5.2.2)
              rw [k5.2.1, this.2, e4]
            exact ⟨g1.1, e5⟩

/-- C25 (amended). A successful header decode advances the stream cursor by
exactly 24 bytes, the 4 bytes of the magic, 4 of the version, 4 of the type
tag, 4 of the file count and 8 of the name table offset, and has no other
effect on the stream: the file, the open state and the (clear) failure
state are as before. -/
theorem readHeader_advances (env : Env) (s s' : IStream) (h : Header)
    (hr : readHeader env s = (Res.ok h, s')) :
    s'.pos = s.pos + 24 ∧ s'.data = s.data ∧ s'.isOpen = s.isOpen ∧ s'.failed = s.failed ∧
    s.failed = false := by
  obtain ⟨hf, hs⟩ := readHeader_ok_stream env s s' h hr
  subst hs
  exact ⟨rfl, rfl, rfl, rfl, hf⟩

/-- Witness for C25 (amended): the header of `sampleGeneralFile`. -/
theorem readHeader_advances_witness :
    readHeader sampleEnv (IStream.ofData sampleGeneralFile) =
      (Res.ok { version := 1, type := TYPE_GENERAL, fileCount := 1, offsetNameTable := 65 },
        { IStream.ofData sampleGeneralFile with pos := 24 }) ∧
    ({ IStream.ofData sampleGeneralFile with pos := 24 } : IStream).pos =
      (IStream.ofData sampleGeneralFile).pos + 24 :=
  ⟨by decide,
    (readHeader_advances sampleEnv (IStream.ofData sampleGeneralFile)
      { IStream.ofData sampleGeneralFile with pos := 24 }
      { version := 1, type := TYPE_GENERAL, fileCount := 1, offsetNameTable := 65 }
      (by decide)).1⟩

/-- Counterexample for C25 as stated: decoding the header of
`sampleGeneralFile` succeeds and leaves the cursor, which was at 0, at 24, not
at 20. -/
theorem readHeader_advances_counterexample :
    readHeader sampleEnv (IStream.ofData sampleGeneralFile) =
      (Res.ok { version := 1, type := TYPE_GENERAL, fileCount := 1, offsetNameTable := 65 },
        { IStream.ofData sampleGeneralFile with pos := 24 }) ∧
    (IStream.ofData sampleGeneralFile).pos = 0 ∧
    (readHeader sampleEnv (IStream.ofData sampleGeneralFile)).2.pos ≠
      (IStream.ofData sampleGeneralFile).pos + 20 := by
  decide

/-! ## The arguments `progress` and `overwrite` -/

/-- The body of the loop of `extractAllGeneral` makes no call to the progress
callback. -/
theorem extractGeneralEntry_progress (env : Env) (destination : List Nat) (file : FileEntry)
    (name : List Nat) (x : Extraction) :
    (extractGeneralEntry env destination file name x).2.progress = x.progress := by
  unfold extractGeneralEntry
  dsimp only
  split_ifs <;> rfl

/-- The loop of `extractAllGeneral` makes no call to the progress callback. -/
theorem extractAllGeneralLoop_progress (env : Env) (destination : List Nat)
    (files : List FileEntry) (names : List (List Nat)) (x : Extraction) :
    (extractAllGeneralLoop env destination files names x).2.progress = x.progress := by
  induction files generalizing names x with
  | nil => simp [extractAllGeneralLoop]
  | cons f fs ih =>
    match names with
    | [] => simp [extractAllGeneralLoop]
    | n :: ns =>
      have h1 := extractGeneralEntry_progress env destination f n x
      rcases he : extractGeneralEntry env destination f n x with ⟨r, x1⟩
      rw [he] at h1
      cases r with
      | some e => simp only [extractAllGeneralLoop, he]; exact h1
      | none =>
        simp only [extractAllGeneralLoop, he]
        rw [ih ns x1]
        exact h1

/-- The loop over the chunks of a texture makes no call to the progress
callback. -/
theorem extractChunks_progress (env : Env) (out : OStream) (chunks : List DX10Chunk)
    (x : Extraction) : (extractChunks env out chunks x).2.progress = x.progress := by
  induction chunks generalizing x with
  | nil => simp [extractChunks]
  | cons c cs ih =>
    rw [extractChunks_cons]
    split
    · rfl
    · rw [ih]

/-- The body of the loop of `extractAllDX10` makes no call to the progress
callback. -/
theorem extractTexture_progress (env : Env) (u : Bool) (destination : List Nat)
    (texture : Texture) (name : List Nat) (x : Extraction) :
    (extractTexture env u destination texture name x).2.progress = x.progress := by
  unfold extractTexture
  dsimp only
  split
  · split
    · rw [extractChunks_progress]
    · rfl
  · rfl

/-- The loop of `extractAllDX10` makes no call to the progress callback. -/
theorem extractAllDX10Loop_progress (env : Env) (u : Bool) (destination : List Nat)
    (textures : List Texture) (names : List (List Nat)) (x : Extraction) :
    (extractAllDX10Loop env u destination textures names x).2.progress = x.progress := by
  induction textures generalizing names x with
  | nil => simp [extractAllDX10Loop]
  | cons t ts ih =>
    match names with
    | [] => simp [extractAllDX10Loop]
    | n :: ns =>
      have h1 := extractTexture_progress env u destination t n x
      rcases he : extractTexture env u destination t n x with ⟨r, x1⟩
      rw [he] at h1
      cases r with
      | some e => simp only [extractAllDX10Loop, he]; exact h1
      | none =>
        simp only [extractAllDX10Loop, he]
        rw [ih ns x1]
        exact h1

/-- The function `extractAll` makes no call to the progress callback. -/
theorem Archive.extractAll_progress (env : Env) (a : Archive) (destination : List Nat)
    (progress : Int → List Nat → Bool) (overwrite : Bool) (fs : FileSys) :
    (Archive.extractAll env a destination progress overwrite fs).2.progress = [] := by
  unfold Archive.extractAll
  dsimp only
  split
  · unfold extractAllGeneral
    split
    · rfl
    · rw [extractAllGeneralLoop_progress]
  · unfold extractAllDX10
    rw [extractAllDX10Loop_progress]
  · rfl


/-- The loop of `extractAllGeneral` ends in one of three ways. -/
theorem extractAllGeneralLoop_outcome (env : Env) (destination : List Nat)
    (files : List FileEntry) (names : List (List Nat)) (x : Extraction) :
    (extractAllGeneralLoop env destination files names x).1 = Outcome.returned ERROR_NONE ∨
    (extractAllGeneralLoop env destination files names x).1 =
      Outcome.returned ERROR_INVALIDDATA ∨
    (extractAllGeneralLoop env destination files names x).1 = Outcome.undefined := by
  induction files generalizing names x with
  | nil => exact Or.inl (by simp [extractAllGeneralLoop])
  | cons f fs ih =>
    match names with
    | [] => exact Or.inr (Or.inr (by simp [extractAllGeneralLoop]))
    | n :: ns =>
      obtain ⟨new, -, hor, -⟩ := extractGeneralEntry_calls env destination f n x
      rcases he : extractGeneralEntry env destination f n x with ⟨r, x1⟩
      rw [he] at hor
      cases r with
      | some e =>
        have hE : e = ERROR_INVALIDDATA := by
          rcases hor with h | h
          · simp at h
          · simpa using h
        subst hE
        exact Or.inr (Or.inl (by simp only [extractAllGeneralLoop, he]))
      | none =>
        simp only [extractAllGeneralLoop, he]
        exact ih ns x1

/-- The loop of `extractAllDX10` ends in one of three ways. -/
theorem extractAllDX10Loop_outcome (env : Env) (u : Bool) (destination : List Nat)
    (textures : List Texture) (names : List (List Nat)) (x : Extraction) :
    (extractAllDX10Loop env u destination textures names x).1 = Outcome.returned ERROR_NONE ∨
    (extractAllDX10Loop env u destination textures names x).1 =
      Outcome.returned ERROR_INVALIDDATA ∨
    (extractAllDX10Loop env u destination textures names x).1 = Outcome.undefined := by
  induction textures generalizing names x with
  | nil => exact Or.inl (by simp [extractAllDX10Loop])
  | cons t ts ih =>
    match names with
    | [] => exact Or.inr (Or.inr (by simp [extractAllDX10Loop]))
    | n :: ns =>
      obtain ⟨new, -, hor, -⟩ := extractTexture_calls env u destination t n x
      rcases he : extractTexture env u destination t n x with ⟨r, x1⟩
      rw [he] at hor
      cases r with
      | some e =>
        have hE : e = ERROR_INVALIDDATA := by
          rcases hor with h | h
          · simp at h
          · simpa using h
        subst hE
        exact Or.inr (Or.inl (by simp only [extractAllDX10Loop, he]))
      | none =>
        simp only [extractAllDX10Loop, he]
        exact ih ns x1

/-- The function `extractAll` returns `ERROR_NONE` or `ERROR_INVALIDDATA`, unless
it indexes the names out of range. -/
theorem Archive.extractAll_outcome (env : Env) (a : Archive) (destination : List Nat)
    (progress : Int → List Nat → Bool) (overwrite : Bool) (fs : FileSys) :
    (Archive.extractAll env a destination progress overwrite fs).1 =
      Outcome.returned ERROR_NONE ∨
    (Archive.extractAll env a destination progress overwrite fs).1 =
      Outcome.returned ERROR_INVALIDDATA ∨
    (Archive.extractAll env a destination progress overwrite fs).1 = Outcome.undefined := by
  unfold Archive.extractAll
  dsimp only
  split
  · unfold extractAllGeneral
    split
    · exact Or.inr (Or.inl rfl)
    · exact extractAllGeneralLoop_outcome _ _ _ _ _
  · exact extractAllDX10Loop_outcome _ _ _ _ _ _
  · exact Or.inr (Or.inl rfl)

/-! ## Claims on the callback and on `overwrite` -/

/-- C21 (what the sources do). The function `extractAll` does not use its
argument `overwrite`: it passes the destination alone to `extractAllGeneral`
and `extractAllDX10`, which open every output file for writing.  The call
with `overwrite = false` does what the call with `overwrite = true` does: in
an archive whose stream is open and good and whose records can all be
extracted, the output file of a record that existed before the call is
replaced by the payload of the record (General) or by its DDS file (DX10),
whatever the value of `overwrite`; no record is skipped. -/
theorem extractAll_ignores_overwrite (env : Env) (a : Archive) (destination : List Nat)
    (progress : Int → List Nat → Bool) (fs : FileSys) :
    (∀ overwrite : Bool,
      Archive.extractAll env a destination progress overwrite fs =
        Archive.extractAll env a destination progress true fs) ∧
    (a.m_Header.type = TYPE_GENERAL → a.m_File.isOpen = true → a.m_File.failed = false →
      a.m_File.data.length < 2 ^ 63 → a.m_Files.length = a.m_TableNames.length →
      (∀ f ∈ a.m_Files, extractable env a.m_File.data f) →
      (Archive.extractAll env a destination progress false fs).1 =
        Outcome.returned ERROR_NONE ∧
      ∀ (i : Nat) (file : FileEntry) (name old : List Nat), a.m_Files[i]? = some file →
        a.m_TableNames[i]? = some name →
        fs.files (outputPath destination name) = some old →
        fs.creatable (outputPath destination name) = true →
        (∀ (j : Nat) (name' : List Nat), i < j → a.m_TableNames[j]? = some name' →
          outputPath destination name' ≠ outputPath destination name) →
        (Archive.extractAll env a destination progress false fs).2.fs.files
          (outputPath destination name) = some (payloadOf env a.m_File.data file)) ∧
    (a.m_Header.type = TYPE_DX10 → a.m_File.isOpen = true → a.m_File.failed = false →
      a.m_File.data.length < 2 ^ 63 → a.m_Textures.length ≤ a.m_TableNames.length →
      (∀ t ∈ a.m_Textures, supportedFormat t.texhdr.format →
        ∀ c ∈ t.texchunks, chunkInflates env a.m_File.data c) →
      (Archive.extractAll env a destination progress false fs).1 =
        Outcome.returned ERROR_NONE ∧
      ∀ (i : Nat) (texture : Texture) (name old : List Nat), a.m_Textures[i]? = some texture →
        a.m_TableNames[i]? = some name →
        fs.files (outputPath destination name) = some old →
        fs.creatable (outputPath destination name) = true →
        (∀ (j : Nat) (name' : List Nat), i < j → j < a.m_Textures.length →
          a.m_TableNames[j]? = some name' →
          outputPath destination name' ≠ outputPath destination name) →
        (Archive.extractAll env a destination progress false fs).2.fs.files
          (outputPath destination name) =
            some (textureOutput env a.m_UseATIFourCC a.m_File.data texture)) := by
  refine ⟨fun _ => rfl, ?_, ?_⟩
  · intro hty ho hf hsz hlen hall
    obtain ⟨h1, h2⟩ := extractAll_general_of_good env a destination progress false fs hty ho hf
      hsz hlen hall
    exact ⟨h1, fun i file name _ hfi hni _ hcr hlater => h2 i file name hfi hni hcr hlater⟩
  · intro hty ho hf hsz hlen hall
    obtain ⟨h1, h2⟩ := extractAll_dx10_of_good env a destination progress false fs hty ho hf
      hsz hlen hall
    exact ⟨h1, fun i texture name _ hti hni _ hcr hlater => h2 i texture name hti hni hcr hlater⟩

set_option maxRecDepth 100000 in
/-- Witness for C21: the archive `sampleGeneralFile` extracted with
`overwrite = false` where "d\a.txt" holds the bytes 1, 2, 3: the file holds
"hello" afterwards.  Likewise for `sampleTwoFiles` where "d\a" and "d\b"
exist, and for the DX10 archive `sampleDX10Pair 71 83 5` where "d\a.dds" and
"d\b.dds" exist. -/
theorem extractAll_ignores_overwrite_witness :
    sampleFsTxt.files (outputPath [100] [97, 46, 116, 120, 116]) = some [1, 2, 3] ∧
    (Archive.extractAll sampleEnv sampleParsed [100] (fun _ _ => true) false sampleFsTxt).2.fs.files
      (outputPath [100] [97, 46, 116, 120, 116]) = some hello ∧
    sampleExtractWith sampleEnv sampleTwoFiles (fun _ _ => true) false sampleFsAB =
      some { outcome := Outcome.returned ERROR_NONE, fileA := some hello, fileB := some world,
             progress := [] } ∧
    sampleExtractWith sampleEnv40 (sampleTwoPadded 4 0 [[97], [98]]) (fun _ _ => true) false
        sampleFsAB =
      some { outcome := Outcome.returned ERROR_NONE, fileA := some hello, fileB := some world,
             progress := [] } ∧
    sampleExtractDX10 sampleEnvTwo false (sampleDX10Pair 71 83 5) sampleFsExisting =
      some (Outcome.returned ERROR_NONE,
        some ([68, 68, 83, 32] ++ sampleDdsHeader 8 4 [68, 88, 84, 49] ++ hello),
        some ([68, 68, 83, 32] ++ sampleDdsHeader 16 4 [68, 88, 84, 53] ++ world)) :=
  ⟨by decide,
    (((extractAll_ignores_overwrite sampleEnv sampleParsed [100] (fun _ _ => true)
      sampleFsTxt).2.1 rfl rfl rfl (by decide) rfl (by decide)).2 0 sampleStoredRecord
      [97, 46, 116, 120, 116] [1, 2, 3] rfl rfl (by decide) rfl
      (fun j name' hj hn => by
        match j, hj with
        | k + 1, _ => simp [sampleParsed] at hn)).trans (by decide),
    by decide, by decide, by decide⟩

/-- C22 (what the sources do). The function `extractAll` does not use its
argument `progress`: whatever the archive and the outcome, it makes no call
to the callback.  An archive whose stream is open and good, with `n` records
that can all be extracted, is extracted without error and without a single
call. -/
theorem extractAll_never_calls_progress (env : Env) (a : Archive) (destination : List Nat)
    (progress : Int → List Nat → Bool) (overwrite : Bool) (fs : FileSys) :
    (Archive.extractAll env a destination progress overwrite fs).2.progress = [] ∧
    (a.m_Header.type = TYPE_GENERAL → a.m_File.isOpen = true → a.m_File.failed = false →
      a.m_File.data.length < 2 ^ 63 → a.m_Files.length = a.m_TableNames.length →
      (∀ f ∈ a.m_Files, extractable env a.m_File.data f) →
      (Archive.extractAll env a destination progress overwrite fs).1 =
        Outcome.returned ERROR_NONE ∧
      (0 < a.m_Files.length →
        (Archive.extractAll env a destination progress overwrite fs).2.progress.length ≠
          a.m_Files.length)) ∧
    (a.m_Header.type = TYPE_DX10 → a.m_File.isOpen = true → a.m_File.failed = false →
      a.m_File.data.length < 2 ^ 63 → a.m_Textures.length ≤ a.m_TableNames.length →
      (∀ t ∈ a.m_Textures, supportedFormat t.texhdr.format →
        ∀ c ∈ t.texchunks, chunkInflates env a.m_File.data c) →
      (Archive.extractAll env a destination progress overwrite fs).1 =
        Outcome.returned ERROR_NONE ∧
      (0 < a.m_Textures.length →
        (Archive.extractAll env a destination progress overwrite fs).2.progress.length ≠
          a.m_Textures.length)) := by
  have hp := Archive.extractAll_progress env a destination progress overwrite fs
  refine ⟨hp, ?_, ?_⟩
  · intro hty ho hf hsz hlen hall
    refine ⟨(extractAll_general_of_good env a destination progress overwrite fs hty ho hf
      hsz hlen hall).1, fun hn => ?_⟩
    rw [hp]
    simp only [List.length_nil]
    omega
  · intro hty ho hf hsz hlen hall
    refine ⟨(extractAll_dx10_of_good env a destination progress overwrite fs hty ho hf
      hsz hlen hall).1, fun hn => ?_⟩
    rw [hp]
    simp only [List.length_nil]
    omega

set_option maxRecDepth 100000 in
/-- Witness for C22: the archive `sampleGeneralFile`, one record, and the
archive `sampleTwoFiles`, two records, are extracted without error and the
callback is not called. -/
theorem extractAll_never_calls_progress_witness :
    (Archive.extractAll sampleEnv sampleParsed [100] (fun _ _ => true) true sampleFs).1 =
      Outcome.returned ERROR_NONE ∧
    sampleParsed.m_Files.length = 1 ∧
    (Archive.extractAll sampleEnv sampleParsed [100] (fun _ _ => true) true
      sampleFs).2.progress.length ≠ 1 ∧
    sampleExtractWith sampleEnv sampleTwoFiles (fun _ _ => true) true sampleFs =
      some { outcome := Outcome.returned ERROR_NONE, fileA := some hello, fileB := some world,
             progress := [] } :=
  have h := (extractAll_never_calls_progress sampleEnv sampleParsed [100] (fun _ _ => true)
    true sampleFs).2.1 rfl rfl rfl (by decide) rfl (by decide)
  ⟨h.1, rfl, h.2 (by decide), by decide⟩

/-- C23 (what the sources do). The function `extractAll` never calls the
progress callback, so no value the callback would return reaches it: the
call does the same with any two callbacks.  With a callback that returns the
same value for every record, be it `false` or `true`, an archive whose stream
is open and good and whose records can all be extracted is extracted to the
end: `extractAll` returns `ERROR_NONE`, never `ERROR_CANCELED`, and the output
file of every record is written. -/
theorem extractAll_ignores_progress (env : Env) (a : Archive) (destination : List Nat)
    (overwrite : Bool) (fs : FileSys) :
    (∀ progress progress' : Int → List Nat → Bool,
      Archive.extractAll env a destination progress overwrite fs =
        Archive.extractAll env a destination progress' overwrite fs) ∧
    (∀ progress : Int → List Nat → Bool,
      (Archive.extractAll env a destination progress overwrite fs).1 ≠
        Outcome.returned ERROR_CANCELED) ∧
    (∀ signal : Bool, a.m_Header.type = TYPE_GENERAL → a.m_File.isOpen = true →
      a.m_File.failed = false → a.m_File.data.length < 2 ^ 63 →
      a.m_Files.length = a.m_TableNames.length →
      (∀ f ∈ a.m_Files, extractable env a.m_File.data f) →
      (Archive.extractAll env a destination (fun _ _ => signal) overwrite fs).1 =
        Outcome.returned ERROR_NONE ∧
      ∀ (i : Nat) (file : FileEntry) (name : List Nat), a.m_Files[i]? = some file →
        a.m_TableNames[i]? = some name →
        fs.creatable (outputPath destination name) = true →
        (∀ (j : Nat) (name' : List Nat), i < j → a.m_TableNames[j]? = some name' →
          outputPath destination name' ≠ outputPath destination name) →
        (Archive.extractAll env a destination (fun _ _ => signal) overwrite fs).2.fs.files
          (outputPath destination name) = some (payloadOf env a.m_File.data file)) := by
  refine ⟨fun _ _ => rfl, ?_, ?_⟩
  · intro progress hc
    rcases Archive.extractAll_outcome env a destination progress overwrite fs with h | h | h
    · rw [h] at hc; simp at hc
    · rw [h] at hc; simp at hc
    · rw [h] at hc; simp at hc
  · intro signal hty ho hf hsz hlen hall
    exact extractAll_general_of_good env a destination (fun _ _ => signal) overwrite fs hty ho
      hf hsz hlen hall

set_option maxRecDepth 100000 in
/-- Witness for C23: the archive `sampleTwoFiles` extracted with a callback
that always returns `false`, and with one that always returns `true`: in
both runs `extractAll` returns `ERROR_NONE` and the files of both records are
written. -/
theorem extractAll_ignores_progress_witness :
    (Archive.extractAll sampleEnv sampleParsed [100] (fun _ _ => false) true sampleFs).1 =
      Outcome.returned ERROR_NONE ∧
    sampleExtractWith sampleEnv sampleTwoFiles (fun _ _ => false) true sampleFs =
      some { outcome := Outcome.returned ERROR_NONE, fileA := some hello, fileB := some world,
             progress := [] } ∧
    sampleExtractWith sampleEnv sampleTwoFiles (fun _ _ => true) true sampleFs =
      some { outcome := Outcome.returned ERROR_NONE, fileA := some hello, fileB := some world,
             progress := [] } ∧
    sampleExtractWith sampleEnv40 (sampleTwoPadded 4 0 [[97], [98]]) (fun _ _ => false) true
        sampleFs =
      some { outcome := Outcome.returned ERROR_NONE, fileA := some hello, fileB := some world,
             progress := [] } :=
  ⟨((extractAll_ignores_progress sampleEnv sampleParsed [100] true sampleFs).2.2 false rfl rfl
      rfl (by decide) rfl (by decide)).1,
    by decide, by decide, by decide⟩

/-! ## What an extraction leaves untouched -/

/-- A write changes no file but the one written to. -/
theorem FileSys.write_files_ne (fs : FileSys) (out : OStream) (bytes q : List Nat)
    (hq : q ≠ out.path) : (fs.write out bytes).files q = fs.files q := by
  unfold FileSys.write
  split
  · simp [hq]
  · rfl

/-- Opening an output file changes no other file, and the stream is on the
path given. -/
theorem FileSys.openOut_files_ne (fs : FileSys) (p q : List Nat) (hq : q ≠ p) :
    (fs.openOut p).2.files q = fs.files q ∧ (fs.openOut p).1.path = p := by
  unfold FileSys.openOut
  split
  · simp [hq]
  · exact ⟨rfl, rfl⟩

/-- The body of the loop of `extractAllGeneral` changes no file but the output
file of the record. -/
theorem extractGeneralEntry_files_ne (env : Env) (destination : List Nat) (file : FileEntry)
    (name : List Nat) (x : Extraction) (q : List Nat) (hq : q ≠ outputPath destination name) :
    (extractGeneralEntry env destination file name x).2.fs.files q = x.fs.files q := by
  have ho := FileSys.openOut_files_ne x.fs (outputPath destination name) q hq
  have hw : ∀ bytes, ((x.fs.openOut (outputPath destination name)).2.write
      (x.fs.openOut (outputPath destination name)).1 bytes).files q = x.fs.files q := by
    intro bytes
    rw [FileSys.write_files_ne _ _ _ _ (by rw [ho.2]; exact hq), ho.1]
  unfold extractGeneralEntry
  dsimp only
  split_ifs
  · exact ho.1
  · exact hw _
  · exact ho.1
  · exact hw _
  · exact hw _
  · exact ho.1

/-- The loop over the chunks of a texture changes no file but the one it
writes to. -/
theorem extractChunks_files_ne (env : Env) (out : OStream) (chunks : List DX10Chunk)
    (x : Extraction) (q : List Nat) (hq : q ≠ out.path) :
    (extractChunks env out chunks x).2.fs.files q = x.fs.files q := by
  induction chunks generalizing x with
  | nil => simp [extractChunks]
  | cons c cs ih =>
    rw [extractChunks_cons]
    split
    · rfl
    · rw [ih]
      exact FileSys.write_files_ne _ _ _ _ hq

/-- The body of the loop of `extractAllDX10` changes no file but the output
file of the texture. -/
theorem extractTexture_files_ne (env : Env) (u : Bool) (destination : List Nat)
    (texture : Texture) (name : List Nat) (x : Extraction) (q : List Nat)
    (hq : q ≠ outputPath destination name) :
    (extractTexture env u destination texture name x).2.fs.files q = x.fs.files q := by
  have ho := FileSys.openOut_files_ne x.fs (outputPath destination name) q hq
  have hq' : q ≠ (x.fs.openOut (outputPath destination name)).1.path := by rw [ho.2]; exact hq
  unfold extractTexture
  dsimp only
  split
  · split
    · rw [extractChunks_files_ne _ _ _ _ _ hq']
      simp only
      rw [FileSys.write_files_ne _ _ _ _ hq', FileSys.write_files_ne _ _ _ _ hq', ho.1]
    · exact ho.1
  · exact ho.1

/-- The loop of `extractAllGeneral` over a list of records that starts with
records processed without error: it goes on with the other records, from the
state those have left. -/
theorem extractAllGeneralLoop_append (env : Env) (destination : List Nat)
    (pre rest : List FileEntry) (namesPre namesRest : List (List Nat)) (x xk : Extraction)
    (hlen : namesPre.length = pre.length)
    (hpre : extractAllGeneralLoop env destination pre namesPre x =
      (Outcome.returned ERROR_NONE, xk)) :
    extractAllGeneralLoop env destination (pre ++ rest) (namesPre ++ namesRest) x =
      extractAllGeneralLoop env destination rest namesRest xk := by
  induction pre generalizing namesPre x with
  | nil =>
    match namesPre, hlen with
    | [], _ =>
      simp only [extractAllGeneralLoop, Prod.mk.injEq, true_and] at hpre
      subst hpre
      simp
  | cons f fs ih =>
    match namesPre, hlen with
    | n :: ns, hlen =>
      obtain ⟨new, -, hor, -⟩ := extractGeneralEntry_calls env destination f n x
      rcases he : extractGeneralEntry env destination f n x with ⟨r, x1⟩
      rw [he] at hor
      cases r with
      | some e =>
        simp only [extractAllGeneralLoop, he, Prod.mk.injEq, Outcome.returned.injEq] at hpre
        rcases hor with h | h
        · simp at h
        · simp only [Option.some.injEq] at h
          rw [h] at hpre
          simp at hpre
      | none =>
        simp only [extractAllGeneralLoop, he] at hpre
        simp only [List.cons_append, extractAllGeneralLoop, he]
        exact ih ns x1 (by simpa using hlen) hpre

/-- The loop of `extractAllDX10` over a list of textures that starts with
textures processed without error: it goes on with the other textures, from
the state those have left. -/
theorem extractAllDX10Loop_append (env : Env) (u : Bool) (destination : List Nat)
    (pre rest : List Texture) (namesPre namesRest : List (List Nat)) (x xk : Extraction)
    (hlen : namesPre.length = pre.length)
    (hpre : extractAllDX10Loop env u destination pre namesPre x =
      (Outcome.returned ERROR_NONE, xk)) :
    extractAllDX10Loop env u destination (pre ++ rest) (namesPre ++ namesRest) x =
      extractAllDX10Loop env u destination rest namesRest xk := by
  induction pre generalizing namesPre x with
  | nil =>
    match namesPre, hlen with
    | [], _ =>
      simp only [extractAllDX10Loop, Prod.mk.injEq, true_and] at hpre
      subst hpre
      simp
  | cons f fs ih =>
    match namesPre, hlen with
    | n :: ns, hlen =>
      obtain ⟨new, -, hor, -⟩ := extractTexture_calls env u destination f n x
      rcases he : extractTexture env u destination f n x with ⟨r, x1⟩
      rw [he] at hor
      cases r with
      | some e =>
        simp only [extractAllDX10Loop, he, Prod.mk.injEq, Outcome.returned.injEq] at hpre
        rcases hor with h | h
        · simp at h
        · simp only [Option.some.injEq] at h
          rw [h] at hpre
          simp at hpre
      | none =>
        simp only [extractAllDX10Loop, he] at hpre
        simp only [List.cons_append, extractAllDX10Loop, he]
        exact ih ns x1 (by simpa using hlen) hpre

/-! ## Claims on the files left by a failed extraction -/

/-- C24 (amended). When the records (textures) before record `k` have been
processed without error and the body of the loop fails on the payload of
record `k`, `extractAll` returns the error, `ERROR_INVALIDDATA`, at once: the
state it leaves is the state the body of the loop has left for record `k`, no
later record is processed.  Every file at a path other than the output path
of record `k` has exactly the content it had when record `k` was reached: the
files written for the records before it under other paths keep what they were
given, and no file of a later record under another path is created or
modified.  Nothing is said of the file at the output path of record `k`
itself, which an earlier or a later record may share by its name. -/
theorem extractAll_aborts_on_failure (env : Env) (a : Archive) (destination : List Nat)
    (progress : Int → List Nat → Bool) (overwrite : Bool) (fs : FileSys)
    (namesPre namesPost : List (List Nat)) (name : List Nat) (e : EErrorCode) :
    (∀ (pre post : List FileEntry) (file : FileEntry),
      a.m_Header.type = TYPE_GENERAL → a.m_Files = pre ++ file :: post →
      a.m_TableNames = namesPre ++ name :: namesPost → namesPre.length = pre.length →
      namesPost.length = post.length →
      (extractAllGeneralLoop env destination pre namesPre
        { stream := a.m_File, fs := fs, calls := [], progress := [] }).1 =
          Outcome.returned ERROR_NONE →
      (extractGeneralEntry env destination file name
        (extractAllGeneralLoop env destination pre namesPre
          { stream := a.m_File, fs := fs, calls := [], progress := [] }).2).1 = some e →
      e = ERROR_INVALIDDATA ∧
      Archive.extractAll env a destination progress overwrite fs =
        (Outcome.returned ERROR_INVALIDDATA,
          (extractGeneralEntry env destination file name
            (extractAllGeneralLoop env destination pre namesPre
              { stream := a.m_File, fs := fs, calls := [], progress := [] }).2).2) ∧
      ∀ q, q ≠ outputPath destination name →
        (Archive.extractAll env a destination progress overwrite fs).2.fs.files q =
          (extractAllGeneralLoop env destination pre namesPre
            { stream := a.m_File, fs := fs, calls := [], progress := [] }).2.fs.files q) ∧
    (∀ (pre post : List Texture) (texture : Texture),
      a.m_Header.type = TYPE_DX10 → a.m_Textures = pre ++ texture :: post →
      a.m_TableNames = namesPre ++ name :: namesPost → namesPre.length = pre.length →
      (extractAllDX10Loop env a.m_UseATIFourCC destination pre namesPre
        { stream := a.m_File, fs := fs, calls := [], progress := [] }).1 =
          Outcome.returned ERROR_NONE →
      (extractTexture env a.m_UseATIFourCC destination texture name
        (extractAllDX10Loop env a.m_UseATIFourCC destination pre namesPre
          { stream := a.m_File, fs := fs, calls := [], progress := [] }).2).1 = some e →
      e = ERROR_INVALIDDATA ∧
      Archive.extractAll env a destination progress overwrite fs =
        (Outcome.returned ERROR_INVALIDDATA,
          (extractTexture env a.m_UseATIFourCC destination texture name
            (extractAllDX10Loop env a.m_UseATIFourCC destination pre namesPre
              { stream := a.m_File, fs := fs, calls := [], progress := [] }).2).2) ∧
      ∀ q, q ≠ outputPath destination name →
        (Archive.extractAll env a destination progress overwrite fs).2.fs.files q =
          (extractAllDX10Loop env a.m_UseATIFourCC destination pre namesPre
            { stream := a.m_File, fs := fs, calls := [], progress := [] }).2.fs.files q) := by
  constructor
  · intro pre post file hty hfiles hnames hlpre hlpost hpre hfail
    have hE : e = ERROR_INVALIDDATA := by
      obtain ⟨new, -, hor, -⟩ := extractGeneralEntry_calls env destination file name
        (extractAllGeneralLoop env destination pre namesPre
          { stream := a.m_File, fs := fs, calls := [], progress := [] }).2
      rw [hfail] at hor
      rcases hor with h | h
      · simp at h
      · simpa using h
    subst hE
    have hall : Archive.extractAll env a destination progress overwrite fs =
        (Outcome.returned ERROR_INVALIDDATA,
          (extractGeneralEntry env destination file name
            (extractAllGeneralLoop env destination pre namesPre
              { stream := a.m_File, fs := fs, calls := [], progress := [] }).2).2) := by
      have hlen : a.m_Files.length = a.m_TableNames.length := by
        rw [hfiles, hnames]
        simp [hlpre, hlpost]
      simp only [Archive.extractAll, hty, extractAllGeneral, hlen, ne_eq, not_true_eq_false,
        if_false]
      rw [hfiles, hnames, extractAllGeneralLoop_append env destination pre (file :: post)
        namesPre (name :: namesPost) _ _ hlpre (Prod.ext hpre rfl)]
      rcases hb : extractGeneralEntry env destination file name
        (extractAllGeneralLoop env destination pre namesPre
          { stream := a.m_File, fs := fs, calls := [], progress := [] }).2 with ⟨r, x1⟩
      rw [hb] at hfail
      simp only at hfail
      subst hfail
      simp only [extractAllGeneralLoop, hb]
    refine ⟨rfl, hall, fun q hq => ?_⟩
    rw [hall]
    exact extractGeneralEntry_files_ne env destination file name _ q hq
  · intro pre post texture hty htex hnames hlpre hpre hfail
    have hE : e = ERROR_INVALIDDATA := by
      obtain ⟨new, -, hor, -⟩ := extractTexture_calls env a.m_UseATIFourCC destination texture
        name (extractAllDX10Loop env a.m_UseATIFourCC destination pre namesPre
          { stream := a.m_File, fs := fs, calls := [], progress := [] }).2
      rw [hfail] at hor
      rcases hor with h | h
      · simp at h
      · simpa using h
    subst hE
    have hall : Archive.extractAll env a destination progress overwrite fs =
        (Outcome.returned ERROR_INVALIDDATA,
          (extractTexture env a.m_UseATIFourCC destination texture name
            (extractAllDX10Loop env a.m_UseATIFourCC destination pre namesPre
              { stream := a.m_File, fs := fs, calls := [], progress := [] }).2).2) := by
      simp only [Archive.extractAll, hty, extractAllDX10]
      rw [htex, hnames, extractAllDX10Loop_append env a.m_UseATIFourCC destination pre
        (texture :: post) namesPre (name :: namesPost) _ _ hlpre (Prod.ext hpre rfl)]
      rcases hb : extractTexture env a.m_UseATIFourCC destination texture name
        (extractAllDX10Loop env a.m_UseATIFourCC destination pre namesPre
          { stream := a.m_File, fs := fs, calls := [], progress := [] }).2 with ⟨r, x1⟩
      rw [hb] at hfail
      simp only at hfail
      subst hfail
      simp only [extractAllDX10Loop, hb]
    refine ⟨rfl, hall, fun q hq => ?_⟩
    rw [hall]
    exact extractTexture_files_ne env a.m_UseATIFourCC destination texture name _ q hq

set_option maxRecDepth 100000 in
/-- Witness for C24 (amended): in the archive `sampleSecondBad 0` the first record, "a",
is stored and the payload of the second one, "b", does not inflate.
Extracted where "d\a" and "d\b" exist, `extractAll` returns
`ERROR_INVALIDDATA` and "d\a" keeps the payload "hello" it was given.  In the
archive `sampleTwoPadded 0 3`, whose first record fails, the file "d\b" of
the later record is left as it was. -/
theorem extractAll_aborts_on_failure_witness :
    (Archive.extractAll sampleEnv (sampleRead sampleEnv (sampleSecondBad 0)) [100]
      (fun _ _ => true) true sampleFsAB).1 = Outcome.returned ERROR_INVALIDDATA ∧
    (Archive.extractAll sampleEnv (sampleRead sampleEnv (sampleSecondBad 0)) [100]
      (fun _ _ => true) true sampleFsAB).2.fs.files [100, 92, 97] = some hello ∧
    sampleExtractWith sampleEnv (sampleSecondBad 0) (fun _ _ => true) true sampleFsAB =
      some { outcome := Outcome.returned ERROR_INVALIDDATA, fileA := some hello,
             fileB := some [], progress := [] } ∧
    sampleExtractWith sampleEnv40 (sampleSecondBad 4) (fun _ _ => true) true sampleFsAB =
      some { outcome := Outcome.returned ERROR_INVALIDDATA, fileA := some hello,
             fileB := some [], progress := [] } ∧
    sampleExtractWith sampleEnv (sampleTwoPadded 0 3 [[97], [98]]) (fun _ _ => true) true
        sampleFsAB =
      some { outcome := Outcome.returned ERROR_INVALIDDATA, fileA := some [],
             fileB := some [4, 5, 6], progress := [] } ∧
    sampleExtractDX10 sampleEnvTwo false (sampleDX10Pair 71 83 4) sampleFsExisting =
      some (Outcome.returned ERROR_INVALIDDATA,
        some ([68, 68, 83, 32] ++ sampleDdsHeader 8 4 [68, 88, 84, 49]), some [4, 5, 6]) :=
  have h := (extractAll_aborts_on_failure sampleEnv (sampleRead sampleEnv (sampleSecondBad 0))
    [100] (fun _ _ => true) true sampleFsAB [[97]] [] [98] ERROR_INVALIDDATA).1
    [sampleFirstRecord] [] sampleBadRecord (by decide) (by decide) (by decide) rfl rfl
    (by decide) (by decide)
  ⟨by rw [h.2.1], (h.2.2 [100, 92, 97] (by decide)).trans (by decide), by decide, by decide,
    by decide, by decide⟩

set_option maxRecDepth 100000 in
/-- Counterexample for C24 as stated: in the archive `sampleSecondBadSameName`
both records are named "a"; the first one is stored, the payload of the second
one does not inflate.  The archive is read with `ERROR_NONE`.  Extracted to
the directory "d", record 0 is processed without error and gives the file
"d\a" the payload "hello"; record 1 then opens the same path and fails, and
`extractAll` returns `ERROR_INVALIDDATA` with "d\a" empty: the file written
for record 0 has not kept the content it was given. -/
theorem extractAll_aborts_on_failure_counterexample :
    Archive.readFile sampleEnv sampleArchive (some sampleSecondBadSameName) =
      some (Res.ok ERROR_NONE, sampleRead sampleEnv sampleSecondBadSameName) ∧
    (sampleRead sampleEnv sampleSecondBadSameName).m_Files =
      [sampleFirstRecord, sampleBadRecord] ∧
    (sampleRead sampleEnv sampleSecondBadSameName).m_TableNames = [[97], [97]] ∧
    (extractGeneralEntry sampleEnv [100] sampleFirstRecord [97]
      { stream := (sampleRead sampleEnv sampleSecondBadSameName).m_File, fs := sampleFs,
        calls := [], progress := [] }).1 = none ∧
    (extractGeneralEntry sampleEnv [100] sampleFirstRecord [97]
      { stream := (sampleRead sampleEnv sampleSecondBadSameName).m_File, fs := sampleFs,
        calls := [], progress := [] }).2.fs.files [100, 92, 97] = some hello ∧
    (extractGeneralEntry sampleEnv [100] sampleBadRecord [97]
      (extractGeneralEntry sampleEnv [100] sampleFirstRecord [97]
        { stream := (sampleRead sampleEnv sampleSecondBadSameName).m_File, fs := sampleFs,
          calls := [], progress := [] }).2).1 = some ERROR_INVALIDDATA ∧
    (Archive.extractAll sampleEnv (sampleRead sampleEnv sampleSecondBadSameName) [100]
      (fun _ _ => true) true sampleFs).1 = Outcome.returned ERROR_INVALIDDATA ∧
    (Archive.extractAll sampleEnv (sampleRead sampleEnv sampleSecondBadSameName) [100]
      (fun _ _ => true) true sampleFs).2.fs.files [100, 92, 97] = some [] ∧
    (Archive.extractAll sampleEnv (sampleRead sampleEnv sampleSecondBadSameName) [100]
      (fun _ _ => true) true sampleFs).2.fs.files [100, 92, 97] ≠
      (extractGeneralEntry sampleEnv [100] sampleFirstRecord [97]
        { stream := (sampleRead sampleEnv sampleSecondBadSameName).m_File, fs := sampleFs,
          calls := [], progress := [] }).2.fs.files [100, 92, 97] :=
  ⟨by decide, by decide, by decide, by decide, by decide, by decide, by decide, by decide,
    by decide⟩

/-! ## DX10 archives with fewer names than textures -/

/-- The loop of `extractAllDX10` cannot return `ERROR_NONE` when there are fewer
names than textures. -/
theorem extractAllDX10Loop_short_ne_none (env : Env) (u : Bool) (destination : List Nat)
    (textures : List Texture) (names : List (List Nat)) (x : Extraction)
    (hshort : names.length < textures.length) :
    (extractAllDX10Loop env u destination textures names x).1 ≠ Outcome.returned ERROR_NONE := by
  induction textures generalizing names x with
  | nil => simp at hshort
  | cons t ts ih =>
    match names with
    | [] => simp [extractAllDX10Loop]
    | n :: ns =>
      obtain ⟨new, -, hor, -⟩ := extractTexture_calls env u destination t n x
      rcases he : extractTexture env u destination t n x with ⟨r, x1⟩
      rw [he] at hor
      cases r with
      | some e =>
        rcases hor with h | h
        · simp at h
        · simp only [Option.some.injEq] at h
          subst h
          simp [extractAllDX10Loop, he]
      | none =>
        simp only [extractAllDX10Loop, he]
        exact ih ns x1 (by simpa using hshort)

/-- The loop of `extractAllDX10` when there are fewer names than textures and
the textures that have a name are extracted without error: the textures that
have a name are extracted, then `m_TableNames` is indexed out of range. -/
theorem extractAllDX10Loop_short_names (env : Env) (u : Bool) (destination : List Nat)
    (textures : List Texture) (names : List (List Nat)) (x : Extraction)
    (hshort : names.length < textures.length) (ho : x.stream.isOpen = true)
    (hf : x.stream.failed = false) (hsz : x.stream.data.length < 2 ^ 63)
    (hall : ∀ t ∈ textures.take names.length, supportedFormat t.texhdr.format →
      ∀ c ∈ t.texchunks, chunkInflates env x.stream.data c) :
    extractAllDX10Loop env u destination textures names x =
      (Outcome.undefined,
        (extractAllDX10Loop env u destination (textures.take names.length) names x).2) ∧
    (extractAllDX10Loop env u destination (textures.take names.length) names x).1 =
      Outcome.returned ERROR_NONE := by
  have hl : (textures.take names.length).length = names.length := by
    rw [List.length_take]; omega
  obtain ⟨xk, hpre, -⟩ := extractAllDX10Loop_of_good env u destination
    (textures.take names.length) names x (by omega) ho hf hsz hall
  have happ := extractAllDX10Loop_append env u destination (textures.take names.length)
    (textures.drop names.length) names [] x xk hl.symm hpre
  rw [List.take_append_drop, List.append_nil] at happ
  rw [happ, hpre]
  refine ⟨?_, rfl⟩
  match hd : textures.drop names.length with
  | [] =>
    have := congrArg List.length hd
    simp only [List.length_drop, List.length_nil] at this
    omega
  | t :: ts => simp [extractAllDX10Loop]

/-- C26 (what the sources do). `extractAllDX10` does not compare the number
of names with the number of textures, as `extractAllGeneral` does for
records: for a DX10 archive whose name list is shorter than its texture list
`extractAll` returns `ERROR_INVALIDDATA` only when a call of `uncompress`
fails, and never returns `ERROR_NONE`.  When the stream is open and good and
the textures that have a name are extracted without error, it extracts them
and then evaluates `m_TableNames[i]` with `i` the length of the name list,
outside the list.  A General archive object with different numbers of names
and records gets `ERROR_INVALIDDATA` before any file is touched. -/
theorem extractAll_dx10_short_names (env : Env) (a : Archive) (destination : List Nat)
    (progress : Int → List Nat → Bool) (overwrite : Bool) (fs : FileSys)
    (hty : a.m_Header.type = TYPE_DX10)
    (hshort : a.m_TableNames.length < a.m_Textures.length) :
    (Archive.extractAll env a destination progress overwrite fs).1 ≠
      Outcome.returned ERROR_NONE ∧
    ((Archive.extractAll env a destination progress overwrite fs).1 =
        Outcome.returned ERROR_INVALIDDATA ↔
      ∃ c ∈ (Archive.extractAll env a destination progress overwrite fs).2.calls,
        (env.uncompress c.1 c.2).1 ≠ Z_OK ∨ (env.uncompress c.1 c.2).2.length ≠ c.2) ∧
    (a.m_File.isOpen = true → a.m_File.failed = false → a.m_File.data.length < 2 ^ 63 →
      (∀ t ∈ a.m_Textures.take a.m_TableNames.length, supportedFormat t.texhdr.format →
        ∀ c ∈ t.texchunks, chunkInflates env a.m_File.data c) →
      (Archive.extractAll env a destination progress overwrite fs).1 = Outcome.undefined ∧
      (Archive.extractAll env a destination progress overwrite fs).2 =
        (extractAllDX10Loop env a.m_UseATIFourCC destination
          (a.m_Textures.take a.m_TableNames.length) a.m_TableNames
          { stream := a.m_File, fs := fs, calls := [], progress := [] }).2) ∧
    (∀ b : Archive, b.m_Header.type = TYPE_GENERAL →
      b.m_Files.length ≠ b.m_TableNames.length →
      Archive.extractAll env b destination progress overwrite fs =
        (Outcome.returned ERROR_INVALIDDATA,
          { stream := b.m_File, fs := fs, calls := [], progress := [] })) := by
  refine ⟨?_, ?_, ?_, ?_⟩
  · simp only [Archive.extractAll, hty, extractAllDX10]
    exact extractAllDX10Loop_short_ne_none env _ destination _ _ _ hshort
  · exact extractAll_invalid_iff_call env a destination progress overwrite fs (Or.inl hty)
  · intro ho hf hsz hall
    have h := (extractAllDX10Loop_short_names env a.m_UseATIFourCC destination a.m_Textures
      a.m_TableNames { stream := a.m_File, fs := fs, calls := [], progress := [] } hshort ho hf
      hsz hall).1
    simp only [Archive.extractAll, hty, extractAllDX10]
    rw [h]
    exact ⟨rfl, rfl⟩
  · intro b hb hne
    simp only [Archive.extractAll, hb, extractAllGeneral, hne, ne_eq, not_false_eq_true, if_true]

set_option maxRecDepth 100000 in
/-- Witness for C26: the DX10 archive `sampleDX10Named` with two textures and
the single name "a.dds" is read without error; `extractAll` writes "d\a.dds"
and then indexes the name list out of range.  The General archive
`sampleMissingName`, two records and one name, gets `ERROR_INVALIDDATA` and no
file. -/
theorem extractAll_dx10_short_names_witness :
    (Archive.extractAll sampleEnvTwo
      (sampleRead sampleEnvTwo (sampleDX10Named [[97, 46, 100, 100, 115]])) [100]
      (fun _ _ => true) true sampleFs).1 = Outcome.undefined ∧
    sampleExtractDX10 sampleEnvTwo false (sampleDX10Named [[97, 46, 100, 100, 115]]) sampleFs =
      some (Outcome.undefined,
        some ([68, 68, 83, 32] ++ sampleDdsHeader 8 4 [68, 88, 84, 49] ++ hello), none) ∧
    sampleExtractAll sampleEnv sampleMissingName false sampleFs =
      some (Outcome.returned ERROR_INVALIDDATA, none, none) :=
  ⟨((extractAll_dx10_short_names sampleEnvTwo
      (sampleRead sampleEnvTwo (sampleDX10Named [[97, 46, 100, 100, 115]])) [100]
      (fun _ _ => true) true sampleFs (by decide) (by decide)).2.2.1 (by decide) (by decide)
      (by decide) (by decide)).1,
    by decide, by decide⟩

/-! ## Writing a header and reading it back -/

/-- Opening a file with an object whose previous archive has been closed: the
stream is a newly opened one and every other member is as it was. -/
theorem Archive.readFile_close (env : Env) (b : Archive) (data : List Nat)
    (ho : b.m_File.isOpen = true) :
    Archive.readFile env b.close (some data)
      = Archive.read env { b with m_File := IStream.ofData data } := by
  simp [Archive.readFile, Archive.close, IStream.close, IStream.open, ho, IStream.ofData]

/-- A well-formed archive read by an object that already holds names: the new
names are appended to the old ones. -/
theorem Archive.readFile_close_of_encoded (env : Env) (b : Archive) (data : List Nat)
    (v n t : Nat) (tag body stray : List Nat) (names : List (List Nat))
    (ho : b.m_File.isOpen = true)
    (hd : data = [66, 84, 68, 88] ++ toLE 4 v ++ tag ++ toLE 4 n ++ toLE 8 t
      ++ (body ++ encodeNames names ++ stray))
    (ht : t = 24 + body.length) (hv : v < 2 ^ 32) (hn : n < 2 ^ 32)
    (hsz : data.length < 2 ^ 63) (hstray : stray.length ≤ 1)
    (hnames : ∀ nm ∈ names, nm.length < 65536 ∧ 0 ∉ nm) (hS : 36 ≤ env.sizeofFileEntry)
    (hfit : (tag = [71, 78, 82, 76] ∧ 24 + env.sizeofFileEntry * n ≤ data.length) ∨
      (tag = [68, 88, 49, 48] ∧ textureStart data 24 n ≤ data.length)) :
    ∃ a', Archive.readFile env b.close (some data) = some (Res.ok ERROR_NONE, a') ∧
      a'.getFileList = b.getFileList ++ names ∧ a'.m_Header.fileCount = n ∧
      (tag = [71, 78, 82, 76] → a'.m_Files.length = n) ∧
      (tag = [68, 88, 49, 48] → a'.m_Textures.length = n) := by
  obtain ⟨a', hr, hnm, hh, hG, hD, -, -, -⟩ := Archive.read_of_encoded env
    { b with m_File := IStream.ofData data } v n t tag body stray names
    rfl rfl rfl hd ht hv hn hsz hstray hnames hS hfit
  refine ⟨a', ?_, hnm, ?_, hG, hD⟩
  · rw [Archive.readFile_close env b data ho]; exact hr
  · rw [hh]

/-! ## Claims on reading with a reused object -/

/-- C28. A successful read of a well-formed archive (header with file count
`n`, record table within the file, name table holding `names`) leaves
`getFileList()` equal to `names` when the object is freshly constructed.  When
the object `b` has already read an archive `data0` and closed it, the read
succeeds as well and resizes the record list to `n`, but `getFileList()` is
then the names of the earlier archive followed by `names`: with an earlier
archive that had names it differs from the name table read, and when the
table has `n` names its length differs from the file count of the header. -/
theorem read_appends_names (env : Env) (h0 : Header) (u0 : Bool) (data0 : List Nat)
    (b : Archive) (data : List Nat)
    (v n t : Nat) (tag body stray : List Nat) (names : List (List Nat))
    (hb : Archive.readFile env (Archive.new h0 u0) (some data0) = some (Res.ok ERROR_NONE, b))
    (hsz0 : data0.length < 2 ^ 63)
    (hd : data = [66, 84, 68, 88] ++ toLE 4 v ++ tag ++ toLE 4 n ++ toLE 8 t
      ++ (body ++ encodeNames names ++ stray))
    (ht : t = 24 + body.length) (hv : v < 2 ^ 32) (hn : n < 2 ^ 32)
    (hsz : data.length < 2 ^ 63) (hstray : stray.length ≤ 1)
    (hnames : ∀ nm ∈ names, nm.length < 65536 ∧ 0 ∉ nm) (hS : 36 ≤ env.sizeofFileEntry)
    (hfit : (tag = [71, 78, 82, 76] ∧ 24 + env.sizeofFileEntry * n ≤ data.length) ∨
      (tag = [68, 88, 49, 48] ∧ textureStart data 24 n ≤ data.length)) :
    (∃ a', Archive.readFile env (Archive.new h0 u0) (some data) = some (Res.ok ERROR_NONE, a') ∧
      a'.getFileList = names) ∧
    ∃ a', Archive.readFile env b.close (some data) = some (Res.ok ERROR_NONE, a') ∧
      a'.getFileList = b.getFileList ++ names ∧ a'.m_Header.fileCount = n ∧
      (tag = [71, 78, 82, 76] → a'.m_Files.length = n) ∧
      (tag = [68, 88, 49, 48] → a'.m_Textures.length = n) ∧
      (b.getFileList ≠ [] → a'.getFileList ≠ names ∧
        (names.length = n → a'.getFileList.length ≠ a'.m_Header.fileCount)) := by
  constructor
  · obtain ⟨a', hr, hnm, -⟩ := Archive.read_of_encoded env
      { Archive.new h0 u0 with m_File := IStream.ofData data } v n t tag body stray names
      rfl rfl rfl hd ht hv hn hsz hstray hnames hS hfit
    exact ⟨a', hr, by simpa [Archive.new, Archive.getFileList] using hnm⟩
  · have ho := (Archive.readFile_ok_state env h0 u0 data0 b hsz0 hb).1
    obtain ⟨a', hr, hnm, hc, hG, hD⟩ := Archive.readFile_close_of_encoded env b data v n t tag
      body stray names ho hd ht hv hn hsz hstray hnames hS hfit
    refine ⟨a', hr, hnm, hc, hG, hD, fun hne => ⟨?_, fun hl => ?_⟩⟩
    · rw [hnm]
      intro h
      exact hne (List.append_left_eq_self.mp h)
    · rw [hnm, hc, List.length_append]
      have : 0 < b.getFileList.length := List.length_pos.mpr hne
      omega

set_option maxRecDepth 100000 in
/-- Witness for C28: an object reads `sampleGeneralFile` (one record, named
"a.txt"), closes it and reads `sampleTwoFiles` (two records, named "a" and
"b"): the second read returns `ERROR_NONE` with two records and the three
names "a.txt", "a", "b". -/
theorem read_appends_names_witness :
    ∃ a', Archive.readFile sampleEnv sampleParsed.close (some sampleTwoFiles) =
        some (Res.ok ERROR_NONE, a') ∧
      a'.getFileList = [[97, 46, 116, 120, 116], [97], [98]] ∧
      a'.m_Header.fileCount = 2 ∧ a'.m_Files.length = 2 ∧
      a'.getFileList ≠ [[97], [98]] ∧ a'.getFileList.length ≠ a'.m_Header.fileCount :=
  (read_appends_names sampleEnv sampleArchive.m_Header true sampleGeneralFile sampleParsed
    sampleTwoFiles 1 2 106 [71, 78, 82, 76]
    (sampleRecord 1 96 0 5 ++ sampleRecord 2 101 0 5 ++ hello ++ world) [] [[97], [98]]
    (by decide) (by decide) (by decide) (by decide) (by decide) (by decide) (by decide)
    (by decide) (by decide) (by decide) (Or.inl ⟨rfl, by decide⟩)).2.imp
    fun _ h => ⟨h.1, h.2.1, h.2.2.1, h.2.2.2.1 rfl, (h.2.2.2.2.2 (by decide)).1,
      (h.2.2.2.2.2 (by decide)).2 rfl⟩

/-! ## The names stored by the name table reader -/

theorem cstr_no_zero (l : List Nat) : 0 ∉ cstr l := by
  induction l with
  | nil => simp [cstr]
  | cons b bs ih =>
    by_cases hb : b = 0
    · simp [cstr, hb]
    · simp only [cstr, hb, if_false, List.mem_cons, not_or]
      exact ⟨fun e => hb e.symm, ih⟩

theorem cstr_length_le (l : List Nat) : (cstr l).length ≤ l.length := by
  induction l with
  | nil => simp [cstr]
  | cons b bs ih =>
    by_cases hb : b = 0
    · simp [cstr, hb]
    · simp only [cstr, hb, if_false, List.length_cons]
      omega

theorem cstr_append_nul (l : List Nat) : cstr (l ++ [0]) = cstr l := by
  induction l with
  | nil => simp [cstr]
  | cons b bs ih =>
    by_cases hb : b = 0
    · simp [cstr, hb]
    · simp [cstr, hb, ih]

/-- The string built from a buffer after the assignment `buffer[length] = 0`
has at most `length` bytes. -/
theorem cstrBuf_bufSet_length (buf : Nat → Nat) (v : Nat) :
    (cstrBuf (bufSet buf v 0) (v + 1)).length ≤ v := by
  have h : (List.range (v + 1)).map (bufSet buf v 0)
      = (List.range v).map (bufSet buf v 0) ++ [0] := by
    rw [List.range_succ, List.map_append]
    simp [bufSet]
  rw [cstrBuf, h, cstr_append_nul]
  exact (cstr_length_le _).trans (by simp)

/-- The string built from the buffer after a full read of the bytes `nm`. -/
theorem cstrBuf_after_bytes (nm : List Nat) (buffer : Nat → Nat) :
    cstrBuf (bufSet (bufStore nm buffer) nm.length 0) (nm.length + 1) = cstr nm := by
  rw [cstrBuf, buffer_after_name, cstr_append_nul]

theorem fromLE_lt (l : List Nat) (h : ∀ b ∈ l, b < 256) : fromLE l < 256 ^ l.length := by
  induction l with
  | nil => simp [fromLE]
  | cons b bs ih =>
    have hb := h b (List.mem_cons_self _ _)
    have hi := ih (fun x hx => h x (List.mem_cons_of_mem _ hx))
    simp only [fromLE, List.length_cons, pow_succ]
    generalize 256 ^ bs.length = m at hi ⊢
    omega

/-- A value read from a file of bytes fits the width read. -/
theorem readType_lt (n : Nat) (s : IStream) (v : Nat) (s1 : IStream)
    (h : readType n s = (Res.ok v, s1)) (hb : ∀ b ∈ s.data, b < 256) : v < 256 ^ n := by
  have hs := (readType_ok n s v s1 h).1
  unfold readType at h
  by_cases hf : (s.read n).2.failed = true
  · simp [hf] at h
  · simp only [hf, Bool.false_eq_true, if_false, Prod.mk.injEq, Res.ok.injEq] at h
    rw [← h.1]
    simp only [IStream.read, hs, Bool.false_eq_true, if_false, ne_eq, decide_not,
      Bool.not_eq_true', decide_eq_false_iff_not, not_not] at hf ⊢
    have hl := fromLE_lt (slice s.data s.pos n) (fun b hm =>
      hb b (List.mem_of_mem_drop (List.mem_of_mem_take hm)))
    rwa [hf] at hl

/-- Every name the loop of `readNametable` appends is free of NUL bytes and,
in a file of bytes, shorter than 65536 bytes. -/
theorem readNametableLoop_names (fileSize fuel : Nat) (s : IStream) (buffer : Nat → Nat)
    (acc : List (List Nat)) (r : Res Bool) (s' : IStream) (names' : List (List Nat))
    (h : readNametableLoop fileSize fuel s buffer acc = some (r, s', names')) :
    ∃ new, names' = acc ++ new ∧ (∀ nm ∈ new, 0 ∉ nm) ∧
      ((∀ b ∈ s.data, b < 256) → ∀ nm ∈ new, nm.length ≤ 65535) := by
  induction fuel generalizing s buffer acc with
  | zero => simp [readNametableLoop] at h
  | succ k ih =>
    unfold readNametableLoop at h
    split at h
    · rcases hr : readType 2 s with ⟨r1, s1⟩
      rw [hr] at h
      cases r1 with
      | throw e =>
        simp only [Option.some.injEq, Prod.mk.injEq] at h
        exact ⟨[], by simp [h.2.2], by simp, by simp⟩
      | ok v =>
        dsimp only at h
        obtain ⟨new, hn, h0, hl⟩ := ih _ _ _ h
        obtain ⟨-, hs1, -⟩ := readType_ok 2 s v s1 hr
        have hd : ((s1.read v).2).data = s.data := by
          rw [(IStream.read_data s1 v).1, hs1, (IStream.read_data s 2).1]
        refine ⟨cstrBuf (bufSet (bufStore (s1.read v).1 buffer) v 0) (v + 1) :: new,
          by rw [hn]; simp, ?_, ?_⟩
        · intro nm hm
          rcases List.mem_cons.mp hm with e | hm
          · rw [e, cstrBuf]; exact cstr_no_zero _
          · exact h0 nm hm
        · intro hb nm hm
          rcases List.mem_cons.mp hm with e | hm
          · have hv := readType_lt 2 s v s1 hr hb
            have := cstrBuf_bufSet_length (bufStore (s1.read v).1 buffer) v
            rw [e]
            omega
          · exact hl (by rw [hd]; exact hb) nm hm
    · simp only [Option.some.injEq, Prod.mk.injEq] at h
      exact ⟨[], by simp [h.2.2], by simp, by simp⟩

/-- The loop of `readNametable` through entries that are fully present: each
one appends the string built from its bytes. -/
theorem readNametableLoop_through_entries (entries : List (List Nat)) (fuel : Nat)
    (s : IStream) (buffer : Nat → Nat) (acc : List (List Nat)) (rest : List Nat)
    (hf : s.failed = false) (hsz : s.data.length < 2 ^ 63) (hpos : s.pos ≤ s.data.length)
    (hd : s.data.drop s.pos = encodeNames entries ++ rest)
    (hn : ∀ e ∈ entries, e.length < 65536) :
    ∃ buffer', readNametableLoop s.data.length (entries.length + fuel) s buffer acc =
      readNametableLoop s.data.length fuel
        { s with pos := s.pos + (encodeNames entries).length } buffer'
        (acc ++ entries.map cstr) := by
  induction entries generalizing s buffer acc with
  | nil =>
    refine ⟨buffer, ?_⟩
    simp [encodeNames]
  | cons nm names ih =>
    obtain ⟨o, d, p, f⟩ := s
    simp only at hf hsz hpos hd ⊢
    subst hf
    have hnm := hn nm (List.mem_cons_self _ _)
    rw [encodeNames_cons] at hd
    have hlen : d.length - p = 2 + nm.length + (encodeNames names).length + rest.length := by
      have := congrArg List.length hd
      simp only [List.length_drop, List.length_append, toLE_length] at this
      omega
    have ht : toSizeT (IStream.tellg ⟨o, d, p, false⟩) = p := by
      simp only [IStream.tellg]
      exact toSizeT_natCast p (by omega)
    have hc : 2 ≤ (d.length + 2 ^ 64 - p) % 2 ^ 64 := by omega
    have r1 := readType_of_drop ⟨o, d, p, false⟩ 2 (toLE 2 nm.length)
      (nm ++ encodeNames names ++ rest) rfl (by simp only [hd]; simp) (toLE_length 2 _)
    have e1 := fromLE_toLE 2 nm.length (by norm_num; exact hnm)
    have hd2 : d.drop (p + 2) = nm ++ (encodeNames names ++ rest) := by
      have h2 : (toLE 2 nm.length ++ nm ++ encodeNames names ++ rest)
          = toLE 2 nm.length ++ (nm ++ (encodeNames names ++ rest)) := by simp
      have := drop_add_of_drop_eq d p _ _ (hd.trans h2)
      rwa [toLE_length] at this
    have r2 := IStream.read_of_drop ⟨o, d, p + 2, false⟩ nm.length nm
      (encodeNames names ++ rest) rfl hd2 rfl
    have hd3 : d.drop (p + 2 + nm.length) = encodeNames names ++ rest :=
      drop_add_of_drop_eq d (p + 2) _ _ hd2
    obtain ⟨buffer', ih'⟩ := ih ⟨o, d, p + 2 + nm.length, false⟩
      (bufSet (bufStore nm buffer) nm.length 0) (acc ++ [cstr nm]) rfl hsz
      (by simp only; omega) hd3 (fun x hx => hn x (List.mem_cons_of_mem _ hx))
    simp only at r1 r2 ih'
    refine ⟨buffer', ?_⟩
    have hfuel : (nm :: names).length + fuel = (names.length + fuel) + 1 := by
      simp only [List.length_cons]; omega
    rw [hfuel]
    conv_lhs => unfold readNametableLoop
    rw [ht, if_pos hc, r1, e1]
    dsimp only
    rw [r2]
    dsimp only
    rw [cstrBuf_after_bytes nm buffer, ih']
    have hp' : p + 2 + nm.length + (encodeNames names).length
        = p + (encodeNames (nm :: names)).length := by
      rw [encodeNames_cons]
      simp only [List.length_append, toLE_length]
      omega
    rw [hp']
    simp

/-- The names `readNametable` appends: none holds a NUL byte; in a file of
bytes each is shorter than 65536 bytes; and they start with the strings
built from the entries that are fully present. -/
theorem readNametable_names (env : Env) (a : Archive) (r : Res Bool) (a' : Archive)
    (h : readNametable env a = some (r, a')) :
    ∃ new, a'.m_TableNames = a.m_TableNames ++ new ∧ (∀ nm ∈ new, 0 ∉ nm) ∧
      ((∀ b ∈ a.m_File.data, b < 256) → ∀ nm ∈ new, nm.length ≤ 65535) ∧
      ∀ (entries : List (List Nat)) (pre rest : List Nat), a.m_File.failed = false →
        a.m_File.data = pre ++ encodeNames entries ++ rest →
        a.m_Header.offsetNameTable = pre.length → a.m_File.data.length < 2 ^ 63 →
        (∀ e ∈ entries, e.length < 65536) → entries.map cstr <+: new := by
  obtain ⟨⟨o, d, p, f⟩, fs, ts, tn, ty, hh, u⟩ := a
  unfold readNametable at h
  dsimp only at h
  rcases hl : readNametableLoop (toSizeT (IStream.seekEnd ⟨o, d, p, f⟩).tellg) (d.length + 2)
    ((IStream.seekEnd ⟨o, d, p, f⟩).seekg hh.offsetNameTable) (fun i => env.junk 0x10000 i % 256)
    tn with _ | ⟨r1, s1, n1⟩
  · rw [hl] at h; simp at h
  rw [hl] at h
  simp only [Option.map_some', Option.some.injEq, Prod.mk.injEq] at h
  obtain ⟨-, rfl⟩ := h
  have hdat : ((IStream.seekEnd ⟨o, d, p, f⟩).seekg hh.offsetNameTable).data = d := by
    unfold IStream.seekg IStream.seekEnd
    by_cases h1 : f = true
    · simp [h1]
    · simp only [h1, Bool.false_eq_true, if_false]
      split <;> rfl
  obtain ⟨new, hn, h0, hlen⟩ := readNametableLoop_names _ _ _ _ _ _ _ _ hl
  refine ⟨new, hn, h0, fun hb => hlen (by rw [hdat]; exact hb), ?_⟩
  intro entries pre rest hf hd hoff hsz he
  simp only at hf hd hsz hoff
  subst hf
  have hlen2 : d.length = pre.length + (encodeNames entries).length + rest.length := by
    rw [hd]; simp [Nat.add_assoc]
  have hge := encodeNames_length_ge entries
  have h1 : IStream.seekEnd ⟨o, d, p, false⟩ = ⟨o, d, d.length, false⟩ := by
    simp [IStream.seekEnd]
  have h2 : toSizeT (IStream.tellg ⟨o, d, d.length, false⟩) = d.length := by
    simp only [IStream.tellg]
    exact toSizeT_natCast _ (by omega)
  have h3 : IStream.seekg ⟨o, d, d.length, false⟩ hh.offsetNameTable
      = ⟨o, d, pre.length, false⟩ := by
    have hm : pre.length % 2 ^ 64 = pre.length := Nat.mod_eq_of_lt (by omega)
    have hlt : ¬ 2 ^ 63 ≤ pre.length := by omega
    simp only [IStream.seekg, hoff, hm, hlt]
    simp
  rw [h1, h2, h3] at hl
  have hfuel : d.length + 2 = entries.length + (d.length + 2 - entries.length) := by omega
  obtain ⟨buffer', ht⟩ := readNametableLoop_through_entries entries
    (d.length + 2 - entries.length) ⟨o, d, pre.length, false⟩
    (fun i => env.junk 0x10000 i % 256) tn rest rfl hsz (by simp only; omega)
    (by simp only; rw [hd, List.append_assoc, List.drop_left]) he
  simp only at ht
  rw [hfuel, ht] at hl
  obtain ⟨more, hm, -, -⟩ := readNametableLoop_names _ _ _ _ _ _ _ _ hl
  rw [hn, List.append_assoc] at hm
  have := List.append_cancel_left hm
  exact ⟨more, this.symm⟩

/-! ## Claims on the names stored -/

/-- C29. The name table reader `readNametable` always ends, and of the names
it appended none contains a NUL byte; in a file of bytes (values below 256)
each has at most 65535 bytes.  When the table starts with entries that are
fully present (length prefix `L` below 65536 followed by `L` bytes, whatever
follows them), the names appended start, in order, with the string built from
each entry: its `L` bytes up to but not including the first NUL byte, hence
at most `L` bytes, all `L` bytes when none is NUL. -/
theorem readNametable_names_cut_at_nul (env : Env) (a : Archive) :
    ∃ r a', readNametable env a = some (r, a') ∧
      ∃ new, a'.m_TableNames = a.m_TableNames ++ new ∧ (∀ nm ∈ new, 0 ∉ nm) ∧
        ((∀ b ∈ a.m_File.data, b < 256) → ∀ nm ∈ new, nm.length ≤ 65535) ∧
        ∀ (entries : List (List Nat)) (pre rest : List Nat), a.m_File.failed = false →
          a.m_File.data = pre ++ encodeNames entries ++ rest →
          a.m_Header.offsetNameTable = pre.length → a.m_File.data.length < 2 ^ 63 →
          (∀ e ∈ entries, e.length < 65536) →
          entries.map cstr <+: new ∧
          ∀ e ∈ entries, (cstr e).length ≤ e.length ∧ (0 ∉ e → cstr e = e) ∧
            ∀ p q : List Nat, e = p ++ 0 :: q → 0 ∉ p → cstr e = p := by
  obtain ⟨⟨r, a'⟩, h⟩ := readNametable_total env a
  obtain ⟨new, hn, h0, hl, he⟩ := readNametable_names env a r a' h
  refine ⟨r, a', h, new, hn, h0, hl, fun entries pre rest hf hd hoff hsz hlen =>
    ⟨he entries pre rest hf hd hoff hsz hlen, fun e _ =>
      ⟨cstr_length_le e, cstr_of_no_zero e, fun p q hpq hp => ?_⟩⟩⟩
  rw [hpq]
  exact cstr_append_zero p q hp

/-- Witness for C29: a name table at offset 3 with the entries "a\0b" and
"c": the names appended start with "a" and "c". -/
theorem readNametable_names_cut_at_nul_witness :
    ∃ r a', readNametable sampleEnv
        (sampleAtNames ([1, 2, 3] ++ encodeNames [[97, 0, 98], [99]])) = some (r, a') ∧
      ∃ new, a'.m_TableNames = new ∧ (∀ nm ∈ new, 0 ∉ nm ∧ nm.length ≤ 65535) ∧
        [[97], [99]] <+: new ∧ cstr [97, 0, 98] = [97] := by
  obtain ⟨r, a', h, new, hn, h0, hl, he⟩ := readNametable_names_cut_at_nul sampleEnv
    (sampleAtNames ([1, 2, 3] ++ encodeNames [[97, 0, 98], [99]]))
  have hs := he [[97, 0, 98], [99]] [1, 2, 3] [] (by decide) (by decide) (by decide)
    (by decide) (by decide)
  exact ⟨r, a', h, new, hn, fun nm hm => ⟨h0 nm hm, hl (by decide) nm hm⟩, hs.1,
    (hs.2 [97, 0, 98] (by decide)).2.2 [97] [98] (by decide) (by decide)⟩

/-! ## The FourCC written after `UseATIFourCC` -/

/-- The function `typeFromID` returns one of the two archive types or throws. -/
theorem typeFromID_ok (typeID : List Nat) (t : EType) (h : typeFromID typeID = Res.ok t) :
    t = TYPE_GENERAL ∨ t = TYPE_DX10 := by
  unfold typeFromID at h
  split at h
  · injection h with h; exact Or.inl h.symm
  · split at h
    · injection h with h; exact Or.inr h.symm
    · cases h

/-- The header `readHeader` returns has one of the two archive types. -/
theorem readHeader_ok_type (env : Env) (s s' : IStream) (hd : Header)
    (h : readHeader env s = (Res.ok hd, s')) :
    hd.type = TYPE_GENERAL ∨ hd.type = TYPE_DX10 := by
  unfold readHeader at h
  dsimp only at h
  split at h
  · cases h
  · split at h
    · cases h
    · split at h
      · cases h
      · rename_i t ht
        split at h
        · cases h
        · split at h
          · cases h
          · injection h with h1 h2
            injection h1 with h1
            rw [← h1]
            exact typeFromID_ok _ t ht

/-- The function `readNametable` does not assign `m_Header`. -/
theorem readNametable_keeps_header (env : Env) (a a' : Archive) (r : Res Bool)
    (h : readNametable env a = some (r, a')) : a'.m_Header = a.m_Header := by
  unfold readNametable at h
  dsimp only at h
  rw [Option.map_eq_some'] at h
  obtain ⟨v, -, hv⟩ := h
  injection hv with h1 h2
  rw [← h2]

/-- After a successful `Archive::read` the header has one of the two archive
types. -/
theorem Archive.read_ok_type (env : Env) (a a' : Archive)
    (h : Archive.read env a = some (Res.ok ERROR_NONE, a')) :
    a'.m_Header.type = TYPE_GENERAL ∨ a'.m_Header.type = TYPE_DX10 := by
  unfold Archive.read at h
  split at h
  · simp at h
  · split at h
    · simp at h
    · rename_i hd s hr
      dsimp only at h
      have ht := readHeader_ok_type env _ _ hd hr
      have hk : ∀ b : Bool × Archive,
          b = (if hd.type = TYPE_GENERAL then
              readGeneral env { a with m_File := s, m_Header := hd, m_Type := hd.type }
            else if hd.type = TYPE_DX10 then
              readDX10 { a with m_File := s, m_Header := hd, m_Type := hd.type }
            else (true, { a with m_File := s, m_Header := hd, m_Type := hd.type })) →
          b.2.m_Header = hd := by
        intro b hb
        subst hb
        split
        · exact (readGeneral_frame env _).2.2.2.1
        · split
          · exact (readDX10_frame _).2.2.2.1
          · rfl
      generalize (if hd.type = TYPE_GENERAL then
              readGeneral env { a with m_File := s, m_Header := hd, m_Type := hd.type }
            else if hd.type = TYPE_DX10 then
              readDX10 { a with m_File := s, m_Header := hd, m_Type := hd.type }
            else (true, { a with m_File := s, m_Header := hd, m_Type := hd.type })) = b at h hk
      have hb := hk b rfl
      split at h
      · simp at h
      · split at h
        · simp at h
        · simp at h
        · rename_i ok a3 hn
          have h3 := readNametable_keeps_header env _ _ _ hn
          split at h
          · simp at h
          · injection h with h
            injection h with h1 h2
            rw [← h2, h3, hb]
            exact ht

/-- The call `outFile.open` changes one file at most: the one opened, which is
empty afterwards when the opening succeeds. -/
theorem FileSys.openOut_state (fs : FileSys) (p : List Nat) :
    (fs.openOut p).2.creatable = fs.creatable ∧
    (fs.creatable p = true → (fs.openOut p).2.files p = some []) ∧
    ∀ q, q ≠ p ∨ fs.creatable q = false → (fs.openOut p).2.files q = fs.files q := by
  unfold FileSys.openOut
  by_cases hc : fs.creatable p = true
  · rw [if_pos hc]
    refine ⟨rfl, fun _ => by simp, fun q hq => ?_⟩
    rcases hq with hq | hq
    · simp [hq]
    · have : q ≠ p := fun e => by rw [e, hc] at hq; cases hq
      simp [this]
  · rw [if_neg hc]
    exact ⟨rfl, fun h => absurd h hc, fun _ _ => rfl⟩

/-- The body of the loop of `extractAllGeneral` when `m_File` is not open: the
output file is opened and nothing else happens. -/
theorem extractGeneralEntry_of_closed (env : Env) (destination : List Nat) (file : FileEntry)
    (name : List Nat) (x : Extraction) (hc : x.stream.isOpen = false) :
    extractGeneralEntry env destination file name x =
      (none, { x with fs := (x.fs.openOut (outputPath destination name)).2 }) := by
  unfold extractGeneralEntry
  simp [hc]

/-- The body of the loop of `extractAllDX10` when `m_File` is not open: the
output file is opened and nothing else happens. -/
theorem extractTexture_of_closed (env : Env) (u : Bool) (destination : List Nat)
    (texture : Texture) (name : List Nat) (x : Extraction) (hc : x.stream.isOpen = false) :
    extractTexture env u destination texture name x =
      (none, { x with fs := (x.fs.openOut (outputPath destination name)).2 }) := by
  unfold extractTexture
  simp [hc]

/-- The loop of `extractAllGeneral` when `m_File` is not open: it ends with
`ERROR_NONE`, leaves the stream as it was and calls `uncompress` never; the
output file of every record is empty where it could be opened, and no other
file changes. -/
theorem extractAllGeneralLoop_of_closed (env : Env) (destination : List Nat)
    (files : List FileEntry) (names : List (List Nat)) (x : Extraction)
    (hlen : files.length ≤ names.length) (hc : x.stream.isOpen = false) :
    ∃ x', extractAllGeneralLoop env destination files names x =
        (Outcome.returned ERROR_NONE, x') ∧
      x'.stream = x.stream ∧ x'.calls = x.calls ∧ x'.fs.creatable = x.fs.creatable ∧
      (∀ nm ∈ names.take files.length, x.fs.creatable (outputPath destination nm) = true →
        x'.fs.files (outputPath destination nm) = some []) ∧
      (∀ q, (∀ nm ∈ names.take files.length, outputPath destination nm ≠ q) ∨
          x.fs.creatable q = false → x'.fs.files q = x.fs.files q) := by
  induction files generalizing names x with
  | nil =>
    exact ⟨x, by simp [extractAllGeneralLoop], rfl, rfl, rfl, by simp, fun _ _ => rfl⟩
  | cons f fs ih =>
    match names, hlen with
    | nm :: ns, hlen =>
      have hst := FileSys.openOut_state x.fs (outputPath destination nm)
      obtain ⟨x', h, hs, hcalls, hcr, hA, hB⟩ := ih ns
        { x with fs := (x.fs.openOut (outputPath destination nm)).2 }
        (by simp only [List.length_cons] at hlen; omega) hc
      simp only at hs hcalls hcr hA hB
      refine ⟨x', ?_, hs, hcalls, hcr.trans hst.1, ?_, ?_⟩
      · conv_lhs => unfold extractAllGeneralLoop
        rw [extractGeneralEntry_of_closed env destination f nm x hc]
        exact h
      · intro nm' hm hcq
        simp only [List.length_cons, List.take_succ_cons, List.mem_cons] at hm
        by_cases hin : ∃ n2 ∈ ns.take fs.length,
            outputPath destination n2 = outputPath destination nm'
        · obtain ⟨n2, hn2, e⟩ := hin
          have := hA n2 hn2 (by rw [hst.1, e]; exact hcq)
          rw [e] at this
          exact this
        · have hno : ∀ n2 ∈ ns.take fs.length,
              outputPath destination n2 ≠ outputPath destination nm' :=
            fun n2 hn2 e => hin ⟨n2, hn2, e⟩
          rw [hB _ (Or.inl hno)]
          rcases hm with hm | hm
          · rw [hm]
            rw [hm] at hcq
            exact hst.2.1 hcq
          · exact absurd rfl (hno nm' hm)
      · intro q hq
        simp only [List.length_cons, List.take_succ_cons, List.mem_cons] at hq
        rcases hq with hq | hq
        · rw [hB q (Or.inl (fun n2 hn2 => hq n2 (Or.inr hn2)))]
          exact hst.2.2 q (Or.inl (fun e => hq nm (Or.inl rfl) e.symm))
        · rw [hB q (Or.inr (by rw [hst.1]; exact hq))]
          exact hst.2.2 q (Or.inr hq)

/-- The loop of `extractAllDX10` when `m_File` is not open: it ends with
`ERROR_NONE`, leaves the stream as it was and calls `uncompress` never; the
output file of every texture is empty where it could be opened, and no other
file changes. -/
theorem extractAllDX10Loop_of_closed (env : Env) (u : Bool) (destination : List Nat)
    (textures : List Texture) (names : List (List Nat)) (x : Extraction)
    (hlen : textures.length ≤ names.length) (hc : x.stream.isOpen = false) :
    ∃ x', extractAllDX10Loop env u destination textures names x =
        (Outcome.returned ERROR_NONE, x') ∧
      x'.stream = x.stream ∧ x'.calls = x.calls ∧ x'.fs.creatable = x.fs.creatable ∧
      (∀ nm ∈ names.take textures.length, x.fs.creatable (outputPath destination nm) = true →
        x'.fs.files (outputPath destination nm) = some []) ∧
      (∀ q, (∀ nm ∈ names.take textures.length, outputPath destination nm ≠ q) ∨
          x.fs.creatable q = false → x'.fs.files q = x.fs.files q) := by
  induction textures generalizing names x with
  | nil =>
    exact ⟨x, by simp [extractAllDX10Loop], rfl, rfl, rfl, by simp, fun _ _ => rfl⟩
  | cons f fs ih =>
    match names, hlen with
    | nm :: ns, hlen =>
      have hst := FileSys.openOut_state x.fs (outputPath destination nm)
      obtain ⟨x', h, hs, hcalls, hcr, hA, hB⟩ := ih ns
        { x with fs := (x.fs.openOut (outputPath destination nm)).2 }
        (by simp only [List.length_cons] at hlen; omega) hc
      simp only at hs hcalls hcr hA hB
      refine ⟨x', ?_, hs, hcalls, hcr.trans hst.1, ?_, ?_⟩
      · conv_lhs => unfold extractAllDX10Loop
        rw [extractTexture_of_closed env u destination f nm x hc]
        exact h
      · intro nm' hm hcq
        simp only [List.length_cons, List.take_succ_cons, List.mem_cons] at hm
        by_cases hin : ∃ n2 ∈ ns.take fs.length,
            outputPath destination n2 = outputPath destination nm'
        · obtain ⟨n2, hn2, e⟩ := hin
          have := hA n2 hn2 (by rw [hst.1, e]; exact hcq)
          rw [e] at this
          exact this
        · have hno : ∀ n2 ∈ ns.take fs.length,
              outputPath destination n2 ≠ outputPath destination nm' :=
            fun n2 hn2 e => hin ⟨n2, hn2, e⟩
          rw [hB _ (Or.inl hno)]
          rcases hm with hm | hm
          · rw [hm]
            rw [hm] at hcq
            exact hst.2.1 hcq
          · exact absurd rfl (hno nm' hm)
      · intro q hq
        simp only [List.length_cons, List.take_succ_cons, List.mem_cons] at hq
        rcases hq with hq | hq
        · rw [hB q (Or.inl (fun n2 hn2 => hq n2 (Or.inr hn2)))]
          exact hst.2.2 q (Or.inl (fun e => hq nm (Or.inl rfl) e.symm))
        · rw [hB q (Or.inr (by rw [hst.1]; exact hq))]
          exact hst.2.2 q (Or.inr hq)

/-- The function `Archive::extractAll` on an object whose stream is not open
and that holds as many names as records. -/
theorem Archive.extractAll_of_closed (env : Env) (a : Archive) (destination : List Nat)
    (progress : Int → List Nat → Bool) (overwrite : Bool) (fs : FileSys)
    (hc : a.m_File.isOpen = false)
    (hty : a.m_Header.type = TYPE_GENERAL ∨ a.m_Header.type = TYPE_DX10)
    (hG : a.m_Header.type = TYPE_GENERAL → a.m_Files.length = a.m_TableNames.length)
    (hD : a.m_Header.type = TYPE_DX10 → a.m_Textures.length = a.m_TableNames.length) :
    (Archive.extractAll env a destination progress overwrite fs).1 =
      Outcome.returned ERROR_NONE ∧
    (Archive.extractAll env a destination progress overwrite fs).2.stream = a.m_File ∧
    (Archive.extractAll env a destination progress overwrite fs).2.calls = [] ∧
    (∀ nm ∈ a.m_TableNames, fs.creatable (outputPath destination nm) = true →
      (Archive.extractAll env a destination progress overwrite fs).2.fs.files
        (outputPath destination nm) = some []) ∧
    (∀ q, (∀ nm ∈ a.m_TableNames, outputPath destination nm ≠ q) ∨ fs.creatable q = false →
      (Archive.extractAll env a destination progress overwrite fs).2.fs.files q = fs.files q) := by
  rcases hty with hty | hty
  · have hl := hG hty
    obtain ⟨x', h, hs, hcalls, -, hA, hB⟩ := extractAllGeneralLoop_of_closed env destination
      a.m_Files a.m_TableNames { stream := a.m_File, fs := fs, calls := [], progress := [] }
      (by omega) hc
    rw [hl, List.take_length] at hA hB
    have he : Archive.extractAll env a destination progress overwrite fs =
        (Outcome.returned ERROR_NONE, x') := by
      simp only [Archive.extractAll, hty, extractAllGeneral, hl, ne_eq, not_true_eq_false,
        if_false]
      exact h
    rw [he]
    exact ⟨rfl, hs, hcalls, hA, hB⟩
  · have hl := hD hty
    obtain ⟨x', h, hs, hcalls, -, hA, hB⟩ := extractAllDX10Loop_of_closed env a.m_UseATIFourCC
      destination a.m_Textures a.m_TableNames
      { stream := a.m_File, fs := fs, calls := [], progress := [] } (by omega) hc
    rw [hl, List.take_length] at hA hB
    have he : Archive.extractAll env a destination progress overwrite fs =
        (Outcome.returned ERROR_NONE, x') := by
      simp only [Archive.extractAll, hty, extractAllDX10]
      exact h
    rw [he]
    exact ⟨rfl, hs, hcalls, hA, hB⟩

/-- The stream of an object is not open after `close()`. -/
theorem Archive.close_isOpen (a : Archive) : a.close.m_File.isOpen = false := by
  unfold Archive.close IStream.close
  by_cases h : a.m_File.isOpen = true
  · simp [h]
  · simp only [Bool.not_eq_true] at h
    simp [h]

/-! ## Claims on extraction after `close()` -/

/-- C31. For an archive (shorter than 2^63 bytes) that a fresh object has read
with `ERROR_NONE` and whose name table has as many names as the header
announces records, General or DX10 (a successful read leaves no other type),
the object holds that many records, and `extractAll` called after `close()`
returns `ERROR_NONE`, leaves the closed stream as `close()` left it and calls
`uncompress` never (nothing is read from the archive); the output file of
every record `i`, at the path built from name `i`, exists and is empty
afterwards wherever that path can be opened for writing, whatever it held
before, and every other file is as it was. -/
theorem extractAll_after_close (env : Env) (h0 : Header) (u0 : Bool) (data : List Nat)
    (a : Archive) (destination : List Nat) (progress : Int → List Nat → Bool)
    (overwrite : Bool) (fs : FileSys)
    (hr : Archive.readFile env (Archive.new h0 u0) (some data) = some (Res.ok ERROR_NONE, a))
    (hsz : data.length < 2 ^ 63)
    (hcount : a.getFileList.length = a.m_Header.fileCount) :
    (a.m_Header.type = TYPE_GENERAL ∧ a.close.m_Files.length = a.m_Header.fileCount ∨
      a.m_Header.type = TYPE_DX10 ∧ a.close.m_Textures.length = a.m_Header.fileCount) ∧
    a.close.m_File.isOpen = false ∧
    (Archive.extractAll env a.close destination progress overwrite fs).1 =
      Outcome.returned ERROR_NONE ∧
    (Archive.extractAll env a.close destination progress overwrite fs).2.stream =
      a.close.m_File ∧
    (Archive.extractAll env a.close destination progress overwrite fs).2.calls = [] ∧
    (∀ (i : Nat) (name : List Nat), i < a.m_Header.fileCount →
      a.close.getFileList[i]? = some name →
      fs.creatable (outputPath destination name) = true →
      (Archive.extractAll env a.close destination progress overwrite fs).2.fs.files
        (outputPath destination name) = some []) ∧
    (∀ q, (∀ name ∈ a.close.getFileList, outputPath destination name ≠ q) ∨
        fs.creatable q = false →
      (Archive.extractAll env a.close destination progress overwrite fs).2.fs.files q =
        fs.files q) := by
  have hst := Archive.readFile_ok_state env h0 u0 data a hsz hr
  have hty := Archive.read_ok_type env _ a hr
  have hc := Archive.close_isOpen a
  have h := Archive.extractAll_of_closed env a.close destination progress overwrite fs hc hty
    (fun e => (hst.2.2.2.1 e).trans hcount.symm) (fun e => (hst.2.2.2.2 e).trans hcount.symm)
  refine ⟨?_, hc, h.1, h.2.1, h.2.2.1, fun i name _ hi hcr => ?_, h.2.2.2.2⟩
  · rcases hty with e | e
    · exact Or.inl ⟨e, hst.2.2.2.1 e⟩
    · exact Or.inr ⟨e, hst.2.2.2.2 e⟩
  · exact h.2.2.2.1 name (List.mem_iff_getElem?.mpr ⟨i, hi⟩) hcr

set_option maxRecDepth 100000 in
/-- Witness for C31: the General archive `sampleGeneralFile` (one record, named
"a.txt") and the DX10 archive `sampleDX10Pair 71 83 5` (two textures, named
"a.dds" and "b.dds"), each read, closed and extracted to the directory "d"
where the output files exist already with three bytes: `extractAll` returns
`ERROR_NONE`, calls `uncompress` never and leaves the files empty. -/
theorem extractAll_after_close_witness :
    ((Archive.extractAll sampleEnv sampleParsed.close [100] (fun _ _ => true) true
        sampleFsTxt).1 = Outcome.returned ERROR_NONE ∧
      (Archive.extractAll sampleEnv sampleParsed.close [100] (fun _ _ => true) true
        sampleFsTxt).2.calls = [] ∧
      (Archive.extractAll sampleEnv sampleParsed.close [100] (fun _ _ => true) true
        sampleFsTxt).2.fs.files (outputPath [100] [97, 46, 116, 120, 116]) = some []) ∧
    ((Archive.extractAll sampleEnvTwo (sampleRead sampleEnvTwo (sampleDX10Pair 71 83 5)).close
        [100] (fun _ _ => true) true sampleFsExisting).1 = Outcome.returned ERROR_NONE ∧
      (Archive.extractAll sampleEnvTwo (sampleRead sampleEnvTwo (sampleDX10Pair 71 83 5)).close
        [100] (fun _ _ => true) true sampleFsExisting).2.fs.files
          (outputPath [100] [98, 46, 100, 100, 115]) = some []) ∧
    sampleFsTxt.files (outputPath [100] [97, 46, 116, 120, 116]) = some [1, 2, 3] ∧
    sampleFsExisting.files (outputPath [100] [98, 46, 100, 100, 115]) = some [4, 5, 6] :=
  have hG := extractAll_after_close sampleEnv sampleArchive.m_Header true sampleGeneralFile
    sampleParsed [100] (fun _ _ => true) true sampleFsTxt (by decide) (by decide) (by decide)
  have hD := extractAll_after_close sampleEnvTwo sampleArchive.m_Header true
    (sampleDX10Pair 71 83 5) (sampleRead sampleEnvTwo (sampleDX10Pair 71 83 5)) [100]
    (fun _ _ => true) true sampleFsExisting (by decide) (by decide) (by decide)
  ⟨⟨hG.2.2.1, hG.2.2.2.2.1,
      hG.2.2.2.2.2.1 0 [97, 46, 116, 120, 116] (by decide) (by decide) (by decide)⟩,
    ⟨hD.2.2.1, hD.2.2.2.2.2.1 1 [98, 46, 100, 100, 115] (by decide) (by decide) (by decide)⟩,
    by decide, by decide⟩

end BA2
